import Mathlib

/-!
# cPrestoClient: a shallow embedding of the query driver and the streaming JSON reader

The definitions below follow `prestoclient.c`, `prestoclientjsonstream.c`,
`prestoclienttypes.h` and `prestoclient.h` function by function and keep the
names of the source.

Modelling conventions.

* A C string or byte buffer is a `List Nat` of byte values (`Bytes`); the
  terminating zero is implicit. Capacity bookkeeping (`tagbuffersize`,
  `namesize`, `valuesize`, `datasize`, `tagordersize`,
  `lastresponsebuffersize`, the `...actualsize` counters of the string
  buffers) only drives `realloc` in the source and is left out; the response
  buffer keeps its length, `lastresponseactualsize = lastresponse.length`.
* `unsigned int` is 32 bits wide and `size_t` 64 bits wide (LP64 / LLP64); the
  one place where the source lets them wrap (`json_reader`) is computed with
  explicit `%`.
* `assert` is compiled out (`NDEBUG`): the source continues after each of its
  assertions, and the specification describes that behaviour.
* An access outside allocated memory sets the ghost flag `fault`; a result with
  `fault = true` stands for a process that has died, and no function acts on it.
* The two user callbacks are parameters (`Callbacks`): a registered callback is
  a function that reads the result and says whether it calls
  `prestoclient_cancelquery`, the only accessor that writes. Each invocation is
  recorded in the ghost list `trace`, together with every HTTP request
  performed and every `sleep` made, with the whole seconds it lasts.
* Where the source has a variant for Windows and one for other systems
  (`prestoclientutils.c`), the variant for other systems is followed.
* The HTTP server and libcurl are a script: a finite list of `Response`s, one
  consumed per `curl_easy_perform`; when the script is used up the transport
  fails.
-/

namespace PrestoClient

/-- Byte strings: the contents of a C string or of a buffer, without the terminating zero. -/
abbrev Bytes := List Nat

/-- The bytes of a string literal of the source (all literals used are ASCII). -/
def ascii (s : String) : Bytes := s.toList.map Char.toNat

/-! ## Enumerations (`prestoclienttypes.h`, `prestoclient.h`) -/

/-- Client error codes, `enum E_RESULTCODES`. -/
inductive E_RESULTCODES
  | PRESTOCLIENT_RESULT_OK
  | PRESTOCLIENT_RESULT_BAD_REQUEST_DATA
  | PRESTOCLIENT_RESULT_SERVER_ERROR
  | PRESTOCLIENT_RESULT_MAX_RETRIES_REACHED
  | PRESTOCLIENT_RESULT_CURL_ERROR
  | PRESTOCLIENT_RESULT_PARSE_JSON_ERROR
  deriving DecidableEq, Repr

/-- Request kinds, `enum E_HTTP_REQUEST_TYPES`. -/
inductive E_HTTP_REQUEST_TYPES
  | PRESTOCLIENT_HTTP_REQUEST_TYPE_GET
  | PRESTOCLIENT_HTTP_REQUEST_TYPE_POST
  | PRESTOCLIENT_HTTP_REQUEST_TYPE_DELETE
  deriving DecidableEq, Repr

/-- Tokenizer read states, `enum E_JSON_READSTATES`. -/
inductive E_JSON_READSTATES
  | JSON_RS_SEARCH_OBJECT
  | JSON_RS_READ_STRING
  | JSON_RS_READ_NONSTRING
  deriving DecidableEq, Repr

/-- Control character classes, `enum E_JSON_CONTROL_CHARS`. -/
inductive E_JSON_CONTROL_CHARS
  | JSON_CC_NONE
  | JSON_CC_WS
  | JSON_CC_OO
  | JSON_CC_OC
  | JSON_CC_AO
  | JSON_CC_AC
  | JSON_CC_BS
  | JSON_CC_QT
  | JSON_CC_COLON
  | JSON_CC_COMMA
  deriving DecidableEq, Repr

/-- Token kinds, `enum E_JSON_TAGTYPES`. -/
inductive E_JSON_TAGTYPES
  | JSON_TT_UNKNOWN
  | JSON_TT_STRING
  | JSON_TT_NUMBER
  | JSON_TT_OBJECT_OPEN
  | JSON_TT_OBJECT_CLOSE
  | JSON_TT_ARRAY_OPEN
  | JSON_TT_ARRAY_CLOSE
  | JSON_TT_COLON
  | JSON_TT_COMMA
  | JSON_TT_TRUE
  | JSON_TT_FALSE
  | JSON_TT_NULL
  deriving DecidableEq, Repr

/-- Modelled from the spec: the enumerators after `PRESTOCLIENT_TYPE_DOUBLE`.
`prestoclient.h` declares the first five enumerators of `enum E_FIELDTYPES`;
the remaining seven are those that `json_extract_variables` assigns, one for
each further type of the mapping table of the specification, and their
declaration is not part of the header under `src/`. -/
inductive E_FIELDTYPES
  | PRESTOCLIENT_TYPE_UNDEFINED
  | PRESTOCLIENT_TYPE_VARCHAR
  | PRESTOCLIENT_TYPE_BIGINT
  | PRESTOCLIENT_TYPE_BOOLEAN
  | PRESTOCLIENT_TYPE_DOUBLE
  | PRESTOCLIENT_TYPE_DATE
  | PRESTOCLIENT_TYPE_TIME
  | PRESTOCLIENT_TYPE_TIME_WITH_TIME_ZONE
  | PRESTOCLIENT_TYPE_TIMESTAMP
  | PRESTOCLIENT_TYPE_TIMESTAMP_WITH_TIME_ZONE
  | PRESTOCLIENT_TYPE_INTERVAL_YEAR_TO_MONTH
  | PRESTOCLIENT_TYPE_INTERVAL_DAY_TO_SECOND
  deriving DecidableEq, Repr

/-- Query status as determined by the client, `enum E_CLIENTSTATUS`. -/
inductive E_CLIENTSTATUS
  | PRESTOCLIENT_STATUS_NONE
  | PRESTOCLIENT_STATUS_RUNNING
  | PRESTOCLIENT_STATUS_SUCCEEDED
  | PRESTOCLIENT_STATUS_FAILED
  deriving DecidableEq, Repr

open E_RESULTCODES E_HTTP_REQUEST_TYPES E_JSON_READSTATES E_JSON_CONTROL_CHARS
open E_JSON_TAGTYPES E_FIELDTYPES E_CLIENTSTATUS

/-! ## Constants (`prestoclient.h`, `prestoclienttypes.h`) -/

def PRESTOCLIENT_SOURCE : Bytes := ascii "cPrestoClient"
def PRESTOCLIENT_VERSION : Bytes := ascii "0.3.0"
def PRESTOCLIENT_QUERY_URL : Bytes := ascii "/v1/statement"
def PRESTOCLIENT_URLTIMEOUT : Nat := 5000
def PRESTOCLIENT_UPDATEWAITTIMEMSEC : Nat := 1500
def PRESTOCLIENT_RETRIEVEWAITTIMEMSEC : Nat := 50
def PRESTOCLIENT_RETRYWAITTIMEMSEC : Nat := 100
def PRESTOCLIENT_MAXIMUMRETRIES : Nat := 5
def PRESTOCLIENT_DEFAULT_PORT : Nat := 8080
def PRESTOCLIENT_DEFAULT_CATALOG : Bytes := ascii "hive"
def PRESTOCLIENT_DEFAULT_SCHEMA : Bytes := ascii "default"
def PRESTOCLIENT_CURL_EXPECT_HTTP_GET_POST : Nat := 200
def PRESTOCLIENT_CURL_EXPECT_HTTP_DELETE : Nat := 204
def PRESTOCLIENT_CURL_EXPECT_HTTP_BUSY : Nat := 503

/-! ## Records (`prestoclienttypes.h`) -/

/-- Tokenizer state, `struct ST_JSONPARSER`. The pointer `c` into the response
buffer is kept as the `clength` bytes it points at. -/
structure JSONPARSER where
  state : E_JSON_READSTATES
  isbackslash : Bool
  readposition : Nat
  skipnextread : Bool
  error : Bool
  c : Bytes
  control : E_JSON_CONTROL_CHARS
  clength : Nat
  tagbuffer : Bytes
  tagtype : E_JSON_TAGTYPES
  deriving DecidableEq, Repr

/-- Lexer state, `struct ST_JSONLEXER`. The parallel arrays `tagorder` and
`tagordername` (their first `tagorderactualsize` entries) are one list of
pairs, innermost container first: its head is entry `tagorderactualsize - 1`. -/
structure JSONLEXER where
  previoustag : E_JSON_TAGTYPES
  tagorder : List (E_JSON_TAGTYPES × Bytes)
  column : Nat
  error : Bool
  name : Bytes
  value : Bytes
  deriving DecidableEq, Repr

/-- One column, `struct ST_PRESTOCLIENT_FIELD`. -/
structure PRESTOCLIENT_FIELD where
  name : Option Bytes
  type : E_FIELDTYPES
  data : Bytes
  dataisnull : Bool
  deriving DecidableEq, Repr

/-- What is recorded of a run: the callback invocations with what the callback
can read at that moment, the HTTP requests performed and the sleeps requested. -/
inductive Event
  /-- The describe callback ran; the (name, type) of every column. -/
  | describe (columns : List (Option Bytes × E_FIELDTYPES))
  /-- The row callback ran; the (data, dataisnull) of every column and `currentdatacolumn`. -/
  | row (cells : List (Bytes × Bool)) (currentdatacolumn : Int)
  /-- One `curl_easy_perform` for a request of the given kind to the given URL. -/
  | request (type : E_HTTP_REQUEST_TYPES) (url : Bytes)
  /-- One call `sleep (seconds)` of `unistd.h`: a sleep of that many whole seconds. -/
  | sleep (seconds : Nat)
  deriving DecidableEq, Repr

/-- The client handle, `struct ST_PRESTOCLIENT` (without the result roster). -/
structure PRESTOCLIENT where
  useragent : Bytes
  server : Bytes
  port : Nat
  catalog : Bytes
  user : Bytes
  deriving DecidableEq, Repr

/-- The result handle, `struct ST_PRESTOCLIENT_RESULT`. `columncount` is
`columns.length` and `lastresponseactualsize` is `lastresponse.length`; the
tokenizer and the lexer, created on first use in the source, are present from
the start in their initial state. `fault` and `trace` are ghost fields. -/
structure PRESTOCLIENT_RESULT where
  curl_error_buffer : Option Bytes
  lastinfouri : Option Bytes
  lastnexturi : Option Bytes
  lastcanceluri : Option Bytes
  laststate : Option Bytes
  lasterrormessage : Option Bytes
  clientstatus : E_CLIENTSTATUS
  cancelquery : Bool
  lastresponse : Bytes
  columns : List PRESTOCLIENT_FIELD
  columninfoavailable : Bool
  columninfoprinted : Bool
  currentdatacolumn : Int
  dataavailable : Bool
  errorcode : E_RESULTCODES
  json : JSONPARSER
  lexer : JSONLEXER
  fault : Bool
  trace : List Event
  deriving DecidableEq, Repr

/-- The callbacks handed to `prestoclient_query`. `none` is a NULL function
pointer; `some f` is a callback that calls `prestoclient_cancelquery` exactly
when `f` of the result it is given is `true`. -/
structure Callbacks where
  write_callback_function : Option (PRESTOCLIENT_RESULT → Bool)
  describe_callback_function : Option (PRESTOCLIENT_RESULT → Bool)

/-! ## The tokenizer (`prestoclientjsonstream.c`) -/

/-- Initial tokenizer state, the source's `json_new_parser`. The tag buffer, whose first
byte the source leaves unset until the first token has been handled, starts empty. -/
def json_new_parser_state : JSONPARSER :=
  { state := JSON_RS_SEARCH_OBJECT
    isbackslash := false
    readposition := 0
    skipnextread := false
    error := false
    c := []
    control := JSON_CC_NONE
    clength := 0
    tagbuffer := []
    tagtype := JSON_TT_UNKNOWN }

/-- Initial lexer state, `json_new_lexer`. -/
def json_new_lexer : JSONLEXER :=
  { previoustag := JSON_TT_UNKNOWN
    tagorder := []
    column := 0
    error := false
    name := []
    value := [] }

/-- The `switch` of `json_getnextchar` on the first byte of the character. -/
def json_control (b : Nat) : E_JSON_CONTROL_CHARS :=
  if b = 32 ∨ b = 9 ∨ b = 13 ∨ b = 10 ∨ b = 12 then JSON_CC_WS
  else if b = 123 then JSON_CC_OO
  else if b = 125 then JSON_CC_OC
  else if b = 91 then JSON_CC_AO
  else if b = 93 then JSON_CC_AC
  else if b = 92 then JSON_CC_BS
  else if b = 34 then JSON_CC_QT
  else if b = 58 then JSON_CC_COLON
  else if b = 44 then JSON_CC_COMMA
  else JSON_CC_NONE

/-- The length `json_getnextchar` gives to the UTF-8 character that starts with byte `b`. -/
def json_clength (b : Nat) : Nat :=
  if Nat.land b 128 = 0 then 1
  else if Nat.land b 240 = 240 then 4
  else if Nat.land b 224 = 224 then 3
  else 2

/-- The tokenizer's `json_getnextchar` on response buffer `buf`: the new
tokenizer state and the return value. -/
def json_getnextchar (buf : Bytes) (j : JSONPARSER) : JSONPARSER × Bool :=
  if j.skipnextread then
    ({ j with skipnextread := false }, true)
  else if buf.length = 0 ∨ j.readposition > buf.length - 1 ∨ buf.getD j.readposition 0 = 0 then
    (j, false)
  else
    let j1 := { j with clength := json_clength (buf.getD j.readposition 0) }
    if j1.readposition + j1.clength > buf.length then
      (j1, false)
    else
      let c := (buf.drop j1.readposition).take j1.clength
      ({ j1 with
          c := c
          readposition := j1.readposition + j1.clength
          control := json_control (c.getD 0 0) }, true)

/-- The source's `json_addtotag`: `strncat` appends the bytes of the current
character up to, not including, a zero byte. -/
def json_addtotag (j : JSONPARSER) : JSONPARSER :=
  { j with tagbuffer := j.tagbuffer ++ (j.c.take j.clength).takeWhile (fun b => b != 0) }

/-- The `strncmp (tagbuffer, lit, lit.length) == 0` of `json_parser`. -/
def strncmp_eq (tag lit : Bytes) : Bool :=
  tag.take lit.length == lit

/-- One pass through the body of the `while` loop of `json_parser`, after
`json_getnextchar` has returned true: the new state and the local `callback`. -/
def json_parser_step (j : JSONPARSER) : JSONPARSER × Bool :=
  match j.state with
  | JSON_RS_SEARCH_OBJECT =>
    match j.control with
    | JSON_CC_BS => ({ j with error := true }, false)
    | JSON_CC_WS => (j, false)
    | JSON_CC_OO => ({ j with tagtype := JSON_TT_OBJECT_OPEN }, true)
    | JSON_CC_OC => ({ j with tagtype := JSON_TT_OBJECT_CLOSE }, true)
    | JSON_CC_AO => ({ j with tagtype := JSON_TT_ARRAY_OPEN }, true)
    | JSON_CC_AC => ({ j with tagtype := JSON_TT_ARRAY_CLOSE }, true)
    | JSON_CC_QT => ({ j with state := JSON_RS_READ_STRING }, false)
    | JSON_CC_COLON => ({ j with tagtype := JSON_TT_COLON }, true)
    | JSON_CC_COMMA => ({ j with tagtype := JSON_TT_COMMA }, true)
    | JSON_CC_NONE => ({ j with state := JSON_RS_READ_NONSTRING, skipnextread := true }, false)
  | JSON_RS_READ_STRING =>
    if j.isbackslash then
      (json_addtotag { j with isbackslash := false }, false)
    else if j.control = JSON_CC_BS then
      (json_addtotag { j with isbackslash := true }, false)
    else if j.control = JSON_CC_QT then
      ({ j with state := JSON_RS_SEARCH_OBJECT, tagtype := JSON_TT_STRING }, true)
    else
      (json_addtotag j, false)
  | JSON_RS_READ_NONSTRING =>
    if j.control = JSON_CC_AC ∨ j.control = JSON_CC_OC ∨ j.control = JSON_CC_COMMA then
      ({ j with
          state := JSON_RS_SEARCH_OBJECT
          skipnextread := true
          tagtype :=
            if strncmp_eq j.tagbuffer (ascii "true") then JSON_TT_TRUE
            else if strncmp_eq j.tagbuffer (ascii "false") then JSON_TT_FALSE
            else if strncmp_eq j.tagbuffer (ascii "null") then JSON_TT_NULL
            else JSON_TT_NUMBER }, true)
    else
      (json_addtotag j, false)

/-- The `while (!error && !callback)` loop of `json_parser` with its final
`return (!error)`; `fuel` bounds the number of passes. -/
def json_parser_loop (buf : Bytes) : Nat → JSONPARSER → JSONPARSER × Bool
  | 0, j => (j, false)
  | fuel + 1, j =>
    if j.error then (j, false)
    else
      match json_getnextchar buf j with
      | (j1, false) => (j1, false)
      | (j1, true) =>
        match json_parser_step j1 with
        | (j2, true) => (j2, !j2.error)
        | (j2, false) => json_parser_loop buf fuel j2

/-- The passes the tokenizer can make before it has to read a character:
`skipnextread` is used up by one pass, and that pass sets it again only from
the SEARCH state on a plain character or from the NONSTRING state on a
terminator. -/
def json_skip_extra (j : JSONPARSER) : Nat :=
  if j.skipnextread then
    (if (j.state = JSON_RS_SEARCH_OBJECT ∧ j.control = JSON_CC_NONE) ∨
        (j.state = JSON_RS_READ_NONSTRING ∧
          (j.control = JSON_CC_AC ∨ j.control = JSON_CC_OC ∨ j.control = JSON_CC_COMMA))
      then 2 else 1)
  else 0

/-- A bound on the passes the tokenizer can still make on `buf`: a pass either
reads a character, which moves `readposition` forward, or uses up `skipnextread`. -/
def json_measure (buf : Bytes) (j : JSONPARSER) : Nat :=
  2 * (buf.length - j.readposition) + json_skip_extra j

/-- The tokenizer, the source's `json_parser`: reads up to the next token or the
end of the buffer. The fuel handed to the loop is never used up
(`json_parser_loop_fuel`). -/
def json_parser_run (buf : Bytes) (j : JSONPARSER) : JSONPARSER × Bool :=
  json_parser_loop buf (json_measure buf j + 1) { j with tagtype := JSON_TT_UNKNOWN }

/-! ## The lexer and the projector (`prestoclientjsonstream.c`) -/

/-- The name `tagordername[tagorderactualsize - k]`, for `k >= 1`, of the
`k`-th innermost open container. -/
def tagordername_back (l : JSONLEXER) (k : Nat) : Bytes :=
  (l.tagorder.getD (k - 1) (JSON_TT_UNKNOWN, [])).2

/-- The source's `json_add_lexer_tagorder`: `strncpy` keeps the first 20 bytes of the name. -/
def json_add_lexer_tagorder (l : JSONLEXER) (newtagorder : E_JSON_TAGTYPES)
    (newtagordername : Bytes) : JSONLEXER :=
  { l with tagorder := (newtagorder, newtagordername.take 20) :: l.tagorder }

/-- The source's `json_remove_lexer_last_tagorder`: nothing happens on an empty stack. -/
def json_remove_lexer_last_tagorder (l : JSONLEXER) : JSONLEXER :=
  { l with tagorder := l.tagorder.tail }

/-- The source's `json_in_array`. -/
def json_in_array (l : JSONLEXER) : Bool :=
  match l.tagorder with
  | [] => false
  | (t, _) :: _ => t == JSON_TT_ARRAY_OPEN

/-- The source's `json_reset_lexer`. -/
def json_reset_lexer (l : JSONLEXER) : JSONLEXER :=
  { l with
    previoustag := JSON_TT_UNKNOWN
    tagorder := []
    column := 0
    error := false
    name := []
    value := [] }

/-- The source's `alloc_copy`. -/
def alloc_copy (_var : Option Bytes) (newvalue : Bytes) : Option Bytes :=
  some newvalue

/-- The source's `alloc_add`: the added value goes on a new line unless the variable is empty. -/
def alloc_add (var : Option Bytes) (addedvalue : Bytes) : Option Bytes :=
  let cur := var.getD []
  some ((if cur.length > 0 then cur ++ [10] else cur) ++ addedvalue)

/-- The source's `new_prestofield`. -/
def new_prestofield : PRESTOCLIENT_FIELD :=
  { name := none, type := PRESTOCLIENT_TYPE_VARCHAR, data := [], dataisnull := false }

/-- The source's `new_prestoresult`. -/
def new_prestoresult : PRESTOCLIENT_RESULT :=
  { curl_error_buffer := none
    lastinfouri := none
    lastnexturi := none
    lastcanceluri := none
    laststate := none
    lasterrormessage := none
    clientstatus := PRESTOCLIENT_STATUS_NONE
    cancelquery := false
    lastresponse := []
    columns := []
    columninfoavailable := false
    columninfoprinted := false
    currentdatacolumn := -1
    dataavailable := false
    errorcode := PRESTOCLIENT_RESULT_OK
    json := json_new_parser_state
    lexer := json_new_lexer
    fault := false
    trace := [] }

/-- What the describe callback can read of the columns. -/
def describe_view (r : PRESTOCLIENT_RESULT) : List (Option Bytes × E_FIELDTYPES) :=
  r.columns.map (fun f => (f.name, f.type))

/-- What the row callback can read of the cells. -/
def row_view (r : PRESTOCLIENT_RESULT) : List (Bytes × Bool) :=
  r.columns.map (fun f => (f.data, f.dataisnull))

/-- The call `if (describe_callback_function) describe_callback_function (...)`. -/
def call_describe (cb : Callbacks) (r : PRESTOCLIENT_RESULT) : PRESTOCLIENT_RESULT :=
  match cb.describe_callback_function with
  | none => r
  | some f =>
    { r with
      cancelquery := r.cancelquery || f r
      trace := r.trace ++ [Event.describe (describe_view r)] }

/-- The call `if (write_callback_function) write_callback_function (...)`. -/
def call_write (cb : Callbacks) (r : PRESTOCLIENT_RESULT) : PRESTOCLIENT_RESULT :=
  match cb.write_callback_function with
  | none => r
  | some f =>
    { r with
      cancelquery := r.cancelquery || f r
      trace := r.trace ++ [Event.row (row_view r) r.currentdatacolumn] }

/-- The chain of `strcmp` on the type text in `json_extract_variables`. -/
def presto_type_of (value : Bytes) : E_FIELDTYPES :=
  if value = ascii "bigint" then PRESTOCLIENT_TYPE_BIGINT
  else if value = ascii "boolean" then PRESTOCLIENT_TYPE_BOOLEAN
  else if value = ascii "double" then PRESTOCLIENT_TYPE_DOUBLE
  else if value = ascii "date" then PRESTOCLIENT_TYPE_DATE
  else if value = ascii "time" then PRESTOCLIENT_TYPE_TIME
  else if value = ascii "time with time zone" then PRESTOCLIENT_TYPE_TIME_WITH_TIME_ZONE
  else if value = ascii "timestamp" then PRESTOCLIENT_TYPE_TIMESTAMP
  else if value = ascii "timestamp with time zone" then PRESTOCLIENT_TYPE_TIMESTAMP_WITH_TIME_ZONE
  else if value = ascii "interval year to month" then PRESTOCLIENT_TYPE_INTERVAL_YEAR_TO_MONTH
  else if value = ascii "interval day to second" then PRESTOCLIENT_TYPE_INTERVAL_DAY_TO_SECOND
  else PRESTOCLIENT_TYPE_VARCHAR

/-- The first part of the data branch of `json_extract_variables`: "Print headers". -/
def extract_data_header (cb : Callbacks) (r : PRESTOCLIENT_RESULT) : PRESTOCLIENT_RESULT :=
  if !r.columninfoavailable && decide (r.columns.length > 0) then
    let r1 := { r with columninfoavailable := true }
    if !r1.columninfoprinted then
      call_describe cb { r1 with columninfoprinted := true }
    else r1
  else r

/-- The cell written by the data branch: null flag and text. -/
def extract_data_field (f : PRESTOCLIENT_FIELD) (tagtype : E_JSON_TAGTYPES) (value : Bytes) :
    PRESTOCLIENT_FIELD :=
  if tagtype = JSON_TT_NULL then { f with dataisnull := true, data := [] }
  else { f with dataisnull := false, data := value }

/-- The data branch of `json_extract_variables`: a value two levels below a
container named `data`. Writing `columns[currentdatacolumn]` outside the column
array is a memory fault. -/
def extract_data (cb : Callbacks) (r : PRESTOCLIENT_RESULT) : PRESTOCLIENT_RESULT :=
  let r1 := extract_data_header cb r
  let col : Int := r1.currentdatacolumn + 1
  let r2 := { r1 with currentdatacolumn := col }
  if col < 0 then { r2 with fault := true }
  else
    match r2.columns[col.toNat]? with
    | none => { r2 with fault := true }
    | some f =>
      let r3 := { r2 with
        columns := r2.columns.set col.toNat (extract_data_field f r2.json.tagtype r2.lexer.value) }
      if col ≥ (r3.columns.length : Int) - 1 then
        call_write cb { r3 with currentdatacolumn := -1, dataavailable := true }
      else r3

/-- The column branch of `json_extract_variables`. -/
def extract_column (r : PRESTOCLIENT_RESULT) : PRESTOCLIENT_RESULT :=
  if r.lexer.name = ascii "name" then
    { r with columns := r.columns ++ [{ new_prestofield with name := alloc_copy none r.lexer.value }] }
  else if r.columns.length > 0 ∧ r.lexer.name = ascii "type" then
    match r.columns.getLast? with
    | none => r
    | some f =>
      { r with columns := r.columns.dropLast ++ [{ f with type := presto_type_of r.lexer.value }] }
  else r

/-- The if-chain of `json_extract_variables`, before its final cleanup. -/
def json_extract_dispatch (cb : Callbacks) (r : PRESTOCLIENT_RESULT) : PRESTOCLIENT_RESULT :=
  let n := r.lexer.tagorder.length
  if n > 2 ∧ tagordername_back r.lexer 2 = ascii "data" then
    extract_data cb r
  else if n = 1 ∧ r.lexer.name = ascii "infoUri" then
    { r with lastinfouri := alloc_copy r.lastinfouri r.lexer.value }
  else if n = 1 ∧ r.lexer.name = ascii "nextUri" then
    { r with lastnexturi := alloc_copy r.lastnexturi r.lexer.value }
  else if n = 1 ∧ r.lexer.name = ascii "partialCancelUri" then
    { r with lastcanceluri := alloc_copy r.lastcanceluri r.lexer.value }
  else if n > 1 ∧ tagordername_back r.lexer 1 = ascii "stats" ∧ r.lexer.name = ascii "state" then
    { r with laststate := alloc_copy r.laststate r.lexer.value }
  else if n > 2 ∧ tagordername_back r.lexer 2 = ascii "error" ∧
      tagordername_back r.lexer 1 = ascii "failureInfo" ∧ r.lexer.name = ascii "type" then
    { r with lasterrormessage := alloc_add r.lasterrormessage r.lexer.value }
  else if n > 2 ∧ tagordername_back r.lexer 2 = ascii "error" ∧
      tagordername_back r.lexer 1 = ascii "failureInfo" ∧ r.lexer.name = ascii "message" then
    { r with lasterrormessage := alloc_add r.lasterrormessage r.lexer.value }
  else if r.columninfoavailable = false ∧ n > 2 ∧
      tagordername_back r.lexer 2 = ascii "columns" then
    extract_column r
  else r

/-- The projector `json_extract_variables`. -/
def json_extract_variables (cb : Callbacks) (r : PRESTOCLIENT_RESULT) : PRESTOCLIENT_RESULT :=
  let r1 := json_extract_dispatch cb r
  { r1 with lexer := { r1.lexer with name := [], value := [] } }

/-- The source's `json_copytag` into `lexer->value` followed by
`json_extract_variables`; `usevalue` is the replacement text, if any. -/
def lexer_value (cb : Callbacks) (r : PRESTOCLIENT_RESULT) (usevalue : Option Bytes) :
    PRESTOCLIENT_RESULT :=
  json_extract_variables cb
    { r with
      lexer := { r.lexer with value := usevalue.getD r.json.tagbuffer }
      json := { r.json with tagbuffer := [] } }

/-- The `switch (result->json->tagtype)` of `json_lexer`. -/
def json_lexer_switch (cb : Callbacks) (r : PRESTOCLIENT_RESULT) : PRESTOCLIENT_RESULT :=
  match r.json.tagtype with
  | JSON_TT_UNKNOWN => { r with lexer := { r.lexer with error := true } }
  | JSON_TT_OBJECT_OPEN | JSON_TT_ARRAY_OPEN =>
    { r with lexer :=
        { json_add_lexer_tagorder r.lexer r.json.tagtype r.lexer.name with name := [] } }
  | JSON_TT_COLON | JSON_TT_COMMA => r
  | JSON_TT_OBJECT_CLOSE | JSON_TT_ARRAY_CLOSE =>
    { r with lexer := json_remove_lexer_last_tagorder r.lexer }
  | JSON_TT_STRING =>
    if r.lexer.previoustag = JSON_TT_COLON ∨ json_in_array r.lexer = true then
      lexer_value cb r none
    else
      { r with
        lexer := { r.lexer with name := r.json.tagbuffer }
        json := { r.json with tagbuffer := [] } }
  | JSON_TT_NUMBER => lexer_value cb r none
  | JSON_TT_TRUE => lexer_value cb r (some (ascii "1"))
  | JSON_TT_FALSE => lexer_value cb r (some (ascii "0"))
  | JSON_TT_NULL => lexer_value cb r (some [])

/-- The lexer `json_lexer`: handles the token the tokenizer has just returned,
records its kind in `previoustag` and returns `!error`. -/
def json_lexer (cb : Callbacks) (r : PRESTOCLIENT_RESULT) : PRESTOCLIENT_RESULT × Bool :=
  let r1 := json_lexer_switch cb r
  ({ r1 with lexer := { r1.lexer with previoustag := r1.json.tagtype } }, !r1.lexer.error)

/-! ## The reader and the byte sink (`prestoclientjsonstream.c`, `prestoclient.c`) -/

/-- The loop `while (json_parser (result) && json_lexer (result))` of
`json_reader`, which empties the tag buffer after every token; `fuel` bounds
the number of tokens. -/
def json_reader_loop (cb : Callbacks) : Nat → PRESTOCLIENT_RESULT → PRESTOCLIENT_RESULT
  | 0, r => r
  | fuel + 1, r =>
    if r.fault then r
    else
      match json_parser_run r.lastresponse r.json with
      | (j, false) => { r with json := j }
      | (j, true) =>
        match json_lexer cb { r with json := j } with
        | (r2, false) => r2
        | (r2, true) => json_reader_loop cb fuel { r2 with json := { r2.json with tagbuffer := [] } }

/-- The end of `json_reader`, "Empty curl buffer". When the buffer has not been
read to its end, `memcpy` (taken as a forward copy) moves the unread bytes and
the terminating zero to the front, and the new length is
`lastresponseactualsize -= readposition - 1`, computed in `unsigned int` and
`size_t`; the zero then stored at that index lies inside the buffer exactly
when the new length does not exceed the old one. -/
def json_reader_shift (r : PRESTOCLIENT_RESULT) : PRESTOCLIENT_RESULT :=
  if r.json.readposition = r.lastresponse.length then
    { r with lastresponse := [], json := { r.json with readposition := 0 } }
  else
    let moved := (r.lastresponse ++ [0]).drop r.json.readposition
    let dec := (r.json.readposition + 2 ^ 32 - 1) % 2 ^ 32
    let newsize := (r.lastresponse.length + 2 ^ 64 - dec) % 2 ^ 64
    if newsize ≤ r.lastresponse.length then
      { r with lastresponse := moved.take newsize, json := { r.json with readposition := 0 } }
    else
      { r with fault := true }

/-- The reader `json_reader`: tokenizes and lexes what is in the response
buffer, then empties or shifts the buffer. The fuel handed to the loop is never
used up (`json_reader_loop_fuel`). -/
def json_reader (cb : Callbacks) (r : PRESTOCLIENT_RESULT) : PRESTOCLIENT_RESULT × Bool :=
  let r1 := json_reader_loop cb (json_measure r.lastresponse r.json + 1) r
  if r1.fault then (r1, false)
  else
    let r2 := json_reader_shift r1
    (r2, !r2.json.error && !r2.lexer.error)

/-- The byte sink `WriteCallback`: the new result and the number returned to
libcurl (the number of bytes taken, or zero to stop the transfer). -/
def WriteCallback (cb : Callbacks) (contents : Bytes) (r : PRESTOCLIENT_RESULT) :
    PRESTOCLIENT_RESULT × Nat :=
  if r.fault then (r, 0)
  else
    match json_reader cb { r with lastresponse := r.lastresponse ++ contents } with
    | (r1, false) => (r1, 0)
    | (r1, true) => (r1, if r1.cancelquery then 0 else contents.length)

/-! ## The transport (libcurl and the server) -/

/-- What `curl_easy_perform` reports: `CURLE_OK` with the HTTP response code,
or any other `CURLcode`. -/
inductive CurlOutcome
  | http (code : Nat)
  | failed
  deriving DecidableEq, Repr

/-- One scripted transfer: the body chunks libcurl hands to the write
function, what the transfer ends with if the write function takes them all,
and the text libcurl leaves in the error buffer if the transfer fails. -/
structure Response where
  chunks : List Bytes
  outcome : CurlOutcome
  errortext : Bytes
  deriving DecidableEq, Repr

/-- The body delivery of one transfer: libcurl calls the write function chunk
by chunk and stops at the first call that does not return the chunk's size.
The second component says whether every chunk was taken. -/
def curl_deliver (cb : Callbacks) : List Bytes → PRESTOCLIENT_RESULT → PRESTOCLIENT_RESULT × Bool
  | [], r => (r, true)
  | chunk :: rest, r =>
    match WriteCallback cb chunk r with
    | (r1, n) => if n = chunk.length then curl_deliver cb rest r1 else (r1, false)

/-- Text in the error buffer when the script holds no further transfer. -/
def curl_noserver_text : Bytes := ascii "Couldn't connect to server"

/-- One `curl_easy_perform (hcurl)`. The handle keeps `WriteCallback` as its
write function from the POST on, so every body goes through it. `none` is a
server that does not answer. A transfer stopped by the write function ends
with `CURLE_WRITE_ERROR`. -/
def curl_easy_perform (cb : Callbacks) (resp : Option Response) (r : PRESTOCLIENT_RESULT) :
    PRESTOCLIENT_RESULT × CurlOutcome :=
  match resp with
  | none => ({ r with curl_error_buffer := some curl_noserver_text }, CurlOutcome.failed)
  | some rs =>
    match curl_deliver cb rs.chunks r with
    | (r1, true) =>
      match rs.outcome with
      | CurlOutcome.http code => (r1, CurlOutcome.http code)
      | CurlOutcome.failed => ({ r1 with curl_error_buffer := some rs.errortext }, CurlOutcome.failed)
    | (r1, false) =>
      if r1.fault then (r1, CurlOutcome.failed)
      else ({ r1 with curl_error_buffer := some rs.errortext }, CurlOutcome.failed)

/-- The source's `util_sleep`, in its variant for systems other than Windows:
`sleep (sleeptime_msec / 1000)`, a sleep of the whole seconds contained in the
milliseconds asked for. -/
def util_sleep (sleeptime_msec : Nat) (r : PRESTOCLIENT_RESULT) : PRESTOCLIENT_RESULT :=
  { r with trace := r.trace ++ [Event.sleep (sleeptime_msec / 1000)] }

/-! ## The query driver (`prestoclient.c`) -/

/-- The expected HTTP code of a request kind (the `switch` of `openuri`). -/
def expected_http_code (t : E_HTTP_REQUEST_TYPES) : Nat :=
  match t with
  | PRESTOCLIENT_HTTP_REQUEST_TYPE_POST => PRESTOCLIENT_CURL_EXPECT_HTTP_GET_POST
  | PRESTOCLIENT_HTTP_REQUEST_TYPE_GET => PRESTOCLIENT_CURL_EXPECT_HTTP_GET_POST
  | PRESTOCLIENT_HTTP_REQUEST_TYPE_DELETE => PRESTOCLIENT_CURL_EXPECT_HTTP_DELETE

/-- The text `printf` writes for `%d` when handed the `unsigned int` `v`: the
decimal digits of `v` read as a 32-bit two's complement `int`. -/
def sprintf_d (v : Nat) : Bytes :=
  if v < 2 ^ 31 then ascii (toString v) else ascii "-" ++ ascii (toString (2 ^ 32 - v))

/-- One pass through the body of `while (retry)` in `openuri`, `retrycount`
already incremented: the new result and the new value of `retry`. -/
def openuri_attempt (cb : Callbacks) (t : E_HTTP_REQUEST_TYPES) (url : Bytes) (retrycount : Nat)
    (resp : Option Response) (r : PRESTOCLIENT_RESULT) : PRESTOCLIENT_RESULT × Bool :=
  match curl_easy_perform cb resp { r with trace := r.trace ++ [Event.request t url] } with
  | (r1, CurlOutcome.failed) =>
    if r1.fault then (r1, false)
    else ({ r1 with errorcode := PRESTOCLIENT_RESULT_CURL_ERROR }, false)
  | (r1, CurlOutcome.http http_code) =>
    if r1.fault then (r1, false)
    else if http_code = expected_http_code t then (r1, false)
    else if http_code = PRESTOCLIENT_CURL_EXPECT_HTTP_BUSY then
      let r2 := util_sleep (PRESTOCLIENT_RETRYWAITTIMEMSEC * retrycount) r1
      if retrycount > PRESTOCLIENT_MAXIMUMRETRIES then
        ({ r2 with errorcode := PRESTOCLIENT_RESULT_MAX_RETRIES_REACHED }, false)
      else (r2, true)
    else
      ({ r1 with
          errorcode := PRESTOCLIENT_RESULT_SERVER_ERROR
          curl_error_buffer :=
            alloc_copy r1.curl_error_buffer
              (ascii "Http-code: " ++ sprintf_d (http_code % 2 ^ 32)) }, false)

/-- The loop `while (retry)` of `openuri`, started with the given
`retrycount`; each pass uses up one transfer of the script. -/
def openuri_loop (cb : Callbacks) (t : E_HTTP_REQUEST_TYPES) (url : Bytes) :
    Nat → List Response → PRESTOCLIENT_RESULT → PRESTOCLIENT_RESULT × List Response
  | retrycount, [], r => ((openuri_attempt cb t url (retrycount + 1) none r).1, [])
  | retrycount, resp :: rest, r =>
    match openuri_attempt cb t url (retrycount + 1) (some resp) r with
    | (r1, true) => openuri_loop cb t url (retrycount + 1) rest r1
    | (r1, false) => (r1, rest)

/-- The URL of the POST: `http://`, server, `:`, port, `/v1/statement`. -/
def query_full_url (client : PRESTOCLIENT) : Bytes :=
  ascii "http://" ++ client.server ++ ascii ":" ++ ascii (toString client.port) ++
    PRESTOCLIENT_QUERY_URL

/-- The argument `in_uri` of `openuri` as this library passes it:
`&result->lastnexturi` for a GET, `&result->lastcanceluri` for a DELETE, NULL
for the POST. The value is the string pointed at (`none` when that is NULL). -/
def openuri_in_uri (t : E_HTTP_REQUEST_TYPES) (r : PRESTOCLIENT_RESULT) : Option Bytes :=
  match t with
  | PRESTOCLIENT_HTTP_REQUEST_TYPE_POST => none
  | PRESTOCLIENT_HTTP_REQUEST_TYPE_GET => r.lastnexturi
  | PRESTOCLIENT_HTTP_REQUEST_TYPE_DELETE => r.lastcanceluri

/-- The URL `openuri` gives to libcurl (`CURLOPT_URL`). -/
def openuri_url (t : E_HTTP_REQUEST_TYPES) (client : PRESTOCLIENT) (r : PRESTOCLIENT_RESULT) :
    Bytes :=
  match t with
  | PRESTOCLIENT_HTTP_REQUEST_TYPE_POST => query_full_url client
  | _ => (openuri_in_uri t r).getD []

/-- The result as `openuri` has it when the retry loop starts: the error
buffer emptied, the string behind `in_uri` emptied (`*in_uri[0] = 0`) and
`errorcode` reset to `PRESTOCLIENT_RESULT_OK`. -/
def openuri_setup (t : E_HTTP_REQUEST_TYPES) (r : PRESTOCLIENT_RESULT) : PRESTOCLIENT_RESULT :=
  match t with
  | PRESTOCLIENT_HTTP_REQUEST_TYPE_POST =>
    { r with curl_error_buffer := some [], errorcode := PRESTOCLIENT_RESULT_OK }
  | PRESTOCLIENT_HTTP_REQUEST_TYPE_GET =>
    { r with curl_error_buffer := some [], lastnexturi := some [],
             errorcode := PRESTOCLIENT_RESULT_OK }
  | PRESTOCLIENT_HTTP_REQUEST_TYPE_DELETE =>
    { r with curl_error_buffer := some [], lastcanceluri := some [],
             errorcode := PRESTOCLIENT_RESULT_OK }

/-- The driver's `openuri` as called by this library: the arguments other than
`in_uri` come from a client made by `prestoclient_init` and are not NULL, and
the request headers are not modelled. Returns the result (whose `errorcode` is
the value returned by the source) and what is left of the script. -/
def openuri (cb : Callbacks) (t : E_HTTP_REQUEST_TYPES) (client : PRESTOCLIENT)
    (script : List Response) (r : PRESTOCLIENT_RESULT) : PRESTOCLIENT_RESULT × List Response :=
  if r.fault then (r, script)
  else if t ≠ PRESTOCLIENT_HTTP_REQUEST_TYPE_POST ∧ openuri_in_uri t r = none then
    ({ r with errorcode := PRESTOCLIENT_RESULT_BAD_REQUEST_DATA }, script)
  else
    openuri_loop cb t (openuri_url t client r) 0 script (openuri_setup t r)

/-- The source's `cancel`: a DELETE to the cancel URI if there is one. -/
def cancel (cb : Callbacks) (client : PRESTOCLIENT) (script : List Response)
    (r : PRESTOCLIENT_RESULT) : PRESTOCLIENT_RESULT × List Response :=
  match r.lastcanceluri with
  | some _ => openuri cb PRESTOCLIENT_HTTP_REQUEST_TYPE_DELETE client script r
  | none => (r, script)

/-- The test `!p || strlen (p) == 0` on a string pointer. -/
def str_empty (p : Option Bytes) : Bool :=
  match p with
  | none => true
  | some s => s.length == 0

/-- What `prestoclient_queryisrunning` does after a GET that returned
`PRESTOCLIENT_RESULT_OK`: status, column flag, describe callback, lexer reset. -/
def queryisrunning_after_get (cb : Callbacks) (r : PRESTOCLIENT_RESULT) : PRESTOCLIENT_RESULT :=
  let r1 : PRESTOCLIENT_RESULT :=
    if !str_empty r.lastnexturi then { r with clientstatus := PRESTOCLIENT_STATUS_RUNNING }
    else if !str_empty r.lasterrormessage then { r with clientstatus := PRESTOCLIENT_STATUS_FAILED }
    else { r with clientstatus := PRESTOCLIENT_STATUS_SUCCEEDED }
  let r2 : PRESTOCLIENT_RESULT :=
    if decide (r1.columns.length > 0) && !r1.columninfoavailable then
      { r1 with columninfoavailable := true }
    else r1
  let r3 : PRESTOCLIENT_RESULT :=
    if !r2.columninfoprinted && r2.columninfoavailable then
      call_describe cb { r2 with columninfoprinted := true }
    else r2
  { r3 with lexer := json_reset_lexer r3.lexer }

/-- The driver step `prestoclient_queryisrunning`: the new result, what is left
of the script, and the return value. -/
def prestoclient_queryisrunning (cb : Callbacks) (client : PRESTOCLIENT)
    (script : List Response) (r : PRESTOCLIENT_RESULT) :
    PRESTOCLIENT_RESULT × List Response × Bool :=
  if r.fault then (r, script, false)
  else if r.cancelquery then
    let (r1, s1) := cancel cb client script r
    (r1, s1, false)
  else if str_empty r.lastnexturi then (r, script, false)
  else
    let (r1, s1) := openuri cb PRESTOCLIENT_HTTP_REQUEST_TYPE_GET client script r
    if r1.fault then (r1, s1, false)
    else if r1.errorcode = PRESTOCLIENT_RESULT_OK then
      let r2 := queryisrunning_after_get cb r1
      if str_empty r2.lastnexturi then (r2, s1, false) else (r2, s1, true)
    else (r1, s1, false)

/-- The loop of `prestoclient_waituntilfinished`; `fuel` bounds the number of
driver steps. -/
def waituntilfinished_loop (cb : Callbacks) (client : PRESTOCLIENT) :
    Nat → List Response → PRESTOCLIENT_RESULT → PRESTOCLIENT_RESULT × List Response
  | 0, script, r => (r, script)
  | fuel + 1, script, r =>
    match prestoclient_queryisrunning cb client script r with
    | (r1, s1, false) => (r1, s1)
    | (r1, s1, true) =>
      waituntilfinished_loop cb client fuel s1
        (util_sleep (if r1.dataavailable then PRESTOCLIENT_RETRIEVEWAITTIMEMSEC
          else PRESTOCLIENT_UPDATEWAITTIMEMSEC) r1)

/-- The source's `prestoclient_waituntilfinished`. Every driver step that
returns true has used up a transfer of the script, so the fuel handed to the
loop is never used up (`waituntilfinished_loop_fuel`). -/
def prestoclient_waituntilfinished (cb : Callbacks) (client : PRESTOCLIENT)
    (script : List Response) (r : PRESTOCLIENT_RESULT) : PRESTOCLIENT_RESULT × List Response :=
  waituntilfinished_loop cb client (script.length + 1) script r

/-- The body of `prestoclient_query` once its arguments have passed the NULL
checks: the POST and, if it returned `PRESTOCLIENT_RESULT_OK`, the polling
loop. `curl_easy_init` is taken to succeed. -/
def prestoclient_query_run (cb : Callbacks) (client : PRESTOCLIENT) (script : List Response) :
    PRESTOCLIENT_RESULT :=
  match openuri cb PRESTOCLIENT_HTTP_REQUEST_TYPE_POST client script new_prestoresult with
  | (r1, s1) =>
    if r1.fault then r1
    else if r1.errorcode = PRESTOCLIENT_RESULT_OK then
      (prestoclient_waituntilfinished cb client s1 r1).1
    else r1

/-- The entry point `prestoclient_query`, for a client handle and a statement
that may be NULL. `none` is the NULL return value. -/
def prestoclient_query (cb : Callbacks) (prestoclient : Option PRESTOCLIENT)
    (in_sql_statement : Option Bytes) (script : List Response) : Option PRESTOCLIENT_RESULT :=
  match prestoclient, in_sql_statement with
  | some client, some sql =>
    if sql.length > 0 then some (prestoclient_query_run cb client script) else none
  | _, _ => none

/-! ## Accessors (`prestoclient.c`) -/

/-- The accessor `prestoclient_getstatus`. -/
def prestoclient_getstatus (result : Option PRESTOCLIENT_RESULT) : E_CLIENTSTATUS :=
  match result with
  | none => PRESTOCLIENT_STATUS_NONE
  | some r => r.clientstatus

/-- The accessor `prestoclient_getcolumncount`. -/
def prestoclient_getcolumncount (result : Option PRESTOCLIENT_RESULT) : Nat :=
  match result with
  | none => 0
  | some r => r.columns.length

/-- The accessor `prestoclient_getlastserverstate`; `none` is NULL. -/
def prestoclient_getlastserverstate (result : Option PRESTOCLIENT_RESULT) : Option Bytes :=
  match result with
  | none => none
  | some r => some (r.laststate.getD [])

/-- The accessor `prestoclient_getlastservererror`; `none` is NULL. -/
def prestoclient_getlastservererror (result : Option PRESTOCLIENT_RESULT) : Option Bytes :=
  match result with
  | none => none
  | some r => r.lasterrormessage

/-- The accessor `prestoclient_getcolumnname`; `none` is NULL. -/
def prestoclient_getcolumnname (result : Option PRESTOCLIENT_RESULT) (columnindex : Nat) :
    Option Bytes :=
  match result with
  | none => none
  | some r =>
    if columnindex ≥ r.columns.length then none
    else (r.columns[columnindex]?).bind (fun f => f.name)

/-- The accessor `prestoclient_getcolumntype`. -/
def prestoclient_getcolumntype (result : Option PRESTOCLIENT_RESULT) (columnindex : Nat) :
    E_FIELDTYPES :=
  match result with
  | none => PRESTOCLIENT_TYPE_UNDEFINED
  | some r =>
    if columnindex ≥ r.columns.length then PRESTOCLIENT_TYPE_UNDEFINED
    else
      match r.columns[columnindex]? with
      | none => PRESTOCLIENT_TYPE_UNDEFINED
      | some f => f.type

/-- The `switch` of `prestoclient_getcolumntypedescription` on the column type. -/
def type_description (t : E_FIELDTYPES) : Bytes :=
  match t with
  | PRESTOCLIENT_TYPE_VARCHAR => ascii "PRESTO_VARCHAR"
  | PRESTOCLIENT_TYPE_BIGINT => ascii "PRESTO_BIGINT"
  | PRESTOCLIENT_TYPE_BOOLEAN => ascii "PRESTO_BOOLEAN"
  | PRESTOCLIENT_TYPE_DOUBLE => ascii "PRESTO_DOUBLE"
  | _ => ascii "PRESTO_UNDEFINED"

/-- The accessor `prestoclient_getcolumntypedescription`; `none` is NULL. -/
def prestoclient_getcolumntypedescription (result : Option PRESTOCLIENT_RESULT)
    (columnindex : Nat) : Option Bytes :=
  match result with
  | none => none
  | some r =>
    if columnindex ≥ r.columns.length then none
    else (r.columns[columnindex]?).map (fun f => type_description f.type)

/-- The accessor `prestoclient_getcolumndata`; `none` is NULL. -/
def prestoclient_getcolumndata (result : Option PRESTOCLIENT_RESULT) (columnindex : Nat) :
    Option Bytes :=
  match result with
  | none => none
  | some r => (r.columns[columnindex]?).map (fun f => f.data)

/-- The accessor `prestoclient_getnullcolumnvalue`. -/
def prestoclient_getnullcolumnvalue (result : Option PRESTOCLIENT_RESULT) (columnindex : Nat) :
    Bool :=
  match result with
  | none => true
  | some r =>
    match r.columns[columnindex]? with
    | none => true
    | some f => f.dataisnull

/-- The accessor `prestoclient_getlastclienterror`; `none` is NULL. -/
def prestoclient_getlastclienterror (result : Option PRESTOCLIENT_RESULT) : Option Bytes :=
  match result with
  | none => none
  | some r =>
    match r.errorcode with
    | PRESTOCLIENT_RESULT_OK => none
    | PRESTOCLIENT_RESULT_BAD_REQUEST_DATA =>
      some (ascii "Not all parameters to start request are available")
    | PRESTOCLIENT_RESULT_SERVER_ERROR => some (ascii "Server returned error")
    | PRESTOCLIENT_RESULT_MAX_RETRIES_REACHED => some (ascii "Server is busy")
    | PRESTOCLIENT_RESULT_CURL_ERROR => some (ascii "CURL error occurred")
    | PRESTOCLIENT_RESULT_PARSE_JSON_ERROR => some (ascii "Error parsing returned json object")

/-- The accessor `prestoclient_getlastcurlerror`; `none` is NULL. -/
def prestoclient_getlastcurlerror (result : Option PRESTOCLIENT_RESULT) : Option Bytes :=
  match result with
  | none => none
  | some r =>
    match r.curl_error_buffer with
    | none => none
    | some text => if text.length = 0 then none else some text

/-- The source's `prestoclient_cancelquery`, the one accessor that writes. -/
def prestoclient_cancelquery (result : Option PRESTOCLIENT_RESULT) : Option PRESTOCLIENT_RESULT :=
  result.map (fun r => { r with cancelquery := true })

/-! ## Vocabulary for the statements -/

/-- The events of the driver itself: requests performed and sleeps requested. -/
def is_net_event : Event → Bool
  | Event.request _ _ => true
  | Event.sleep _ => true
  | _ => false

/-- Whether the event is an invocation of the describe callback. -/
def is_describe_event : Event → Bool
  | Event.describe _ => true
  | _ => false

/-- Whether the event is an invocation of the row callback. -/
def is_row_event : Event → Bool
  | Event.row _ _ => true
  | _ => false

/-- Whether the event is an invocation of a user callback. -/
def is_callback_event (e : Event) : Bool :=
  is_describe_event e || is_row_event e

/-- The requests and sleeps of a trace, in order. -/
def net_events (tr : List Event) : List Event := tr.filter is_net_event

/-- The row callback invocations of a trace, in order. -/
def row_events (tr : List Event) : List Event := tr.filter is_row_event

/-- The number of invocations of the describe callback in a trace. -/
def describe_count (tr : List Event) : Nat := tr.countP is_describe_event

/-- The first callback invocation of a trace, if any. -/
def first_callback (tr : List Event) : Option Event := tr.find? is_callback_event

/-- The bookkeeping of the describe callback that every operation of the
library keeps: the callback has run exactly when `columninfoprinted` is set (and
a callback is registered), `columninfoavailable` implies `columninfoprinted`,
rows are only delivered once the column info is available, each with one cell
per column and the cursor at -1, a describe invocation saw the columns as they
are now, and the first callback invoked is the describe callback. -/
structure DescInv (cb : Callbacks) (r : PRESTOCLIENT_RESULT) : Prop where
  count : describe_count r.trace =
    if r.columninfoprinted = true ∧ cb.describe_callback_function.isSome = true then 1 else 0
  avail : r.columninfoavailable = true → r.columninfoprinted = true
  rows : ∀ cells cur, Event.row cells cur ∈ r.trace →
    r.columninfoavailable = true ∧ cells.length = r.columns.length ∧ cur = -1
  view : ∀ cols, Event.describe cols ∈ r.trace →
    r.columninfoavailable = true ∧ cols = describe_view r
  order : cb.describe_callback_function.isSome = true →
    ∀ e, first_callback r.trace = some e → is_describe_event e = true

/-- What the lexer and the projector leave alone when they handle a token:
status, error code, transport text, response buffer, the tokenizer apart from
its tag buffer, the requests and sleeps recorded; a set cancel flag stays set,
and the describe bookkeeping is kept. -/
structure LexStep (cb : Callbacks) (r r' : PRESTOCLIENT_RESULT) : Prop where
  clientstatus : r'.clientstatus = r.clientstatus
  errorcode : r'.errorcode = r.errorcode
  curl_error_buffer : r'.curl_error_buffer = r.curl_error_buffer
  lastresponse : r'.lastresponse = r.lastresponse
  json : { r'.json with tagbuffer := [] } = { r.json with tagbuffer := [] }
  net : net_events r'.trace = net_events r.trace
  cancelquery : r.cancelquery = true → r'.cancelquery = true
  inv : DescInv cb r → DescInv cb r'

/-- What the byte sink, and every transfer built on it, leaves alone: status,
error code, the requests and sleeps recorded; a set cancel flag stays set, and
the describe bookkeeping is kept. -/
structure SinkStep (cb : Callbacks) (r r' : PRESTOCLIENT_RESULT) : Prop where
  clientstatus : r'.clientstatus = r.clientstatus
  errorcode : r'.errorcode = r.errorcode
  net : net_events r'.trace = net_events r.trace
  cancelquery : r.cancelquery = true → r'.cancelquery = true
  inv : DescInv cb r → DescInv cb r'

/-- What a request of the driver (`openuri`, `cancel`) leaves alone: the
status; a set cancel flag stays set, and the describe bookkeeping is kept. -/
structure DriverStep (cb : Callbacks) (r r' : PRESTOCLIENT_RESULT) : Prop where
  clientstatus : r'.clientstatus = r.clientstatus
  cancelquery : r.cancelquery = true → r'.cancelquery = true
  inv : DescInv cb r → DescInv cb r'

/-- A token as the tokenizer hands it to the lexer: its kind (`tagtype`) and
the text left in the tag buffer. -/
abbrev Token := E_JSON_TAGTYPES × Bytes

/-- A scalar JSON value as it reaches the lexer. -/
inductive Scalar
  /-- A string; `text` is the raw text between the quotes. -/
  | str (text : Bytes)
  /-- A number; `text` is its text as written. -/
  | num (text : Bytes)
  /-- The literal true. -/
  | tru
  /-- The literal false. -/
  | fls
  /-- The literal null. -/
  | nul
  deriving DecidableEq, Repr

/-- The token the tokenizer returns for a scalar. -/
def Scalar.token : Scalar → Token
  | Scalar.str text => (JSON_TT_STRING, text)
  | Scalar.num text => (JSON_TT_NUMBER, text)
  | Scalar.tru => (JSON_TT_TRUE, ascii "true")
  | Scalar.fls => (JSON_TT_FALSE, ascii "false")
  | Scalar.nul => (JSON_TT_NULL, ascii "null")

/-- The textual form of a scalar: a string's raw text, a number's text
verbatim, "1" for true, "0" for false, the empty text for null. -/
def Scalar.text : Scalar → Bytes
  | Scalar.str text => text
  | Scalar.num text => text
  | Scalar.tru => ascii "1"
  | Scalar.fls => ascii "0"
  | Scalar.nul => []

/-- Whether the scalar is null. -/
def Scalar.isnull : Scalar → Bool
  | Scalar.nul => true
  | _ => false

/-- The cell a scalar is delivered as: its textual form and its null flag. -/
def Scalar.cell (v : Scalar) : Bytes × Bool := (v.text, v.isnull)

/-- One pass through the loop of `json_reader` for a token the tokenizer
returns: `json_lexer` on that token, then the tag buffer is emptied. -/
def lex_token (cb : Callbacks) (tok : Token) (r : PRESTOCLIENT_RESULT) : PRESTOCLIENT_RESULT :=
  let r1 := (json_lexer cb { r with json := { r.json with tagtype := tok.1, tagbuffer := tok.2 } }).1
  { r1 with json := { r1.json with tagbuffer := [] } }

/-- The loop of `json_reader` over the tokens the tokenizer returns one after
another; as in `json_reader_loop`, nothing is done after a fault. -/
def lex_tokens (cb : Callbacks) : List Token → PRESTOCLIENT_RESULT → PRESTOCLIENT_RESULT
  | [], r => r
  | tok :: rest, r => if r.fault then r else lex_tokens cb rest (lex_token cb tok r)

/-- Token sequences joined by comma tokens. -/
def sep_tokens : List (List Token) → List Token
  | [] => []
  | [p] => p
  | p :: q :: rest => p ++ (JSON_TT_COMMA, []) :: sep_tokens (q :: rest)

/-- The tokens of the scalars `v0, ..., v(n-1)` of an array, without its brackets. -/
def values_tokens (vs : List Scalar) : List Token :=
  sep_tokens (vs.map (fun v => [v.token]))

/-- The tokens of a data sub-array `[v0, ..., v(n-1)]`. -/
def row_tokens (vs : List Scalar) : List Token :=
  (JSON_TT_ARRAY_OPEN, []) :: values_tokens vs ++ [(JSON_TT_ARRAY_CLOSE, [])]

/-- The tokens of a data array `[[...], ..., [...]]`. -/
def data_tokens (rows : List (List Scalar)) : List Token :=
  (JSON_TT_ARRAY_OPEN, []) :: sep_tokens (rows.map row_tokens) ++ [(JSON_TT_ARRAY_CLOSE, [])]

/-- The describe invocation made by the first data value, if any: the callback
runs when the column info was neither available nor printed and there is a
column, and a callback is registered. -/
def header_events (cb : Callbacks) (r : PRESTOCLIENT_RESULT) : List Event :=
  if r.columninfoavailable = false ∧ r.columninfoprinted = false ∧ 0 < r.columns.length ∧
      cb.describe_callback_function.isSome = true
  then [Event.describe (describe_view r)] else []

/-- The lexer is directly inside a container named `data` that lies below at
least one more container (the root object). -/
def in_data_array (l : JSONLEXER) : Prop :=
  ∃ t2 e3 rest, l.tagorder = (t2, ascii "data") :: e3 :: rest

/-- The lexer is inside a sub-array of a container named `data`: the innermost
open container is an array and the one around it is named `data`, below at
least one more container. -/
def in_data_row (l : JSONLEXER) : Prop :=
  ∃ nm t2 e3 rest, l.tagorder = (JSON_TT_ARRAY_OPEN, nm) :: (t2, ascii "data") :: e3 :: rest

/-- The result as the projector gets it for a scalar: the scalar's textual
form in `lexer->value`, its kind in `tagtype`, the tag buffer emptied. -/
def lex_scalar_state (v : Scalar) (r : PRESTOCLIENT_RESULT) : PRESTOCLIENT_RESULT :=
  { r with
    lexer := { r.lexer with value := v.text }
    json := { r.json with tagtype := v.token.1, tagbuffer := [] } }

/-- What `json_extract_variables`, `json_lexer` and the loop of `json_reader`
do after the projector's if-chain: name and value emptied, the token kind
recorded, the tag buffer emptied. -/
def lex_finish (r : PRESTOCLIENT_RESULT) : PRESTOCLIENT_RESULT :=
  { r with
    lexer := { r.lexer with name := [], value := [], previoustag := r.json.tagtype }
    json := { r.json with tagbuffer := [] } }

/-- The server answers the successive transfers of one request with the HTTP
codes `codes`: each transfer is taken from the script and ends with `CURLE_OK`
and that code (the byte sink having taken its whole body). `retrycount` is the
number of transfers of this request made before. -/
def openuri_answers (cb : Callbacks) (t : E_HTTP_REQUEST_TYPES) (url : Bytes) :
    List Nat → Nat → List Response → PRESTOCLIENT_RESULT → Prop
  | [], _, _, _ => True
  | _ :: _, _, [], _ => False
  | code :: codes, retrycount, resp :: rest, r =>
    (curl_easy_perform cb (some resp)
        { r with trace := r.trace ++ [Event.request t url] }).2 = CurlOutcome.http code ∧
      (curl_easy_perform cb (some resp)
        { r with trace := r.trace ++ [Event.request t url] }).1.fault = false ∧
      openuri_answers cb t url codes (retrycount + 1) rest
        (openuri_attempt cb t url (retrycount + 1) (some resp) r).1

/-- The requests and sleeps of `k` transfers answered with 503, the first of
them being transfer number `retrycount + 1` of the request: each is followed
by the sleep `util_sleep` makes when asked for 100 ms times its number. -/
def retry_events (t : E_HTTP_REQUEST_TYPES) (url : Bytes) : Nat → Nat → List Event
  | _, 0 => []
  | retrycount, k + 1 =>
    Event.request t url ::
      Event.sleep (PRESTOCLIENT_RETRYWAITTIMEMSEC * (retrycount + 1) / 1000) ::
      retry_events t url (retrycount + 1) k

/-- The total time, in seconds, of the sleeps of a trace. -/
def total_sleep : List Event → Nat
  | [] => 0
  | Event.sleep seconds :: rest => seconds + total_sleep rest
  | _ :: rest => total_sleep rest

/-- Whether the server answers with the given codes can be computed. -/
instance openuri_answers_decidable (cb : Callbacks) (t : E_HTTP_REQUEST_TYPES) (url : Bytes) :
    ∀ (codes : List Nat) (retrycount : Nat) (script : List Response) (r : PRESTOCLIENT_RESULT),
      Decidable (openuri_answers cb t url codes retrycount script r)
  | [], _, _, _ => isTrue True.intro
  | _ :: _, _, [], _ => isFalse (fun h => h)
  | _ :: codes, retrycount, resp :: rest, r =>
    have := openuri_answers_decidable cb t url codes (retrycount + 1) rest
      (openuri_attempt cb t url (retrycount + 1) (some resp) r).1
    instDecidableAnd

/-- Whether the token opens a container. -/
def is_open_token (tok : Token) : Bool :=
  tok.1 == JSON_TT_OBJECT_OPEN || tok.1 == JSON_TT_ARRAY_OPEN

/-- Whether the token closes a container. -/
def is_close_token (tok : Token) : Bool :=
  tok.1 == JSON_TT_OBJECT_CLOSE || tok.1 == JSON_TT_ARRAY_CLOSE

/-- The tokens form the rest of a bracketed value of which `d` containers are
open: no token other than an opening one comes at depth 0, and the container
opened first is closed by the last token, not before. With `d = 0` this says
that the tokens are one object or array, whatever it contains. -/
def closes_last : Nat → List Token → Bool
  | _, [] => false
  | d, tok :: rest =>
    if is_open_token tok then closes_last (d + 1) rest
    else if is_close_token tok then
      (match d with
        | 0 => false
        | 1 => rest.isEmpty
        | d + 2 => closes_last (d + 1) rest)
    else decide (1 ≤ d) && closes_last d rest

/-- The value of a member of the root object of a reply: a scalar, or the
tokens of an object or array. -/
inductive Member
  | scalar (s : Scalar)
  | nested (toks : List Token)

/-- The member's value is well formed: a nested value is one bracketed value. -/
def Member.wf : Member → Bool
  | Member.scalar _ => true
  | Member.nested toks => closes_last 0 toks

/-- The tokens of a member `"name": value`. -/
def member_tokens : Bytes × Member → List Token
  | (name, Member.scalar s) => [(JSON_TT_STRING, name), (JSON_TT_COLON, []), s.token]
  | (name, Member.nested toks) => (JSON_TT_STRING, name) :: (JSON_TT_COLON, []) :: toks

/-- The tokens of a reply, a root object with the given members. -/
def reply_tokens (members : List (Bytes × Member)) : List Token :=
  (JSON_TT_OBJECT_OPEN, []) :: sep_tokens (members.map member_tokens) ++
    [(JSON_TT_OBJECT_CLOSE, [])]

/-- The `nextUri` of a reply on top of an earlier value `u`: the text of the
last scalar member of the root object that is named `nextUri`, and `u` if
there is none. -/
def reply_next_uri : List (Bytes × Member) → Option Bytes → Option Bytes
  | [], u => u
  | (name, Member.scalar s) :: rest, u =>
    reply_next_uri rest (if name = ascii "nextUri" then some s.text else u)
  | (_, Member.nested _) :: rest, u => reply_next_uri rest u

/-- The number of requests (transfers started) in a trace. -/
def request_count : List Event → Nat
  | [] => 0
  | Event.request _ _ :: rest => request_count rest + 1
  | _ :: rest => request_count rest

/-! ## Concrete scenarios -/

/-- Callbacks that are both registered and never ask for cancellation. -/
def example_callbacks : Callbacks :=
  { write_callback_function := some (fun _ => false)
    describe_callback_function := some (fun _ => false) }

/-- A client handle as `prestoclient_init` makes it for server `h`. -/
def example_client : PRESTOCLIENT :=
  { useragent := PRESTOCLIENT_SOURCE ++ ascii "/" ++ PRESTOCLIENT_VERSION
    server := ascii "h"
    port := PRESTOCLIENT_DEFAULT_PORT
    catalog := PRESTOCLIENT_DEFAULT_CATALOG
    user := ascii "u" }

/-- A statement. -/
def example_sql : Bytes := ascii "select 1"

/-- A transfer answered with HTTP 200 whose body comes in the given chunks. -/
def reply_ok (chunks : List Bytes) : Response :=
  { chunks := chunks, outcome := CurlOutcome.http 200, errortext := [] }

/-- A transfer answered with HTTP 503 and an empty body. -/
def reply_busy : Response :=
  { chunks := [], outcome := CurlOutcome.http 503, errortext := [] }

/-- The reply of scenario S1: one column, state FINISHED, no `nextUri`. -/
def s1_body : Bytes :=
  ascii "\x7b\"stats\":\x7b\"state\":\"FINISHED\"\x7d,\"columns\":[\x7b\"name\":\"c1\",\"type\":\"bigint\"\x7d]\x7d"

/-- The first chunk of the first reply of scenario S2. -/
def s2_first_a : Bytes :=
  ascii "\x7b\"columns\":[\x7b\"name\":\"a\",\"type\":\"varchar\"\x7d,\x7b\"name\":\"b\",\"type\":\"bigint\"\x7d], \"data\":[[\"x\""

/-- The second chunk of the first reply of scenario S2. -/
def s2_first_b : Bytes :=
  ascii ",1]], \"nextUri\":\"http://h/n/1\",\"stats\":\x7b\"state\":\"RUNNING\"\x7d\x7d"

/-- The second reply of scenario S2. -/
def s2_second : Bytes :=
  ascii "\x7b\"data\":[[\"y\",2]],\"stats\":\x7b\"state\":\"FINISHED\"\x7d\x7d"

/-- The transfers of scenario S2. -/
def s2_script : List Response := [reply_ok [s2_first_a, s2_first_b], reply_ok [s2_second]]

/-- The transfers of scenario S3: 503 three times, then the first reply of S2. -/
def s3_script : List Response :=
  [reply_busy, reply_busy, reply_busy, reply_ok [s2_first_a, s2_first_b]]

/-- The transfers of scenario S4: 503 six times. -/
def s4_script : List Response :=
  [reply_busy, reply_busy, reply_busy, reply_busy, reply_busy, reply_busy]

/-- The front of a well-formed reply up to the first byte (195) of the
two-byte character U+00E9 in its only data value:
`{"columns":[{"name":"a","type":"varchar"}],"data":[["` and that byte. -/
def utf8_front : Bytes :=
  ascii "\x7b\"columns\":[\x7b\"name\":\"a\",\"type\":\"varchar\"\x7d],\"data\":[[\"" ++ [195]

/-- The rest of that reply: the second byte (169) of the character and `"]]}`. -/
def utf8_back : Bytes := [169] ++ ascii "\"]]\x7d"

/-- A reply at whose third byte the tokenizer meets a backslash outside a
string: `{"a":\}`. -/
def bad_body : Bytes := ascii "\x7b\"a\":\\\x7d"

/-- The front of the first reply of scenario S2, up to the colon after the
name `data`. -/
def s2_columns : Bytes :=
  ascii "\x7b\"columns\":[\x7b\"name\":\"a\",\"type\":\"varchar\"\x7d,\x7b\"name\":\"b\",\"type\":\"bigint\"\x7d], \"data\":"

/-- The result when the byte sink has taken `s2_columns`: two columns, the
value of `data` comes next. -/
def data_state : PRESTOCLIENT_RESULT :=
  (WriteCallback example_callbacks s2_columns new_prestoresult).1

/-- The result of scenario S2 when the POST has been answered. -/
def s2_posted : PRESTOCLIENT_RESULT :=
  (openuri example_callbacks PRESTOCLIENT_HTTP_REQUEST_TYPE_POST example_client s2_script
    new_prestoresult).1

/-! ## Columns: vocabulary and states -/

/-- The lexer is directly inside an element of a container named `columns`
that lies below at least one more container (the root object). -/
def in_columns_element (l : JSONLEXER) : Prop :=
  ∃ e1 t2 e3 rest, l.tagorder = e1 :: (t2, ascii "columns") :: e3 :: rest

/-- A column as `new_prestofield` and `alloc_copy` of the name make it. -/
def named_field (name : Bytes) : PRESTOCLIENT_FIELD :=
  { new_prestofield with name := alloc_copy none name }

/-- A reply that announces a column of type `date` and one of type `time`. -/
def date_time_body : Bytes :=
  ascii "\x7b\"columns\":[\x7b\"name\":\"d\",\"type\":\"date\"\x7d,\x7b\"name\":\"t\",\"type\":\"time\"\x7d]\x7d"

/-- The front of a reply up to the colon after the first column's `name`. -/
def column_name_front : Bytes := ascii "\x7b\"columns\":[\x7b\"name\":"

/-- The result when the byte sink has taken `column_name_front`. -/
def column_name_state : PRESTOCLIENT_RESULT :=
  (WriteCallback example_callbacks column_name_front new_prestoresult).1

/-- The front of a reply up to the colon after the first column's `type`. -/
def column_type_front : Bytes := ascii "\x7b\"columns\":[\x7b\"name\":\"a\",\"type\":"

/-- The result when the byte sink has taken `column_type_front`. -/
def column_type_state : PRESTOCLIENT_RESULT :=
  (WriteCallback example_callbacks column_type_front new_prestoresult).1

/-- The front of a reply up to the end of the first column's name. -/
def column_named_front : Bytes := ascii "\x7b\"columns\":[\x7b\"name\":\"a\""

/-! ## Cancellation: callbacks, scripts and counts -/

/-- Callbacks whose row callback calls `prestoclient_cancelquery` on every row. -/
def cancel_on_row : Callbacks :=
  { write_callback_function := some (fun _ => true)
    describe_callback_function := some (fun _ => false) }

/-- Callbacks whose describe callback calls `prestoclient_cancelquery`. -/
def cancel_on_describe : Callbacks :=
  { write_callback_function := some (fun _ => false)
    describe_callback_function := some (fun _ => true) }

/-- A transfer answered with the given HTTP code and an empty body. -/
def reply_code (code : Nat) : Response :=
  { chunks := [], outcome := CurlOutcome.http code, errortext := [] }

/-- The first reply of scenario S6: a cancel URI, a next URI, one column and
one row. -/
def s6_body : Bytes :=
  ascii "\x7b\"partialCancelUri\":\"http://h/c/1\",\"nextUri\":\"http://h/n/1\",\"columns\":[\x7b\"name\":\"a\",\"type\":\"varchar\"\x7d],\"data\":[[\"x\"]]\x7d"

/-- The transfers of scenario S6: the first reply, and a server that would
answer a DELETE with 204. -/
def s6_script : List Response := [reply_ok [s6_body], reply_code 204]

/-- A first reply with a cancel URI and a next URI, without columns. -/
def queued_body : Bytes :=
  ascii "\x7b\"partialCancelUri\":\"http://h/c/1\",\"nextUri\":\"http://h/n/1\"\x7d"

/-- The transfers of scenario S6 when the row arrives with the first GET: the
POST is answered with `queued_body`, the GET with `s6_body`, and the server
would answer a DELETE with 204. -/
def s6_get_script : List Response :=
  [reply_ok [queued_body], reply_ok [s6_body], reply_code 204]

/-- A second reply that announces a column and has a next URI. -/
def planned_body : Bytes :=
  ascii "\x7b\"columns\":[\x7b\"name\":\"a\",\"type\":\"varchar\"\x7d],\"nextUri\":\"http://h/n/2\"\x7d"

/-- The requests of a trace, in order. -/
def request_events (tr : List Event) : List Event :=
  tr.filter (fun e => match e with
    | Event.request _ _ => true
    | _ => false)

/-- The number of requests of the given kind in a trace. -/
def type_count (t : E_HTTP_REQUEST_TYPES) : List Event → Nat
  | [] => 0
  | Event.request t' _ :: rest => (if t' = t then 1 else 0) + type_count t rest
  | _ :: rest => type_count t rest

/-- The number of transfers of a script that the server answers with 503. -/
def busy_count : List Response → Nat
  | [] => 0
  | resp :: rest =>
    (if resp.outcome = CurlOutcome.http PRESTOCLIENT_CURL_EXPECT_HTTP_BUSY then 1 else 0) +
      busy_count rest

/-! ## The server error: vocabulary and scenarios -/

/-- Nothing is removed from the accumulated server error between `r` and `r'`:
a text already accumulated is the front of the text accumulated later. -/
def ErrMono (r r' : PRESTOCLIENT_RESULT) : Prop :=
  ∀ m, r.lasterrormessage = some m → ∃ s, r'.lasterrormessage = some (m ++ s)

/-- The lexer is directly inside an object named `failureInfo` that lies in a
container named `error`, below at least one more container (the root object). -/
def in_failure_info (l : JSONLEXER) : Prop :=
  ∃ n2 e3 rest, l.tagorder =
    (JSON_TT_OBJECT_OPEN, ascii "failureInfo") :: (n2, ascii "error") :: e3 :: rest

/-- The tokens of members with scalar values, `"name": value, ...`, without
the braces around them. -/
def scalar_members_tokens (ms : List (Bytes × Scalar)) : List Token :=
  sep_tokens (ms.map (fun m => [(JSON_TT_STRING, m.1), (JSON_TT_COLON, []), m.2.token]))

/-- The texts of the members named `type` or `message`, in document order. -/
def failure_values (ms : List (Bytes × Scalar)) : List Bytes :=
  (ms.filter (fun m => m.1 == ascii "type" || m.1 == ascii "message")).map (fun m => m.2.text)

/-- Texts put on lines of their own: joined by single newlines. -/
def join_lines : List Bytes → Bytes
  | [] => []
  | [v] => v
  | v :: w :: rest => v ++ [10] ++ join_lines (w :: rest)

/-- The first reply of scenario S5: one column, one row, a next URI. -/
def s5_first : Bytes :=
  ascii "\x7b\"columns\":[\x7b\"name\":\"a\",\"type\":\"varchar\"\x7d],\"data\":[[\"x\"]],\"nextUri\":\"http://h/n/1\"\x7d"

/-- The second reply of scenario S5: a server error, state FAILED. -/
def s5_second : Bytes :=
  ascii "\x7b\"error\":\x7b\"failureInfo\":\x7b\"type\":\"SYNTAX_ERROR\",\"message\":\"line 1:8: mismatched input\"\x7d\x7d,\"stats\":\x7b\"state\":\"FAILED\"\x7d\x7d"

/-- The transfers of scenario S5. -/
def s5_script : List Response := [reply_ok [s5_first], reply_ok [s5_second]]

/-- The front of a reply up to the brace that opens `failureInfo`. -/
def failure_front : Bytes := ascii "\x7b\"error\":\x7b\"failureInfo\":\x7b"

/-- The result when the byte sink has taken `failure_front`. -/
def failure_state : PRESTOCLIENT_RESULT :=
  (WriteCallback example_callbacks failure_front new_prestoresult).1

/-- The transfers of a query that the describe callback cancels after the
second reply, with a server that answers the DELETE with 503 and then 204. -/
def cancel_busy_script : List Response :=
  [reply_ok [queued_body], reply_ok [planned_body], reply_busy, reply_code 204]

/-- The transfers of a query that the describe callback cancels after the
second reply, with a server that answers the DELETE with 500. -/
def cancel_error_script : List Response :=
  [reply_ok [queued_body], reply_ok [planned_body], reply_code 500]

/-- The result of the query of `cancel_error_script` when the driver step of
the second reply has returned: the cancel flag is set, the DELETE has not
been made yet. -/
def cancel_pending : PRESTOCLIENT_RESULT :=
  (prestoclient_queryisrunning cancel_on_describe example_client
    [reply_ok [planned_body], reply_code 500]
    (openuri cancel_on_describe PRESTOCLIENT_HTTP_REQUEST_TYPE_POST example_client
      cancel_error_script new_prestoresult).1).1

/-! ## The client handle and the entry point (`prestoclient.c`, `prestoclientutils.c`) -/

/-- The source's `get_username`, in its variant for systems other than
Windows: a copy of the environment variable `USER`, whose value `getenv`
returns. `none` as the value is the NULL that `getenv` returns when the
variable is not set; `strlen` is handed that pointer then, and the `none`
returned here stands for the process that dies there. -/
def get_username (getenv_user : Option Bytes) : Option Bytes := getenv_user

/-- The port `prestoclient_init` stores: `new_prestoclient` sets the default,
and `*in_port` replaces it when `in_port` is not NULL and
`*in_port > 0 && *in_port <= 65535`. -/
def init_port (in_port : Option Nat) : Nat :=
  match in_port with
  | some p => if p > 0 ∧ p ≤ 65535 then p else PRESTOCLIENT_DEFAULT_PORT
  | none => PRESTOCLIENT_DEFAULT_PORT

/-- The entry point `prestoclient_init`. An argument `none` is a NULL pointer;
`in_port` is the `unsigned int` pointed at; `in_pwd` is not used by the source.
`getenv_user` is the environment variable `USER`, read when `in_user` is NULL.
The value `some none` is the NULL return value, `some (some c)` the handle of
the client `c`, and `none` a process that has died in `get_username`. -/
def prestoclient_init (getenv_user : Option Bytes) (in_server : Option Bytes)
    (in_port : Option Nat) (in_catalog in_user _in_pwd : Option Bytes) :
    Option (Option PRESTOCLIENT) :=
  match in_server with
  | none => some none
  | some server =>
    if server.length > 0 then
      match (match in_user with
        | some u => some u
        | none => get_username getenv_user) with
      | none => none
      | some user =>
        some (some
          { useragent := PRESTOCLIENT_SOURCE ++ ascii "/" ++ PRESTOCLIENT_VERSION
            server := server
            port := init_port in_port
            catalog := in_catalog.getD PRESTOCLIENT_DEFAULT_CATALOG
            user := user })
    else some none

/-- The entry point `prestoclient_query` with the outcome of `curl_easy_init`
as a parameter: `hcurl = false` is the NULL handle, for which the source
deletes the result and returns NULL. `prestoclient_query` is the case
`hcurl = true`. -/
def prestoclient_query_handle (cb : Callbacks) (prestoclient : Option PRESTOCLIENT)
    (in_sql_statement : Option Bytes) (hcurl : Bool) (script : List Response) :
    Option PRESTOCLIENT_RESULT :=
  match prestoclient, in_sql_statement with
  | some client, some sql =>
    if sql.length > 0 then
      (if hcurl then some (prestoclient_query_run cb client script) else none)
    else none
  | _, _ => none

/-- A reply at whose end a chunk boundary falls after the first two bytes
(226, 130) of the three-byte character U+20AC: `["` and those bytes. -/
def utf8_front3 : Bytes := ascii "[\"" ++ [226, 130]

/-! ## Statuses, columns, polling and the projector: vocabulary -/

/-- The order of the statuses: NONE first, then RUNNING, then SUCCEEDED and
FAILED, which are not comparable with each other. -/
def status_le (a b : E_CLIENTSTATUS) : Bool :=
  match a, b with
  | PRESTOCLIENT_STATUS_NONE, _ => true
  | PRESTOCLIENT_STATUS_RUNNING, PRESTOCLIENT_STATUS_NONE => false
  | PRESTOCLIENT_STATUS_RUNNING, _ => true
  | PRESTOCLIENT_STATUS_SUCCEEDED, PRESTOCLIENT_STATUS_SUCCEEDED => true
  | PRESTOCLIENT_STATUS_FAILED, PRESTOCLIENT_STATUS_FAILED => true
  | _, _ => false

/-- What the driver keeps about its status: a result whose status is SUCCEEDED
or FAILED has an empty next URI, unless cancellation has been requested. -/
def StatusInv (r : PRESTOCLIENT_RESULT) : Prop :=
  (r.clientstatus = PRESTOCLIENT_STATUS_SUCCEEDED ∨ r.clientstatus = PRESTOCLIENT_STATUS_FAILED) →
    (str_empty r.lastnexturi = true ∨ r.cancelquery = true)

/-- The time in milliseconds `prestoclient_waituntilfinished` asks `util_sleep`
for after a driver step that returned true. -/
def poll_interval (r : PRESTOCLIENT_RESULT) : Nat :=
  if r.dataavailable then PRESTOCLIENT_RETRIEVEWAITTIMEMSEC else PRESTOCLIENT_UPDATEWAITTIMEMSEC

/-- The result after `n` successive driver steps, with the sleep of
`prestoclient_waituntilfinished` after each step that returned true. Other than
the loop of the source this goes on after a step that returned false: the steps
after it are the later driver steps a caller could still ask for. -/
def driver_steps (cb : Callbacks) (client : PRESTOCLIENT) :
    Nat → List Response → PRESTOCLIENT_RESULT → PRESTOCLIENT_RESULT × List Response
  | 0, script, r => (r, script)
  | n + 1, script, r =>
    match prestoclient_queryisrunning cb client script r with
    | (r1, s1, false) => driver_steps cb client n s1 r1
    | (r1, s1, true) => driver_steps cb client n s1 (util_sleep (poll_interval r1) r1)

/-- The result of a query when the POST has been answered, and what is left
of the script. -/
def query_posted (cb : Callbacks) (client : PRESTOCLIENT) (script : List Response) :
    PRESTOCLIENT_RESULT × List Response :=
  openuri cb PRESTOCLIENT_HTTP_REQUEST_TYPE_POST client script new_prestoresult

/-- A relation between results that the byte sink keeps: it is reflexive and
transitive, the if-chain of the projector keeps it, and so does every change
of nothing but the tokenizer, the lexer, the response buffer and the fault
flag. -/
structure StepClosed (cb : Callbacks)
    (R : PRESTOCLIENT_RESULT → PRESTOCLIENT_RESULT → Prop) : Prop where
  refl : ∀ r, R r r
  trans : ∀ r1 r2 r3, R r1 r2 → R r2 r3 → R r1 r3
  dispatch : ∀ r, R r (json_extract_dispatch cb r)
  frame : ∀ (r : PRESTOCLIENT_RESULT) (j : JSONPARSER) (l : JSONLEXER) (buf : Bytes) (f : Bool),
    R r { r with json := j, lexer := l, lastresponse := buf, fault := f }

/-- A relation between results that the driver keeps: the byte sink keeps it,
and so do the record of a request or a sleep in the trace, a change of the
error code and the transport error text, the preparation of a request and the
bookkeeping after a GET. -/
structure DriverClosed (cb : Callbacks)
    (R : PRESTOCLIENT_RESULT → PRESTOCLIENT_RESULT → Prop) : Prop where
  sink : StepClosed cb R
  net : ∀ (r : PRESTOCLIENT_RESULT) (e : Event), is_net_event e = true →
    R r { r with trace := r.trace ++ [e] }
  error : ∀ (r : PRESTOCLIENT_RESULT) (c : E_RESULTCODES) (b : Option Bytes),
    R r { r with errorcode := c, curl_error_buffer := b }
  setup : ∀ (t : E_HTTP_REQUEST_TYPES) (r : PRESTOCLIENT_RESULT), R r (openuri_setup t r)
  after_get : ∀ r, R r (queryisrunning_after_get cb r)

/-- The column count does not go down from `r` to `r'`, and when the column
info is available in `r` it is still available in `r'` and the column count is
the same. -/
def ColMono (r r' : PRESTOCLIENT_RESULT) : Prop :=
  r.columns.length ≤ r'.columns.length ∧
    (r.columninfoavailable = true →
      r'.columninfoavailable = true ∧ r'.columns.length = r.columns.length)

/-- With a row callback registered, `dataavailable` is set exactly when the
row callback has been invoked. -/
def RowInv (cb : Callbacks) (r : PRESTOCLIENT_RESULT) : Prop :=
  cb.write_callback_function.isSome = true →
    (r.dataavailable = true ↔ row_events r.trace ≠ [])

/-- The link between `dataavailable` and the rows delivered is kept from `r`
to `r'`. -/
def RowKeep (cb : Callbacks) (r r' : PRESTOCLIENT_RESULT) : Prop :=
  RowInv cb r → RowInv cb r'

/-- The requests and sleeps recorded in `r` are still the front of those
recorded in `r'`. -/
def NetGrow (r r' : PRESTOCLIENT_RESULT) : Prop :=
  ∃ more, net_events r'.trace = net_events r.trace ++ more

/-- A reply with one more row and no next URI. -/
def last_body : Bytes := ascii "\x7b\"data\":[[\"z\"]]\x7d"

/-- The transfers of a query with three follow-up requests: the POST is
answered without columns, the first GET with a column, the second with a row,
the third with the last row. -/
def poll_script : List Response :=
  [reply_ok [queued_body], reply_ok [planned_body], reply_ok [s5_first], reply_ok [last_body]]

/-- The conditions under which the if-chain of `json_extract_variables` takes
a branch that assigns something: the container stack and the name are those of
the data branch, of one of the three URI branches, of the state branch, of one
of the two error branches, or of the column branch with the name `name` or,
when there is a column, `type`. -/
def projector_branch (r : PRESTOCLIENT_RESULT) : Prop :=
  (r.lexer.tagorder.length > 2 ∧ tagordername_back r.lexer 2 = ascii "data") ∨
  (r.lexer.tagorder.length = 1 ∧ r.lexer.name = ascii "infoUri") ∨
  (r.lexer.tagorder.length = 1 ∧ r.lexer.name = ascii "nextUri") ∨
  (r.lexer.tagorder.length = 1 ∧ r.lexer.name = ascii "partialCancelUri") ∨
  (r.lexer.tagorder.length > 1 ∧ tagordername_back r.lexer 1 = ascii "stats" ∧
    r.lexer.name = ascii "state") ∨
  (r.lexer.tagorder.length > 2 ∧ tagordername_back r.lexer 2 = ascii "error" ∧
    tagordername_back r.lexer 1 = ascii "failureInfo" ∧
    (r.lexer.name = ascii "type" ∨ r.lexer.name = ascii "message")) ∨
  (r.columninfoavailable = false ∧ r.lexer.tagorder.length > 2 ∧
    tagordername_back r.lexer 2 = ascii "columns" ∧
    (r.lexer.name = ascii "name" ∨ (r.columns.length > 0 ∧ r.lexer.name = ascii "type")))

/-- The part of the result that the projector fills: the column vector with
its cells, the cell cursor, the three URIs, the last server state and the
accumulated server error. -/
def projected_state (r : PRESTOCLIENT_RESULT) :
    List PRESTOCLIENT_FIELD × Int × Option Bytes × Option Bytes × Option Bytes × Option Bytes ×
      Option Bytes :=
  (r.columns, r.currentdatacolumn, r.lastinfouri, r.lastnexturi, r.lastcanceluri, r.laststate,
    r.lasterrormessage)

/-- A reply in which a member `stats` with a member `state` lies inside an
unknown member `x` of the root object: `{"x":{"stats":{"state":"Z"}}}`. -/
def nested_stats_body : Bytes :=
  ascii "\x7b\"x\":\x7b\"stats\":\x7b\"state\":\"Z\"\x7d\x7d\x7d"

/-- A reply with one column in which a member `data` with a row lies inside
an unknown member `x` of the root object. -/
def nested_data_body : Bytes :=
  ascii "\x7b\"columns\":[\x7b\"name\":\"a\",\"type\":\"varchar\"\x7d],\"x\":\x7b\"data\":[[\"v\"]]\x7d\x7d"

/-! ## Characters and tokens: vocabulary -/

/-- The bytes of a sequence of characters, one after another. -/
def chars_bytes : List Bytes → Bytes
  | [] => []
  | c :: rest => c ++ chars_bytes rest

/-- A character as the tokenizer takes it from a zero-terminated buffer: it
has as many bytes as `json_getnextchar` declares for its first byte, and no
byte of it is zero. -/
def is_char (c : Bytes) : Bool :=
  c != [] && c.length == json_clength (c.getD 0 0) && c.all (fun b => b != 0)

/-- The control class `json_getnextchar` gives to a character: that of its
first byte. -/
def char_control (c : Bytes) : E_JSON_CONTROL_CHARS := json_control (c.getD 0 0)

/-- The characters can stand between the quotes of a string, `esc` saying
whether the character before them was an escaping backslash: none of them is
a double quote, unless it comes right after an escaping backslash, and the
last of them is not an escaping backslash. A backslash is an escaping one
unless it comes right after an escaping backslash. -/
def string_content : Bool → List Bytes → Bool
  | esc, [] => !esc
  | true, _ :: rest => string_content false rest
  | false, c :: rest =>
    char_control c != JSON_CC_QT && string_content (char_control c == JSON_CC_BS) rest

/-- Whether the character ends a token that is not a string: `]`, `}` or `,`. -/
def is_terminator (c : Bytes) : Bool :=
  char_control c == JSON_CC_AC || char_control c == JSON_CC_OC || char_control c == JSON_CC_COMMA

/-- The kind `json_parser` gives to a token that is not a string, from the
front of its text. -/
def nonstring_kind (text : Bytes) : E_JSON_TAGTYPES :=
  if strncmp_eq text (ascii "true") then JSON_TT_TRUE
  else if strncmp_eq text (ascii "false") then JSON_TT_FALSE
  else if strncmp_eq text (ascii "null") then JSON_TT_NULL
  else JSON_TT_NUMBER

/-- The kind of the structural token for a terminator. -/
def terminator_kind (c : Bytes) : E_JSON_TAGTYPES :=
  match char_control c with
  | JSON_CC_AC => JSON_TT_ARRAY_CLOSE
  | JSON_CC_OC => JSON_TT_OBJECT_CLOSE
  | _ => JSON_TT_COMMA

/-- The tokenizer state in which `json_parser` returns a token that is not a
string: back in the SEARCH state, the text in the tag buffer, the kind decided
from it, and the terminator `t`, which has been read, kept for the next call
(`skipnextread`). -/
def after_nonstring (j : JSONPARSER) (readposition : Nat) (t text : Bytes) : JSONPARSER :=
  { state := JSON_RS_SEARCH_OBJECT
    isbackslash := j.isbackslash
    readposition := readposition
    skipnextread := true
    error := false
    c := t
    control := char_control t
    clength := t.length
    tagbuffer := text
    tagtype := nonstring_kind text }

/-- A reply with a column of type boolean and one row, up to the middle of
the value `true`. -/
def split_literal_front : Bytes :=
  ascii "\x7b\"columns\":[\x7b\"name\":\"a\",\"type\":\"boolean\"\x7d],\"data\":[[tr"

/-- The rest of that reply. -/
def split_literal_back : Bytes := ascii "ue]]\x7d"

/-- Whether the characters, read inside a string with `esc` saying whether
the character before them was an escaping backslash, leave the string open:
`none` when one of them is a double quote that closes the string, otherwise
whether the last of them is an escaping backslash. -/
def string_scan : Bool → List Bytes → Option Bool
  | esc, [] => some esc
  | true, _ :: rest => string_scan false rest
  | false, c :: rest =>
    if char_control c = JSON_CC_QT then none
    else string_scan (char_control c == JSON_CC_BS) rest

/-! ## The cursor and the columns: invariants -/

/-- The cell cursor is in step with the column vector: it is at -1, or it is
the index of a cell that is not the last of its row. -/
def CellInv (r : PRESTOCLIENT_RESULT) : Prop :=
  r.currentdatacolumn = -1 ∨
    (0 ≤ r.currentdatacolumn ∧ r.currentdatacolumn + 1 < (r.columns.length : Int))

/-- What every operation of the library keeps of the lexer's error flag and of
the cell cursor: the flag is not set, and in a live result the cursor is in
step with the column vector. -/
def LexInv (r : PRESTOCLIENT_RESULT) : Prop :=
  r.lexer.error = false ∧ (r.fault = false → CellInv r)

/-- A reply whose `data` comes without any column having been announced. -/
def data_only_body : Bytes := ascii "\x7b\"data\":[[1]]\x7d"

/-! ## Rows by cell count: vocabulary -/

/-- The complete rows of `n` cells in a stream of cells: there are
`cells.length / n` of them, and the one with index `j` (from 0) is made of the
cells with indices `j * n` to `j * n + n - 1`. -/
def full_rows (n : Nat) (cells : List (Bytes × Bool)) : List (List (Bytes × Bool)) :=
  (List.range (cells.length / n)).map (fun j => (cells.drop (j * n)).take n)

/-- The cells of the row that is being filled: those of the columns up to the
cursor. -/
def pending_cells (r : PRESTOCLIENT_RESULT) : List (Bytes × Bool) :=
  (row_view r).take (r.currentdatacolumn + 1).toNat

/-- The result `r'` is what the data branch of the projector makes of `r` when
it is fed the cells `vs`, by counting cells only: the rows delivered are the
complete rows of the cells of the unfinished row of `r` followed by `vs`, each
delivered with the cursor at -1, the cells left over are those of the
unfinished row of `r'`, the column count is the same, the cursor of `r'` is in
step with the columns and no fault has arisen. -/
structure CellFeed (vs : List (Bytes × Bool)) (r r' : PRESTOCLIENT_RESULT) : Prop where
  rows : row_events r'.trace = row_events r.trace ++
    (full_rows r.columns.length (pending_cells r ++ vs)).map (fun c => Event.row c (-1))
  pending : pending_cells r' =
    (pending_cells r ++ vs).drop
      ((pending_cells r ++ vs).length / r.columns.length * r.columns.length)
  len : r'.columns.length = r.columns.length
  inv : CellInv r'
  fault : r'.fault = false

/-- A reply with two columns whose data sub-arrays hold one, two and three
values: `[[1],[2,3],[4,5,6]]`. -/
def ragged_body : Bytes :=
  ascii "\x7b\"columns\":[\x7b\"name\":\"a\",\"type\":\"bigint\"\x7d,\x7b\"name\":\"b\",\"type\":\"bigint\"\x7d],\"data\":[[1],[2,3],[4,5,6]]\x7d"

/-- The first reply of a query with two columns whose data, `[[1],[2,3]]`,
ends in the middle of a row. -/
def ragged_first : Bytes :=
  ascii "\x7b\"nextUri\":\"http://h/n/1\",\"columns\":[\x7b\"name\":\"a\",\"type\":\"bigint\"\x7d,\x7b\"name\":\"b\",\"type\":\"bigint\"\x7d],\"data\":[[1],[2,3]]\x7d"

/-- The second reply of that query, with the data `[[4]]`. -/
def ragged_second : Bytes := ascii "\x7b\"data\":[[4]]\x7d"

/-! ## Repeated columns: vocabulary -/

/-- The tokens of an element `{"name": n, "type": t}` of `columns`, given as
the pair of the two texts. -/
def column_tokens (c : Bytes × Bytes) : List Token :=
  [(JSON_TT_OBJECT_OPEN, []), (JSON_TT_STRING, ascii "name"), (JSON_TT_COLON, []),
    (JSON_TT_STRING, c.1), (JSON_TT_COMMA, []), (JSON_TT_STRING, ascii "type"),
    (JSON_TT_COLON, []), (JSON_TT_STRING, c.2), (JSON_TT_OBJECT_CLOSE, [])]

/-- The tokens of the value of a member `columns`: an array of elements. -/
def columns_tokens (cols : List (Bytes × Bytes)) : List Token :=
  (JSON_TT_ARRAY_OPEN, []) :: sep_tokens (cols.map column_tokens) ++ [(JSON_TT_ARRAY_CLOSE, [])]

/-- The column made for an element of `columns` with the given name and type
text. -/
def column_field (c : Bytes × Bytes) : PRESTOCLIENT_FIELD :=
  { name := some c.1, type := presto_type_of c.2, data := [], dataisnull := false }

/-- The tokens of a reply up to the end of its member `columns` and the
scalar members after it: the root object is opened, the scalar members `pre`
come first, then the member `columns` with the elements `cols`, then the
scalar members `post`. -/
def columns_head (pre : List (Bytes × Scalar)) (cols : List (Bytes × Bytes))
    (post : List (Bytes × Scalar)) : List Token :=
  (JSON_TT_OBJECT_OPEN, []) ::
    (pre.map (fun m => [(JSON_TT_STRING, m.1), (JSON_TT_COLON, []), m.2.token,
      (JSON_TT_COMMA, [])])).flatten ++
    (JSON_TT_STRING, ascii "columns") :: (JSON_TT_COLON, []) :: columns_tokens cols ++
    (post.map (fun m => [(JSON_TT_COMMA, []), (JSON_TT_STRING, m.1), (JSON_TT_COLON, []),
      m.2.token])).flatten

/-- The tokens of a reply without data that announces the columns `cols`. -/
def columns_reply (pre : List (Bytes × Scalar)) (cols : List (Bytes × Bytes))
    (post : List (Bytes × Scalar)) : List Token :=
  columns_head pre cols post ++ [(JSON_TT_OBJECT_CLOSE, [])]

/-- The tokens of a reply that announces the columns `cols` and carries the
rows `rows` in a member `data` after them. -/
def columns_data_reply (pre : List (Bytes × Scalar)) (cols : List (Bytes × Bytes))
    (post : List (Bytes × Scalar)) (rows : List (List Scalar)) : List Token :=
  columns_head pre cols post ++
    (JSON_TT_COMMA, []) :: (JSON_TT_STRING, ascii "data") :: (JSON_TT_COLON, []) ::
      data_tokens rows ++ [(JSON_TT_OBJECT_CLOSE, [])]

/-- The result as the follow-up GET finds it when its reply starts to arrive:
`openuri` has emptied the error buffer and the next URI and has reset the
error code, and the request has been made. -/
def get_started (url : Bytes) (r : PRESTOCLIENT_RESULT) : PRESTOCLIENT_RESULT :=
  { openuri_setup PRESTOCLIENT_HTTP_REQUEST_TYPE_GET r with
    trace := r.trace ++ [Event.request PRESTOCLIENT_HTTP_REQUEST_TYPE_GET url] }

/-- From `r` to `r'` the columns `F` have been appended; column flag, cursor,
container stack and fault mark are the same. -/
structure ColsFeed (F : List PRESTOCLIENT_FIELD) (r r' : PRESTOCLIENT_RESULT) : Prop where
  columns : r'.columns = r.columns ++ F
  avail : r'.columninfoavailable = r.columninfoavailable
  fault : r'.fault = r.fault
  stack : r'.lexer.tagorder = r.lexer.tagorder
  cursor : r'.currentdatacolumn = r.currentdatacolumn

/-- A data value has been dispatched: the cursor is not at -1, or a row has
been completed. -/
def DataMark (r : PRESTOCLIENT_RESULT) : Prop :=
  r.currentdatacolumn ≠ -1 ∨ r.dataavailable = true

/-- From `r` to `r'`, as long as the status is NONE (no follow-up GET has been
completed): the column info has become available only if a data value has
been dispatched. -/
def PostKeep (r r' : PRESTOCLIENT_RESULT) : Prop :=
  r'.clientstatus = PRESTOCLIENT_STATUS_NONE →
    r.clientstatus = PRESTOCLIENT_STATUS_NONE ∧
      (-1 ≤ r.currentdatacolumn →
        -1 ≤ r'.currentdatacolumn ∧ (DataMark r → DataMark r') ∧
          (r'.columninfoavailable = true → r.columninfoavailable = true ∨ DataMark r'))

/-- A reply to the POST that announces two columns, has a next URI and carries
no data. -/
def twice_first : Bytes :=
  ascii "\x7b\"nextUri\":\"http://h/n/1\",\"columns\":[\x7b\"name\":\"a\",\"type\":\"varchar\"\x7d,\x7b\"name\":\"b\",\"type\":\"bigint\"\x7d]\x7d"

/-- A reply to the follow-up GET that announces the same two columns again,
followed by data, and has no next URI. -/
def twice_second : Bytes :=
  ascii "\x7b\"columns\":[\x7b\"name\":\"a\",\"type\":\"varchar\"\x7d,\x7b\"name\":\"b\",\"type\":\"bigint\"\x7d],\"data\":[[\"x\",1],[\"y\",2]]\x7d"

/-- The transfers of a query whose POST is answered with `twice_first` and
whose follow-up GET is answered with `twice_second`. -/
def repeat_script : List Response := [reply_ok [twice_first], reply_ok [twice_second]]

/-! ## Name and value pairing: documents and invocations -/

mutual
/-- A JSON value: a scalar, an object with its members in order, or an array
with its elements in order. -/
inductive Json
  | scalar (s : Scalar)
  | object (ms : Members)
  | array (es : Elements)
/-- The members of an object: name and value, in order. -/
inductive Members
  | nil
  | cons (name : Bytes) (value : Json) (rest : Members)
/-- The elements of an array, in order. -/
inductive Elements
  | nil
  | cons (value : Json) (rest : Elements)
end

mutual
/-- The tokens the tokenizer returns for a JSON value. -/
def Json.tokens : Json → List Token
  | Json.scalar s => [s.token]
  | Json.object ms => 
    (JSON_TT_OBJECT_OPEN, []) :: (Members.tokens ms true ++ [(JSON_TT_OBJECT_CLOSE, [])])
  | Json.array es => 
    (JSON_TT_ARRAY_OPEN, []) :: (Elements.tokens es true ++ [(JSON_TT_ARRAY_CLOSE, [])])
/-- The tokens of the members of an object; a comma comes before every member
but the first. -/
def Members.tokens : Members → Bool → List Token
  | Members.nil, _ => []
  | Members.cons name value rest, first =>
    (if first then [] else [(JSON_TT_COMMA, [])]) ++
      (JSON_TT_STRING, name) :: (JSON_TT_COLON, []) ::
        (Json.tokens value ++ Members.tokens rest false)
/-- The tokens of the elements of an array; a comma comes before every element
but the first. -/
def Elements.tokens : Elements → Bool → List Token
  | Elements.nil, _ => []
  | Elements.cons value rest, first =>
    (if first then [] else [(JSON_TT_COMMA, [])]) ++
      (Json.tokens value ++ Elements.tokens rest false)
end

mutual
/-- Every member name of the value is shorter than 20 bytes. -/
def Json.names_short : Json → Prop
  | Json.scalar _ => True
  | Json.object ms => Members.names_short ms
  | Json.array es => Elements.names_short es
/-- Every member name of these members and of their values is shorter than 20
bytes. -/
def Members.names_short : Members → Prop
  | Members.nil => True
  | Members.cons name value rest =>
    name.length < 20 ∧ Json.names_short value ∧ Members.names_short rest
/-- Every member name in these elements is shorter than 20 bytes. -/
def Elements.names_short : Elements → Prop
  | Elements.nil => True
  | Elements.cons value rest => Json.names_short value ∧ Elements.names_short rest
end

/-- What the projector is given at one invocation: the path stack (innermost
container first, each with its kind and the name it is a member under, empty
for an element of an array and for the document), the token before the value,
the pending name and the scalar value. -/
structure Dispatch where
  stack : List (E_JSON_TAGTYPES × Bytes)
  previoustag : E_JSON_TAGTYPES
  name : Bytes
  value : Scalar

mutual
/-- The invocations of the projector a JSON value calls for, in document
order, when the value stands under the containers `stack`, after the token
`prev`, as the value of a member `name` (empty for an array element): a scalar
is dispatched once, with that stack and that name; the values of an object or
an array are dispatched with the container put on the stack under the name. -/
def Json.dispatches (stack : List (E_JSON_TAGTYPES × Bytes)) (prev : E_JSON_TAGTYPES)
    (name : Bytes) : Json → List Dispatch
  | Json.scalar s => [{ stack := stack, previoustag := prev, name := name, value := s }]
  | Json.object ms => Members.dispatches ((JSON_TT_OBJECT_OPEN, name) :: stack) ms
  | Json.array es => Elements.dispatches ((JSON_TT_ARRAY_OPEN, name) :: stack) true es
/-- The invocations for the members of an object: each value under its own
name, after the colon. -/
def Members.dispatches (stack : List (E_JSON_TAGTYPES × Bytes)) : Members → List Dispatch
  | Members.nil => []
  | Members.cons name value rest =>
    Json.dispatches stack JSON_TT_COLON name value ++ Members.dispatches stack rest
/-- The invocations for the elements of an array: each value with an empty
name, after the bracket or the comma. -/
def Elements.dispatches (stack : List (E_JSON_TAGTYPES × Bytes)) :
    Bool → Elements → List Dispatch
  | _, Elements.nil => []
  | first, Elements.cons value rest =>
    Json.dispatches stack (if first then JSON_TT_ARRAY_OPEN else JSON_TT_COMMA) [] value ++
      Elements.dispatches stack false rest
end

/-- The kind of the last token of a JSON value. -/
def Json.last_tag : Json → E_JSON_TAGTYPES
  | Json.scalar s => s.token.1
  | Json.object _ => JSON_TT_OBJECT_CLOSE
  | Json.array _ => JSON_TT_ARRAY_CLOSE

/-- The kind of the last token of the members of an object, `prev` when there
is no member. -/
def Members.last_tag (prev : E_JSON_TAGTYPES) : Members → E_JSON_TAGTYPES
  | Members.nil => prev
  | Members.cons _ value rest => Members.last_tag (Json.last_tag value) rest

/-- The kind of the last token of the elements of an array, `prev` when there
is no element. -/
def Elements.last_tag (prev : E_JSON_TAGTYPES) : Elements → E_JSON_TAGTYPES
  | Elements.nil => prev
  | Elements.cons value rest => Elements.last_tag (Json.last_tag value) rest

/-- One invocation of the projector as `json_lexer` makes it for a scalar: the
if-chain of `json_extract_variables` runs with the given stack, pending name
and value, then name and value are emptied and the token is recorded. -/
def dispatch (cb : Callbacks) (d : Dispatch) (r : PRESTOCLIENT_RESULT) : PRESTOCLIENT_RESULT :=
  lex_finish (json_extract_dispatch cb (lex_scalar_state d.value
    { r with lexer := { r.lexer with
        tagorder := d.stack, previoustag := d.previoustag, name := d.name } }))

/-- The invocations `ds` of the projector one after another; nothing is done
after a fault. -/
def dispatch_all (cb : Callbacks) : List Dispatch → PRESTOCLIENT_RESULT → PRESTOCLIENT_RESULT
  | [], r => r
  | d :: ds, r => if r.fault then r else dispatch_all cb ds (dispatch cb d r)

/-- The bookkeeping of the lexer when a value has been handled: the stack is
the one the value stood under, no name is pending, and the last token is
recorded. -/
def settle (stack : List (E_JSON_TAGTYPES × Bytes)) (tag : E_JSON_TAGTYPES)
    (r : PRESTOCLIENT_RESULT) : PRESTOCLIENT_RESULT :=
  { r with
    lexer := { r.lexer with tagorder := stack, name := [], previoustag := tag }
    json := { r.json with tagtype := tag, tagbuffer := [] } }

/-- A document: the object
`{"id":"q1","stats":{"state":"RUNNING","n":[1,true]},"tags":["x",{"k":null}]}`. -/
def pairing_doc : Json :=
  Json.object
    (Members.cons (ascii "id") (Json.scalar (Scalar.str (ascii "q1")))
      (Members.cons (ascii "stats")
        (Json.object
          (Members.cons (ascii "state") (Json.scalar (Scalar.str (ascii "RUNNING")))
            (Members.cons (ascii "n")
              (Json.array
                (Elements.cons (Json.scalar (Scalar.num (ascii "1")))
                  (Elements.cons (Json.scalar Scalar.tru) Elements.nil)))
              Members.nil)))
        (Members.cons (ascii "tags")
          (Json.array
            (Elements.cons (Json.scalar (Scalar.str (ascii "x")))
              (Elements.cons
                (Json.object
                  (Members.cons (ascii "k") (Json.scalar Scalar.nul) Members.nil))
                Elements.nil)))
          Members.nil)))

/-- The results `r` and `r'` differ at most in the lexer's bookkeeping: the
stack, the pending name, the token recorded last and the tag buffer. -/
def SameData (r r' : PRESTOCLIENT_RESULT) : Prop :=
  settle [] JSON_TT_UNKNOWN r = settle [] JSON_TT_UNKNOWN r'

/-- The run of the lexer over the tokens of the value `v`, from any result in
which the value may stand, is the run of the invocations of the projector
`v` calls for, and leaves the lexer's bookkeeping settled. -/
def ValueRun (cb : Callbacks) (v : Json) : Prop :=
  ∀ r : PRESTOCLIENT_RESULT, r.fault = false → v.names_short → r.lexer.name.length < 20 →
    (∀ t, v = Json.scalar (Scalar.str t) →
      r.lexer.previoustag = JSON_TT_COLON ∨ json_in_array r.lexer = true) →
    SameData (lex_tokens cb v.tokens r)
        (dispatch_all cb (v.dispatches r.lexer.tagorder r.lexer.previoustag r.lexer.name) r) ∧
      ((lex_tokens cb v.tokens r).fault = false →
        settle r.lexer.tagorder v.last_tag (lex_tokens cb v.tokens r) =
          lex_tokens cb v.tokens r)

/-- The same for the members of an object, from a result directly inside the
object. -/
def MembersRun (cb : Callbacks) (ms : Members) : Prop :=
  ∀ (first : Bool) (r : PRESTOCLIENT_RESULT), r.fault = false → ms.names_short →
    json_in_array r.lexer = false → settle r.lexer.tagorder r.lexer.previoustag r = r →
    (first = true → r.lexer.previoustag ≠ JSON_TT_COLON) →
    SameData (lex_tokens cb (ms.tokens first) r)
        (dispatch_all cb (ms.dispatches r.lexer.tagorder) r) ∧
      ((lex_tokens cb (ms.tokens first) r).fault = false →
        settle r.lexer.tagorder (ms.last_tag r.lexer.previoustag)
            (lex_tokens cb (ms.tokens first) r) =
          lex_tokens cb (ms.tokens first) r)

/-- The same for the elements of an array, from a result directly inside the
array. -/
def ElementsRun (cb : Callbacks) (es : Elements) : Prop :=
  ∀ (first : Bool) (r : PRESTOCLIENT_RESULT), r.fault = false → es.names_short →
    json_in_array r.lexer = true → settle r.lexer.tagorder r.lexer.previoustag r = r →
    (first = true → r.lexer.previoustag = JSON_TT_ARRAY_OPEN) →
    SameData (lex_tokens cb (es.tokens first) r)
        (dispatch_all cb (es.dispatches r.lexer.tagorder first) r) ∧
      ((lex_tokens cb (es.tokens first) r).fault = false →
        settle r.lexer.tagorder (es.last_tag r.lexer.previoustag)
            (lex_tokens cb (es.tokens first) r) =
          lex_tokens cb (es.tokens first) r)

/-! ## A retried follow-up: scenario -/

/-- The body of a 503 answer that names a next URI. -/
def stale_body : Bytes := ascii "\x7b\"nextUri\":\"http://h/stale\"\x7d"

/-- A transfer answered with HTTP 503 whose body is `stale_body`. -/
def reply_busy_stale : Response :=
  { chunks := [stale_body], outcome := CurlOutcome.http 503, errortext := [] }

/-- The transfers that answer a follow-up GET first with 503 and the body
`stale_body`, then with 200 and the reply `{}`, which has no `nextUri`. -/
def stale_script : List Response := [reply_busy_stale, reply_ok [ascii "\x7b\x7d"]]

/-! ## Theorems -/

/-! ## The loops run to their end -/

theorem json_clength_pos (b : Nat) : 1 ≤ json_clength b := by
  unfold json_clength; split_ifs <;> omega

theorem json_getnextchar_measure (buf : Bytes) (j j1 : JSONPARSER)
    (h : json_getnextchar buf j = (j1, true)) :
    j1.skipnextread = false ∧ j1.state = j.state ∧
      (j.skipnextread = true → j1.control = j.control ∧
        2 * (buf.length - j1.readposition) = 2 * (buf.length - j.readposition)) ∧
      (j.skipnextread = false →
        2 * (buf.length - j1.readposition) + 2 ≤ 2 * (buf.length - j.readposition)) := by
  unfold json_getnextchar at h
  by_cases h1 : j.skipnextread = true
  · rw [if_pos h1] at h
    injection h with h _
    subst h; simp [h1]
  · rw [if_neg h1] at h
    by_cases h2 : buf.length = 0 ∨ j.readposition > buf.length - 1 ∨ buf.getD j.readposition 0 = 0
    · rw [if_pos h2] at h
      injection h with _ h; cases h
    · rw [if_neg h2] at h
      by_cases h3 : j.readposition + json_clength (buf.getD j.readposition 0) > buf.length
      · simp only [h3, if_true] at h
        injection h with _ h; cases h
      · have hc := json_clength_pos (buf.getD j.readposition 0)
        simp only [h3, if_false] at h
        injection h with h _
        subst h
        have h1' : j.skipnextread = false := by simpa using h1
        refine ⟨h1', rfl, ?_, ?_⟩
        · intro hh; rw [h1'] at hh; cases hh
        · intro _
          show 2 * (buf.length - (j.readposition + json_clength (buf.getD j.readposition 0))) + 2 ≤ _
          omega

theorem json_parser_step_measure (j j2 : JSONPARSER) (b : Bool)
    (hs : j.skipnextread = false) (h : json_parser_step j = (j2, b)) :
    j2.readposition = j.readposition ∧ json_skip_extra j2 ≤ 1 ∧
      (j2.skipnextread = true → json_skip_extra { j with skipnextread := true } = 2) ∧
      (j2.skipnextread = false → json_skip_extra j2 = 0) := by
  unfold json_parser_step at h
  split at h
  · split at h <;> injection h with h h' <;> subst h <;> simp_all [json_skip_extra]
  · split_ifs at h <;> injection h with h h' <;> subst h <;>
      simp_all [json_skip_extra, json_addtotag]
  · split_ifs at h with hc <;> injection h with h h' <;> subst h <;>
      simp_all [json_skip_extra, json_addtotag]
    all_goals rcases hc with hc | hc | hc <;> simp [hc]

/-- Every pass of the tokenizer loop that gets a character lowers `json_measure`. -/
theorem json_parser_pass_measure (buf : Bytes) (j j1 j2 : JSONPARSER) (b : Bool)
    (hg : json_getnextchar buf j = (j1, true)) (hp : json_parser_step j1 = (j2, b)) :
    json_measure buf j2 < json_measure buf j := by
  obtain ⟨hsk, hst, hA, hB⟩ := json_getnextchar_measure buf j j1 hg
  obtain ⟨hpos, hle, hS, hN⟩ := json_parser_step_measure j1 j2 b hsk hp
  unfold json_measure
  rw [hpos]
  by_cases hj : j.skipnextread = true
  · obtain ⟨hc, hr⟩ := hA hj
    have hj1 : ({ j1 with skipnextread := true } : JSONPARSER).state = j.state ∧
        ({ j1 with skipnextread := true } : JSONPARSER).control = j.control := ⟨hst, hc⟩
    by_cases h2s : j2.skipnextread = true
    · have h2 := hS h2s
      have : json_skip_extra j = 2 := by
        rw [← h2]; simp only [json_skip_extra, hj]; simp [hst, hc]
      have h3 : json_skip_extra j2 ≤ 1 := hle
      omega
    · have h2 := hN (by simpa using h2s)
      have : 1 ≤ json_skip_extra j := by
        simp only [json_skip_extra, hj]; simp; split_ifs <;> omega
      omega
  · have hj' : j.skipnextread = false := by simpa using hj
    have := hB hj'
    have : json_skip_extra j = 0 := by simp [json_skip_extra, hj']
    omega

/-- The tokenizer loop never runs out of fuel: any two amounts of fuel greater
than `json_measure` give the same result. -/
theorem json_parser_loop_fuel (buf : Bytes) :
    ∀ (f1 f2 : Nat) (j : JSONPARSER), json_measure buf j < f1 → json_measure buf j < f2 →
      json_parser_loop buf f1 j = json_parser_loop buf f2 j := by
  intro f1
  induction f1 with
  | zero => intro f2 j h; omega
  | succ n ih =>
    intro f2 j h1 h2
    cases f2 with
    | zero => omega
    | succ m =>
      unfold json_parser_loop
      by_cases he : j.error = true
      · simp [he]
      · simp only [he, if_false]
        rcases hg : json_getnextchar buf j with ⟨j1, b⟩
        cases b with
        | false => rfl
        | true =>
          simp only
          rcases hp : json_parser_step j1 with ⟨j2, b2⟩
          cases b2 with
          | true => rfl
          | false =>
            simp only
            have hm := json_parser_pass_measure buf j j1 j2 false hg hp
            exact ih m j2 (by omega) (by omega)

/-- A token returned by the tokenizer loop has lowered `json_measure`. -/
theorem json_parser_loop_measure (buf : Bytes) :
    ∀ (fuel : Nat) (j j' : JSONPARSER), json_parser_loop buf fuel j = (j', true) →
      json_measure buf j' < json_measure buf j := by
  intro fuel
  induction fuel with
  | zero => intro j j' h; simp [json_parser_loop] at h
  | succ n ih =>
    intro j j' h
    unfold json_parser_loop at h
    by_cases he : j.error = true
    · simp [he] at h
    · simp only [he, if_false] at h
      rcases hg : json_getnextchar buf j with ⟨j1, b⟩
      rw [hg] at h
      cases b with
      | false => simp at h
      | true =>
        simp only at h
        rcases hp : json_parser_step j1 with ⟨j2, b2⟩
        rw [hp] at h
        have hm := json_parser_pass_measure buf j j1 j2 b2 hg hp
        cases b2 with
        | true =>
          simp only at h
          injection h with h _
          subst h; exact hm
        | false =>
          simp only at h
          have := ih j2 j' h
          omega
/-! ## What the lexer and the projector leave alone -/

theorem LexStep.lex_refl (cb : Callbacks) (r : PRESTOCLIENT_RESULT) : LexStep cb r r :=
  ⟨rfl, rfl, rfl, rfl, rfl, rfl, id, id⟩

theorem LexStep.lex_trans {cb : Callbacks} {a b c : PRESTOCLIENT_RESULT}
    (h1 : LexStep cb a b) (h2 : LexStep cb b c) : LexStep cb a c :=
  ⟨h2.clientstatus.trans h1.clientstatus, h2.errorcode.trans h1.errorcode,
    h2.curl_error_buffer.trans h1.curl_error_buffer, h2.lastresponse.trans h1.lastresponse,
    h2.json.trans h1.json, h2.net.trans h1.net, fun h => h2.cancelquery (h1.cancelquery h),
    fun h => h2.inv (h1.inv h)⟩

@[simp] theorem is_describe_event_describe (c) : is_describe_event (Event.describe c) = true := rfl
@[simp] theorem is_describe_event_row (c k) : is_describe_event (Event.row c k) = false := rfl
@[simp] theorem is_describe_event_request (t u) : is_describe_event (Event.request t u) = false := rfl
@[simp] theorem is_describe_event_sleep (n) : is_describe_event (Event.sleep n) = false := rfl
@[simp] theorem is_row_event_describe (c) : is_row_event (Event.describe c) = false := rfl
@[simp] theorem is_row_event_row (c k) : is_row_event (Event.row c k) = true := rfl
@[simp] theorem is_row_event_request (t u) : is_row_event (Event.request t u) = false := rfl
@[simp] theorem is_row_event_sleep (n) : is_row_event (Event.sleep n) = false := rfl
@[simp] theorem is_net_event_describe (c) : is_net_event (Event.describe c) = false := rfl
@[simp] theorem is_net_event_row (c k) : is_net_event (Event.row c k) = false := rfl
@[simp] theorem is_net_event_request (t u) : is_net_event (Event.request t u) = true := rfl
@[simp] theorem is_net_event_sleep (n) : is_net_event (Event.sleep n) = true := rfl

theorem describe_count_append (a b : List Event) :
    describe_count (a ++ b) = describe_count a + describe_count b := by
  simp [describe_count]

theorem first_callback_append (a b : List Event) :
    first_callback (a ++ b) = (first_callback a).or (first_callback b) := by
  simp [first_callback, List.find?_append]

/-- Before the describe callback has run no callback has run. -/
theorem DescInv.no_callback {cb : Callbacks} {r : PRESTOCLIENT_RESULT} (h : DescInv cb r)
    (hp : r.columninfoprinted = false) : first_callback r.trace = none := by
  unfold first_callback
  rw [List.find?_eq_none]
  intro e he
  have hc := h.count
  simp only [hp, Bool.false_eq_true, false_and, if_false] at hc
  cases e with
  | describe cols =>
    have := (h.view cols he).1
    have := h.avail this
    rw [hp] at this; cases this
  | row cells cur =>
    have := (h.rows cells cur he).1
    have := h.avail this
    rw [hp] at this; cases this
  | request t u => simp [is_callback_event]
  | sleep n => simp [is_callback_event]

/-- The describe callback, called when the column info has just become
available and has not been printed, keeps the bookkeeping. -/
theorem call_describe_step (cb : Callbacks) (r : PRESTOCLIENT_RESULT)
    (hp : r.columninfoprinted = false) :
    LexStep cb r
      (call_describe cb { r with columninfoavailable := true, columninfoprinted := true }) := by
  unfold call_describe
  cases hd : cb.describe_callback_function with
  | none =>
    refine ⟨rfl, rfl, rfl, rfl, rfl, rfl, id, ?_⟩
    intro h
    have hn := h.no_callback hp
    refine ⟨?_, fun _ => rfl, ?_, ?_, ?_⟩
    · have := h.count; simp [hd, hp] at this ⊢; exact this
    · intro cells cur hm
      exact ⟨rfl, (h.rows cells cur hm).2⟩
    · intro cols hm
      exact ⟨rfl, (h.view cols hm).2⟩
    · intro hh; simp [hd] at hh
  | some f =>
    refine ⟨rfl, rfl, rfl, rfl, rfl, ?_, ?_, ?_⟩
    · simp [net_events]
    · intro h; simp [h]
    · intro h
      have hc := h.count
      have hn := h.no_callback hp
      simp [hp] at hc
      refine ⟨?_, fun _ => rfl, ?_, ?_, ?_⟩
      · show describe_count (r.trace ++ _) = _
        rw [describe_count_append, hc]
        simp [hd, describe_count]
      · intro cells cur hm
        simp at hm
        exact ⟨rfl, (h.rows cells cur hm).2⟩
      · intro cols hm
        simp at hm
        rcases hm with hm | hm
        · exact ⟨rfl, (h.view cols hm).2⟩
        · subst hm; exact ⟨rfl, rfl⟩
      · intro _ e he
        simp only [first_callback_append, hn] at he
        simp [first_callback, is_callback_event] at he
        subst he; rfl

theorem extract_data_header_step (cb : Callbacks) (r : PRESTOCLIENT_RESULT) :
    LexStep cb r (extract_data_header cb r) := by
  unfold extract_data_header
  by_cases h1 : (!r.columninfoavailable && decide (r.columns.length > 0)) = true
  · rw [if_pos h1]
    by_cases h2 : r.columninfoprinted = true
    · simp only [h2, Bool.not_true, Bool.false_eq_true, if_false]
      refine ⟨rfl, rfl, rfl, rfl, rfl, rfl, id, ?_⟩
      intro h
      refine ⟨?_, fun _ => rfl, ?_, ?_, h.order⟩
      · simpa [h2] using h.count
      · intro cells cur hm
        exact ⟨rfl, (h.rows cells cur hm).2⟩
      · intro cols hm
        exact ⟨rfl, (h.view cols hm).2⟩
    · have h2' : r.columninfoprinted = false := by simpa using h2
      simp only [h2', Bool.not_false, if_true]
      exact call_describe_step cb r h2'
  · rw [if_neg h1]
    exact LexStep.lex_refl cb r
theorem describe_count_pos_first (tr : List Event) (h : 0 < describe_count tr) :
    ∃ e, first_callback tr = some e := by
  unfold describe_count at h
  rw [List.countP_pos_iff] at h
  obtain ⟨e, he, hp⟩ := h
  cases hf : first_callback tr with
  | some e' => exact ⟨e', rfl⟩
  | none =>
    unfold first_callback at hf
    rw [List.find?_eq_none] at hf
    have := hf e he
    simp [is_callback_event, hp] at this

/-- The row callback, called with the column info available and the cursor at
-1, keeps the bookkeeping. -/
theorem call_write_step (cb : Callbacks) (r : PRESTOCLIENT_RESULT)
    (ha : r.columninfoavailable = true) (hc : r.currentdatacolumn = -1) :
    LexStep cb r (call_write cb r) := by
  unfold call_write
  cases hw : cb.write_callback_function with
  | none => exact LexStep.lex_refl cb r
  | some f =>
    refine ⟨rfl, rfl, rfl, rfl, rfl, ?_, ?_, ?_⟩
    · simp [net_events]
    · intro h; simp [h]
    · intro h
      refine ⟨?_, h.avail, ?_, ?_, ?_⟩
      · show describe_count (r.trace ++ _) = _
        rw [describe_count_append, h.count]
        simp [describe_count]
      · intro cells cur hm
        simp at hm
        rcases hm with hm | ⟨h1, h2⟩
        · exact h.rows cells cur hm
        · subst h1; subst h2
          exact ⟨ha, by simp [row_view], hc⟩
      · intro cols hm
        simp at hm
        exact h.view cols hm
      · intro hd e he
        have hcount := h.count
        simp only [h.avail ha, hd, and_self, if_true] at hcount
        obtain ⟨e', he'⟩ := describe_count_pos_first r.trace (by omega)
        simp only [first_callback_append, he', Option.or_some] at he
        cases he
        exact h.order hd _ he'

theorem describe_view_set (cols : List PRESTOCLIENT_FIELD) (k : Nat) (f : PRESTOCLIENT_FIELD)
    (t : E_JSON_TAGTYPES) (v : Bytes) (hk : cols[k]? = some f) :
    (cols.set k (extract_data_field f t v)).map (fun f => (f.name, f.type)) =
      cols.map (fun f => (f.name, f.type)) := by
  rw [List.map_set]
  have : (extract_data_field f t v).name = f.name ∧ (extract_data_field f t v).type = f.type := by
    unfold extract_data_field; split_ifs <;> exact ⟨rfl, rfl⟩
  rw [this.1, this.2]
  apply List.ext_getElem?
  intro i
  rw [List.getElem?_set]
  split_ifs with h1 h2
  · subst h1
    rw [List.getElem?_map, hk]; rfl
  · subst h1
    simp at h2
    have := List.getElem?_eq_none h2
    rw [this] at hk; cases hk
  · rfl

theorem extract_data_header_columns (cb : Callbacks) (r : PRESTOCLIENT_RESULT) :
    (extract_data_header cb r).columns = r.columns ∧
      (extract_data_header cb r).currentdatacolumn = r.currentdatacolumn ∧
      (extract_data_header cb r).lexer = r.lexer ∧
      (extract_data_header cb r).json = r.json ∧
      (extract_data_header cb r).fault = r.fault ∧
      (0 < r.columns.length → (extract_data_header cb r).columninfoavailable = true) := by
  unfold extract_data_header call_describe
  dsimp only
  split_ifs with h1 h2 <;> (try split) <;> refine ⟨rfl, rfl, rfl, rfl, rfl, ?_⟩ <;> intro h <;>
    simp_all

theorem extract_data_step (cb : Callbacks) (r : PRESTOCLIENT_RESULT) :
    LexStep cb r (extract_data cb r) := by
  have hh := extract_data_header_step cb r
  obtain ⟨hcols, hcur, hlex, hjson, hfault, hav⟩ := extract_data_header_columns cb r
  refine LexStep.lex_trans hh ?_
  unfold extract_data
  generalize extract_data_header cb r = r1 at *
  simp only
  have hbase : ∀ (c : Int) (b : Bool), LexStep cb r1 { r1 with currentdatacolumn := c, fault := b } := by
    intro c b
    refine ⟨rfl, rfl, rfl, rfl, rfl, rfl, id, ?_⟩
    intro h
    exact ⟨h.count, h.avail, h.rows, h.view, h.order⟩
  split_ifs with h1
  · exact hbase _ _
  · split
    · exact hbase _ _
    · rename_i f hf
      have hlen : 0 < r.columns.length := by
        rw [← hcols]
        have := List.getElem?_eq_some_iff.mp hf
        obtain ⟨hlt, _⟩ := this
        omega
      have hav' := hav hlen
      have hset : ∀ (c : Int) (b : Bool), LexStep cb r1
          { r1 with currentdatacolumn := c, dataavailable := b,
                    columns := r1.columns.set (r1.currentdatacolumn + 1).toNat
                      (extract_data_field f r1.json.tagtype r1.lexer.value) } := by
        intro c b
        refine ⟨rfl, rfl, rfl, rfl, rfl, rfl, id, ?_⟩
        intro h
        refine ⟨h.count, h.avail, ?_, ?_, h.order⟩
        · intro cells cur hm
          have := h.rows cells cur hm
          simpa using this
        · intro cols hm
          have := h.view cols hm
          refine ⟨this.1, ?_⟩
          rw [this.2]; unfold describe_view
          exact (describe_view_set _ _ _ _ _ hf).symm
      split_ifs with h2
      · refine LexStep.lex_trans (hset (-1) true) ?_
        exact call_write_step cb _ hav' rfl
      · exact hset _ _

/-- A change that touches none of the fields the bookkeeping talks about. -/
theorem LexStep.lex_of_same (cb : Callbacks) (r r' : PRESTOCLIENT_RESULT)
    (h1 : r'.clientstatus = r.clientstatus) (h2 : r'.errorcode = r.errorcode)
    (h3 : r'.curl_error_buffer = r.curl_error_buffer) (h4 : r'.lastresponse = r.lastresponse)
    (h5 : { r'.json with tagbuffer := [] } = { r.json with tagbuffer := [] })
    (h6 : r'.trace = r.trace) (h7 : r'.cancelquery = r.cancelquery)
    (h8 : r'.columninfoprinted = r.columninfoprinted)
    (h9 : r'.columninfoavailable = r.columninfoavailable)
    (h10 : r'.columns = r.columns ∨ r.columninfoavailable = false) : LexStep cb r r' := by
  refine ⟨h1, h2, h3, h4, h5, by rw [h6], by rw [h7]; exact id, ?_⟩
  intro h
  refine ⟨by rw [h6, h8]; exact h.count, by rw [h8, h9]; exact h.avail, ?_, ?_,
    by rw [h6]; exact h.order⟩
  · intro cells cur hm
    rw [h6] at hm
    have := h.rows cells cur hm
    rcases h10 with h10 | h10
    · rw [h9, h10]; exact this
    · rw [h10] at this; cases this.1
  · intro cols hm
    rw [h6] at hm
    have := h.view cols hm
    rcases h10 with h10 | h10
    · rw [h9]; unfold describe_view; rw [h10]; exact this
    · rw [h10] at this; cases this.1

theorem extract_column_step (cb : Callbacks) (r : PRESTOCLIENT_RESULT)
    (ha : r.columninfoavailable = false) : LexStep cb r (extract_column r) := by
  unfold extract_column
  split_ifs
  · exact LexStep.lex_of_same cb _ _ rfl rfl rfl rfl rfl rfl rfl rfl rfl (Or.inr ha)
  · split
    · exact LexStep.lex_refl cb r
    · exact LexStep.lex_of_same cb _ _ rfl rfl rfl rfl rfl rfl rfl rfl rfl (Or.inr ha)
  · exact LexStep.lex_refl cb r

theorem json_extract_dispatch_step (cb : Callbacks) (r : PRESTOCLIENT_RESULT) :
    LexStep cb r (json_extract_dispatch cb r) := by
  unfold json_extract_dispatch
  dsimp only
  split_ifs with h1 h2 h3 h4 h5 h6 h7 h8
  · exact extract_data_step cb r
  · exact LexStep.lex_of_same cb _ _ rfl rfl rfl rfl rfl rfl rfl rfl rfl (Or.inl rfl)
  · exact LexStep.lex_of_same cb _ _ rfl rfl rfl rfl rfl rfl rfl rfl rfl (Or.inl rfl)
  · exact LexStep.lex_of_same cb _ _ rfl rfl rfl rfl rfl rfl rfl rfl rfl (Or.inl rfl)
  · exact LexStep.lex_of_same cb _ _ rfl rfl rfl rfl rfl rfl rfl rfl rfl (Or.inl rfl)
  · exact LexStep.lex_of_same cb _ _ rfl rfl rfl rfl rfl rfl rfl rfl rfl (Or.inl rfl)
  · exact LexStep.lex_of_same cb _ _ rfl rfl rfl rfl rfl rfl rfl rfl rfl (Or.inl rfl)
  · exact extract_column_step cb r h8.1
  · exact LexStep.lex_refl cb r

theorem json_extract_variables_step (cb : Callbacks) (r : PRESTOCLIENT_RESULT) :
    LexStep cb r (json_extract_variables cb r) := by
  unfold json_extract_variables
  exact LexStep.lex_trans (json_extract_dispatch_step cb r)
    (LexStep.lex_of_same cb _ _ rfl rfl rfl rfl rfl rfl rfl rfl rfl (Or.inl rfl))

theorem lexer_value_step (cb : Callbacks) (r : PRESTOCLIENT_RESULT) (u : Option Bytes) :
    LexStep cb r (lexer_value cb r u) := by
  unfold lexer_value
  refine LexStep.lex_trans ?_ (json_extract_variables_step cb _)
  exact LexStep.lex_of_same cb _ _ rfl rfl rfl rfl rfl rfl rfl rfl rfl (Or.inl rfl)

theorem json_lexer_switch_step (cb : Callbacks) (r : PRESTOCLIENT_RESULT) :
    LexStep cb r (json_lexer_switch cb r) := by
  unfold json_lexer_switch
  split
  · exact LexStep.lex_of_same cb _ _ rfl rfl rfl rfl rfl rfl rfl rfl rfl (Or.inl rfl)
  · exact LexStep.lex_of_same cb _ _ rfl rfl rfl rfl rfl rfl rfl rfl rfl (Or.inl rfl)
  · exact LexStep.lex_of_same cb _ _ rfl rfl rfl rfl rfl rfl rfl rfl rfl (Or.inl rfl)
  · exact LexStep.lex_refl cb r
  · exact LexStep.lex_refl cb r
  · exact LexStep.lex_of_same cb _ _ rfl rfl rfl rfl rfl rfl rfl rfl rfl (Or.inl rfl)
  · exact LexStep.lex_of_same cb _ _ rfl rfl rfl rfl rfl rfl rfl rfl rfl (Or.inl rfl)
  · split_ifs
    · exact lexer_value_step cb r _
    · exact LexStep.lex_of_same cb _ _ rfl rfl rfl rfl rfl rfl rfl rfl rfl (Or.inl rfl)
  · exact lexer_value_step cb r _
  · exact lexer_value_step cb r _
  · exact lexer_value_step cb r _
  · exact lexer_value_step cb r _

/-- The lexer keeps the bookkeeping and leaves the driver's fields alone. -/
theorem json_lexer_step (cb : Callbacks) (r : PRESTOCLIENT_RESULT) :
    LexStep cb r (json_lexer cb r).1 := by
  unfold json_lexer
  refine LexStep.lex_trans (json_lexer_switch_step cb r) ?_
  exact LexStep.lex_of_same cb _ _ rfl rfl rfl rfl rfl rfl rfl rfl rfl (Or.inl rfl)

/-! ## What the byte sink leaves alone -/

theorem SinkStep.sink_refl (cb : Callbacks) (r : PRESTOCLIENT_RESULT) : SinkStep cb r r :=
  ⟨rfl, rfl, rfl, id, id⟩

theorem SinkStep.sink_trans {cb : Callbacks} {a b c : PRESTOCLIENT_RESULT}
    (h1 : SinkStep cb a b) (h2 : SinkStep cb b c) : SinkStep cb a c :=
  ⟨h2.clientstatus.trans h1.clientstatus, h2.errorcode.trans h1.errorcode,
    h2.net.trans h1.net, fun h => h2.cancelquery (h1.cancelquery h), fun h => h2.inv (h1.inv h)⟩

theorem LexStep.toSink {cb : Callbacks} {a b : PRESTOCLIENT_RESULT} (h : LexStep cb a b) :
    SinkStep cb a b :=
  ⟨h.clientstatus, h.errorcode, h.net, h.cancelquery, h.inv⟩

/-- A change of the buffers, the tokenizer, the lexer or the fault flag only. -/
theorem SinkStep.sink_of_same (cb : Callbacks) (r r' : PRESTOCLIENT_RESULT)
    (h1 : r'.clientstatus = r.clientstatus) (h2 : r'.errorcode = r.errorcode)
    (h6 : r'.trace = r.trace) (h7 : r'.cancelquery = r.cancelquery)
    (h8 : r'.columninfoprinted = r.columninfoprinted)
    (h9 : r'.columninfoavailable = r.columninfoavailable)
    (h10 : r'.columns = r.columns) : SinkStep cb r r' := by
  refine ⟨h1, h2, by rw [h6], by rw [h7]; exact id, ?_⟩
  intro h
  refine ⟨by rw [h6, h8]; exact h.count, by rw [h8, h9]; exact h.avail, ?_, ?_,
    by rw [h6]; exact h.order⟩
  · intro cells cur hm
    rw [h6] at hm
    rw [h9, h10]; exact h.rows cells cur hm
  · intro cols hm
    rw [h6] at hm
    rw [h9]; unfold describe_view; rw [h10]; exact h.view cols hm

theorem json_measure_congr (buf : Bytes) (j j' : JSONPARSER)
    (h : { j' with tagbuffer := [] } = { j with tagbuffer := ([] : Bytes) }) :
    json_measure buf j' = json_measure buf j := by
  have h1 : j'.readposition = j.readposition := by
    have := congrArg JSONPARSER.readposition h; exact this
  have h2 : j'.skipnextread = j.skipnextread := by
    have := congrArg JSONPARSER.skipnextread h; exact this
  have h3 : j'.state = j.state := by
    have := congrArg JSONPARSER.state h; exact this
  have h4 : j'.control = j.control := by
    have := congrArg JSONPARSER.control h; exact this
  simp only [json_measure, json_skip_extra, h1, h2, h3, h4]

theorem json_parser_run_measure (buf : Bytes) (j j' : JSONPARSER)
    (h : json_parser_run buf j = (j', true)) : json_measure buf j' < json_measure buf j := by
  unfold json_parser_run at h
  have := json_parser_loop_measure buf _ _ _ h
  have h2 : json_measure buf { j with tagtype := JSON_TT_UNKNOWN } = json_measure buf j := rfl
  omega

/-- The reader loop never runs out of fuel: any two amounts of fuel greater
than `json_measure` give the same result. -/
theorem json_reader_loop_fuel (cb : Callbacks) :
    ∀ (f1 f2 : Nat) (r : PRESTOCLIENT_RESULT), json_measure r.lastresponse r.json < f1 →
      json_measure r.lastresponse r.json < f2 →
      json_reader_loop cb f1 r = json_reader_loop cb f2 r := by
  intro f1
  induction f1 with
  | zero => intro f2 r h; omega
  | succ n ih =>
    intro f2 r h1 h2
    cases f2 with
    | zero => omega
    | succ m =>
      unfold json_reader_loop
      by_cases hf : r.fault = true
      · rw [if_pos hf, if_pos hf]
      · rw [if_neg hf, if_neg hf]
        rcases hp : json_parser_run r.lastresponse r.json with ⟨j, b⟩
        cases b with
        | false => rfl
        | true =>
          simp only
          rcases hl : json_lexer cb { r with json := j } with ⟨r2, ok⟩
          cases ok with
          | false => rfl
          | true =>
            simp only
            have hm := json_parser_run_measure _ _ _ hp
            have hs := json_lexer_step cb { r with json := j }
            rw [hl] at hs
            have hbuf : r2.lastresponse = r.lastresponse := hs.lastresponse
            have hj := json_measure_congr r.lastresponse _ _ hs.json
            have hj' : json_measure r.lastresponse { r2.json with tagbuffer := [] } =
                json_measure r.lastresponse r2.json := rfl
            apply ih
            · show json_measure r2.lastresponse { r2.json with tagbuffer := [] } < n
              rw [hbuf, hj', hj]; simp only; omega
            · show json_measure r2.lastresponse { r2.json with tagbuffer := [] } < m
              rw [hbuf, hj', hj]; simp only; omega

theorem json_reader_loop_step (cb : Callbacks) :
    ∀ (fuel : Nat) (r : PRESTOCLIENT_RESULT), SinkStep cb r (json_reader_loop cb fuel r) := by
  intro fuel
  induction fuel with
  | zero => intro r; exact SinkStep.sink_refl cb r
  | succ n ih =>
    intro r
    unfold json_reader_loop
    split_ifs
    · exact SinkStep.sink_refl cb r
    · split
      · exact SinkStep.sink_of_same cb _ _ rfl rfl rfl rfl rfl rfl rfl
      · rename_i j hp
        have h0 : SinkStep cb r { r with json := j } :=
          SinkStep.sink_of_same cb _ _ rfl rfl rfl rfl rfl rfl rfl
        have hs := (json_lexer_step cb { r with json := j }).toSink
        split
        · rename_i r2 hl
          rw [hl] at hs
          exact h0.sink_trans hs
        · rename_i r2 hl
          rw [hl] at hs
          refine (h0.sink_trans hs).sink_trans (SinkStep.sink_trans ?_ (ih _))
          exact SinkStep.sink_of_same cb _ _ rfl rfl rfl rfl rfl rfl rfl

theorem json_reader_shift_step (cb : Callbacks) (r : PRESTOCLIENT_RESULT) :
    SinkStep cb r (json_reader_shift r) := by
  unfold json_reader_shift
  dsimp only
  split_ifs <;> exact SinkStep.sink_of_same cb _ _ rfl rfl rfl rfl rfl rfl rfl

theorem json_reader_step (cb : Callbacks) (r : PRESTOCLIENT_RESULT) :
    SinkStep cb r (json_reader cb r).1 := by
  unfold json_reader
  dsimp only
  split_ifs
  · exact json_reader_loop_step cb _ r
  · exact (json_reader_loop_step cb _ r).sink_trans (json_reader_shift_step cb _)

/-- The byte sink keeps the bookkeeping and leaves the driver's fields alone. -/
theorem WriteCallback_step (cb : Callbacks) (contents : Bytes) (r : PRESTOCLIENT_RESULT) :
    SinkStep cb r (WriteCallback cb contents r).1 := by
  unfold WriteCallback
  split_ifs
  · exact SinkStep.sink_refl cb r
  · have h0 : SinkStep cb r { r with lastresponse := r.lastresponse ++ contents } :=
      SinkStep.sink_of_same cb _ _ rfl rfl rfl rfl rfl rfl rfl
    have h1 := json_reader_step cb { r with lastresponse := r.lastresponse ++ contents }
    split <;> rename_i r1 hr <;> rw [hr] at h1 <;> exact h0.sink_trans h1

theorem curl_deliver_step (cb : Callbacks) :
    ∀ (chunks : List Bytes) (r : PRESTOCLIENT_RESULT), SinkStep cb r (curl_deliver cb chunks r).1 := by
  intro chunks
  induction chunks with
  | nil => intro r; exact SinkStep.sink_refl cb r
  | cons c rest ih =>
    intro r
    unfold curl_deliver
    have h1 := WriteCallback_step cb c r
    rcases hw : WriteCallback cb c r with ⟨r1, n⟩
    rw [hw] at h1
    simp only
    split_ifs
    · exact h1.sink_trans (ih r1)
    · exact h1

/-! ## What a request of the driver leaves alone -/

theorem DriverStep.driver_refl (cb : Callbacks) (r : PRESTOCLIENT_RESULT) : DriverStep cb r r :=
  ⟨rfl, id, id⟩

theorem DriverStep.driver_trans {cb : Callbacks} {a b c : PRESTOCLIENT_RESULT}
    (h1 : DriverStep cb a b) (h2 : DriverStep cb b c) : DriverStep cb a c :=
  ⟨h2.clientstatus.trans h1.clientstatus, fun h => h2.cancelquery (h1.cancelquery h),
    fun h => h2.inv (h1.inv h)⟩

theorem SinkStep.toDriver {cb : Callbacks} {a b : PRESTOCLIENT_RESULT} (h : SinkStep cb a b) :
    DriverStep cb a b :=
  ⟨h.clientstatus, h.cancelquery, h.inv⟩

/-- Recording a request or a sleep, or changing the error code, the transport
text or a URI, keeps the bookkeeping. -/
theorem DriverStep.of_net (cb : Callbacks) (r r' : PRESTOCLIENT_RESULT) (evs : List Event)
    (hn : ∀ e ∈ evs, is_net_event e = true)
    (h1 : r'.clientstatus = r.clientstatus)
    (h6 : r'.trace = r.trace ++ evs) (h7 : r'.cancelquery = r.cancelquery)
    (h8 : r'.columninfoprinted = r.columninfoprinted)
    (h9 : r'.columninfoavailable = r.columninfoavailable)
    (h10 : r'.columns = r.columns) : DriverStep cb r r' := by
  have hd : ∀ e ∈ evs, is_describe_event e = false := by
    intro e he; have := hn e he; cases e <;> simp at this ⊢
  have hc : ∀ e ∈ evs, is_callback_event e = false := by
    intro e he; have := hn e he; cases e <;> simp [is_callback_event] at this ⊢
  refine ⟨h1, by rw [h7]; exact id, ?_⟩
  intro h
  refine ⟨?_, by rw [h8, h9]; exact h.avail, ?_, ?_, ?_⟩
  · rw [h6, h8, describe_count_append, h.count]
    have : describe_count evs = 0 := by
      unfold describe_count; rw [List.countP_eq_zero]; intro e he; simp [hd e he]
    omega
  · intro cells cur hm
    rw [h6, List.mem_append] at hm
    rcases hm with hm | hm
    · rw [h9, h10]; exact h.rows cells cur hm
    · have := hn _ hm; simp at this
  · intro cols hm
    rw [h6, List.mem_append] at hm
    rcases hm with hm | hm
    · rw [h9]; unfold describe_view; rw [h10]; exact h.view cols hm
    · have := hn _ hm; simp at this
  · intro hreg e he
    rw [h6, first_callback_append] at he
    have : first_callback evs = none := by
      unfold first_callback; rw [List.find?_eq_none]; intro e he; simp [hc e he]
    rw [this] at he
    simp at he
    exact h.order hreg e he

theorem curl_easy_perform_step (cb : Callbacks) (resp : Option Response) (r : PRESTOCLIENT_RESULT) :
    DriverStep cb r (curl_easy_perform cb resp r).1 := by
  unfold curl_easy_perform
  have hset : ∀ (r1 : PRESTOCLIENT_RESULT) (t : Option Bytes),
      DriverStep cb r1 { r1 with curl_error_buffer := t } := by
    intro r1 t
    exact DriverStep.of_net cb _ _ [] (by simp) rfl (by simp) rfl rfl rfl rfl
  split
  · exact hset r _
  · rename_i rs
    have h1 := (curl_deliver_step cb rs.chunks r).toDriver
    split
    · rename_i r1 hr
      rw [hr] at h1
      split
      · exact h1
      · exact h1.driver_trans (hset r1 _)
    · rename_i r1 hr
      rw [hr] at h1
      split_ifs
      · exact h1
      · exact h1.driver_trans (hset r1 _)

theorem util_sleep_step (cb : Callbacks) (n : Nat) (r : PRESTOCLIENT_RESULT) :
    DriverStep cb r (util_sleep n r) := by
  unfold util_sleep
  exact DriverStep.of_net cb _ _ [Event.sleep (n / 1000)] (by simp) rfl rfl rfl rfl rfl rfl

theorem openuri_attempt_step (cb : Callbacks) (t : E_HTTP_REQUEST_TYPES) (url : Bytes)
    (retrycount : Nat) (resp : Option Response) (r : PRESTOCLIENT_RESULT) :
    DriverStep cb r (openuri_attempt cb t url retrycount resp r).1 := by
  unfold openuri_attempt
  have h0 : DriverStep cb r { r with trace := r.trace ++ [Event.request t url] } :=
    DriverStep.of_net cb _ _ [Event.request t url] (by simp) rfl rfl rfl rfl rfl rfl
  have h1 := curl_easy_perform_step cb resp { r with trace := r.trace ++ [Event.request t url] }
  have hset : ∀ (r1 : PRESTOCLIENT_RESULT) (e : E_RESULTCODES) (b : Option Bytes),
      DriverStep cb r1 { r1 with errorcode := e, curl_error_buffer := b } := by
    intro r1 e b
    exact DriverStep.of_net cb _ _ [] (by simp) rfl (by simp) rfl rfl rfl rfl
  split
  · rename_i r1 hr
    rw [hr] at h1
    split_ifs
    · exact h0.driver_trans h1
    · exact (h0.driver_trans h1).driver_trans (hset r1 _ _)
  · rename_i r1 code hr
    rw [hr] at h1
    dsimp only
    split_ifs
    · exact h0.driver_trans h1
    · exact h0.driver_trans h1
    · exact ((h0.driver_trans h1).driver_trans (util_sleep_step cb _ r1)).driver_trans (hset _ _ _)
    · exact (h0.driver_trans h1).driver_trans (util_sleep_step cb _ r1)
    · exact (h0.driver_trans h1).driver_trans (hset r1 _ _)

theorem openuri_loop_step (cb : Callbacks) (t : E_HTTP_REQUEST_TYPES) (url : Bytes) :
    ∀ (script : List Response) (retrycount : Nat) (r : PRESTOCLIENT_RESULT),
      DriverStep cb r (openuri_loop cb t url retrycount script r).1 := by
  intro script
  induction script with
  | nil =>
    intro rc r
    unfold openuri_loop
    exact openuri_attempt_step cb t url (rc + 1) none r
  | cons resp rest ih =>
    intro rc r
    unfold openuri_loop
    have h1 := openuri_attempt_step cb t url (rc + 1) (some resp) r
    split
    · rename_i r1 hr
      rw [hr] at h1
      exact h1.driver_trans (ih (rc + 1) r1)
    · rename_i r1 hr
      rw [hr] at h1
      exact h1

/-- A request keeps the status and the describe bookkeeping. -/
theorem openuri_step (cb : Callbacks) (t : E_HTTP_REQUEST_TYPES) (client : PRESTOCLIENT)
    (script : List Response) (r : PRESTOCLIENT_RESULT) :
    DriverStep cb r (openuri cb t client script r).1 := by
  unfold openuri
  have hset : ∀ (r0 r1 : PRESTOCLIENT_RESULT), r1.clientstatus = r0.clientstatus →
      r1.trace = r0.trace → r1.cancelquery = r0.cancelquery →
      r1.columninfoprinted = r0.columninfoprinted →
      r1.columninfoavailable = r0.columninfoavailable → r1.columns = r0.columns →
      DriverStep cb r0 r1 := by
    intro r0 r1 a b c d e f
    exact DriverStep.of_net cb _ _ [] (by simp) a (by simp [b]) c d e f
  split_ifs
  · exact DriverStep.driver_refl cb r
  · exact hset _ _ rfl rfl rfl rfl rfl rfl
  · refine DriverStep.driver_trans ?_ (openuri_loop_step cb t _ script 0 _)
    unfold openuri_setup
    cases t <;> exact hset _ _ rfl rfl rfl rfl rfl rfl

theorem cancel_step (cb : Callbacks) (client : PRESTOCLIENT) (script : List Response)
    (r : PRESTOCLIENT_RESULT) : DriverStep cb r (cancel cb client script r).1 := by
  unfold cancel
  split
  · exact openuri_step cb _ client script r
  · exact DriverStep.driver_refl cb r

/-! ## The describe bookkeeping through a query -/

theorem DescInv.inv_of_same {cb : Callbacks} {r r' : PRESTOCLIENT_RESULT} (h : DescInv cb r)
    (h6 : r'.trace = r.trace) (h8 : r'.columninfoprinted = r.columninfoprinted)
    (h9 : r'.columninfoavailable = r.columninfoavailable) (h10 : r'.columns = r.columns) :
    DescInv cb r' := by
  refine ⟨by rw [h6, h8]; exact h.count, by rw [h8, h9]; exact h.avail, ?_, ?_,
    by rw [h6]; exact h.order⟩
  · intro cells cur hm
    rw [h6] at hm
    rw [h9, h10]; exact h.rows cells cur hm
  · intro cols hm
    rw [h6] at hm
    rw [h9]; unfold describe_view; rw [h10]; exact h.view cols hm

theorem new_prestoresult_inv (cb : Callbacks) : DescInv cb new_prestoresult := by
  refine ⟨?_, ?_, ?_, ?_, ?_⟩
  · simp [new_prestoresult, describe_count]
  · intro h; simp [new_prestoresult] at h
  · intro cells cur h; simp [new_prestoresult] at h
  · intro cols h; simp [new_prestoresult] at h
  · intro _ e h; simp [new_prestoresult, first_callback] at h

theorem call_describe_fields (cb : Callbacks) (r : PRESTOCLIENT_RESULT) :
    (call_describe cb r).lastnexturi = r.lastnexturi ∧
      (call_describe cb r).lasterrormessage = r.lasterrormessage ∧
      (call_describe cb r).errorcode = r.errorcode ∧
      (call_describe cb r).fault = r.fault ∧
      (call_describe cb r).clientstatus = r.clientstatus ∧
      (r.cancelquery = true → (call_describe cb r).cancelquery = true) := by
  unfold call_describe
  split
  · exact ⟨rfl, rfl, rfl, rfl, rfl, id⟩
  · refine ⟨rfl, rfl, rfl, rfl, rfl, ?_⟩
    intro h; simp [h]

/-- What `prestoclient_queryisrunning` does after a successful GET: the status
is classified from the next URI and the server error, and nothing else of the
driver's fields changes. -/
theorem queryisrunning_after_get_spec (cb : Callbacks) (r : PRESTOCLIENT_RESULT) :
    (queryisrunning_after_get cb r).lastnexturi = r.lastnexturi ∧
      (queryisrunning_after_get cb r).lasterrormessage = r.lasterrormessage ∧
      (queryisrunning_after_get cb r).errorcode = r.errorcode ∧
      (queryisrunning_after_get cb r).fault = r.fault ∧
      (queryisrunning_after_get cb r).clientstatus =
        (if str_empty r.lastnexturi = false then PRESTOCLIENT_STATUS_RUNNING
         else if str_empty r.lasterrormessage = false then PRESTOCLIENT_STATUS_FAILED
         else PRESTOCLIENT_STATUS_SUCCEEDED) ∧
      (r.cancelquery = true → (queryisrunning_after_get cb r).cancelquery = true) := by
  unfold queryisrunning_after_get
  generalize hr1 : (if (!str_empty r.lastnexturi) = true then
      { r with clientstatus := PRESTOCLIENT_STATUS_RUNNING }
    else if (!str_empty r.lasterrormessage) = true then
      { r with clientstatus := PRESTOCLIENT_STATUS_FAILED }
    else { r with clientstatus := PRESTOCLIENT_STATUS_SUCCEEDED }) = r1
  have e1 : r1.lastnexturi = r.lastnexturi ∧ r1.lasterrormessage = r.lasterrormessage ∧
      r1.errorcode = r.errorcode ∧ r1.fault = r.fault ∧ r1.cancelquery = r.cancelquery ∧
      r1.clientstatus = (if str_empty r.lastnexturi = false then PRESTOCLIENT_STATUS_RUNNING
         else if str_empty r.lasterrormessage = false then PRESTOCLIENT_STATUS_FAILED
         else PRESTOCLIENT_STATUS_SUCCEEDED) := by
    subst hr1
    cases str_empty r.lastnexturi <;> cases str_empty r.lasterrormessage <;>
      exact ⟨rfl, rfl, rfl, rfl, rfl, rfl⟩
  dsimp only
  generalize hr2 : (if (decide (r1.columns.length > 0) && !r1.columninfoavailable) = true then
      { r1 with columninfoavailable := true } else r1) = r2
  have e2 : r2.lastnexturi = r1.lastnexturi ∧ r2.lasterrormessage = r1.lasterrormessage ∧
      r2.errorcode = r1.errorcode ∧ r2.fault = r1.fault ∧ r2.cancelquery = r1.cancelquery ∧
      r2.clientstatus = r1.clientstatus := by
    subst hr2
    split_ifs <;> exact ⟨rfl, rfl, rfl, rfl, rfl, rfl⟩
  obtain ⟨a1, a2, a3, a4, a5, a6⟩ := e1
  obtain ⟨b1, b2, b3, b4, b5, b6⟩ := e2
  by_cases hq : (!r2.columninfoprinted && r2.columninfoavailable) = true
  · rw [if_pos hq]
    obtain ⟨c1, c2, c3, c4, c5, c6⟩ := call_describe_fields cb { r2 with columninfoprinted := true }
    refine ⟨?_, ?_, ?_, ?_, ?_, ?_⟩
    · show (call_describe cb _).lastnexturi = _
      rw [c1]; exact b1.trans a1
    · show (call_describe cb _).lasterrormessage = _
      rw [c2]; exact b2.trans a2
    · show (call_describe cb _).errorcode = _
      rw [c3]; exact b3.trans a3
    · show (call_describe cb _).fault = _
      rw [c4]; exact b4.trans a4
    · show (call_describe cb _).clientstatus = _
      rw [c5]; exact b6.trans a6
    · intro h
      show (call_describe cb _).cancelquery = true
      apply c6
      show r2.cancelquery = true
      rw [b5, a5]; exact h
  · rw [if_neg hq]
    refine ⟨b1.trans a1, b2.trans a2, b3.trans a3, b4.trans a4, b6.trans a6, ?_⟩
    intro h
    show r2.cancelquery = true
    rw [b5, a5]; exact h

theorem queryisrunning_after_get_inv (cb : Callbacks) (r : PRESTOCLIENT_RESULT)
    (h : DescInv cb r) : DescInv cb (queryisrunning_after_get cb r) := by
  unfold queryisrunning_after_get
  generalize hr1 : (if (!str_empty r.lastnexturi) = true then
      { r with clientstatus := PRESTOCLIENT_STATUS_RUNNING }
    else if (!str_empty r.lasterrormessage) = true then
      { r with clientstatus := PRESTOCLIENT_STATUS_FAILED }
    else { r with clientstatus := PRESTOCLIENT_STATUS_SUCCEEDED }) = r1
  have h1 : DescInv cb r1 := by
    subst hr1
    split_ifs <;> exact h.inv_of_same rfl rfl rfl rfl
  clear hr1 h
  dsimp only
  by_cases hc : (decide (r1.columns.length > 0) && !r1.columninfoavailable) = true
  · rw [if_pos hc]
    have hav : r1.columninfoavailable = false := by simp at hc; exact hc.2
    by_cases hp : r1.columninfoprinted = true
    · have : (!(({ r1 with columninfoavailable := true } : PRESTOCLIENT_RESULT).columninfoprinted) &&
          ({ r1 with columninfoavailable := true } : PRESTOCLIENT_RESULT).columninfoavailable) = false := by
        show (!r1.columninfoprinted && true) = false
        simp [hp]
      rw [if_neg (by rw [this]; simp)]
      refine DescInv.inv_of_same (r := { r1 with columninfoavailable := true }) ?_ rfl rfl rfl rfl
      refine ⟨h1.count, fun _ => hp, ?_, ?_, h1.order⟩
      · intro cells cur hm
        exact ⟨rfl, (h1.rows cells cur hm).2⟩
      · intro cols hm
        exact ⟨rfl, (h1.view cols hm).2⟩
    · have hp' : r1.columninfoprinted = false := by simpa using hp
      have : (!(({ r1 with columninfoavailable := true } : PRESTOCLIENT_RESULT).columninfoprinted) &&
          ({ r1 with columninfoavailable := true } : PRESTOCLIENT_RESULT).columninfoavailable) = true := by
        show (!r1.columninfoprinted && true) = true
        simp [hp']
      rw [if_pos this]
      have hs := (call_describe_step cb r1 hp').inv h1
      exact hs.inv_of_same rfl rfl rfl rfl
  · rw [if_neg hc]
    by_cases hq : (!r1.columninfoprinted && r1.columninfoavailable) = true
    · exfalso
      simp at hq
      have := h1.avail hq.2
      rw [hq.1] at this; cases this
    · rw [if_neg hq]
      exact h1.inv_of_same rfl rfl rfl rfl

theorem openuri_loop_script (cb : Callbacks) (t : E_HTTP_REQUEST_TYPES) (url : Bytes) :
    ∀ (script : List Response) (retrycount : Nat) (r : PRESTOCLIENT_RESULT),
      (openuri_loop cb t url retrycount script r).2.length ≤ script.length - 1 := by
  intro script
  induction script with
  | nil => intro rc r; simp [openuri_loop]
  | cons resp rest ih =>
    intro rc r
    unfold openuri_loop
    split
    · have := ih (rc + 1) ‹_›
      simp only [List.length_cons, Nat.add_sub_cancel]
      omega
    · simp

theorem openuri_loop_nil (cb : Callbacks) (t : E_HTTP_REQUEST_TYPES) (url : Bytes)
    (retrycount : Nat) (r : PRESTOCLIENT_RESULT) (hf : r.fault = false) :
    (openuri_loop cb t url retrycount [] r).1.errorcode = PRESTOCLIENT_RESULT_CURL_ERROR := by
  simp [openuri_loop, openuri_attempt, curl_easy_perform, hf]

/-- A request that returns `PRESTOCLIENT_RESULT_OK` has used up a transfer of the script. -/
theorem openuri_script (cb : Callbacks) (t : E_HTTP_REQUEST_TYPES) (client : PRESTOCLIENT)
    (script : List Response) (r : PRESTOCLIENT_RESULT) (hf : r.fault = false)
    (hok : (openuri cb t client script r).1.errorcode = PRESTOCLIENT_RESULT_OK) :
    (openuri cb t client script r).2.length < script.length := by
  unfold openuri at hok ⊢
  rw [if_neg (by simp [hf])] at hok ⊢
  split_ifs at hok ⊢ with h1
  · cases script with
    | nil =>
      rw [openuri_loop_nil] at hok
      · cases hok
      · unfold openuri_setup; cases t <;> exact hf
    | cons resp rest =>
      have := openuri_loop_script cb t (openuri_url t client r) (resp :: rest) 0
        (openuri_setup t r)
      simp only [List.length_cons, Nat.add_sub_cancel] at this ⊢
      exact Nat.lt_succ_of_le this

/-- A driver step that returns true has used up a transfer of the script. -/
theorem prestoclient_queryisrunning_script (cb : Callbacks) (client : PRESTOCLIENT)
    (script : List Response) (r : PRESTOCLIENT_RESULT)
    (h : (prestoclient_queryisrunning cb client script r).2.2 = true) :
    (prestoclient_queryisrunning cb client script r).2.1.length < script.length := by
  unfold prestoclient_queryisrunning at h ⊢
  by_cases hf : r.fault = true
  · rw [if_pos hf] at h; cases h
  · rw [if_neg hf] at h ⊢
    by_cases hc : r.cancelquery = true
    · rw [if_pos hc] at h; cases h
    · rw [if_neg hc] at h ⊢
      by_cases hu : str_empty r.lastnexturi = true
      · rw [if_pos hu] at h; cases h
      · rw [if_neg hu] at h ⊢
        have hs := openuri_script cb PRESTOCLIENT_HTTP_REQUEST_TYPE_GET client script r
          (by simpa using hf)
        rcases ho : openuri cb PRESTOCLIENT_HTTP_REQUEST_TYPE_GET client script r with ⟨r1, s1⟩
        rw [ho] at h hs
        dsimp only at h hs ⊢
        by_cases hf1 : r1.fault = true
        · rw [if_pos hf1] at h; cases h
        · rw [if_neg hf1] at h ⊢
          by_cases he : r1.errorcode = PRESTOCLIENT_RESULT_OK
          · rw [if_pos he] at h ⊢
            have := hs he
            split_ifs <;> exact this
          · rw [if_neg he] at h; cases h

/-- The driver loop never runs out of fuel: any two amounts of fuel greater
than the length of the script give the same result. -/
theorem waituntilfinished_loop_fuel (cb : Callbacks) (client : PRESTOCLIENT) :
    ∀ (f1 f2 : Nat) (script : List Response) (r : PRESTOCLIENT_RESULT),
      script.length < f1 → script.length < f2 →
      waituntilfinished_loop cb client f1 script r = waituntilfinished_loop cb client f2 script r := by
  intro f1
  induction f1 with
  | zero => intro f2 script r h; omega
  | succ n ih =>
    intro f2 script r h1 h2
    cases f2 with
    | zero => omega
    | succ m =>
      unfold waituntilfinished_loop
      have hs := prestoclient_queryisrunning_script cb client script r
      rcases hq : prestoclient_queryisrunning cb client script r with ⟨r1, s1, b⟩
      rw [hq] at hs
      cases b with
      | false => rfl
      | true =>
        dsimp only at hs ⊢
        have := hs rfl
        exact ih m s1 _ (by omega) (by omega)

theorem prestoclient_queryisrunning_inv (cb : Callbacks) (client : PRESTOCLIENT)
    (script : List Response) (r : PRESTOCLIENT_RESULT) (h : DescInv cb r) :
    DescInv cb (prestoclient_queryisrunning cb client script r).1 := by
  unfold prestoclient_queryisrunning
  split_ifs
  · exact h
  · exact (cancel_step cb client script r).inv h
  · exact h
  · have h1 := (openuri_step cb PRESTOCLIENT_HTTP_REQUEST_TYPE_GET client script r).inv h
    rcases ho : openuri cb PRESTOCLIENT_HTTP_REQUEST_TYPE_GET client script r with ⟨r1, s1⟩
    rw [ho] at h1
    dsimp only at h1 ⊢
    split_ifs
    · exact h1
    · exact queryisrunning_after_get_inv cb r1 h1
    · exact queryisrunning_after_get_inv cb r1 h1
    · exact h1

theorem waituntilfinished_loop_inv (cb : Callbacks) (client : PRESTOCLIENT) :
    ∀ (fuel : Nat) (script : List Response) (r : PRESTOCLIENT_RESULT), DescInv cb r →
      DescInv cb (waituntilfinished_loop cb client fuel script r).1 := by
  intro fuel
  induction fuel with
  | zero => intro script r h; exact h
  | succ n ih =>
    intro script r h
    unfold waituntilfinished_loop
    have h1 := prestoclient_queryisrunning_inv cb client script r h
    rcases hq : prestoclient_queryisrunning cb client script r with ⟨r1, s1, b⟩
    rw [hq] at h1
    cases b with
    | false => exact h1
    | true => exact ih s1 _ ((util_sleep_step cb _ r1).inv h1)

/-- The describe bookkeeping holds for the result of every query. -/
theorem prestoclient_query_run_inv (cb : Callbacks) (client : PRESTOCLIENT)
    (script : List Response) : DescInv cb (prestoclient_query_run cb client script) := by
  unfold prestoclient_query_run
  have h1 := (openuri_step cb PRESTOCLIENT_HTTP_REQUEST_TYPE_POST client script
    new_prestoresult).inv (new_prestoresult_inv cb)
  rcases ho : openuri cb PRESTOCLIENT_HTTP_REQUEST_TYPE_POST client script new_prestoresult
    with ⟨r1, s1⟩
  rw [ho] at h1
  dsimp only at h1 ⊢
  split_ifs
  · exact h1
  · exact waituntilfinished_loop_inv cb client _ s1 r1 h1
  · exact h1

theorem prestoclient_query_some (cb : Callbacks) (prestoclient : Option PRESTOCLIENT)
    (sql : Option Bytes) (script : List Response) (r : PRESTOCLIENT_RESULT)
    (h : prestoclient_query cb prestoclient sql script = some r) :
    ∃ client, r = prestoclient_query_run cb client script := by
  unfold prestoclient_query at h
  split at h
  · split_ifs at h
    injection h with h
    exact ⟨_, h.symm⟩
  · cases h

/-- In a trace that keeps the bookkeeping, with a describe callback
registered, every row is preceded by the one describe invocation, which saw the
columns as they are now. -/
theorem DescInv.row_after_describe {cb : Callbacks} {r : PRESTOCLIENT_RESULT} (h : DescInv cb r)
    (hreg : cb.describe_callback_function.isSome = true) (i : Nat) (cells : List (Bytes × Bool))
    (cur : Int) (hi : r.trace[i]? = some (Event.row cells cur)) :
    ∃ j, j < i ∧ r.trace[j]? = some (Event.describe (describe_view r)) ∧
      cells.length = r.columns.length ∧ cur = -1 := by
  have hmem : Event.row cells cur ∈ r.trace := List.mem_iff_getElem?.mpr ⟨i, hi⟩
  have hr := h.rows cells cur hmem
  have hsome : (first_callback r.trace).isSome = true := by
    unfold first_callback
    rw [List.find?_isSome]
    exact ⟨_, hmem, by simp [is_callback_event]⟩
  obtain ⟨e, he⟩ := Option.isSome_iff_exists.mp hsome
  have hd := h.order hreg e he
  unfold first_callback at he
  rw [List.find?_eq_some] at he
  obtain ⟨_, as, bs, htr, hnot⟩ := he
  cases e with
  | describe cols =>
    have hmem2 : Event.describe cols ∈ r.trace := by rw [htr]; simp
    have hv := (h.view cols hmem2).2
    subst hv
    have hmid : (as ++ Event.describe (describe_view r) :: bs)[as.length]? =
        some (Event.describe (describe_view r)) := by
      rw [List.getElem?_append_right (Nat.le_refl _)]; simp
    refine ⟨as.length, ?_, ?_, hr.2⟩
    · by_contra hge
      have hge : i ≤ as.length := Nat.le_of_not_lt hge
      rw [htr] at hi
      rcases Nat.lt_or_eq_of_le hge with hlt | heq
      · rw [List.getElem?_append_left hlt] at hi
        have hm : Event.row cells cur ∈ as := List.mem_iff_getElem?.mpr ⟨i, hi⟩
        have := hnot _ hm
        simp [is_callback_event] at this
      · subst heq
        rw [hmid] at hi
        cases hi
    · rw [htr]; exact hmid
  | row c k => simp at hd
  | request t u => simp at hd
  | sleep n => simp at hd

/-! ## Rows: the cells of a data sub-array -/

theorem lex_tokens_fault (cb : Callbacks) (toks : List Token) (r : PRESTOCLIENT_RESULT)
    (h : r.fault = true) : lex_tokens cb toks r = r := by
  cases toks with
  | nil => rfl
  | cons t rest => simp [lex_tokens, h]

theorem lex_tokens_cons (cb : Callbacks) (t : Token) (rest : List Token)
    (r : PRESTOCLIENT_RESULT) (h : r.fault = false) :
    lex_tokens cb (t :: rest) r = lex_tokens cb rest (lex_token cb t r) := by
  simp [lex_tokens, h]

theorem lex_tokens_append (cb : Callbacks) (a b : List Token) (r : PRESTOCLIENT_RESULT) :
    lex_tokens cb (a ++ b) r = lex_tokens cb b (lex_tokens cb a r) := by
  induction a generalizing r with
  | nil => rfl
  | cons t rest ih =>
    by_cases hf : r.fault = true
    · rw [List.cons_append, lex_tokens_fault cb _ r hf, lex_tokens_fault cb _ r hf,
        lex_tokens_fault cb _ r hf]
    · have hf : r.fault = false := by simpa using hf
      rw [List.cons_append, lex_tokens_cons cb _ _ r hf, lex_tokens_cons cb _ _ r hf, ih]

theorem extract_data_header_trace (cb : Callbacks) (r : PRESTOCLIENT_RESULT) :
    (extract_data_header cb r).trace = r.trace ++ header_events cb r ∧
      (extract_data_header cb r).dataavailable = r.dataavailable := by
  unfold extract_data_header header_events call_describe
  dsimp only
  cases ha : r.columninfoavailable <;> cases hp : r.columninfoprinted <;>
    by_cases hl : 0 < r.columns.length <;> cases hd : cb.describe_callback_function <;>
    simp [hl, describe_view]

/-- The data branch of the projector on a cell that is not the last of its row. -/
theorem extract_data_mid (cb : Callbacks) (r : PRESTOCLIENT_RESULT) (k : Nat)
    (hcur : r.currentdatacolumn = (k : Int) - 1) (hk : k + 1 < r.columns.length) :
    ∃ f, r.columns[k]? = some f ∧
      (extract_data cb r).columns =
        r.columns.set k (extract_data_field f r.json.tagtype r.lexer.value) ∧
      (extract_data cb r).currentdatacolumn = (k : Int) ∧
      (extract_data cb r).trace = r.trace ++ header_events cb r ∧
      (extract_data cb r).fault = r.fault ∧
      (extract_data cb r).lexer = r.lexer ∧
      (extract_data cb r).columninfoavailable = true := by
  obtain ⟨hcols, hc, hlex, hjson, hfault, hav⟩ := extract_data_header_columns cb r
  obtain ⟨htr, _⟩ := extract_data_header_trace cb r
  have hlt : k < r.columns.length := by omega
  refine ⟨r.columns[k], by simp [hlt], ?_⟩
  unfold extract_data
  generalize extract_data_header cb r = r1 at *
  have hcol : r1.currentdatacolumn + 1 = (k : Int) := by rw [hc, hcur]; omega
  have hget : r1.columns[(r1.currentdatacolumn + 1).toNat]? = some r.columns[k] := by
    rw [hcol, hcols]; simp [hlt]
  dsimp only
  rw [if_neg (by rw [hcol]; omega)]
  simp only [hget]
  rw [if_neg (by rw [hcol]; simp only [List.length_set]; rw [hcols]; omega)]
  refine ⟨?_, hcol, htr, hfault, hlex, hav (by omega)⟩
  show r1.columns.set _ _ = _
  rw [hcol, hcols, hjson, hlex]; rfl

/-- The data branch of the projector on the last cell of a row: the row
callback runs on the completed row with the cursor back at -1. -/
theorem extract_data_last (cb : Callbacks) (g : PRESTOCLIENT_RESULT → Bool)
    (hw : cb.write_callback_function = some g) (r : PRESTOCLIENT_RESULT) (k : Nat)
    (hcur : r.currentdatacolumn = (k : Int) - 1) (hk : k + 1 = r.columns.length) :
    ∃ f, r.columns[k]? = some f ∧
      (extract_data cb r).columns =
        r.columns.set k (extract_data_field f r.json.tagtype r.lexer.value) ∧
      (extract_data cb r).currentdatacolumn = -1 ∧
      (extract_data cb r).trace = r.trace ++ header_events cb r ++
        [Event.row ((r.columns.set k (extract_data_field f r.json.tagtype r.lexer.value)).map
          (fun f => (f.data, f.dataisnull))) (-1)] ∧
      (extract_data cb r).fault = r.fault ∧
      (extract_data cb r).lexer = r.lexer ∧
      (extract_data cb r).columninfoavailable = true := by
  obtain ⟨hcols, hc, hlex, hjson, hfault, hav⟩ := extract_data_header_columns cb r
  obtain ⟨htr, _⟩ := extract_data_header_trace cb r
  have hlt : k < r.columns.length := by omega
  refine ⟨r.columns[k], by simp [hlt], ?_⟩
  unfold extract_data
  generalize extract_data_header cb r = r1 at *
  have hcol : r1.currentdatacolumn + 1 = (k : Int) := by rw [hc, hcur]; omega
  have hget : r1.columns[(r1.currentdatacolumn + 1).toNat]? = some r.columns[k] := by
    rw [hcol, hcols]; simp [hlt]
  dsimp only
  rw [if_neg (by rw [hcol]; omega)]
  simp only [hget]
  rw [if_pos (by rw [hcol]; simp only [List.length_set]; rw [hcols]; omega)]
  unfold call_write
  simp only [hw]
  refine ⟨?_, trivial, ?_, hfault, hlex, hav (by omega)⟩
  · show r1.columns.set _ _ = _
    rw [hcol, hcols, hjson, hlex]; rfl
  · show r1.trace ++ [Event.row (row_view _) (-1)] = _
    rw [htr]
    unfold row_view
    simp only [List.append_assoc]
    show r.trace ++ (header_events cb r ++ [Event.row ((r1.columns.set _ _).map _) (-1)]) = _
    rw [hcol, hcols, hjson, hlex]; rfl

theorem json_extract_dispatch_data (cb : Callbacks) (r : PRESTOCLIENT_RESULT)
    (hd : in_data_row r.lexer) : json_extract_dispatch cb r = extract_data cb r := by
  obtain ⟨nm, t2, e3, rest, hst⟩ := hd
  unfold json_extract_dispatch
  dsimp only
  rw [if_pos]
  refine ⟨by rw [hst]; simp, ?_⟩
  simp [tagordername_back, hst]

/-- The lexer on a scalar inside a data sub-array: the projector's data branch
runs on the scalar's textual form, then name, value and tag buffer are emptied. -/
theorem lex_token_scalar_data (cb : Callbacks) (v : Scalar) (r : PRESTOCLIENT_RESULT)
    (hd : in_data_row r.lexer) :
    lex_token cb v.token r =
      lex_finish (extract_data cb (lex_scalar_state v r)) := by
  have harr : json_in_array r.lexer = true := by
    obtain ⟨nm, t2, e3, rest, hst⟩ := hd
    simp [json_in_array, hst]
  have hd2 : in_data_row (lex_scalar_state v r).lexer := hd
  rw [← json_extract_dispatch_data cb _ hd2]
  cases v <;>
    simp only [lex_token, json_lexer, json_lexer_switch, lexer_value, json_extract_variables,
      lex_finish, lex_scalar_state, Scalar.token, Scalar.text, Option.getD_none,
      Option.getD_some, harr, or_true, if_true]

theorem extract_data_field_cell (f : PRESTOCLIENT_FIELD) (v : Scalar) :
    ((extract_data_field f v.token.1 v.text).data,
      (extract_data_field f v.token.1 v.text).dataisnull) = v.cell := by
  cases v <;> simp [extract_data_field, Scalar.token, Scalar.text, Scalar.cell, Scalar.isnull]

theorem list_take_set_succ {α : Type} (l : List α) (k : Nat) (c : α) (hk : k < l.length) :
    (l.set k c).take (k + 1) = l.take k ++ [c] := by
  induction l generalizing k with
  | nil => simp at hk
  | cons a rest ih =>
    cases k with
    | zero => simp
    | succ n =>
      simp only [List.length_cons] at hk
      simp [List.set, ih n (by omega)]

theorem list_set_last {α : Type} (l : List α) (k : Nat) (c : α) (hk : k + 1 = l.length) :
    l.set k c = l.take k ++ [c] := by
  have h := list_take_set_succ l k c (by omega)
  rw [← h, List.take_of_length_le]
  simp; omega

theorem lex_token_comma (cb : Callbacks) (r : PRESTOCLIENT_RESULT) :
    lex_token cb (JSON_TT_COMMA, []) r =
      { r with
        lexer := { r.lexer with previoustag := JSON_TT_COMMA }
        json := { r.json with tagtype := JSON_TT_COMMA, tagbuffer := [] } } := by
  simp only [lex_token, json_lexer, json_lexer_switch]

/-- The scalars of one data sub-array, lexed from cell `k` on with the cursor
at `k - 1`: the cells from `k` on are written in order, the row callback runs
once, on the completed row, and the cursor is back at -1. -/
theorem lex_values_row (cb : Callbacks) (g : PRESTOCLIENT_RESULT → Bool)
    (hw : cb.write_callback_function = some g) :
    ∀ (vs : List Scalar) (r : PRESTOCLIENT_RESULT) (k : Nat), vs ≠ [] → in_data_row r.lexer →
      r.fault = false →
      r.columns.length = k + vs.length → r.currentdatacolumn = (k : Int) - 1 →
      row_view (lex_tokens cb (values_tokens vs) r) =
          (row_view r).take k ++ vs.map Scalar.cell ∧
        (lex_tokens cb (values_tokens vs) r).trace = r.trace ++ header_events cb r ++
          [Event.row ((row_view r).take k ++ vs.map Scalar.cell) (-1)] ∧
        (lex_tokens cb (values_tokens vs) r).currentdatacolumn = -1 ∧
        (lex_tokens cb (values_tokens vs) r).fault = r.fault ∧
        (lex_tokens cb (values_tokens vs) r).lexer.tagorder = r.lexer.tagorder ∧
        (lex_tokens cb (values_tokens vs) r).columns.length = r.columns.length ∧
        (lex_tokens cb (values_tokens vs) r).columninfoavailable = true := by
  intro vs
  induction vs with
  | nil => intro r k h; exact absurd rfl h
  | cons v rest ih =>
    intro r k _ hd hnf hlen hcur
    have hd2 : in_data_row (lex_scalar_state v r).lexer := hd
    cases rest with
    | nil =>
      simp only [List.length_singleton] at hlen
      obtain ⟨f, hf, hcols, hc, htr, hfault, hlex, hav⟩ :=
        extract_data_last cb g hw (lex_scalar_state v r) k hcur hlen.symm
      have hstep : lex_tokens cb (values_tokens [v]) r =
          lex_finish (extract_data cb (lex_scalar_state v r)) := by
        show lex_tokens cb [v.token] r = _
        rw [lex_tokens_cons cb _ _ r hnf]
        exact lex_token_scalar_data cb v r hd
      rw [hstep]
      have hview : (r.columns.set k (extract_data_field f v.token.1 v.text)).map
          (fun f => (f.data, f.dataisnull)) = (row_view r).take k ++ [v.cell] := by
        rw [List.map_set, extract_data_field_cell]
        exact list_set_last _ _ _ (by simp [row_view]; exact hlen.symm)
      refine ⟨?_, ?_, hc, hfault, ?_, ?_, hav⟩
      · show (extract_data cb (lex_scalar_state v r)).columns.map _ = _
        rw [hcols]; exact hview
      · show (extract_data cb (lex_scalar_state v r)).trace = _
        rw [htr]
        show r.trace ++ header_events cb r ++ [Event.row ((r.columns.set k
          (extract_data_field f v.token.1 v.text)).map _) (-1)] = _
        rw [hview]; rfl
      · show (extract_data cb (lex_scalar_state v r)).lexer.tagorder = _
        rw [hlex]; rfl
      · show (extract_data cb (lex_scalar_state v r)).columns.length = _
        rw [hcols]; simp [lex_scalar_state]
    | cons w rest2 =>
      simp only [List.length_cons] at hlen
      obtain ⟨f, hf, hcols, hc, htr, hfault, hlex, hav⟩ :=
        extract_data_mid cb (lex_scalar_state v r) k hcur
          (by show k + 1 < r.columns.length; omega)
      have hstep : lex_tokens cb (values_tokens (v :: w :: rest2)) r =
          lex_tokens cb (values_tokens (w :: rest2))
            (lex_token cb (JSON_TT_COMMA, []) (lex_token cb v.token r)) := by
        show lex_tokens cb (v.token :: (JSON_TT_COMMA, []) :: values_tokens (w :: rest2)) r = _
        rw [lex_tokens_cons cb _ _ r hnf, lex_tokens_cons]
        rw [lex_token_scalar_data cb v r hd]
        show (extract_data cb (lex_scalar_state v r)).fault = false
        rw [hfault]; exact hnf
      rw [hstep, lex_token_scalar_data cb v r hd, lex_token_comma]
      generalize hr1 : extract_data cb (lex_scalar_state v r) = r1 at *
      have hk : k < r.columns.length := by omega
      replace hcols : r1.columns = r.columns.set k (extract_data_field f v.token.1 v.text) := hcols
      replace htr : r1.trace = r.trace ++ header_events cb r := htr
      replace hfault : r1.fault = r.fault := hfault
      replace hlex : r1.lexer.tagorder = r.lexer.tagorder := by rw [hlex]; rfl
      have ihh := ih
        { lex_finish r1 with
          lexer := { (lex_finish r1).lexer with previoustag := JSON_TT_COMMA }
          json := { (lex_finish r1).json with tagtype := JSON_TT_COMMA, tagbuffer := [] } }
        (k + 1) (by simp)
        (by
          obtain ⟨nm, t2, e3, rest, hst⟩ := hd
          refine ⟨nm, t2, e3, rest, ?_⟩
          show r1.lexer.tagorder = _
          rw [hlex]; exact hst)
        (by
          show r1.fault = false
          rw [hfault]; exact hnf)
        (by
          show r1.columns.length = _
          rw [hcols]; simp only [List.length_set, List.length_cons]; omega)
        (by
          show r1.currentdatacolumn = _
          rw [hc]; omega)
      obtain ⟨i1, i2, i3, i4, i5, i6, i7⟩ := ihh
      have hview : row_view
          { lex_finish r1 with
            lexer := { (lex_finish r1).lexer with previoustag := JSON_TT_COMMA }
            json := { (lex_finish r1).json with tagtype := JSON_TT_COMMA, tagbuffer := [] } } =
          (row_view r).set k v.cell := by
        show r1.columns.map _ = _
        rw [hcols, List.map_set, extract_data_field_cell]; rfl
      have htake : ((row_view r).set k v.cell).take (k + 1) ++ (w :: rest2).map Scalar.cell =
          (row_view r).take k ++ (v :: w :: rest2).map Scalar.cell := by
        rw [list_take_set_succ _ _ _ (by simp [row_view]; exact hk)]
        simp
      have hhdr : header_events cb
          { lex_finish r1 with
            lexer := { (lex_finish r1).lexer with previoustag := JSON_TT_COMMA }
            json := { (lex_finish r1).json with tagtype := JSON_TT_COMMA, tagbuffer := [] } } = [] := by
        unfold header_events
        rw [if_neg]
        intro hh
        have : r1.columninfoavailable = false := hh.1
        rw [hav] at this; cases this
      refine ⟨?_, ?_, i3, ?_, ?_, ?_, i7⟩
      · rw [i1, hview, htake]
      · rw [i2, hview, htake, hhdr]
        show r1.trace ++ [] ++ _ = _
        rw [htr]; simp
      · rw [i4]; exact hfault
      · rw [i5]
        exact hlex
      · rw [i6]
        show r1.columns.length = _
        rw [hcols]; simp

theorem lex_token_array_open (cb : Callbacks) (r : PRESTOCLIENT_RESULT) :
    lex_token cb (JSON_TT_ARRAY_OPEN, []) r =
      { r with
        lexer := { r.lexer with
          tagorder := (JSON_TT_ARRAY_OPEN, r.lexer.name.take 20) :: r.lexer.tagorder
          name := []
          previoustag := JSON_TT_ARRAY_OPEN }
        json := { r.json with tagtype := JSON_TT_ARRAY_OPEN, tagbuffer := [] } } := by
  simp only [lex_token, json_lexer, json_lexer_switch, json_add_lexer_tagorder]

theorem lex_token_array_close (cb : Callbacks) (r : PRESTOCLIENT_RESULT) :
    lex_token cb (JSON_TT_ARRAY_CLOSE, []) r =
      { r with
        lexer := { r.lexer with
          tagorder := r.lexer.tagorder.tail
          previoustag := JSON_TT_ARRAY_CLOSE }
        json := { r.json with tagtype := JSON_TT_ARRAY_CLOSE, tagbuffer := [] } } := by
  simp only [lex_token, json_lexer, json_lexer_switch, json_remove_lexer_last_tagorder]

/-- One data sub-array `[v0, ..., v(n-1)]` with as many scalars as there are
columns, lexed with the cursor at -1: the row callback runs exactly once, on
the cells of this sub-array, and the cursor is at -1 again. -/
theorem lex_row (cb : Callbacks) (g : PRESTOCLIENT_RESULT → Bool)
    (hw : cb.write_callback_function = some g) (vs : List Scalar) (r : PRESTOCLIENT_RESULT)
    (hne : vs ≠ []) (hd : in_data_array r.lexer) (hnf : r.fault = false)
    (hlen : r.columns.length = vs.length) (hcur : r.currentdatacolumn = -1) :
    (lex_tokens cb (row_tokens vs) r).trace =
        r.trace ++ header_events cb r ++ [Event.row (vs.map Scalar.cell) (-1)] ∧
      row_view (lex_tokens cb (row_tokens vs) r) = vs.map Scalar.cell ∧
      (lex_tokens cb (row_tokens vs) r).currentdatacolumn = -1 ∧
      (lex_tokens cb (row_tokens vs) r).fault = false ∧
      (lex_tokens cb (row_tokens vs) r).lexer.tagorder = r.lexer.tagorder ∧
      (lex_tokens cb (row_tokens vs) r).columns.length = r.columns.length ∧
      (lex_tokens cb (row_tokens vs) r).columninfoavailable = true := by
  obtain ⟨t2, e3, rest, hst⟩ := hd
  unfold row_tokens
  rw [List.cons_append, lex_tokens_cons cb _ _ r hnf, lex_tokens_append, lex_token_array_open]
  generalize hr1 : ({ r with
      lexer := { r.lexer with
        tagorder := (JSON_TT_ARRAY_OPEN, r.lexer.name.take 20) :: r.lexer.tagorder
        name := []
        previoustag := JSON_TT_ARRAY_OPEN }
      json := { r.json with tagtype := JSON_TT_ARRAY_OPEN, tagbuffer := [] } } :
        PRESTOCLIENT_RESULT) = r1
  have e1 : r1.lexer.tagorder = (JSON_TT_ARRAY_OPEN, r.lexer.name.take 20) :: r.lexer.tagorder := by
    subst hr1; rfl
  have e2 : r1.columns = r.columns := by subst hr1; rfl
  have e3' : r1.currentdatacolumn = r.currentdatacolumn := by subst hr1; rfl
  have e4 : r1.fault = r.fault := by subst hr1; rfl
  have e5 : r1.trace = r.trace := by subst hr1; rfl
  have e6 : header_events cb r1 = header_events cb r := by subst hr1; rfl
  have e7 : row_view r1 = row_view r := by subst hr1; rfl
  obtain ⟨i1, i2, i3, i4, i5, i6, i7⟩ := lex_values_row cb g hw vs r1 0 hne
    ⟨_, _, _, _, by rw [e1, hst]⟩ (by rw [e4]; exact hnf) (by rw [e2, hlen]; simp)
    (by rw [e3', hcur]; rfl)
  generalize lex_tokens cb (values_tokens vs) r1 = r2 at *
  replace i4 : r2.fault = false := by rw [i4, e4]; exact hnf
  rw [lex_tokens_cons cb _ _ r2 i4, lex_token_array_close]
  simp only [List.take_zero, List.nil_append] at i1 i2
  refine ⟨?_, i1, i3, i4, ?_, ?_, i7⟩
  · show r2.trace = _
    rw [i2, e5, e6]
  · show r2.lexer.tagorder.tail = _
    rw [i5, e1]; rfl
  · show r2.columns.length = _
    rw [i6, e2]

/-- The data sub-arrays of a data array, each with as many scalars as there are
columns: one row callback per sub-array, in order. -/
theorem lex_rows (cb : Callbacks) (g : PRESTOCLIENT_RESULT → Bool)
    (hw : cb.write_callback_function = some g) :
    ∀ (rows : List (List Scalar)) (r : PRESTOCLIENT_RESULT), in_data_array r.lexer →
      r.fault = false → 0 < r.columns.length → (∀ row ∈ rows, row.length = r.columns.length) →
      r.currentdatacolumn = -1 →
      (lex_tokens cb (sep_tokens (rows.map row_tokens)) r).trace =
          r.trace ++ (if rows = [] then [] else header_events cb r) ++
            rows.map (fun row => Event.row (row.map Scalar.cell) (-1)) ∧
        (lex_tokens cb (sep_tokens (rows.map row_tokens)) r).currentdatacolumn = -1 ∧
        (lex_tokens cb (sep_tokens (rows.map row_tokens)) r).fault = false ∧
        (lex_tokens cb (sep_tokens (rows.map row_tokens)) r).lexer.tagorder = r.lexer.tagorder ∧
        (lex_tokens cb (sep_tokens (rows.map row_tokens)) r).columns.length = r.columns.length := by
  intro rows
  induction rows with
  | nil =>
    intro r _ hnf _ _ hcur
    simp [sep_tokens, lex_tokens, hnf, hcur]
  | cons row rest ih =>
    intro r hd hnf hpos hall hcur
    have hrow : row.length = r.columns.length := hall row (by simp)
    have hne : row ≠ [] := by
      intro h; rw [h] at hrow; simp at hrow; omega
    obtain ⟨a1, a2, a3, a4, a5, a6, a7⟩ := lex_row cb g hw row r hne hd hnf hrow.symm hcur
    cases rest with
    | nil =>
      simp only [List.map_cons, List.map_nil, sep_tokens]
      refine ⟨?_, a3, a4, a5, a6⟩
      rw [a1]; simp
    | cons row2 rest2 =>
      have hsplit : sep_tokens ((row :: row2 :: rest2).map row_tokens) =
          row_tokens row ++ (JSON_TT_COMMA, []) :: sep_tokens ((row2 :: rest2).map row_tokens) := rfl
      rw [hsplit, lex_tokens_append]
      generalize lex_tokens cb (row_tokens row) r = r1 at *
      rw [lex_tokens_cons cb _ _ r1 a4, lex_token_comma]
      obtain ⟨t2, e3, rs, hst⟩ := hd
      obtain ⟨b1, b2, b3, b4, b5⟩ := ih
        { r1 with
          lexer := { r1.lexer with previoustag := JSON_TT_COMMA }
          json := { r1.json with tagtype := JSON_TT_COMMA, tagbuffer := [] } }
        ⟨t2, e3, rs, by show r1.lexer.tagorder = _; rw [a5, hst]⟩ a4
        (by show 0 < r1.columns.length; rw [a6]; exact hpos)
        (by
          intro row' hr'
          show row'.length = r1.columns.length
          rw [a6]; exact hall row' (by simp [List.mem_cons] at hr' ⊢; right; exact hr'))
        a3
      have hhdr : header_events cb
          { r1 with
            lexer := { r1.lexer with previoustag := JSON_TT_COMMA }
            json := { r1.json with tagtype := JSON_TT_COMMA, tagbuffer := [] } } = [] := by
        unfold header_events
        rw [if_neg]
        intro hh
        have : r1.columninfoavailable = false := hh.1
        rw [a7] at this; cases this
      refine ⟨?_, b2, b3, ?_, ?_⟩
      · rw [b1, hhdr]
        show r1.trace ++ _ ++ _ = _
        rw [a1]; simp
      · rw [b4]; exact a5
      · rw [b5]; exact a6

/-! ## The retry loop of `openuri` -/

theorem curl_easy_perform_net (cb : Callbacks) (resp : Option Response) (r : PRESTOCLIENT_RESULT) :
    net_events (curl_easy_perform cb resp r).1.trace = net_events r.trace ∧
      (curl_easy_perform cb resp r).1.errorcode = r.errorcode := by
  unfold curl_easy_perform
  split
  · exact ⟨rfl, rfl⟩
  · rename_i rs
    have h1 := curl_deliver_step cb rs.chunks r
    split
    · rename_i r1 hr
      rw [hr] at h1
      split
      · exact ⟨h1.net, h1.errorcode⟩
      · exact ⟨h1.net, h1.errorcode⟩
    · rename_i r1 hr
      rw [hr] at h1
      split_ifs
      · exact ⟨h1.net, h1.errorcode⟩
      · exact ⟨h1.net, h1.errorcode⟩

theorem net_events_append (a b : List Event) : net_events (a ++ b) = net_events a ++ net_events b := by
  simp [net_events]

/-- One transfer answered with 503, when fewer than six have been made:
`openuri` asks `util_sleep` for 100 ms times the number of the transfer and
tries again. -/
theorem openuri_attempt_busy (cb : Callbacks) (t : E_HTTP_REQUEST_TYPES) (url : Bytes)
    (retrycount : Nat) (resp : Response) (r : PRESTOCLIENT_RESULT)
    (hout : (curl_easy_perform cb (some resp)
        { r with trace := r.trace ++ [Event.request t url] }).2 =
          CurlOutcome.http PRESTOCLIENT_CURL_EXPECT_HTTP_BUSY)
    (hnf : (curl_easy_perform cb (some resp)
        { r with trace := r.trace ++ [Event.request t url] }).1.fault = false) :
    (openuri_attempt cb t url retrycount (some resp) r).2 =
        decide (retrycount ≤ PRESTOCLIENT_MAXIMUMRETRIES) ∧
      net_events (openuri_attempt cb t url retrycount (some resp) r).1.trace =
        net_events r.trace ++
          [Event.request t url,
            Event.sleep (PRESTOCLIENT_RETRYWAITTIMEMSEC * retrycount / 1000)] ∧
      (openuri_attempt cb t url retrycount (some resp) r).1.errorcode =
        (if retrycount ≤ PRESTOCLIENT_MAXIMUMRETRIES then r.errorcode
         else PRESTOCLIENT_RESULT_MAX_RETRIES_REACHED) ∧
      (openuri_attempt cb t url retrycount (some resp) r).1.fault = false := by
  obtain ⟨hnet, herr⟩ := curl_easy_perform_net cb (some resp)
    { r with trace := r.trace ++ [Event.request t url] }
  unfold openuri_attempt
  rcases hp : curl_easy_perform cb (some resp)
    { r with trace := r.trace ++ [Event.request t url] } with ⟨r1, out⟩
  rw [hp] at hout hnf hnet herr
  dsimp only at hout hnf hnet herr ⊢
  subst hout
  dsimp only
  rw [if_neg (by simp [hnf])]
  have hne : PRESTOCLIENT_CURL_EXPECT_HTTP_BUSY ≠ expected_http_code t := by
    cases t <;> decide
  rw [if_neg hne, if_pos rfl]
  have hnet2 : net_events (util_sleep (PRESTOCLIENT_RETRYWAITTIMEMSEC * retrycount) r1).trace =
      net_events r.trace ++
        [Event.request t url,
          Event.sleep (PRESTOCLIENT_RETRYWAITTIMEMSEC * retrycount / 1000)] := by
    unfold util_sleep
    show net_events (r1.trace ++ _) = _
    rw [net_events_append, hnet]
    show net_events (r.trace ++ _) ++ _ = _
    rw [net_events_append]
    simp [net_events]
  by_cases hmax : retrycount > PRESTOCLIENT_MAXIMUMRETRIES
  · rw [if_pos hmax]
    refine ⟨by simp; omega, hnet2, ?_, hnf⟩
    rw [if_neg (by omega)]
  · rw [if_neg hmax]
    refine ⟨by simp; omega, hnet2, ?_, hnf⟩
    rw [if_pos (by omega)]
    exact herr

/-- One transfer answered with the expected code: `openuri` stops, leaving the
error code as it is. -/
theorem openuri_attempt_expected (cb : Callbacks) (t : E_HTTP_REQUEST_TYPES) (url : Bytes)
    (retrycount : Nat) (resp : Response) (r : PRESTOCLIENT_RESULT)
    (hout : (curl_easy_perform cb (some resp)
        { r with trace := r.trace ++ [Event.request t url] }).2 =
          CurlOutcome.http (expected_http_code t)) :
    (openuri_attempt cb t url retrycount (some resp) r).2 = false ∧
      net_events (openuri_attempt cb t url retrycount (some resp) r).1.trace =
        net_events r.trace ++ [Event.request t url] ∧
      (openuri_attempt cb t url retrycount (some resp) r).1.errorcode = r.errorcode := by
  obtain ⟨hnet, herr⟩ := curl_easy_perform_net cb (some resp)
    { r with trace := r.trace ++ [Event.request t url] }
  unfold openuri_attempt
  rcases hp : curl_easy_perform cb (some resp)
    { r with trace := r.trace ++ [Event.request t url] } with ⟨r1, out⟩
  rw [hp] at hout hnet herr
  dsimp only at hout hnet herr ⊢
  subst hout
  dsimp only
  have hnet2 : net_events r1.trace = net_events r.trace ++ [Event.request t url] := by
    rw [hnet]
    show net_events (r.trace ++ _) = _
    rw [net_events_append]
    simp [net_events]
  by_cases hf : r1.fault = true
  · rw [if_pos hf]
    exact ⟨rfl, hnet2, herr⟩
  · rw [if_neg hf, if_pos rfl]
    exact ⟨rfl, hnet2, herr⟩

theorem total_sleep_append (a b : List Event) :
    total_sleep (a ++ b) = total_sleep a + total_sleep b := by
  induction a with
  | nil => simp [total_sleep]
  | cons e rest ih =>
    cases e <;> simp [total_sleep, ih] <;> omega

theorem total_sleep_net (tr : List Event) : total_sleep (net_events tr) = total_sleep tr := by
  induction tr with
  | nil => rfl
  | cons e rest ih =>
    cases e <;> simp [net_events, total_sleep, List.filter] at ih ⊢ <;> exact ih

/-- The sleeps between the transfers of one request last no time at all: the
milliseconds asked for stay below 1000 up to the ninth transfer, and `openuri`
makes at most six. -/
theorem total_sleep_retry (t : E_HTTP_REQUEST_TYPES) (url : Bytes) :
    ∀ (k rc : Nat), rc + k ≤ 9 → total_sleep (retry_events t url rc k) = 0 := by
  intro k
  induction k with
  | zero => intro rc _; simp [retry_events, total_sleep]
  | succ n ih =>
    intro rc h
    have h0 : PRESTOCLIENT_RETRYWAITTIMEMSEC * (rc + 1) / 1000 = 0 := by
      apply Nat.div_eq_of_lt
      unfold PRESTOCLIENT_RETRYWAITTIMEMSEC
      omega
    simp only [retry_events, total_sleep, ih (rc + 1) (by omega), h0]

/-- The retry loop on `k` transfers answered with 503, `retrycount + k <= 5`,
followed by one answered with the expected code. -/
theorem openuri_loop_retry (cb : Callbacks) (t : E_HTTP_REQUEST_TYPES) (url : Bytes) :
    ∀ (k rc : Nat) (script : List Response) (r : PRESTOCLIENT_RESULT), rc + k ≤ 5 →
      openuri_answers cb t url
        (List.replicate k PRESTOCLIENT_CURL_EXPECT_HTTP_BUSY ++ [expected_http_code t]) rc script r →
      (openuri_loop cb t url rc script r).1.errorcode = r.errorcode ∧
        net_events (openuri_loop cb t url rc script r).1.trace =
          net_events r.trace ++ retry_events t url rc k ++ [Event.request t url] ∧
        (openuri_loop cb t url rc script r).2 = script.drop (k + 1) := by
  intro k
  induction k with
  | zero =>
    intro rc script r _ hans
    cases script with
    | nil => exact absurd hans (by simp [openuri_answers])
    | cons resp rest =>
      simp only [List.replicate, List.nil_append, openuri_answers] at hans
      obtain ⟨h1, h2, h3⟩ := openuri_attempt_expected cb t url (rc + 1) resp r hans.1
      unfold openuri_loop
      rcases ha : openuri_attempt cb t url (rc + 1) (some resp) r with ⟨r1, b⟩
      rw [ha] at h1 h2 h3
      dsimp only at h1 h2 h3
      subst h1
      dsimp only
      refine ⟨h3, ?_, by simp⟩
      rw [h2]; simp [retry_events]
  | succ n ih =>
    intro rc script r hle hans
    cases script with
    | nil => exact absurd hans (by simp [openuri_answers, List.replicate])
    | cons resp rest =>
      simp only [List.replicate, List.cons_append, openuri_answers] at hans
      obtain ⟨ho, hf, hrest⟩ := hans
      obtain ⟨h1, h2, h3, h4⟩ := openuri_attempt_busy cb t url (rc + 1) resp r ho hf
      unfold openuri_loop
      rcases ha : openuri_attempt cb t url (rc + 1) (some resp) r with ⟨r1, b⟩
      rw [ha] at h1 h2 h3 h4 hrest
      dsimp only at h1 h2 h3 h4 hrest
      have hb : b = true := by
        rw [h1]; simp [PRESTOCLIENT_MAXIMUMRETRIES]; omega
      subst hb
      dsimp only
      obtain ⟨i1, i2, i3⟩ := ih (rc + 1) rest r1 (by omega) hrest
      rw [if_pos (by simp [PRESTOCLIENT_MAXIMUMRETRIES]; omega)] at h3
      refine ⟨i1.trans h3, ?_, by rw [i3]; simp⟩
      rw [i2, h2]
      simp [retry_events]

/-- The retry loop on transfers that are all answered with 503: after the
sixth the request is given up. -/
theorem openuri_loop_exhaust (cb : Callbacks) (t : E_HTTP_REQUEST_TYPES) (url : Bytes) :
    ∀ (k rc : Nat) (script : List Response) (r : PRESTOCLIENT_RESULT), rc + k = 6 → 0 < k →
      openuri_answers cb t url (List.replicate k PRESTOCLIENT_CURL_EXPECT_HTTP_BUSY) rc script r →
      (openuri_loop cb t url rc script r).1.errorcode = PRESTOCLIENT_RESULT_MAX_RETRIES_REACHED ∧
        net_events (openuri_loop cb t url rc script r).1.trace =
          net_events r.trace ++ retry_events t url rc k ∧
        (openuri_loop cb t url rc script r).2 = script.drop k := by
  intro k
  induction k with
  | zero => intro rc script r _ h; omega
  | succ n ih =>
    intro rc script r hle _ hans
    cases script with
    | nil => exact absurd hans (by simp [openuri_answers, List.replicate])
    | cons resp rest =>
      simp only [List.replicate, openuri_answers] at hans
      obtain ⟨ho, hf, hrest⟩ := hans
      obtain ⟨h1, h2, h3, h4⟩ := openuri_attempt_busy cb t url (rc + 1) resp r ho hf
      unfold openuri_loop
      rcases ha : openuri_attempt cb t url (rc + 1) (some resp) r with ⟨r1, b⟩
      rw [ha] at h1 h2 h3 h4 hrest
      dsimp only at h1 h2 h3 h4 hrest
      by_cases hn : n = 0
      · subst hn
        have hb : b = false := by
          rw [h1]; simp [PRESTOCLIENT_MAXIMUMRETRIES]; omega
        subst hb
        dsimp only
        rw [if_neg (by simp [PRESTOCLIENT_MAXIMUMRETRIES]; omega)] at h3
        refine ⟨h3, ?_, by simp⟩
        rw [h2]; simp [retry_events]
      · have hb : b = true := by
          rw [h1]; simp [PRESTOCLIENT_MAXIMUMRETRIES]; omega
        subst hb
        dsimp only
        obtain ⟨i1, i2, i3⟩ := ih (rc + 1) rest r1 (by omega) (by omega) hrest
        refine ⟨i1, ?_, by rw [i3]; simp⟩
        rw [i2, h2]
        simp [retry_events]

/-! ## The next URI of a reply -/

theorem call_write_fields (cb : Callbacks) (r : PRESTOCLIENT_RESULT) :
    (call_write cb r).lastnexturi = r.lastnexturi ∧ (call_write cb r).lexer = r.lexer := by
  unfold call_write; split <;> exact ⟨rfl, rfl⟩

theorem extract_data_lastnexturi (cb : Callbacks) (r : PRESTOCLIENT_RESULT) :
    (extract_data cb r).lastnexturi = r.lastnexturi ∧ (extract_data cb r).lexer = r.lexer := by
  have hh : (extract_data_header cb r).lastnexturi = r.lastnexturi := by
    unfold extract_data_header
    dsimp only
    split_ifs
    · exact (call_describe_fields cb _).1
    · rfl
    · rfl
  obtain ⟨_, _, hlex, _, _, _⟩ := extract_data_header_columns cb r
  unfold extract_data
  generalize extract_data_header cb r = r1 at *
  dsimp only
  split_ifs
  · exact ⟨hh, hlex⟩
  · split
    · exact ⟨hh, hlex⟩
    · split_ifs
      · obtain ⟨a, b⟩ := call_write_fields cb
          { r1 with
            currentdatacolumn := -1, dataavailable := true,
            columns := r1.columns.set (r1.currentdatacolumn + 1).toNat
              (extract_data_field ‹_› r1.json.tagtype r1.lexer.value) }
        exact ⟨a.trans hh, b.trans hlex⟩
      · exact ⟨hh, hlex⟩

/-- The projector stores a next URI exactly for a value directly inside the
root object under the name `nextUri`. -/
theorem json_extract_dispatch_lastnexturi (cb : Callbacks) (r : PRESTOCLIENT_RESULT) :
    (json_extract_dispatch cb r).lastnexturi =
        (if r.lexer.tagorder.length = 1 ∧ r.lexer.name = ascii "nextUri" then some r.lexer.value
         else r.lastnexturi) ∧
      (json_extract_dispatch cb r).lexer = r.lexer := by
  unfold json_extract_dispatch
  dsimp only
  by_cases h1 : r.lexer.tagorder.length > 2 ∧ tagordername_back r.lexer 2 = ascii "data"
  · rw [if_pos h1, if_neg (by omega)]
    exact extract_data_lastnexturi cb r
  · rw [if_neg h1]
    by_cases h2 : r.lexer.tagorder.length = 1 ∧ r.lexer.name = ascii "infoUri"
    · rw [if_pos h2, if_neg]
      · exact ⟨rfl, rfl⟩
      · intro h; rw [h2.2] at h; exact absurd h.2 (by decide)
    · rw [if_neg h2]
      by_cases h3 : r.lexer.tagorder.length = 1 ∧ r.lexer.name = ascii "nextUri"
      · rw [if_pos h3, if_pos h3]
        exact ⟨rfl, rfl⟩
      · rw [if_neg h3, if_neg h3]
        split_ifs
        · exact ⟨rfl, rfl⟩
        · exact ⟨rfl, rfl⟩
        · exact ⟨rfl, rfl⟩
        · exact ⟨rfl, rfl⟩
        · unfold extract_column
          split_ifs
          · exact ⟨rfl, rfl⟩
          · split <;> exact ⟨rfl, rfl⟩
          · exact ⟨rfl, rfl⟩
        · exact ⟨rfl, rfl⟩

theorem lexer_value_lastnexturi (cb : Callbacks) (r : PRESTOCLIENT_RESULT) (u : Option Bytes) :
    (lexer_value cb r u).lastnexturi =
        (if r.lexer.tagorder.length = 1 ∧ r.lexer.name = ascii "nextUri"
          then some (u.getD r.json.tagbuffer) else r.lastnexturi) ∧
      (lexer_value cb r u).lexer.tagorder = r.lexer.tagorder ∧
      (lexer_value cb r u).fault = (lexer_value cb r u).fault := by
  unfold lexer_value json_extract_variables
  obtain ⟨a, b⟩ := json_extract_dispatch_lastnexturi cb
    { r with
      lexer := { r.lexer with value := u.getD r.json.tagbuffer }
      json := { r.json with tagbuffer := [] } }
  refine ⟨a, ?_, rfl⟩
  show (json_extract_dispatch cb _).lexer.tagorder = _
  rw [b]

theorem is_open_token_eq (t : E_JSON_TAGTYPES) (b : Bytes) :
    is_open_token (t, b) =
      (match t with
        | JSON_TT_OBJECT_OPEN => true
        | JSON_TT_ARRAY_OPEN => true
        | _ => false) := by
  cases t <;> rfl

theorem is_close_token_eq (t : E_JSON_TAGTYPES) (b : Bytes) :
    is_close_token (t, b) =
      (match t with
        | JSON_TT_OBJECT_CLOSE => true
        | JSON_TT_ARRAY_CLOSE => true
        | _ => false) := by
  cases t <;> rfl

/-- What one token does to the container stack and to the next URI. -/
theorem lex_token_effect (cb : Callbacks) (tok : Token) (r : PRESTOCLIENT_RESULT) :
    (lex_token cb tok r).lexer.tagorder =
        (if is_open_token tok = true then (tok.1, r.lexer.name.take 20) :: r.lexer.tagorder
         else if is_close_token tok = true then r.lexer.tagorder.tail
         else r.lexer.tagorder) ∧
      (r.lexer.tagorder.length ≠ 1 → (lex_token cb tok r).lastnexturi = r.lastnexturi) ∧
      (lex_token cb tok r).lexer.previoustag = tok.1 := by
  obtain ⟨t, b⟩ := tok
  have hv : ∀ u : Option Bytes,
      (lexer_value cb { r with json := { r.json with tagtype := t, tagbuffer := b } } u).lexer.tagorder
          = r.lexer.tagorder ∧
        (r.lexer.tagorder.length ≠ 1 →
          (lexer_value cb { r with json := { r.json with tagtype := t, tagbuffer := b } } u).lastnexturi
            = r.lastnexturi) := by
    intro u
    obtain ⟨a1, a2, _⟩ := lexer_value_lastnexturi cb
      { r with json := { r.json with tagtype := t, tagbuffer := b } } u
    refine ⟨a2, ?_⟩
    intro hne
    rw [a1, if_neg]
    intro h; exact hne h.1
  have hty : ∀ u : Option Bytes,
      (lexer_value cb { r with json := { r.json with tagtype := t, tagbuffer := b } } u).json.tagtype
        = t := by
    intro u
    have := (lexer_value_step cb { r with json := { r.json with tagtype := t, tagbuffer := b } } u).json
    have := congrArg JSONPARSER.tagtype this
    exact this
  rw [is_open_token_eq, is_close_token_eq]
  cases t <;>
    simp only [lex_token, json_lexer, json_lexer_switch,
      json_add_lexer_tagorder, json_remove_lexer_last_tagorder, if_true, if_false,
      Bool.false_eq_true] <;>
    (try split_ifs) <;>
    refine ⟨?_, ?_, ?_⟩ <;>
    first
    | trivial
    | rfl
    | exact fun _ => trivial
    | exact fun _ => rfl
    | exact (hv _).1
    | exact (hv _).2
    | exact hty _

/-- Brackets, colons and commas leave the next URI and the fault flag alone. -/
theorem lex_token_nonvalue (cb : Callbacks) (tok : Token) (r : PRESTOCLIENT_RESULT)
    (h : is_open_token tok = true ∨ is_close_token tok = true ∨ tok.1 = JSON_TT_COLON ∨
      tok.1 = JSON_TT_COMMA) :
    (lex_token cb tok r).lastnexturi = r.lastnexturi ∧ (lex_token cb tok r).fault = r.fault := by
  obtain ⟨t, b⟩ := tok
  cases t <;>
    first
    | exact ⟨rfl, rfl⟩
    | (exfalso; simp [is_open_token, is_close_token] at h)

/-- A member name directly inside an object is kept as the current name. -/
theorem lex_token_name (cb : Callbacks) (n : Bytes) (r : PRESTOCLIENT_RESULT)
    (hp : r.lexer.previoustag ≠ JSON_TT_COLON) (ha : json_in_array r.lexer = false) :
    lex_token cb (JSON_TT_STRING, n) r =
      { r with
        lexer := { r.lexer with name := n, previoustag := JSON_TT_STRING }
        json := { r.json with tagtype := JSON_TT_STRING, tagbuffer := [] } } := by
  simp only [lex_token, json_lexer, json_lexer_switch]
  rw [if_neg]
  intro h
  rcases h with h | h
  · exact hp h
  · have : json_in_array r.lexer = true := h
    rw [ha] at this; cases this

/-- A scalar after a colon directly inside the root object is stored as the
next URI when the member is named `nextUri`, and not otherwise. -/
theorem lex_token_root_scalar (cb : Callbacks) (s : Scalar) (r : PRESTOCLIENT_RESULT)
    (hp : r.lexer.previoustag = JSON_TT_COLON) (hl : r.lexer.tagorder.length = 1) :
    (lex_token cb s.token r).lastnexturi =
        (if r.lexer.name = ascii "nextUri" then some s.text else r.lastnexturi) ∧
      (lex_token cb s.token r).lexer.tagorder = r.lexer.tagorder ∧
      (lex_token cb s.token r).lexer.previoustag ≠ JSON_TT_COLON := by
  obtain ⟨e1, _, e3⟩ := lex_token_effect cb s.token r
  have hv : ∀ (t : E_JSON_TAGTYPES) (b : Bytes) (u : Option Bytes),
      (lexer_value cb { r with json := { r.json with tagtype := t, tagbuffer := b } } u).lastnexturi
        = (if r.lexer.name = ascii "nextUri" then some (u.getD b) else r.lastnexturi) := by
    intro t b u
    obtain ⟨a1, _, _⟩ := lexer_value_lastnexturi cb
      { r with json := { r.json with tagtype := t, tagbuffer := b } } u
    rw [a1]
    by_cases hn : r.lexer.name = ascii "nextUri"
    · rw [if_pos ⟨hl, hn⟩, if_pos hn]
    · rw [if_neg (fun h => hn h.2), if_neg hn]
  refine ⟨?_, ?_, ?_⟩
  · cases s <;>
      simp only [lex_token, json_lexer, json_lexer_switch, Scalar.token, Scalar.text, hp,
        true_or, if_true] <;>
      exact hv _ _ _
  · rw [e1]; cases s <;> rfl
  · rw [e3]; cases s <;> simp [Scalar.token]

theorem list_drop_succ_tail {α : Type} (l : List α) (d : Nat) :
    l.tail.drop d = l.drop (d + 1) := by
  cases l <;> simp

/-- A bracketed value below the root object changes no next URI, and when no
fault stops the lexer it leaves the container stack as it found it. -/
theorem lex_nested (cb : Callbacks) :
    ∀ (toks : List Token) (d : Nat) (r : PRESTOCLIENT_RESULT),
      closes_last d toks = true → d + 1 ≤ r.lexer.tagorder.length →
      (lex_tokens cb toks r).lastnexturi = r.lastnexturi ∧
        ((lex_tokens cb toks r).fault = false →
          (lex_tokens cb toks r).lexer.tagorder = r.lexer.tagorder.drop d ∧
            (lex_tokens cb toks r).lexer.previoustag ≠ JSON_TT_COLON) := by
  intro toks
  induction toks with
  | nil => intro d r h; simp [closes_last] at h
  | cons tok rest ih =>
    intro d r h hd
    by_cases hf : r.fault = true
    · rw [lex_tokens_fault cb _ r hf]
      exact ⟨rfl, fun h' => by rw [hf] at h'; cases h'⟩
    have hf : r.fault = false := by simpa using hf
    rw [lex_tokens_cons cb tok rest r hf]
    obtain ⟨e1, e2, e3⟩ := lex_token_effect cb tok r
    unfold closes_last at h
    by_cases ho : is_open_token tok = true
    · rw [if_pos ho] at h
      rw [if_pos ho] at e1
      obtain ⟨a1, a2⟩ := ih (d + 1) (lex_token cb tok r) h (by rw [e1]; simp; omega)
      refine ⟨a1.trans (lex_token_nonvalue cb tok r (Or.inl ho)).1, ?_⟩
      intro hff
      obtain ⟨b1, b2⟩ := a2 hff
      refine ⟨?_, b2⟩
      rw [b1, e1]; rfl
    · rw [if_neg ho] at h
      rw [if_neg ho] at e1
      by_cases hc : is_close_token tok = true
      · rw [if_pos hc] at h
        rw [if_pos hc] at e1
        have hnv := lex_token_nonvalue cb tok r (Or.inr (Or.inl hc))
        match d, h, hd with
        | 0, h, _ => cases h
        | 1, h, _ =>
          have hr : rest = [] := by simpa using h
          subst hr
          refine ⟨hnv.1, fun _ => ⟨?_, ?_⟩⟩
          · show (lex_token cb tok r).lexer.tagorder = _
            rw [e1]; cases r.lexer.tagorder <;> rfl
          · show (lex_token cb tok r).lexer.previoustag ≠ _
            rw [e3]
            intro hcol
            simp [is_close_token, hcol] at hc
        | d + 2, h, hd =>
          obtain ⟨a1, a2⟩ := ih (d + 1) (lex_token cb tok r) h
            (by rw [e1, List.length_tail]; omega)
          refine ⟨a1.trans hnv.1, ?_⟩
          intro hff
          obtain ⟨b1, b2⟩ := a2 hff
          refine ⟨?_, b2⟩
          rw [b1, e1, list_drop_succ_tail]
      · rw [if_neg hc] at h
        rw [if_neg hc] at e1
        have h' : 1 ≤ d ∧ closes_last d rest = true := by simpa using h
        obtain ⟨a1, a2⟩ := ih d (lex_token cb tok r) h'.2 (by rw [e1]; exact hd)
        refine ⟨a1.trans (e2 (by omega)), ?_⟩
        intro hff
        obtain ⟨b1, b2⟩ := a2 hff
        refine ⟨?_, b2⟩
        rw [b1, e1]

theorem lex_token_colon (cb : Callbacks) (r : PRESTOCLIENT_RESULT) :
    lex_token cb (JSON_TT_COLON, []) r =
      { r with
        lexer := { r.lexer with previoustag := JSON_TT_COLON }
        json := { r.json with tagtype := JSON_TT_COLON, tagbuffer := [] } } := by
  simp only [lex_token, json_lexer, json_lexer_switch]

theorem lex_tokens_fault_false (cb : Callbacks) (toks : List Token) (r : PRESTOCLIENT_RESULT)
    (h : (lex_tokens cb toks r).fault = false) : r.fault = false := by
  by_cases hf : r.fault = true
  · rw [lex_tokens_fault cb toks r hf] at h; exact h
  · simpa using hf

/-- One member of the root object: a scalar named `nextUri` is stored as the
next URI, any other member leaves it alone. -/
theorem lex_member (cb : Callbacks) (n : Bytes) (m : Member) (r : PRESTOCLIENT_RESULT)
    (hs : ∃ x, r.lexer.tagorder = [(JSON_TT_OBJECT_OPEN, x)])
    (hp : r.lexer.previoustag ≠ JSON_TT_COLON) (hw : m.wf = true)
    (hff : (lex_tokens cb (member_tokens (n, m)) r).fault = false) :
    (lex_tokens cb (member_tokens (n, m)) r).lastnexturi = reply_next_uri [(n, m)] r.lastnexturi ∧
      (lex_tokens cb (member_tokens (n, m)) r).lexer.tagorder = r.lexer.tagorder ∧
      (lex_tokens cb (member_tokens (n, m)) r).lexer.previoustag ≠ JSON_TT_COLON := by
  obtain ⟨x, hx⟩ := hs
  have hf := lex_tokens_fault_false cb _ r hff
  have ha : json_in_array r.lexer = false := by
    unfold json_in_array; rw [hx]; rfl
  have hname := lex_token_name cb n r hp ha
  have h1f : (lex_token cb (JSON_TT_STRING, n) r).fault = false := by rw [hname]; exact hf
  have h2 : lex_token cb (JSON_TT_COLON, []) (lex_token cb (JSON_TT_STRING, n) r) =
      { r with
        lexer := { r.lexer with name := n, previoustag := JSON_TT_COLON }
        json := { r.json with tagtype := JSON_TT_COLON, tagbuffer := [] } } := by
    rw [lex_token_colon, hname]
  have h2f : (lex_token cb (JSON_TT_COLON, []) (lex_token cb (JSON_TT_STRING, n) r)).fault
      = false := by rw [h2]; exact hf
  cases m with
  | scalar s =>
    simp only [member_tokens] at hff ⊢
    rw [lex_tokens_cons cb _ _ r hf, lex_tokens_cons cb _ _ _ h1f, lex_tokens_cons cb _ _ _ h2f,
      h2]
    simp only [lex_tokens]
    obtain ⟨a1, a2, a3⟩ := lex_token_root_scalar cb s
      { r with
        lexer := { r.lexer with name := n, previoustag := JSON_TT_COLON }
        json := { r.json with tagtype := JSON_TT_COLON, tagbuffer := [] } } rfl
      (by show r.lexer.tagorder.length = 1; rw [hx]; rfl)
    refine ⟨?_, a2, a3⟩
    rw [a1]
    simp only [reply_next_uri]
  | nested toks =>
    simp only [member_tokens] at hff ⊢
    rw [lex_tokens_cons cb _ _ r hf, lex_tokens_cons cb _ _ _ h1f, h2] at hff ⊢
    obtain ⟨a1, a2⟩ := lex_nested cb toks 0
      { r with
        lexer := { r.lexer with name := n, previoustag := JSON_TT_COLON }
        json := { r.json with tagtype := JSON_TT_COLON, tagbuffer := [] } } hw
      (by show 0 + 1 ≤ r.lexer.tagorder.length; rw [hx]; simp)
    obtain ⟨b1, b2⟩ := a2 hff
    exact ⟨a1, b1, b2⟩

/-- The members of the root object, lexed with the root object open: the next
URI ends up as `reply_next_uri` says. -/
theorem lex_members (cb : Callbacks) :
    ∀ (ms : List (Bytes × Member)) (r : PRESTOCLIENT_RESULT),
      (∃ x, r.lexer.tagorder = [(JSON_TT_OBJECT_OPEN, x)]) →
      r.lexer.previoustag ≠ JSON_TT_COLON →
      (∀ m ∈ ms, m.2.wf = true) →
      (lex_tokens cb (sep_tokens (ms.map member_tokens)) r).fault = false →
      (lex_tokens cb (sep_tokens (ms.map member_tokens)) r).lastnexturi
          = reply_next_uri ms r.lastnexturi ∧
        (lex_tokens cb (sep_tokens (ms.map member_tokens)) r).lexer.tagorder = r.lexer.tagorder := by
  intro ms
  induction ms with
  | nil => intro r _ _ _ _; exact ⟨rfl, rfl⟩
  | cons m rest ih =>
    intro r hs hp hw hff
    obtain ⟨n, v⟩ := m
    cases rest with
    | nil =>
      simp only [List.map, sep_tokens] at hff ⊢
      obtain ⟨a1, a2, _⟩ := lex_member cb n v r hs hp (hw (n, v) (by simp)) hff
      exact ⟨a1, a2⟩
    | cons m2 rest2 =>
      simp only [List.map, sep_tokens] at hff ⊢
      have ih' := ih
      simp only [List.map] at ih'
      rw [lex_tokens_append] at hff ⊢
      have hf1 := lex_tokens_fault_false cb _ _ hff
      obtain ⟨a1, a2, a3⟩ := lex_member cb n v r hs hp (hw (n, v) (by simp)) hf1
      rw [lex_tokens_cons cb _ _ _ hf1, lex_token_comma] at hff ⊢
      obtain ⟨x, hx⟩ := hs
      obtain ⟨b1, b2⟩ := ih'
        { lex_tokens cb (member_tokens (n, v)) r with
          lexer := { (lex_tokens cb (member_tokens (n, v)) r).lexer with
            previoustag := JSON_TT_COMMA }
          json := { (lex_tokens cb (member_tokens (n, v)) r).json with
            tagtype := JSON_TT_COMMA, tagbuffer := [] } }
        ⟨x, by show (lex_tokens cb (member_tokens (n, v)) r).lexer.tagorder = _; rw [a2, hx]⟩
        (by show JSON_TT_COMMA ≠ JSON_TT_COLON; decide)
        (fun m hm => hw m (List.mem_cons_of_mem _ hm)) hff
      refine ⟨?_, ?_⟩
      · rw [b1]
        show reply_next_uri _ (lex_tokens cb (member_tokens (n, v)) r).lastnexturi = _
        rw [a1]
        cases v <;> rfl
      · rw [b2]; exact a2

/-- A whole reply, lexed from outside any container: the next URI ends up as
`reply_next_uri` says, and the container stack is empty again. -/
theorem lex_reply (cb : Callbacks) (ms : List (Bytes × Member)) (r : PRESTOCLIENT_RESULT)
    (hs : r.lexer.tagorder = []) (hw : ∀ m ∈ ms, m.2.wf = true)
    (hff : (lex_tokens cb (reply_tokens ms) r).fault = false) :
    (lex_tokens cb (reply_tokens ms) r).lastnexturi = reply_next_uri ms r.lastnexturi ∧
      (lex_tokens cb (reply_tokens ms) r).lexer.tagorder = [] := by
  have hf := lex_tokens_fault_false cb _ r hff
  unfold reply_tokens at hff ⊢
  rw [List.cons_append, lex_tokens_cons cb _ _ r hf, lex_tokens_append] at hff ⊢
  obtain ⟨e1, _, e3⟩ := lex_token_effect cb (JSON_TT_OBJECT_OPEN, []) r
  have eo := lex_token_nonvalue cb (JSON_TT_OBJECT_OPEN, []) r (Or.inl rfl)
  have e1 : (lex_token cb (JSON_TT_OBJECT_OPEN, []) r).lexer.tagorder =
      [(JSON_TT_OBJECT_OPEN, r.lexer.name.take 20)] := by rw [e1, hs]; rfl
  have hf1 := lex_tokens_fault_false cb _ _ hff
  obtain ⟨a1, a2⟩ := lex_members cb ms (lex_token cb (JSON_TT_OBJECT_OPEN, []) r)
    ⟨_, e1⟩ (by rw [e3]; decide) hw hf1
  rw [lex_tokens_cons cb _ _ _ hf1]
  obtain ⟨c1, _, _⟩ := lex_token_effect cb (JSON_TT_OBJECT_CLOSE, [])
    (lex_tokens cb (sep_tokens (ms.map member_tokens)) (lex_token cb (JSON_TT_OBJECT_OPEN, []) r))
  have ec := lex_token_nonvalue cb (JSON_TT_OBJECT_CLOSE, [])
    (lex_tokens cb (sep_tokens (ms.map member_tokens)) (lex_token cb (JSON_TT_OBJECT_OPEN, []) r))
    (Or.inr (Or.inl rfl))
  refine ⟨?_, ?_⟩
  · show (lex_token cb _ _).lastnexturi = _
    rw [ec.1, a1, eo.1]
  · show (lex_token cb _ _).lexer.tagorder = _
    rw [c1, a2, e1]; rfl

/-! ## The retry law -/

theorem request_count_append (a b : List Event) :
    request_count (a ++ b) = request_count a + request_count b := by
  induction a with
  | nil => simp [request_count]
  | cons e rest ih => cases e <;> simp [request_count, ih] <;> omega

theorem request_count_net (tr : List Event) : request_count (net_events tr) = request_count tr := by
  induction tr with
  | nil => rfl
  | cons e rest ih =>
    cases e <;> simp [net_events, request_count, List.filter] at ih ⊢ <;> exact ih

theorem request_count_retry (t : E_HTTP_REQUEST_TYPES) (url : Bytes) :
    ∀ (k rc : Nat), request_count (retry_events t url rc k) = k := by
  intro k
  induction k with
  | zero => intro rc; rfl
  | succ n ih => intro rc; simp [retry_events, request_count, ih]

/-- In the events of `k` transfers answered with 503, the `(i+1)`-th request is
followed by the sleep made for `100 * (retrycount + i + 1)` ms. -/
theorem retry_events_sleep (t : E_HTTP_REQUEST_TYPES) (url : Bytes) :
    ∀ (k rc i : Nat), i < k →
      (retry_events t url rc k)[2 * i]? = some (Event.request t url) ∧
      (retry_events t url rc k)[2 * i + 1]? =
        some (Event.sleep (PRESTOCLIENT_RETRYWAITTIMEMSEC * (rc + i + 1) / 1000)) := by
  intro k
  induction k with
  | zero => intro rc i h; omega
  | succ n ih =>
    intro rc i h
    cases i with
    | zero => simp [retry_events]
    | succ j =>
      obtain ⟨a, b⟩ := ih (rc + 1) j (by omega)
      have e1 : 2 * (j + 1) = (2 * j) + 1 + 1 := by ring
      have e2 : 2 * (j + 1) + 1 = (2 * j + 1) + 1 + 1 := by ring
      have e3 : rc + (j + 1) + 1 = rc + 1 + j + 1 := by ring
      rw [e2, e1, e3]
      simp only [retry_events, List.getElem?_cons_succ]
      exact ⟨a, b⟩

theorem openuri_setup_fields (t : E_HTTP_REQUEST_TYPES) (r : PRESTOCLIENT_RESULT) :
    (openuri_setup t r).errorcode = PRESTOCLIENT_RESULT_OK ∧
      (openuri_setup t r).trace = r.trace ∧ (openuri_setup t r).fault = r.fault ∧
      (openuri_setup t r).clientstatus = r.clientstatus := by
  cases t <;> exact ⟨rfl, rfl, rfl, rfl⟩

theorem openuri_eq_loop (cb : Callbacks) (t : E_HTTP_REQUEST_TYPES) (client : PRESTOCLIENT)
    (script : List Response) (r : PRESTOCLIENT_RESULT) (hf : r.fault = false)
    (hin : ¬ (t ≠ PRESTOCLIENT_HTTP_REQUEST_TYPE_POST ∧ openuri_in_uri t r = none)) :
    openuri cb t client script r =
      openuri_loop cb t (openuri_url t client r) 0 script (openuri_setup t r) := by
  unfold openuri
  rw [if_neg (by rw [hf]; decide), if_neg hin]

/-- The retry loop of `openuri` on a live result with its URI argument
present. (1) For every `k <= 5`: if the transfers of the script are answered
with 503 exactly `k` times and then with the expected code, `openuri` returns
`PRESTOCLIENT_RESULT_OK`, what it adds to the requests and sleeps of the trace
is `k` times a request followed by a sleep and then one more request, `k + 1`
requests in all, and `k + 1` transfers of the script are used up. After the
`i`-th request `util_sleep` is asked for `100 * i` ms and sleeps
`100 * i / 1000` whole seconds, which is no time at all: the sleeps of the
request add nothing to the time slept. (2) If six transfers in a row are
answered with 503, `openuri` returns `PRESTOCLIENT_RESULT_MAX_RETRIES_REACHED`
after six requests. -/
theorem openuri_retry_law (cb : Callbacks) (t : E_HTTP_REQUEST_TYPES) (client : PRESTOCLIENT)
    (script : List Response) (r : PRESTOCLIENT_RESULT) (hf : r.fault = false)
    (hin : ¬ (t ≠ PRESTOCLIENT_HTTP_REQUEST_TYPE_POST ∧ openuri_in_uri t r = none)) :
    (∀ k, k ≤ PRESTOCLIENT_MAXIMUMRETRIES →
      openuri_answers cb t (openuri_url t client r)
        (List.replicate k PRESTOCLIENT_CURL_EXPECT_HTTP_BUSY ++ [expected_http_code t]) 0 script
        (openuri_setup t r) →
      (openuri cb t client script r).1.errorcode = PRESTOCLIENT_RESULT_OK ∧
        net_events (openuri cb t client script r).1.trace =
          net_events r.trace ++ retry_events t (openuri_url t client r) 0 k ++
            [Event.request t (openuri_url t client r)] ∧
        request_count (openuri cb t client script r).1.trace = request_count r.trace + (k + 1) ∧
        (∀ i, i < k → (retry_events t (openuri_url t client r) 0 k)[2 * i + 1]? =
            some (Event.sleep (100 * (i + 1) / 1000)) ∧
          100 * (i + 1) / 1000 = 0) ∧
        total_sleep (openuri cb t client script r).1.trace = total_sleep r.trace ∧
        (openuri cb t client script r).2 = script.drop (k + 1)) ∧
    (openuri_answers cb t (openuri_url t client r)
        (List.replicate 6 PRESTOCLIENT_CURL_EXPECT_HTTP_BUSY) 0 script (openuri_setup t r) →
      (openuri cb t client script r).1.errorcode = PRESTOCLIENT_RESULT_MAX_RETRIES_REACHED ∧
        request_count (openuri cb t client script r).1.trace = request_count r.trace + 6 ∧
        net_events (openuri cb t client script r).1.trace =
          net_events r.trace ++ retry_events t (openuri_url t client r) 0 6) := by
  rw [openuri_eq_loop cb t client script r hf hin]
  obtain ⟨s1, s2, _, _⟩ := openuri_setup_fields t r
  refine ⟨?_, ?_⟩
  · intro k hk hans
    obtain ⟨a1, a2, a3⟩ := openuri_loop_retry cb t (openuri_url t client r) k 0 script
      (openuri_setup t r) (by simpa [PRESTOCLIENT_MAXIMUMRETRIES] using hk) hans
    rw [s2] at a2
    refine ⟨a1.trans s1, a2, ?_, ?_, ?_, a3⟩
    · rw [← request_count_net, a2, request_count_append, request_count_append,
        request_count_retry, request_count_net]
      simp only [request_count]
      omega
    · intro i hi
      have := (retry_events_sleep t (openuri_url t client r) k 0 i hi).2
      have hk5 : k ≤ 5 := by simpa [PRESTOCLIENT_MAXIMUMRETRIES] using hk
      refine ⟨by simpa [PRESTOCLIENT_RETRYWAITTIMEMSEC] using this, ?_⟩
      apply Nat.div_eq_of_lt
      omega
    · have hk5 : k ≤ 5 := by simpa [PRESTOCLIENT_MAXIMUMRETRIES] using hk
      rw [← total_sleep_net, a2, total_sleep_append, total_sleep_append,
        total_sleep_retry t _ k 0 (by omega), total_sleep_net]
      simp only [total_sleep]
      omega
  · intro hans
    obtain ⟨a1, a2, _⟩ := openuri_loop_exhaust cb t (openuri_url t client r) 6 0 script
      (openuri_setup t r) (by omega) (by omega) hans
    rw [s2] at a2
    refine ⟨a1, ?_, a2⟩
    rw [← request_count_net, a2, request_count_append, request_count_retry, request_count_net]

/-! ## Rows and the describe callback in a query -/

theorem header_events_congr (cb : Callbacks) (r r' : PRESTOCLIENT_RESULT)
    (h1 : r'.columninfoavailable = r.columninfoavailable)
    (h2 : r'.columninfoprinted = r.columninfoprinted) (h3 : r'.columns = r.columns) :
    header_events cb r' = header_events cb r := by
  unfold header_events describe_view
  rw [h1, h2, h3]

/-- The rows of a `data` array whose sub-arrays are as long as the column
vector. The value of the member `data` of the root object, an array of
sub-arrays that each hold exactly `n` scalars, reaches the lexer on a live
result whose column count is `n >= 1`, with the cursor at -1 and a row
callback registered. Then what is added to the trace is the
describe invocation, if it is still due and there is a sub-array, followed by
exactly one row invocation per sub-array, in document order, each showing the
cells of its own sub-array complete, with the cursor at -1 when the callback is
entered; the cursor is -1 afterwards, no fault has arisen, and the columns and
the container stack are as before, so the same holds for the `data` of the
next reply. -/
theorem row_count (cb : Callbacks) (g : PRESTOCLIENT_RESULT → Bool)
    (hw : cb.write_callback_function = some g) (rows : List (List Scalar))
    (r : PRESTOCLIENT_RESULT) (hs : r.lexer.tagorder ≠ []) (hname : r.lexer.name = ascii "data")
    (hnf : r.fault = false) (hpos : 0 < r.columns.length)
    (hall : ∀ row ∈ rows, row.length = r.columns.length) (hcur : r.currentdatacolumn = -1) :
    (lex_tokens cb (data_tokens rows) r).trace =
        r.trace ++ (if rows = [] then [] else header_events cb r) ++
          rows.map (fun row => Event.row (row.map (fun v => (v.text, v.isnull))) (-1)) ∧
      (lex_tokens cb (data_tokens rows) r).currentdatacolumn = -1 ∧
      (lex_tokens cb (data_tokens rows) r).fault = false ∧
      (lex_tokens cb (data_tokens rows) r).lexer.tagorder = r.lexer.tagorder ∧
      (lex_tokens cb (data_tokens rows) r).columns.length = r.columns.length := by
  unfold data_tokens
  rw [List.cons_append, lex_tokens_cons cb _ _ r hnf, lex_tokens_append, lex_token_array_open]
  generalize hr1 : ({ r with
      lexer := { r.lexer with
        tagorder := (JSON_TT_ARRAY_OPEN, r.lexer.name.take 20) :: r.lexer.tagorder
        name := []
        previoustag := JSON_TT_ARRAY_OPEN }
      json := { r.json with tagtype := JSON_TT_ARRAY_OPEN, tagbuffer := [] } } :
        PRESTOCLIENT_RESULT) = r1
  have e1 : r1.lexer.tagorder = (JSON_TT_ARRAY_OPEN, ascii "data") :: r.lexer.tagorder := by
    subst hr1
    show (JSON_TT_ARRAY_OPEN, r.lexer.name.take 20) :: r.lexer.tagorder = _
    rw [hname]; rfl
  have e2 : r1.columns = r.columns := by subst hr1; rfl
  have e3 : r1.trace = r.trace := by subst hr1; rfl
  have e4 : r1.fault = false := by subst hr1; exact hnf
  have e5 : r1.currentdatacolumn = -1 := by subst hr1; exact hcur
  have e6 : header_events cb r1 = header_events cb r :=
    header_events_congr cb r r1 (by subst hr1; rfl) (by subst hr1; rfl) e2
  have hd1 : in_data_array r1.lexer := by
    cases hst : r.lexer.tagorder with
    | nil => exact absurd hst hs
    | cons e3 rest => exact ⟨_, e3, rest, by rw [e1, hst]⟩
  obtain ⟨a1, a2, a3, a4, a5⟩ := lex_rows cb g hw rows r1 hd1 e4 (by rw [e2]; exact hpos)
    (by rw [e2]; exact hall) e5
  rw [lex_tokens_cons cb _ _ _ a3, lex_token_array_close]
  simp only [lex_tokens]
  refine ⟨?_, a2, a3, ?_, ?_⟩
  · rw [a1, e3, e6]; rfl
  · show (lex_tokens cb (sep_tokens (rows.map row_tokens)) r1).lexer.tagorder.tail = _
    rw [a4, e1]; rfl
  · rw [a5, e2]

/-- C4 (describe at most once, and before the first row). In the result of a
query the describe callback has been invoked at most once; and when a describe
callback is registered, every invocation of the row callback comes after an
invocation of the describe callback, which saw the column list as it is in the
result, and the row has one cell per column of that list. -/
theorem describe_before_rows (cb : Callbacks) (prestoclient : Option PRESTOCLIENT)
    (sql : Option Bytes) (script : List Response) (r : PRESTOCLIENT_RESULT)
    (h : prestoclient_query cb prestoclient sql script = some r) :
    describe_count r.trace ≤ 1 ∧
      (cb.describe_callback_function.isSome = true →
        ∀ (i : Nat) (cells : List (Bytes × Bool)) (cur : Int),
          r.trace[i]? = some (Event.row cells cur) →
          ∃ j : Nat, j < i ∧ r.trace[j]? = some (Event.describe (describe_view r)) ∧
            cells.length = r.columns.length) := by
  obtain ⟨client, hr⟩ := prestoclient_query_some cb prestoclient sql script r h
  have hinv : DescInv cb r := by rw [hr]; exact prestoclient_query_run_inv cb client script
  refine ⟨?_, ?_⟩
  · rw [hinv.count]; split_ifs <;> omega
  · intro hreg i cells cur hi
    obtain ⟨j, hj, hd, hl, _⟩ := hinv.row_after_describe hreg i cells cur hi
    exact ⟨j, hj, hd, hl⟩

/-! ## Status and next URI after a request -/

theorem util_sleep_fields (n : Nat) (r : PRESTOCLIENT_RESULT) :
    (util_sleep n r).clientstatus = r.clientstatus ∧ (util_sleep n r).errorcode = r.errorcode :=
  ⟨rfl, rfl⟩

/-- The driver step never leaves a status other than NONE or RUNNING next to a
client error, and it returns true only with the status RUNNING. -/
theorem prestoclient_queryisrunning_status (cb : Callbacks) (client : PRESTOCLIENT)
    (script : List Response) (r : PRESTOCLIENT_RESULT)
    (hs : r.clientstatus = PRESTOCLIENT_STATUS_NONE ∨ r.clientstatus = PRESTOCLIENT_STATUS_RUNNING) :
    ((prestoclient_queryisrunning cb client script r).2.2 = true →
        (prestoclient_queryisrunning cb client script r).1.clientstatus
          = PRESTOCLIENT_STATUS_RUNNING) ∧
      ((prestoclient_queryisrunning cb client script r).1.errorcode ≠ PRESTOCLIENT_RESULT_OK →
        (prestoclient_queryisrunning cb client script r).1.clientstatus = PRESTOCLIENT_STATUS_NONE ∨
        (prestoclient_queryisrunning cb client script r).1.clientstatus
          = PRESTOCLIENT_STATUS_RUNNING) := by
  unfold prestoclient_queryisrunning
  split_ifs with h1 h2 h3
  · exact ⟨fun h => (by cases h), fun _ => hs⟩
  · have hc := (cancel_step cb client script r).clientstatus
    rcases hcan : cancel cb client script r with ⟨r1, s1⟩
    rw [hcan] at hc
    dsimp only at hc ⊢
    exact ⟨fun h => (by cases h), fun _ => by rw [hc]; exact hs⟩
  · exact ⟨fun h => (by cases h), fun _ => hs⟩
  · have hc := (openuri_step cb PRESTOCLIENT_HTTP_REQUEST_TYPE_GET client script r).clientstatus
    rcases ho : openuri cb PRESTOCLIENT_HTTP_REQUEST_TYPE_GET client script r with ⟨r1, s1⟩
    rw [ho] at hc
    dsimp only at hc ⊢
    split_ifs with h4 h5 h6
    · exact ⟨fun h => (by cases h), fun _ => by rw [hc]; exact hs⟩
    · exact ⟨fun h => (by cases h), fun h => absurd
        ((queryisrunning_after_get_spec cb r1).2.2.1.trans h5) h⟩
    · obtain ⟨a1, _, a3, _, a5, _⟩ := queryisrunning_after_get_spec cb r1
      refine ⟨fun _ => ?_, fun h => absurd (a3.trans h5) h⟩
      rw [a5, if_pos]
      rw [← a1]
      simpa using h6
    · exact ⟨fun h => (by cases h), fun _ => by rw [hc]; exact hs⟩

theorem waituntilfinished_loop_status (cb : Callbacks) (client : PRESTOCLIENT) :
    ∀ (fuel : Nat) (script : List Response) (r : PRESTOCLIENT_RESULT),
      (r.clientstatus = PRESTOCLIENT_STATUS_NONE ∨ r.clientstatus = PRESTOCLIENT_STATUS_RUNNING) →
      (waituntilfinished_loop cb client fuel script r).1.errorcode ≠ PRESTOCLIENT_RESULT_OK →
      (waituntilfinished_loop cb client fuel script r).1.clientstatus = PRESTOCLIENT_STATUS_NONE ∨
      (waituntilfinished_loop cb client fuel script r).1.clientstatus
        = PRESTOCLIENT_STATUS_RUNNING := by
  intro fuel
  induction fuel with
  | zero => intro script r hs _; exact hs
  | succ n ih =>
    intro script r hs
    obtain ⟨q1, q2⟩ := prestoclient_queryisrunning_status cb client script r hs
    unfold waituntilfinished_loop
    rcases hq : prestoclient_queryisrunning cb client script r with ⟨r1, s1, b⟩
    rw [hq] at q1 q2
    dsimp only at q1 q2
    cases b with
    | false => exact q2
    | true =>
      dsimp only
      exact ih s1 _ (Or.inr (q1 rfl))

theorem prestoclient_query_run_status (cb : Callbacks) (client : PRESTOCLIENT)
    (script : List Response)
    (herr : (prestoclient_query_run cb client script).errorcode ≠ PRESTOCLIENT_RESULT_OK) :
    (prestoclient_query_run cb client script).clientstatus = PRESTOCLIENT_STATUS_NONE ∨
      (prestoclient_query_run cb client script).clientstatus = PRESTOCLIENT_STATUS_RUNNING := by
  have hc := (openuri_step cb PRESTOCLIENT_HTTP_REQUEST_TYPE_POST client script
    new_prestoresult).clientstatus
  unfold prestoclient_query_run at herr ⊢
  rcases ho : openuri cb PRESTOCLIENT_HTTP_REQUEST_TYPE_POST client script new_prestoresult
    with ⟨r1, s1⟩
  rw [ho] at hc herr
  dsimp only at hc herr ⊢
  have h1 : r1.clientstatus = PRESTOCLIENT_STATUS_NONE := hc
  split_ifs at herr ⊢
  · exact Or.inl h1
  · exact waituntilfinished_loop_status cb client _ s1 r1 (Or.inl h1) herr
  · exact Or.inl h1

/-- C9, as amended (status after a client error). When `prestoclient_query`
returns a result whose client error code is set, the status read by
`prestoclient_getstatus` is NONE or RUNNING, the status the query had when the
failing request was made; it is not FAILED. -/
theorem client_error_status (cb : Callbacks) (prestoclient : Option PRESTOCLIENT)
    (sql : Option Bytes) (script : List Response) (r : PRESTOCLIENT_RESULT)
    (h : prestoclient_query cb prestoclient sql script = some r)
    (herr : r.errorcode ≠ PRESTOCLIENT_RESULT_OK) :
    (prestoclient_getstatus (some r) = PRESTOCLIENT_STATUS_NONE ∨
      prestoclient_getstatus (some r) = PRESTOCLIENT_STATUS_RUNNING) ∧
      prestoclient_getstatus (some r) ≠ PRESTOCLIENT_STATUS_FAILED := by
  obtain ⟨client, hr⟩ := prestoclient_query_some cb prestoclient sql script r h
  subst hr
  have hs := prestoclient_query_run_status cb client script herr
  refine ⟨hs, ?_⟩
  show (prestoclient_query_run cb client script).clientstatus ≠ PRESTOCLIENT_STATUS_FAILED
  rcases hs with hs | hs <;> rw [hs] <;> decide

/-- A driver step on a live result that is not cancelled
and has a next URI, whose GET ends with `PRESTOCLIENT_RESULT_OK` (the expected
code 200) and without a fault. (1) The next URI afterwards is what the byte
sink stored during the transfers of this request, which start from a next URI
emptied by `openuri`, whatever it was before. (2) The status is RUNNING if the
next URI is not empty, otherwise FAILED if the server error message is not
empty, otherwise SUCCEEDED. (3) The step returns true exactly when the next URI
is not empty. (4) What the sink stores for a reply: when the tokens of a reply,
a root object whose members have scalar or bracketed values, reach the lexer
outside any container and no fault arises, the next URI afterwards is the text
of the reply's last scalar root member named `nextUri`, and what it was before
the reply (empty, by (1)) when the reply has no such member. -/
theorem followup_step (cb : Callbacks) (client : PRESTOCLIENT) (script : List Response)
    (r : PRESTOCLIENT_RESULT) (hf : r.fault = false) (hc : r.cancelquery = false)
    (hu : str_empty r.lastnexturi = false)
    (hok : (openuri cb PRESTOCLIENT_HTTP_REQUEST_TYPE_GET client script r).1.errorcode
      = PRESTOCLIENT_RESULT_OK)
    (hnf : (openuri cb PRESTOCLIENT_HTTP_REQUEST_TYPE_GET client script r).1.fault = false) :
    (prestoclient_queryisrunning cb client script r).1.lastnexturi =
        (openuri_loop cb PRESTOCLIENT_HTTP_REQUEST_TYPE_GET (r.lastnexturi.getD []) 0 script
          { r with curl_error_buffer := some [], lastnexturi := some [],
                   errorcode := PRESTOCLIENT_RESULT_OK }).1.lastnexturi ∧
      (prestoclient_queryisrunning cb client script r).1.clientstatus =
        (if str_empty (prestoclient_queryisrunning cb client script r).1.lastnexturi = false
          then PRESTOCLIENT_STATUS_RUNNING
         else if str_empty (prestoclient_queryisrunning cb client script r).1.lasterrormessage
            = false
          then PRESTOCLIENT_STATUS_FAILED
         else PRESTOCLIENT_STATUS_SUCCEEDED) ∧
      (prestoclient_queryisrunning cb client script r).2.2 =
        !str_empty (prestoclient_queryisrunning cb client script r).1.lastnexturi ∧
      (∀ (members : List (Bytes × Member)) (s : PRESTOCLIENT_RESULT),
        s.lexer.tagorder = [] → (∀ m ∈ members, m.2.wf = true) →
        (lex_tokens cb (reply_tokens members) s).fault = false →
        (lex_tokens cb (reply_tokens members) s).lastnexturi
          = reply_next_uri members s.lastnexturi) := by
  have hin : ¬ (PRESTOCLIENT_HTTP_REQUEST_TYPE_GET ≠ PRESTOCLIENT_HTTP_REQUEST_TYPE_POST ∧
      openuri_in_uri PRESTOCLIENT_HTTP_REQUEST_TYPE_GET r = none) := by
    intro h
    have h2 : r.lastnexturi = none := h.2
    rw [h2] at hu
    cases hu
  have hloop := openuri_eq_loop cb PRESTOCLIENT_HTTP_REQUEST_TYPE_GET client script r hf hin
  have hq : prestoclient_queryisrunning cb client script r =
      (queryisrunning_after_get cb
          (openuri cb PRESTOCLIENT_HTTP_REQUEST_TYPE_GET client script r).1,
        (openuri cb PRESTOCLIENT_HTTP_REQUEST_TYPE_GET client script r).2,
        !str_empty (queryisrunning_after_get cb
          (openuri cb PRESTOCLIENT_HTTP_REQUEST_TYPE_GET client script r).1).lastnexturi) := by
    unfold prestoclient_queryisrunning
    rw [if_neg (by rw [hf]; decide), if_neg (by rw [hc]; decide), if_neg (by rw [hu]; decide)]
    rcases ho : openuri cb PRESTOCLIENT_HTTP_REQUEST_TYPE_GET client script r with ⟨r1, s1⟩
    rw [ho] at hok hnf
    dsimp only at hok hnf ⊢
    rw [if_neg (by rw [hnf]; decide), if_pos hok]
    cases hse : str_empty (queryisrunning_after_get cb r1).lastnexturi <;> simp
  obtain ⟨a1, a2, _, _, a5, _⟩ := queryisrunning_after_get_spec cb
    (openuri cb PRESTOCLIENT_HTTP_REQUEST_TYPE_GET client script r).1
  rw [hq]
  dsimp only
  refine ⟨?_, ?_, rfl, ?_⟩
  · rw [a1, hloop]; rfl
  · rw [a5, a1, a2]
  · intro members s hs hw hff
    exact (lex_reply cb members s hs hw hff).1

/-! ## Evaluations on concrete replies -/

/-- C1 (resumability), evaluated at a failing input. The reply
`{"columns":[{"name":"a","type":"varchar"}],"data":[["é"]]}` is fed to the byte
sink whole, and split between the two bytes 195, 169 of its character U+00E9.
Fed whole, the describe callback and the row callback run, the row with the
cell [195, 169]. Fed in the two chunks, both of which the sink takes, no
callback runs at all: after the first chunk the buffer holds the unread byte
and the terminating zero, [195, 0], one byte more than the remainder. -/
theorem split_inside_character :
    (curl_deliver example_callbacks [utf8_front ++ utf8_back] new_prestoresult).2 = true ∧
      (curl_deliver example_callbacks [utf8_front ++ utf8_back] new_prestoresult).1.trace =
        [Event.describe [(some (ascii "a"), PRESTOCLIENT_TYPE_VARCHAR)],
          Event.row [([195, 169], false)] (-1)] ∧
      (curl_deliver example_callbacks [utf8_front, utf8_back] new_prestoresult).2 = true ∧
      (curl_deliver example_callbacks [utf8_front, utf8_back] new_prestoresult).1.trace = [] ∧
      (WriteCallback example_callbacks utf8_front new_prestoresult).1.lastresponse = [195, 0] ∧
      (WriteCallback example_callbacks utf8_front new_prestoresult).1.json.readposition = 0 := by
  decide!

/-- C5 (describe exactly once), evaluated at scenario S1. The POST is answered
with `{"stats":{"state":"FINISHED"},"columns":[{"name":"c1","type":"bigint"}]}`.
`prestoclient_query` returns without a client error and with the column
`c1` of type BIGINT in the result, and the describe callback has not been
invoked: the trace holds the POST and nothing else. -/
theorem post_only_no_describe :
    (prestoclient_query example_callbacks (some example_client) (some example_sql)
        [reply_ok [s1_body]]).map
      (fun r => (r.errorcode, r.fault, describe_view r, describe_count r.trace, r.trace)) =
    some (PRESTOCLIENT_RESULT_OK, false, [(some (ascii "c1"), PRESTOCLIENT_TYPE_BIGINT)], 0,
      [Event.request PRESTOCLIENT_HTTP_REQUEST_TYPE_POST (ascii "http://h:8080/v1/statement")]) := by
  rfl

/-- C6 (status after clean termination), evaluated at scenario S1. The POST is
answered with the expected code and the well-formed reply of S1, which has no
`nextUri` and no error. `prestoclient_query` returns with no client error, an
absent next URI, the server state `FINISHED`, and the status NONE. -/
theorem post_only_status :
    (prestoclient_query example_callbacks (some example_client) (some example_sql)
        [reply_ok [s1_body]]).map
      (fun r => (r.errorcode, r.fault, r.lastnexturi, r.lasterrormessage, r.laststate,
        prestoclient_getstatus (some r))) =
    some (PRESTOCLIENT_RESULT_OK, false, none, none, some (ascii "FINISHED"),
      PRESTOCLIENT_STATUS_NONE) := by
  rfl

/-- C9, counterexample (scenario S4). The POST is answered with 503 six times:
`prestoclient_query` returns with the client error code
`PRESTOCLIENT_RESULT_MAX_RETRIES_REACHED` and `prestoclient_getstatus` reads
NONE, not FAILED. -/
theorem max_retries_status_not_failed :
    (prestoclient_query example_callbacks (some example_client) (some example_sql)
        s4_script).map
      (fun r => (r.errorcode, r.fault, prestoclient_getstatus (some r),
        decide (prestoclient_getstatus (some r) = PRESTOCLIENT_STATUS_FAILED))) =
    some (PRESTOCLIENT_RESULT_MAX_RETRIES_REACHED, false, PRESTOCLIENT_STATUS_NONE, false) := by
  decide!

/-- C10 (parse error code), evaluated at a failing input. The POST is answered
with the body `{"a":\}`. The tokenizer reaches its error state, and
`prestoclient_query` returns with the client error code
`PRESTOCLIENT_RESULT_CURL_ERROR`, for which `prestoclient_getlastclienterror`
returns "CURL error occurred", not with `PRESTOCLIENT_RESULT_PARSE_JSON_ERROR`. -/
theorem parse_error_code :
    (prestoclient_query example_callbacks (some example_client) (some example_sql)
        [reply_ok [bad_body]]).map
      (fun r => (r.json.error, r.fault, r.errorcode, prestoclient_getlastclienterror (some r))) =
    some (true, false, PRESTOCLIENT_RESULT_CURL_ERROR, some (ascii "CURL error occurred")) := by
  decide!

/-! ## Instances -/

/-- The rows of the value `[["x",1],["y",2]]` of `data`, reaching the lexer in
the result left by the front of the first reply of scenario S2. -/
theorem row_count_witness :
    data_state.fault = false ∧ data_state.columns.length = 2 ∧
      (lex_tokens example_callbacks
          (data_tokens [[Scalar.str (ascii "x"), Scalar.num (ascii "1")],
            [Scalar.str (ascii "y"), Scalar.num (ascii "2")]]) data_state).trace =
        [Event.describe [(some (ascii "a"), PRESTOCLIENT_TYPE_VARCHAR),
            (some (ascii "b"), PRESTOCLIENT_TYPE_BIGINT)],
          Event.row [(ascii "x", false), (ascii "1", false)] (-1),
          Event.row [(ascii "y", false), (ascii "2", false)] (-1)] ∧
      (lex_tokens example_callbacks
          (data_tokens [[Scalar.str (ascii "x"), Scalar.num (ascii "1")],
            [Scalar.str (ascii "y"), Scalar.num (ascii "2")]]) data_state).currentdatacolumn
        = -1 :=
  have h := row_count example_callbacks (fun _ => false) rfl
    [[Scalar.str (ascii "x"), Scalar.num (ascii "1")],
      [Scalar.str (ascii "y"), Scalar.num (ascii "2")]] data_state
    (by decide!) (by rfl) (by rfl) (by decide!) (by decide!) (by rfl)
  ⟨by rfl, by rfl, h.1.trans (by rfl), h.2.1⟩

/-- Witness of C4: scenario S2, where the describe callback runs once, before
the two rows. -/
theorem describe_before_rows_witness :
    (prestoclient_query_run example_callbacks example_client s2_script).trace.filter
        is_callback_event =
        [Event.describe [(some (ascii "a"), PRESTOCLIENT_TYPE_VARCHAR),
            (some (ascii "b"), PRESTOCLIENT_TYPE_BIGINT)],
          Event.row [(ascii "x", false), (ascii "1", false)] (-1),
          Event.row [(ascii "y", false), (ascii "2", false)] (-1)] ∧
      describe_count (prestoclient_query_run example_callbacks example_client s2_script).trace
        ≤ 1 :=
  ⟨by decide!,
    (describe_before_rows example_callbacks (some example_client) (some example_sql) s2_script
      (prestoclient_query_run example_callbacks example_client s2_script) (by rfl)).1⟩

/-- The GET of scenario S2, answered with a reply that has no `nextUri`; the
query ends with the status SUCCEEDED. -/
theorem followup_step_witness :
    s2_posted.lastnexturi = some (ascii "http://h/n/1") ∧
      (prestoclient_queryisrunning example_callbacks example_client [reply_ok [s2_second]]
        s2_posted).1.lastnexturi = some [] ∧
      (prestoclient_queryisrunning example_callbacks example_client [reply_ok [s2_second]]
        s2_posted).1.clientstatus = PRESTOCLIENT_STATUS_SUCCEEDED :=
  have h := followup_step example_callbacks example_client [reply_ok [s2_second]] s2_posted
    (by decide!) (by decide!) (by decide!) (by decide!) (by decide!)
  ⟨by decide!, h.1.trans (by decide!), h.2.1.trans (by decide!)⟩

/-- The retry loop at scenario S3 (503 three times, then 200) and scenario S4
(503 six times), for the POST. -/
theorem openuri_retry_law_witness :
    (openuri example_callbacks PRESTOCLIENT_HTTP_REQUEST_TYPE_POST example_client s3_script
        new_prestoresult).1.errorcode = PRESTOCLIENT_RESULT_OK ∧
      request_count (openuri example_callbacks PRESTOCLIENT_HTTP_REQUEST_TYPE_POST example_client
        s3_script new_prestoresult).1.trace = 4 ∧
      total_sleep (openuri example_callbacks PRESTOCLIENT_HTTP_REQUEST_TYPE_POST example_client
        s3_script new_prestoresult).1.trace = 0 ∧
      (openuri example_callbacks PRESTOCLIENT_HTTP_REQUEST_TYPE_POST example_client s4_script
        new_prestoresult).1.errorcode = PRESTOCLIENT_RESULT_MAX_RETRIES_REACHED :=
  have h3 := openuri_retry_law example_callbacks PRESTOCLIENT_HTTP_REQUEST_TYPE_POST
    example_client s3_script new_prestoresult (by rfl) (by decide)
  have h4 := openuri_retry_law example_callbacks PRESTOCLIENT_HTTP_REQUEST_TYPE_POST
    example_client s4_script new_prestoresult (by rfl) (by decide)
  have a := h3.1 3 (by decide) (by decide!)
  ⟨a.1, a.2.2.1, a.2.2.2.2.1, (h4.2 (by decide!)).1⟩

/-- C8 (retry law), evaluated at a failing input: scenario S3, a POST answered
with 503 three times and then with 200. `openuri` performs four requests and
returns `PRESTOCLIENT_RESULT_OK`, as the claim says, and after the first,
second and third 503 it calls `util_sleep` with 100, 200 and 300 ms. But
`util_sleep` sleeps the whole seconds in the milliseconds it is asked for,
`sleep (sleeptime_msec / 1000)`: each of the three sleeps lasts 0 seconds, and
the sleeps of the request add up to 0 seconds, not to 600 ms. The same holds
for every retry `openuri` can make: asked for `100 * i` ms with `i <= 6`,
`util_sleep` sleeps 0 seconds. -/
theorem retry_sleeps_no_time :
    (openuri example_callbacks PRESTOCLIENT_HTTP_REQUEST_TYPE_POST example_client s3_script
        new_prestoresult).1.errorcode = PRESTOCLIENT_RESULT_OK ∧
      net_events (openuri example_callbacks PRESTOCLIENT_HTTP_REQUEST_TYPE_POST example_client
        s3_script new_prestoresult).1.trace =
        [Event.request PRESTOCLIENT_HTTP_REQUEST_TYPE_POST (ascii "http://h:8080/v1/statement"),
          Event.sleep 0,
          Event.request PRESTOCLIENT_HTTP_REQUEST_TYPE_POST (ascii "http://h:8080/v1/statement"),
          Event.sleep 0,
          Event.request PRESTOCLIENT_HTTP_REQUEST_TYPE_POST (ascii "http://h:8080/v1/statement"),
          Event.sleep 0,
          Event.request PRESTOCLIENT_HTTP_REQUEST_TYPE_POST
            (ascii "http://h:8080/v1/statement")] ∧
      total_sleep (openuri example_callbacks PRESTOCLIENT_HTTP_REQUEST_TYPE_POST example_client
        s3_script new_prestoresult).1.trace = 0 ∧
      ((util_sleep (PRESTOCLIENT_RETRYWAITTIMEMSEC * 1) new_prestoresult).trace =
          [Event.sleep 0] ∧
        (util_sleep (PRESTOCLIENT_RETRYWAITTIMEMSEC * 2) new_prestoresult).trace =
          [Event.sleep 0] ∧
        (util_sleep (PRESTOCLIENT_RETRYWAITTIMEMSEC * 3) new_prestoresult).trace =
          [Event.sleep 0]) ∧
      (∀ (i : Nat) (r : PRESTOCLIENT_RESULT), i ≤ 6 →
        util_sleep (PRESTOCLIENT_RETRYWAITTIMEMSEC * i) r =
          { r with trace := r.trace ++ [Event.sleep 0] }) := by
  refine ⟨by decide!, by decide!, by decide!, ⟨by decide, by decide, by decide⟩, ?_⟩
  intro i r hi
  have h0 : PRESTOCLIENT_RETRYWAITTIMEMSEC * i / 1000 = 0 := by
    apply Nat.div_eq_of_lt
    unfold PRESTOCLIENT_RETRYWAITTIMEMSEC
    omega
  unfold util_sleep
  rw [h0]

/-- Witness of C9 as amended: scenario S4, which ends with the status NONE. -/
theorem client_error_status_witness :
    (prestoclient_query_run example_callbacks example_client s4_script).errorcode =
        PRESTOCLIENT_RESULT_MAX_RETRIES_REACHED ∧
      prestoclient_getstatus (some (prestoclient_query_run example_callbacks example_client
        s4_script)) ≠ PRESTOCLIENT_STATUS_FAILED :=
  ⟨by decide!,
    (client_error_status example_callbacks (some example_client) (some example_sql) s4_script
      (prestoclient_query_run example_callbacks example_client s4_script) (by rfl)
      (by decide!)).2⟩

/-! ## Columns: names, types and the accessors -/

theorem presto_type_of_spec (value : Bytes) :
    (presto_type_of value = PRESTOCLIENT_TYPE_BIGINT ↔ value = ascii "bigint") ∧
    (presto_type_of value = PRESTOCLIENT_TYPE_BOOLEAN ↔ value = ascii "boolean") ∧
    (presto_type_of value = PRESTOCLIENT_TYPE_DOUBLE ↔ value = ascii "double") ∧
    (presto_type_of value = PRESTOCLIENT_TYPE_DATE ↔ value = ascii "date") ∧
    (presto_type_of value = PRESTOCLIENT_TYPE_TIME ↔ value = ascii "time") ∧
    (presto_type_of value = PRESTOCLIENT_TYPE_TIME_WITH_TIME_ZONE ↔
      value = ascii "time with time zone") ∧
    (presto_type_of value = PRESTOCLIENT_TYPE_TIMESTAMP ↔ value = ascii "timestamp") ∧
    (presto_type_of value = PRESTOCLIENT_TYPE_TIMESTAMP_WITH_TIME_ZONE ↔
      value = ascii "timestamp with time zone") ∧
    (presto_type_of value = PRESTOCLIENT_TYPE_INTERVAL_YEAR_TO_MONTH ↔
      value = ascii "interval year to month") ∧
    (presto_type_of value = PRESTOCLIENT_TYPE_INTERVAL_DAY_TO_SECOND ↔
      value = ascii "interval day to second") ∧
    (presto_type_of value = PRESTOCLIENT_TYPE_VARCHAR ↔
      value ∉ [ascii "bigint", ascii "boolean", ascii "double", ascii "date", ascii "time",
        ascii "time with time zone", ascii "timestamp", ascii "timestamp with time zone",
        ascii "interval year to month", ascii "interval day to second"]) ∧
    presto_type_of value ≠ PRESTOCLIENT_TYPE_UNDEFINED := by
  unfold presto_type_of
  split_ifs with h1 h2 h3 h4 h5 h6 h7 h8 h9 h10
  all_goals (try subst_vars)
  all_goals
    refine ⟨?_, ?_, ?_, ?_, ?_, ?_, ?_, ?_, ?_, ?_, ?_, ?_⟩ <;>
    first
    | decide
    | (constructor
       · intro h; first | (cases h; done) | exact absurd rfl (by assumption)
       · intro h; exact absurd h (by assumption))
    | (simp only [List.mem_cons, List.mem_singleton, List.not_mem_nil, or_false, not_or]
       exact ⟨fun _ => ⟨h1, h2, h3, h4, h5, h6, h7, h8, h9, h10⟩, fun _ => trivial⟩)

/-- The lexer on a scalar that follows a colon: the projector's if-chain runs
on the scalar's textual form, then name, value and tag buffer are emptied. -/
theorem lex_token_scalar_value (cb : Callbacks) (v : Scalar) (r : PRESTOCLIENT_RESULT)
    (hp : r.lexer.previoustag = JSON_TT_COLON) :
    lex_token cb v.token r = lex_finish (json_extract_dispatch cb (lex_scalar_state v r)) := by
  cases v <;>
    simp only [lex_token, json_lexer, json_lexer_switch, lexer_value, json_extract_variables,
      lex_finish, lex_scalar_state, Scalar.token, Scalar.text, Option.getD_none,
      Option.getD_some, hp, true_or, if_true]

/-- Inside an element of `columns`, before the column info is frozen, a value
named `name` or `type` reaches the column branch of the projector. -/
theorem json_extract_dispatch_column (cb : Callbacks) (r : PRESTOCLIENT_RESULT)
    (hc : in_columns_element r.lexer) (hav : r.columninfoavailable = false)
    (hn : r.lexer.name = ascii "name" ∨ r.lexer.name = ascii "type") :
    json_extract_dispatch cb r = extract_column r := by
  obtain ⟨e1, t2, e3, rest, hst⟩ := hc
  have hb2 : tagordername_back r.lexer 2 = ascii "columns" := by
    simp [tagordername_back, hst]
  have hlen : r.lexer.tagorder.length = rest.length + 3 := by rw [hst]; simp
  unfold json_extract_dispatch
  dsimp only
  rw [if_neg (by rw [hb2]; intro h; exact absurd h.2 (by decide)),
    if_neg (by intro h; omega), if_neg (by intro h; omega), if_neg (by intro h; omega),
    if_neg (by
      intro h
      rcases hn with hn | hn <;> rw [hn] at h <;> exact absurd h.2.2 (by decide)),
    if_neg (by rw [hb2]; intro h; exact absurd h.2.1 (by decide)),
    if_neg (by rw [hb2]; intro h; exact absurd h.2.1 (by decide)),
    if_pos ⟨hav, by omega, hb2⟩]

/-- C16 (accessors fail soft). For a result and a column index that is not
below the column count, `prestoclient_getcolumnname`,
`prestoclient_getcolumntypedescription` and `prestoclient_getcolumndata` return
NULL, `prestoclient_getcolumntype` returns `PRESTOCLIENT_TYPE_UNDEFINED` and
`prestoclient_getnullcolumnvalue` returns true; the same holds whatever columns
the result has below that index, so no column is read. The accessors are
functions of the result: the source's accessors assign nothing. -/
theorem accessors_out_of_range (r : PRESTOCLIENT_RESULT) (i : Nat)
    (h : prestoclient_getcolumncount (some r) ≤ i) :
    prestoclient_getcolumnname (some r) i = none ∧
      prestoclient_getcolumntypedescription (some r) i = none ∧
      prestoclient_getcolumndata (some r) i = none ∧
      prestoclient_getcolumntype (some r) i = PRESTOCLIENT_TYPE_UNDEFINED ∧
      prestoclient_getnullcolumnvalue (some r) i = true ∧
      (∀ columns : List PRESTOCLIENT_FIELD, columns.length ≤ i →
        prestoclient_getcolumnname (some { r with columns := columns }) i = none ∧
        prestoclient_getcolumntypedescription (some { r with columns := columns }) i = none ∧
        prestoclient_getcolumndata (some { r with columns := columns }) i = none ∧
        prestoclient_getcolumntype (some { r with columns := columns }) i
          = PRESTOCLIENT_TYPE_UNDEFINED ∧
        prestoclient_getnullcolumnvalue (some { r with columns := columns }) i = true) := by
  have key : ∀ s : PRESTOCLIENT_RESULT, s.columns.length ≤ i →
      prestoclient_getcolumnname (some s) i = none ∧
      prestoclient_getcolumntypedescription (some s) i = none ∧
      prestoclient_getcolumndata (some s) i = none ∧
      prestoclient_getcolumntype (some s) i = PRESTOCLIENT_TYPE_UNDEFINED ∧
      prestoclient_getnullcolumnvalue (some s) i = true := by
    intro s hs
    have hnone : s.columns[i]? = none := List.getElem?_eq_none hs
    refine ⟨?_, ?_, ?_, ?_, ?_⟩
    · simp only [prestoclient_getcolumnname]; rw [if_pos hs]
    · simp only [prestoclient_getcolumntypedescription]; rw [if_pos hs]
    · simp only [prestoclient_getcolumndata]; rw [hnone]; rfl
    · simp only [prestoclient_getcolumntype]; rw [if_pos hs]
    · simp only [prestoclient_getnullcolumnvalue]; rw [hnone]
  exact ⟨(key r h).1, (key r h).2.1, (key r h).2.2.1, (key r h).2.2.2.1, (key r h).2.2.2.2,
    fun columns hc => key { r with columns := columns } hc⟩

/-- Witness of C16: index 1 in the result of scenario S1, which has one column. -/
theorem accessors_out_of_range_witness :
    prestoclient_getcolumncount (some (prestoclient_query_run example_callbacks example_client
        [reply_ok [s1_body]])) = 1 ∧
      prestoclient_getcolumntype (some (prestoclient_query_run example_callbacks example_client
        [reply_ok [s1_body]])) 1 = PRESTOCLIENT_TYPE_UNDEFINED ∧
      prestoclient_getcolumnname (some (prestoclient_query_run example_callbacks example_client
        [reply_ok [s1_body]])) 1 = none :=
  have h := accessors_out_of_range (prestoclient_query_run example_callbacks example_client
    [reply_ok [s1_body]]) 1 (by decide!)
  ⟨by decide!, h.2.2.2.1, h.1⟩

/-- A comma, a member name and a colon directly inside an object: the name is
kept as the current name and the lexer waits for the member's value. -/
theorem lex_member_prelude (cb : Callbacks) (n : Bytes) (rest : List Token)
    (r : PRESTOCLIENT_RESULT) (harr : json_in_array r.lexer = false) (hf : r.fault = false) :
    lex_tokens cb ((JSON_TT_COMMA, []) :: (JSON_TT_STRING, n) :: (JSON_TT_COLON, []) :: rest) r =
      lex_tokens cb rest
        { r with
          lexer := { r.lexer with name := n, previoustag := JSON_TT_COLON }
          json := { r.json with tagtype := JSON_TT_COLON, tagbuffer := [] } } := by
  have c1 := lex_token_comma cb r
  have f1 : (lex_token cb (JSON_TT_COMMA, []) r).fault = false := by rw [c1]; exact hf
  have n2 : lex_token cb (JSON_TT_STRING, n) (lex_token cb (JSON_TT_COMMA, []) r) =
      { r with
        lexer := { r.lexer with name := n, previoustag := JSON_TT_STRING }
        json := { r.json with tagtype := JSON_TT_STRING, tagbuffer := [] } } := by
    have hp : (lex_token cb (JSON_TT_COMMA, []) r).lexer.previoustag ≠ JSON_TT_COLON := by
      rw [c1]; show JSON_TT_COMMA ≠ JSON_TT_COLON; decide
    have ha : json_in_array (lex_token cb (JSON_TT_COMMA, []) r).lexer = false := by
      rw [c1]; exact harr
    rw [lex_token_name cb n _ hp ha, c1]
  have f2 : (lex_token cb (JSON_TT_STRING, n) (lex_token cb (JSON_TT_COMMA, []) r)).fault
      = false := by rw [n2]; exact hf
  have n3 : lex_token cb (JSON_TT_COLON, [])
      (lex_token cb (JSON_TT_STRING, n) (lex_token cb (JSON_TT_COMMA, []) r)) =
      { r with
        lexer := { r.lexer with name := n, previoustag := JSON_TT_COLON }
        json := { r.json with tagtype := JSON_TT_COLON, tagbuffer := [] } } := by
    rw [lex_token_colon, n2]
  rw [lex_tokens_cons cb _ _ r hf, lex_tokens_cons cb _ _ _ f1, lex_tokens_cons cb _ _ _ f2, n3]

/-- A value named `type` in an element of `columns`: the type of the last
column becomes `presto_type_of` of the value. -/
theorem lex_token_column_type (cb : Callbacks) (v : Scalar) (r : PRESTOCLIENT_RESULT)
    (f : PRESTOCLIENT_FIELD) (hc : in_columns_element r.lexer)
    (hav : r.columninfoavailable = false) (hname : r.lexer.name = ascii "type")
    (hp : r.lexer.previoustag = JSON_TT_COLON) (hlast : r.columns.getLast? = some f) :
    (lex_token cb v.token r).columns =
      r.columns.dropLast ++ [{ f with type := presto_type_of v.text }] := by
  rw [lex_token_scalar_value cb v r hp,
    json_extract_dispatch_column cb (lex_scalar_state v r) hc hav (Or.inr hname)]
  have hlen : r.columns.length > 0 := by
    cases hcol : r.columns with
    | nil => rw [hcol] at hlast; cases hlast
    | cons a b => simp
  show (extract_column (lex_scalar_state v r)).columns = _
  unfold extract_column
  have hn1 : (lex_scalar_state v r).lexer.name = ascii "type" := hname
  rw [if_neg (by rw [hn1]; decide), if_pos ⟨hlen, hn1⟩]
  have hl2 : (lex_scalar_state v r).columns.getLast? = some f := hlast
  rw [hl2]
  rfl

/-- A value named `name` in an element of `columns`: a column with that name
is appended, and the lexer is ready for the next member. -/
theorem lex_token_column_name (cb : Callbacks) (v : Scalar) (r : PRESTOCLIENT_RESULT)
    (hc : in_columns_element r.lexer) (hav : r.columninfoavailable = false)
    (hname : r.lexer.name = ascii "name") (hp : r.lexer.previoustag = JSON_TT_COLON) :
    lex_token cb v.token r =
      lex_finish { lex_scalar_state v r with columns := r.columns ++ [named_field v.text] } := by
  rw [lex_token_scalar_value cb v r hp,
    json_extract_dispatch_column cb (lex_scalar_state v r) hc hav (Or.inl hname)]
  have hn1 : (lex_scalar_state v r).lexer.name = ascii "name" := hname
  unfold extract_column
  rw [if_pos hn1]
  rfl

/-- C17 (type mapping). A scalar `v` reaches the lexer as the value of the
member `type` of an element of `columns`, before the column info is frozen and
with at least one column in place. Then the type of the last column, the one
appended for this element's `name`, becomes `presto_type_of` of the text of
`v` and nothing else changes in the column vector; and that type is BIGINT,
BOOLEAN, DOUBLE, DATE, TIME, TIME_WITH_TIME_ZONE, TIMESTAMP,
TIMESTAMP_WITH_TIME_ZONE, INTERVAL_YEAR_TO_MONTH or INTERVAL_DAY_TO_SECOND
exactly when the text is byte for byte the lower-case literal of that type,
VARCHAR for every other text, and never UNDEFINED. -/
theorem type_mapping (cb : Callbacks) (v : Scalar) (r : PRESTOCLIENT_RESULT)
    (f : PRESTOCLIENT_FIELD) (hc : in_columns_element r.lexer)
    (hav : r.columninfoavailable = false) (hname : r.lexer.name = ascii "type")
    (hp : r.lexer.previoustag = JSON_TT_COLON) (hlast : r.columns.getLast? = some f) :
    (lex_token cb v.token r).columns =
        r.columns.dropLast ++ [{ f with type := presto_type_of v.text }] ∧
      (presto_type_of v.text = PRESTOCLIENT_TYPE_BIGINT ↔ v.text = ascii "bigint") ∧
      (presto_type_of v.text = PRESTOCLIENT_TYPE_BOOLEAN ↔ v.text = ascii "boolean") ∧
      (presto_type_of v.text = PRESTOCLIENT_TYPE_DOUBLE ↔ v.text = ascii "double") ∧
      (presto_type_of v.text = PRESTOCLIENT_TYPE_DATE ↔ v.text = ascii "date") ∧
      (presto_type_of v.text = PRESTOCLIENT_TYPE_TIME ↔ v.text = ascii "time") ∧
      (presto_type_of v.text = PRESTOCLIENT_TYPE_TIME_WITH_TIME_ZONE ↔
        v.text = ascii "time with time zone") ∧
      (presto_type_of v.text = PRESTOCLIENT_TYPE_TIMESTAMP ↔ v.text = ascii "timestamp") ∧
      (presto_type_of v.text = PRESTOCLIENT_TYPE_TIMESTAMP_WITH_TIME_ZONE ↔
        v.text = ascii "timestamp with time zone") ∧
      (presto_type_of v.text = PRESTOCLIENT_TYPE_INTERVAL_YEAR_TO_MONTH ↔
        v.text = ascii "interval year to month") ∧
      (presto_type_of v.text = PRESTOCLIENT_TYPE_INTERVAL_DAY_TO_SECOND ↔
        v.text = ascii "interval day to second") ∧
      (presto_type_of v.text = PRESTOCLIENT_TYPE_VARCHAR ↔
        v.text ∉ [ascii "bigint", ascii "boolean", ascii "double", ascii "date", ascii "time",
          ascii "time with time zone", ascii "timestamp", ascii "timestamp with time zone",
          ascii "interval year to month", ascii "interval day to second"]) ∧
      presto_type_of v.text ≠ PRESTOCLIENT_TYPE_UNDEFINED := by
  exact ⟨lex_token_column_type cb v r f hc hav hname hp hlast, presto_type_of_spec v.text⟩

/-- Witness of C17: the value `"bigint"` after
`{"columns":[{"name":"a","type":`. -/
theorem type_mapping_witness :
    column_type_state.columns = [named_field (ascii "a")] ∧
      (lex_token example_callbacks (Scalar.str (ascii "bigint")).token column_type_state).columns =
        [{ named_field (ascii "a") with type := PRESTOCLIENT_TYPE_BIGINT }] :=
  have h := type_mapping example_callbacks (Scalar.str (ascii "bigint")) column_type_state
    (named_field (ascii "a"))
    ⟨(JSON_TT_OBJECT_OPEN, []), JSON_TT_ARRAY_OPEN, (JSON_TT_OBJECT_OPEN, []), [], by rfl⟩
    (by rfl) (by rfl) (by rfl) (by rfl)
  ⟨by rfl, h.1.trans (by rfl)⟩

/-- C18, as amended (column appended by a name). A scalar `v` reaches the lexer
as the value of the member `name` of an element of `columns`, before the column
info is frozen. Then exactly one column is appended at the end of the column
vector, the columns before it are as they were, the name of the new column is
the text of `v`, and its type, as `new_prestofield` sets it, is
`PRESTOCLIENT_TYPE_VARCHAR`; when the member `type` comes next in the element,
an object, with the scalar `w` as its value, the type of the new column becomes
`presto_type_of` of the text of `w`. -/
theorem column_appended (cb : Callbacks) (v w : Scalar) (r : PRESTOCLIENT_RESULT)
    (hc : ∃ n1 t2 e3 rest,
      r.lexer.tagorder = (JSON_TT_OBJECT_OPEN, n1) :: (t2, ascii "columns") :: e3 :: rest)
    (hav : r.columninfoavailable = false) (hname : r.lexer.name = ascii "name")
    (hp : r.lexer.previoustag = JSON_TT_COLON) (hf : r.fault = false) :
    (lex_token cb v.token r).columns =
        r.columns ++ [{ name := some v.text, type := PRESTOCLIENT_TYPE_VARCHAR, data := [],
                        dataisnull := false }] ∧
      prestoclient_getcolumncount (some (lex_token cb v.token r)) =
        prestoclient_getcolumncount (some r) + 1 ∧
      prestoclient_getcolumnname (some (lex_token cb v.token r)) r.columns.length =
        some v.text ∧
      prestoclient_getcolumntype (some (lex_token cb v.token r)) r.columns.length =
        PRESTOCLIENT_TYPE_VARCHAR ∧
      (lex_tokens cb [v.token, (JSON_TT_COMMA, []), (JSON_TT_STRING, ascii "type"),
          (JSON_TT_COLON, []), w.token] r).columns =
        r.columns ++ [{ name := some v.text, type := presto_type_of w.text, data := [],
                        dataisnull := false }] := by
  obtain ⟨n1, t2, e3, rest, hst⟩ := hc
  have hc' : in_columns_element r.lexer := ⟨_, t2, e3, rest, hst⟩
  have e0 := lex_token_column_name cb v r hc' hav hname hp
  have e1 : (lex_token cb v.token r).columns =
      r.columns ++ [{ name := some v.text, type := PRESTOCLIENT_TYPE_VARCHAR, data := [],
                      dataisnull := false }] := by
    rw [e0]; rfl
  have hget : (lex_token cb v.token r).columns[r.columns.length]? =
      some { name := some v.text, type := PRESTOCLIENT_TYPE_VARCHAR, data := [],
             dataisnull := false } := by
    rw [e1, List.getElem?_append_right (Nat.le_refl _)]; simp
  have hlt : ¬ r.columns.length ≥ (lex_token cb v.token r).columns.length := by
    rw [e1]; simp
  refine ⟨e1, ?_, ?_, ?_, ?_⟩
  · simp only [prestoclient_getcolumncount]; rw [e1]; simp
  · simp only [prestoclient_getcolumnname]; rw [if_neg hlt, hget]; rfl
  · simp only [prestoclient_getcolumntype]; rw [if_neg hlt, hget]
  · have s1 : (lex_token cb v.token r).fault = false := by rw [e0]; exact hf
    have s2 : (lex_token cb v.token r).lexer.tagorder = r.lexer.tagorder := by rw [e0]; rfl
    have s3 : (lex_token cb v.token r).columninfoavailable = false := by rw [e0]; exact hav
    rw [lex_tokens_cons cb _ _ r hf]
    generalize lex_token cb v.token r = r1 at e1 s1 s2 s3 ⊢
    have harr : json_in_array r1.lexer = false := by
      unfold json_in_array; rw [s2, hst]; rfl
    rw [lex_member_prelude cb (ascii "type") _ r1 harr s1]
    have fx : (PRESTOCLIENT_RESULT.fault
        { r1 with
          lexer := { r1.lexer with name := ascii "type", previoustag := JSON_TT_COLON }
          json := { r1.json with tagtype := JSON_TT_COLON, tagbuffer := [] } }) = false := s1
    rw [lex_tokens_cons cb _ _ _ fx]
    simp only [lex_tokens]
    have hl : r1.columns.getLast? = some (named_field v.text) := by
      rw [e1]; simp [named_field, new_prestofield, alloc_copy]
    rw [lex_token_column_type cb w
      { r1 with
        lexer := { r1.lexer with name := ascii "type", previoustag := JSON_TT_COLON }
        json := { r1.json with tagtype := JSON_TT_COLON, tagbuffer := [] } }
      (named_field v.text) ⟨_, t2, e3, rest, s2.trans hst⟩ s3 rfl rfl hl]
    show r1.columns.dropLast ++ _ = _
    rw [e1]; simp [named_field, new_prestofield, alloc_copy]

/-- C18, counterexample. When the byte sink has taken `{"columns":[{"name":"a"`
there is one column, named `a`, for which no type value has arrived, and
`prestoclient_getcolumntype` returns `PRESTOCLIENT_TYPE_VARCHAR` for it, not
`PRESTOCLIENT_TYPE_UNDEFINED`. -/
theorem new_column_type_not_undefined :
    (WriteCallback example_callbacks column_named_front new_prestoresult).2 =
        column_named_front.length ∧
      prestoclient_getcolumncount
        (some (WriteCallback example_callbacks column_named_front new_prestoresult).1) = 1 ∧
      prestoclient_getcolumnname
        (some (WriteCallback example_callbacks column_named_front new_prestoresult).1) 0 =
        some (ascii "a") ∧
      prestoclient_getcolumntype
        (some (WriteCallback example_callbacks column_named_front new_prestoresult).1) 0 =
        PRESTOCLIENT_TYPE_VARCHAR ∧
      prestoclient_getcolumntype
        (some (WriteCallback example_callbacks column_named_front new_prestoresult).1) 0 ≠
        PRESTOCLIENT_TYPE_UNDEFINED := by
  decide!

/-- Witness of C18 as amended: the value `"a"` after `{"columns":[{"name":`,
followed by `,"type":"bigint"`. -/
theorem column_appended_witness :
    column_name_state.columns = [] ∧
      (lex_token example_callbacks (Scalar.str (ascii "a")).token column_name_state).columns =
        [named_field (ascii "a")] ∧
      (lex_tokens example_callbacks [(Scalar.str (ascii "a")).token, (JSON_TT_COMMA, []),
          (JSON_TT_STRING, ascii "type"), (JSON_TT_COLON, []),
          (Scalar.str (ascii "bigint")).token] column_name_state).columns =
        [{ named_field (ascii "a") with type := PRESTOCLIENT_TYPE_BIGINT }] :=
  have h := column_appended example_callbacks (Scalar.str (ascii "a"))
    (Scalar.str (ascii "bigint")) column_name_state
    ⟨[], JSON_TT_ARRAY_OPEN, (JSON_TT_OBJECT_OPEN, []), [], by rfl⟩
    (by rfl) (by rfl) (by rfl) (by rfl)
  ⟨by rfl, h.1.trans (by rfl), h.2.2.2.2.trans (by rfl)⟩

/-- C19 (type descriptions), evaluated at a failing input. The POST is
answered with `{"columns":[{"name":"d","type":"date"},{"name":"t","type":"time"}]}`.
The result has a column of type DATE and a column of type TIME, and
`prestoclient_getcolumntypedescription` returns "PRESTO_UNDEFINED" for both. -/
theorem date_time_same_description :
    (prestoclient_query example_callbacks (some example_client) (some example_sql)
        [reply_ok [date_time_body]]).map
      (fun r => (r.errorcode, r.fault,
        prestoclient_getcolumntype (some r) 0, prestoclient_getcolumntype (some r) 1,
        prestoclient_getcolumntypedescription (some r) 0,
        prestoclient_getcolumntypedescription (some r) 1)) =
    some (PRESTOCLIENT_RESULT_OK, false, PRESTOCLIENT_TYPE_DATE, PRESTOCLIENT_TYPE_TIME,
      some (ascii "PRESTO_UNDEFINED"), some (ascii "PRESTO_UNDEFINED")) := by
  rfl

/-! ## Requests, retries and cancellation -/

theorem type_count_append (t : E_HTTP_REQUEST_TYPES) (a b : List Event) :
    type_count t (a ++ b) = type_count t a + type_count t b := by
  induction a with
  | nil => simp [type_count]
  | cons e rest ih => cases e <;> simp [type_count, ih] <;> omega

theorem type_count_net (t : E_HTTP_REQUEST_TYPES) (tr : List Event) :
    type_count t (net_events tr) = type_count t tr := by
  induction tr with
  | nil => rfl
  | cons e rest ih =>
    cases e <;> simp [net_events, type_count, List.filter] at ih ⊢ <;> exact ih

/-- A transfer that libcurl reports as answered with an HTTP code is a
transfer of the script with that code. -/
theorem curl_easy_perform_http (cb : Callbacks) (resp : Option Response)
    (r : PRESTOCLIENT_RESULT) (code : Nat)
    (h : (curl_easy_perform cb resp r).2 = CurlOutcome.http code) :
    ∃ rs, resp = some rs ∧ rs.outcome = CurlOutcome.http code := by
  unfold curl_easy_perform at h
  split at h
  · cases h
  · rename_i rs
    refine ⟨rs, rfl, ?_⟩
    split at h
    · split at h
      · rename_i c hc; rw [hc]; exact h
      · cases h
    · split_ifs at h

/-- An attempt answered with a code that is neither the expected one nor 503:
`openuri` records `PRESTOCLIENT_RESULT_SERVER_ERROR` and the code, and stops. -/
theorem openuri_attempt_other (cb : Callbacks) (t : E_HTTP_REQUEST_TYPES) (url : Bytes)
    (retrycount : Nat) (resp : Option Response) (r : PRESTOCLIENT_RESULT) (code : Nat)
    (hout : (curl_easy_perform cb resp
        { r with trace := r.trace ++ [Event.request t url] }).2 = CurlOutcome.http code)
    (hnf : (curl_easy_perform cb resp
        { r with trace := r.trace ++ [Event.request t url] }).1.fault = false)
    (h1 : code ≠ expected_http_code t) (h2 : code ≠ PRESTOCLIENT_CURL_EXPECT_HTTP_BUSY) :
    openuri_attempt cb t url retrycount resp r =
      ({ (curl_easy_perform cb resp { r with trace := r.trace ++ [Event.request t url] }).1 with
          errorcode := PRESTOCLIENT_RESULT_SERVER_ERROR
          curl_error_buffer := some (ascii "Http-code: " ++ sprintf_d (code % 2 ^ 32)) },
        false) := by
  unfold openuri_attempt
  rcases hp : curl_easy_perform cb resp
    { r with trace := r.trace ++ [Event.request t url] } with ⟨r1, out⟩
  rw [hp] at hout hnf
  dsimp only at hout hnf
  subst hout
  dsimp only
  rw [if_neg (by rw [hnf]; decide), if_neg h1, if_neg h2]
  rfl

/-- An attempt that the transport reports as failed: `openuri` records
`PRESTOCLIENT_RESULT_CURL_ERROR` and stops. -/
theorem openuri_attempt_failed (cb : Callbacks) (t : E_HTTP_REQUEST_TYPES) (url : Bytes)
    (retrycount : Nat) (resp : Option Response) (r : PRESTOCLIENT_RESULT)
    (hout : (curl_easy_perform cb resp
        { r with trace := r.trace ++ [Event.request t url] }).2 = CurlOutcome.failed)
    (hnf : (curl_easy_perform cb resp
        { r with trace := r.trace ++ [Event.request t url] }).1.fault = false) :
    openuri_attempt cb t url retrycount resp r =
      ({ (curl_easy_perform cb resp { r with trace := r.trace ++ [Event.request t url] }).1 with
          errorcode := PRESTOCLIENT_RESULT_CURL_ERROR }, false) := by
  unfold openuri_attempt
  rcases hp : curl_easy_perform cb resp
    { r with trace := r.trace ++ [Event.request t url] } with ⟨r1, out⟩
  rw [hp] at hout hnf
  dsimp only at hout hnf
  subst hout
  dsimp only
  rw [if_neg (by rw [hnf]; decide)]

/-- An attempt that does not ask for another one ends the loop of `openuri`
and leaves the rest of the script alone. -/
theorem openuri_loop_stop (cb : Callbacks) (t : E_HTTP_REQUEST_TYPES) (url : Bytes)
    (retrycount : Nat) (resp : Response) (rest : List Response) (r : PRESTOCLIENT_RESULT)
    (h : (openuri_attempt cb t url (retrycount + 1) (some resp) r).2 = false) :
    openuri_loop cb t url retrycount (resp :: rest) r =
      ((openuri_attempt cb t url (retrycount + 1) (some resp) r).1, rest) := by
  unfold openuri_loop
  rcases ha : openuri_attempt cb t url (retrycount + 1) (some resp) r with ⟨r1, b⟩
  rw [ha] at h
  dsimp only at h
  subst h
  rfl

theorem sprintf_d_small (c : Nat) (h : c < 2 ^ 31) :
    sprintf_d (c % 2 ^ 32) = ascii (toString c) := by
  have : c % 2 ^ 32 = c := Nat.mod_eq_of_lt (by omega)
  rw [this]
  unfold sprintf_d
  rw [if_pos h]

/-- C11 (only 503 is retried). An attempt of `openuri`, the transfer `resp` of
the script, made with any retry count on a result that the transfer leaves
alive. (1) If it is answered with an HTTP code `c` that is neither the expected
code nor 503, `openuri` performs no further request (the rest of the script is
left, and one request has been added to the trace), the client error code is
`PRESTOCLIENT_RESULT_SERVER_ERROR`, for which `prestoclient_getlastclienterror`
returns "Server returned error", and the transport error text is
"Http-code: " followed by `c` as `printf` writes it for `%d`, which is `c` in
decimal for `c < 2^31`. (2) If the transport reports a failure, `openuri`
performs no further request either and the client error code is
`PRESTOCLIENT_RESULT_CURL_ERROR`. -/
theorem only_busy_retried (cb : Callbacks) (t : E_HTTP_REQUEST_TYPES) (url : Bytes)
    (retrycount : Nat) (resp : Response) (rest : List Response) (r : PRESTOCLIENT_RESULT)
    (hnf : (curl_easy_perform cb (some resp)
        { r with trace := r.trace ++ [Event.request t url] }).1.fault = false) :
    (∀ c, (curl_easy_perform cb (some resp)
          { r with trace := r.trace ++ [Event.request t url] }).2 = CurlOutcome.http c →
        c ≠ expected_http_code t → c ≠ PRESTOCLIENT_CURL_EXPECT_HTTP_BUSY →
        (openuri_loop cb t url retrycount (resp :: rest) r).2 = rest ∧
        request_count (openuri_loop cb t url retrycount (resp :: rest) r).1.trace =
          request_count r.trace + 1 ∧
        (openuri_loop cb t url retrycount (resp :: rest) r).1.errorcode =
          PRESTOCLIENT_RESULT_SERVER_ERROR ∧
        prestoclient_getlastclienterror
            (some (openuri_loop cb t url retrycount (resp :: rest) r).1) =
          some (ascii "Server returned error") ∧
        (openuri_loop cb t url retrycount (resp :: rest) r).1.curl_error_buffer =
          some (ascii "Http-code: " ++ sprintf_d (c % 2 ^ 32)) ∧
        (c < 2 ^ 31 →
          prestoclient_getlastcurlerror
              (some (openuri_loop cb t url retrycount (resp :: rest) r).1) =
            some (ascii "Http-code: " ++ ascii (toString c)))) ∧
      ((curl_easy_perform cb (some resp)
          { r with trace := r.trace ++ [Event.request t url] }).2 = CurlOutcome.failed →
        (openuri_loop cb t url retrycount (resp :: rest) r).2 = rest ∧
        request_count (openuri_loop cb t url retrycount (resp :: rest) r).1.trace =
          request_count r.trace + 1 ∧
        (openuri_loop cb t url retrycount (resp :: rest) r).1.errorcode =
          PRESTOCLIENT_RESULT_CURL_ERROR) := by
  have hreq : request_count (curl_easy_perform cb (some resp)
      { r with trace := r.trace ++ [Event.request t url] }).1.trace = request_count r.trace + 1 := by
    rw [← request_count_net, (curl_easy_perform_net cb _ _).1, request_count_net,
      request_count_append]
    rfl
  refine ⟨?_, ?_⟩
  · intro c hout h1 h2
    have ha := openuri_attempt_other cb t url (retrycount + 1) (some resp) r c hout hnf h1 h2
    rw [openuri_loop_stop cb t url retrycount resp rest r (by rw [ha]), ha]
    refine ⟨rfl, hreq, rfl, rfl, rfl, ?_⟩
    intro hc
    rw [sprintf_d_small c hc]
    simp [prestoclient_getlastcurlerror, ascii]
  · intro hout
    have ha := openuri_attempt_failed cb t url (retrycount + 1) (some resp) r hout hnf
    rw [openuri_loop_stop cb t url retrycount resp rest r (by rw [ha]), ha]
    exact ⟨rfl, hreq, rfl⟩

/-- What one attempt of `openuri` adds to the requests and sleeps of the
trace: the request, and a sleep when the answer was 503; it asks for another
attempt only after a transfer of the script that was answered with 503, and
only when fewer than six attempts have been made. -/
theorem openuri_attempt_events (cb : Callbacks) (t : E_HTTP_REQUEST_TYPES) (url : Bytes)
    (retrycount : Nat) (resp : Option Response) (r : PRESTOCLIENT_RESULT) :
    (net_events (openuri_attempt cb t url retrycount resp r).1.trace =
        net_events r.trace ++ [Event.request t url] ∨
      net_events (openuri_attempt cb t url retrycount resp r).1.trace =
        net_events r.trace ++
          [Event.request t url,
            Event.sleep (PRESTOCLIENT_RETRYWAITTIMEMSEC * retrycount / 1000)]) ∧
      ((openuri_attempt cb t url retrycount resp r).2 = true →
        (∃ rs, resp = some rs ∧
          rs.outcome = CurlOutcome.http PRESTOCLIENT_CURL_EXPECT_HTTP_BUSY) ∧
        retrycount ≤ PRESTOCLIENT_MAXIMUMRETRIES) := by
  obtain ⟨hnet, _⟩ := curl_easy_perform_net cb resp
    { r with trace := r.trace ++ [Event.request t url] }
  have hhttp := curl_easy_perform_http cb resp
    { r with trace := r.trace ++ [Event.request t url] }
  have hn0 : net_events (r.trace ++ [Event.request t url]) =
      net_events r.trace ++ [Event.request t url] := by
    rw [net_events_append]; rfl
  unfold openuri_attempt
  rcases hp : curl_easy_perform cb resp
    { r with trace := r.trace ++ [Event.request t url] } with ⟨r1, out⟩
  rw [hp] at hnet hhttp
  dsimp only at hnet hhttp
  rw [hn0] at hnet
  cases out with
  | failed =>
    dsimp only
    split_ifs
    · exact ⟨Or.inl hnet, fun h => by cases h⟩
    · exact ⟨Or.inl hnet, fun h => by cases h⟩
  | http code =>
    dsimp only
    split_ifs with h1 h2 h3 h4
    · exact ⟨Or.inl hnet, fun h => by cases h⟩
    · exact ⟨Or.inl hnet, fun h => by cases h⟩
    · refine ⟨Or.inr ?_, fun h => by cases h⟩
      show net_events (r1.trace ++ [Event.sleep _]) = _
      rw [net_events_append, hnet]
      simp [net_events, is_net_event]
    · refine ⟨Or.inr ?_, fun _ => ⟨?_, by omega⟩⟩
      · show net_events (r1.trace ++ [Event.sleep _]) = _
        rw [net_events_append, hnet]
        simp [net_events, is_net_event]
      · rw [← h3]; exact hhttp code rfl
    · exact ⟨Or.inl hnet, fun h => by cases h⟩

theorem type_count_request (t : E_HTTP_REQUEST_TYPES) (url : Bytes) (more : List Event) :
    type_count t (Event.request t url :: more) = 1 + type_count t more := by
  simp [type_count]

theorem type_count_sleep (t : E_HTTP_REQUEST_TYPES) (ms : Nat) (more : List Event) :
    type_count t (Event.sleep ms :: more) = type_count t more := rfl

/-- What the loop of `openuri` adds to the requests and sleeps of the trace:
the request, followed by sleeps and repetitions of the same request, at most
one repetition for each transfer of the script answered with 503 and at most
five minus the retry count. -/
theorem openuri_loop_events (cb : Callbacks) (t : E_HTTP_REQUEST_TYPES) (url : Bytes) :
    ∀ (script : List Response) (retrycount : Nat) (r : PRESTOCLIENT_RESULT),
      ∃ more, net_events (openuri_loop cb t url retrycount script r).1.trace =
          net_events r.trace ++ Event.request t url :: more ∧
        (∀ e ∈ more, e = Event.request t url ∨ ∃ ms, e = Event.sleep ms) ∧
        type_count t more ≤ busy_count script ∧
        type_count t more ≤ PRESTOCLIENT_MAXIMUMRETRIES - retrycount := by
  have hstop : ∀ (rc : Nat) (resp : Option Response) (r : PRESTOCLIENT_RESULT) (n : Nat),
      ∃ more, net_events (openuri_attempt cb t url rc resp r).1.trace =
          net_events r.trace ++ Event.request t url :: more ∧
        (∀ e ∈ more, e = Event.request t url ∨ ∃ ms, e = Event.sleep ms) ∧
        type_count t more ≤ n ∧ type_count t more ≤ PRESTOCLIENT_MAXIMUMRETRIES - (rc - 1) := by
    intro rc resp r n
    rcases (openuri_attempt_events cb t url rc resp r).1 with h | h
    · exact ⟨[], h, by simp, by simp [type_count], by simp [type_count]⟩
    · refine ⟨[Event.sleep (PRESTOCLIENT_RETRYWAITTIMEMSEC * rc / 1000)], h, ?_,
        by simp [type_count],
        by simp [type_count]⟩
      intro e he
      simp only [List.mem_singleton] at he
      exact Or.inr ⟨_, he⟩
  intro script
  induction script with
  | nil =>
    intro rc r
    unfold openuri_loop
    exact hstop (rc + 1) none r _
  | cons resp rest ih =>
    intro rc r
    unfold openuri_loop
    have hev := openuri_attempt_events cb t url (rc + 1) (some resp) r
    have hs := hstop (rc + 1) (some resp) r (busy_count (resp :: rest))
    rcases ha : openuri_attempt cb t url (rc + 1) (some resp) r with ⟨r1, b⟩
    rw [ha] at hev hs
    dsimp only at hev hs
    cases b with
    | false => exact hs
    | true =>
      dsimp only
      obtain ⟨⟨rs, hrs, hbusy⟩, hrc⟩ := hev.2 rfl
      injection hrs with hrs
      subst hrs
      obtain ⟨more, h1, h2, h3, h4⟩ := ih (rc + 1) r1
      have hb : busy_count (resp :: rest) = 1 + busy_count rest := by
        simp [busy_count, hbusy]
      have hmax : PRESTOCLIENT_MAXIMUMRETRIES = 5 := rfl
      rw [hmax] at hrc h4 ⊢
      rcases hev.1 with h | h
      · refine ⟨Event.request t url :: more, ?_, ?_, ?_, ?_⟩
        · rw [h1, h]; simp
        · intro e he
          rcases List.mem_cons.mp he with he | he
          · exact Or.inl he
          · exact h2 e he
        · rw [type_count_request, hb]; omega
        · rw [type_count_request]; omega
      · refine ⟨Event.sleep (PRESTOCLIENT_RETRYWAITTIMEMSEC * (rc + 1) / 1000) ::
            Event.request t url :: more,
          ?_, ?_, ?_, ?_⟩
        · rw [h1, h]; simp
        · intro e he
          rcases List.mem_cons.mp he with he | he
          · exact Or.inr ⟨_, he⟩
          · rcases List.mem_cons.mp he with he | he
            · exact Or.inl he
            · exact h2 e he
        · rw [type_count_sleep, type_count_request, hb]; omega
        · rw [type_count_sleep, type_count_request]; omega

theorem openuri_loop_suffix (cb : Callbacks) (t : E_HTTP_REQUEST_TYPES) (url : Bytes) :
    ∀ (script : List Response) (retrycount : Nat) (r : PRESTOCLIENT_RESULT),
      (openuri_loop cb t url retrycount script r).2 <:+ script := by
  intro script
  induction script with
  | nil => intro rc r; unfold openuri_loop; exact List.suffix_refl _
  | cons resp rest ih =>
    intro rc r
    unfold openuri_loop
    split
    · exact (ih (rc + 1) _).trans (List.suffix_cons _ _)
    · exact List.suffix_cons _ _

theorem busy_count_append (a b : List Response) :
    busy_count (a ++ b) = busy_count a + busy_count b := by
  induction a with
  | nil => simp [busy_count]
  | cons x rest ih => simp [busy_count, ih]; omega

theorem busy_count_suffix (a b : List Response) (h : a <:+ b) : busy_count a ≤ busy_count b := by
  obtain ⟨pre, hp⟩ := h
  rw [← hp, busy_count_append]
  omega

/-- Requests of one kind and sleeps hold no request of another kind. -/
theorem type_count_other (t t' : E_HTTP_REQUEST_TYPES) (url : Bytes) (ht : t' ≠ t) :
    ∀ more : List Event, (∀ e ∈ more, e = Event.request t url ∨ ∃ ms, e = Event.sleep ms) →
      type_count t' more = 0 := by
  intro more
  induction more with
  | nil => intro _; rfl
  | cons e rest ih =>
    intro h
    have hr := ih (fun e he => h e (List.mem_cons_of_mem _ he))
    rcases h e (List.mem_cons_self _ _) with he | ⟨ms, he⟩
    · subst he
      simp only [type_count]
      rw [if_neg (fun h => ht h.symm), hr]
    · subst he
      exact hr

/-- What a call of `openuri` adds to the requests and sleeps of the trace, and
what it leaves of the script. -/
theorem openuri_events (cb : Callbacks) (t : E_HTTP_REQUEST_TYPES) (client : PRESTOCLIENT)
    (script : List Response) (r : PRESTOCLIENT_RESULT) :
    (openuri cb t client script r).2 <:+ script ∧
      ∃ more, net_events (openuri cb t client script r).1.trace = net_events r.trace ++ more ∧
        (∀ e ∈ more, e = Event.request t (openuri_url t client r) ∨ ∃ ms, e = Event.sleep ms) ∧
        type_count t more ≤ 1 + busy_count script ∧
        type_count t more ≤ 1 + PRESTOCLIENT_MAXIMUMRETRIES ∧
        (r.fault = false →
          ¬ (t ≠ PRESTOCLIENT_HTTP_REQUEST_TYPE_POST ∧ openuri_in_uri t r = none) →
          ∃ more', more = Event.request t (openuri_url t client r) :: more') := by
  unfold openuri
  split_ifs with h1 h2
  · exact ⟨List.suffix_refl _, [], by simp, by simp, by simp [type_count], by simp [type_count],
      fun h => by rw [h] at h1; cases h1⟩
  · exact ⟨List.suffix_refl _, [], by simp, by simp, by simp [type_count], by simp [type_count],
      fun _ h => absurd h2 h⟩
  · refine ⟨openuri_loop_suffix cb t _ script 0 _, ?_⟩
    obtain ⟨more, a1, a2, a3, a4⟩ := openuri_loop_events cb t (openuri_url t client r) script 0
      (openuri_setup t r)
    rw [(openuri_setup_fields t r).2.1] at a1
    refine ⟨Event.request t (openuri_url t client r) :: more, a1, ?_, ?_, ?_, fun _ _ => ⟨_, rfl⟩⟩
    · intro e he
      rcases List.mem_cons.mp he with he | he
      · exact Or.inl he
      · exact a2 e he
    · rw [type_count_request]; omega
    · rw [type_count_request]; omega

/-- A call of `openuri` performs no request of another kind than its own. -/
theorem openuri_type_count (cb : Callbacks) (t t' : E_HTTP_REQUEST_TYPES) (client : PRESTOCLIENT)
    (script : List Response) (r : PRESTOCLIENT_RESULT) (ht : t' ≠ t) :
    type_count t' (openuri cb t client script r).1.trace = type_count t' r.trace := by
  obtain ⟨_, more, a1, a2, _⟩ := openuri_events cb t client script r
  rw [← type_count_net, a1, type_count_append, type_count_net,
    type_count_other t t' _ ht more a2]
  rfl

theorem queryisrunning_after_get_net (cb : Callbacks) (r : PRESTOCLIENT_RESULT) :
    net_events (queryisrunning_after_get cb r).trace = net_events r.trace := by
  have hd : ∀ s : PRESTOCLIENT_RESULT, net_events (call_describe cb s).trace = net_events s.trace := by
    intro s
    unfold call_describe
    split
    · rfl
    · show net_events (s.trace ++ [Event.describe _]) = _
      rw [net_events_append]; simp [net_events, is_net_event]
  unfold queryisrunning_after_get
  dsimp only
  split_ifs <;> first | rfl | exact hd _

/-- A driver step that returns true has made no DELETE; any driver step adds
at most one DELETE and one more for each transfer answered with 503, six at
the most, and leaves a tail of the script. -/
theorem prestoclient_queryisrunning_deletes (cb : Callbacks) (client : PRESTOCLIENT)
    (script : List Response) (r : PRESTOCLIENT_RESULT) :
    (prestoclient_queryisrunning cb client script r).2.1 <:+ script ∧
      ((prestoclient_queryisrunning cb client script r).2.2 = true →
        type_count PRESTOCLIENT_HTTP_REQUEST_TYPE_DELETE
            (prestoclient_queryisrunning cb client script r).1.trace =
          type_count PRESTOCLIENT_HTTP_REQUEST_TYPE_DELETE r.trace) ∧
      type_count PRESTOCLIENT_HTTP_REQUEST_TYPE_DELETE
          (prestoclient_queryisrunning cb client script r).1.trace ≤
        type_count PRESTOCLIENT_HTTP_REQUEST_TYPE_DELETE r.trace + (1 + busy_count script) ∧
      type_count PRESTOCLIENT_HTTP_REQUEST_TYPE_DELETE
          (prestoclient_queryisrunning cb client script r).1.trace ≤
        type_count PRESTOCLIENT_HTTP_REQUEST_TYPE_DELETE r.trace +
          (1 + PRESTOCLIENT_MAXIMUMRETRIES) := by
  unfold prestoclient_queryisrunning
  split_ifs with h1 h2 h3
  · exact ⟨List.suffix_refl _, fun h => (by cases h), Nat.le_add_right _ _, Nat.le_add_right _ _⟩
  · -- the cancel branch
    have hcases : (cancel cb client script r).2 <:+ script ∧
        type_count PRESTOCLIENT_HTTP_REQUEST_TYPE_DELETE (cancel cb client script r).1.trace ≤
          type_count PRESTOCLIENT_HTTP_REQUEST_TYPE_DELETE r.trace + (1 + busy_count script) ∧
        type_count PRESTOCLIENT_HTTP_REQUEST_TYPE_DELETE (cancel cb client script r).1.trace ≤
          type_count PRESTOCLIENT_HTTP_REQUEST_TYPE_DELETE r.trace +
            (1 + PRESTOCLIENT_MAXIMUMRETRIES) := by
      unfold cancel
      split
      · obtain ⟨a0, more, a1, _, a3, a4, _⟩ :=
          openuri_events cb PRESTOCLIENT_HTTP_REQUEST_TYPE_DELETE client script r
        refine ⟨a0, ?_, ?_⟩
        · rw [← type_count_net, a1, type_count_append, type_count_net]; omega
        · rw [← type_count_net, a1, type_count_append, type_count_net]; omega
      · exact ⟨List.suffix_refl _, Nat.le_add_right _ _, Nat.le_add_right _ _⟩
    rcases hcan : cancel cb client script r with ⟨r1, s1⟩
    rw [hcan] at hcases
    exact ⟨hcases.1, fun h => (by cases h), hcases.2.1, hcases.2.2⟩
  · exact ⟨List.suffix_refl _, fun h => (by cases h), Nat.le_add_right _ _, Nat.le_add_right _ _⟩
  · have hsuf := (openuri_events cb PRESTOCLIENT_HTTP_REQUEST_TYPE_GET client script r).1
    have hcnt := openuri_type_count cb PRESTOCLIENT_HTTP_REQUEST_TYPE_GET
      PRESTOCLIENT_HTTP_REQUEST_TYPE_DELETE client script r (by decide)
    rcases ho : openuri cb PRESTOCLIENT_HTTP_REQUEST_TYPE_GET client script r with ⟨r1, s1⟩
    rw [ho] at hsuf hcnt
    dsimp only at hsuf hcnt ⊢
    have hag : type_count PRESTOCLIENT_HTTP_REQUEST_TYPE_DELETE
        (queryisrunning_after_get cb r1).trace =
        type_count PRESTOCLIENT_HTTP_REQUEST_TYPE_DELETE r.trace := by
      rw [← type_count_net, queryisrunning_after_get_net, type_count_net, hcnt]
    have e1 := Nat.le_add_right (type_count PRESTOCLIENT_HTTP_REQUEST_TYPE_DELETE r.trace)
      (1 + busy_count script)
    have e2 := Nat.le_add_right (type_count PRESTOCLIENT_HTTP_REQUEST_TYPE_DELETE r.trace)
      (1 + PRESTOCLIENT_MAXIMUMRETRIES)
    split_ifs
    · exact ⟨hsuf, fun h => (by cases h), hcnt ▸ e1, hcnt ▸ e2⟩
    · exact ⟨hsuf, fun h => (by cases h), hag ▸ e1, hag ▸ e2⟩
    · exact ⟨hsuf, fun _ => hag, hag ▸ e1, hag ▸ e2⟩
    · exact ⟨hsuf, fun h => (by cases h), hcnt ▸ e1, hcnt ▸ e2⟩

theorem waituntilfinished_loop_deletes (cb : Callbacks) (client : PRESTOCLIENT) :
    ∀ (fuel : Nat) (script : List Response) (r : PRESTOCLIENT_RESULT),
      type_count PRESTOCLIENT_HTTP_REQUEST_TYPE_DELETE
          (waituntilfinished_loop cb client fuel script r).1.trace ≤
        type_count PRESTOCLIENT_HTTP_REQUEST_TYPE_DELETE r.trace + (1 + busy_count script) ∧
      type_count PRESTOCLIENT_HTTP_REQUEST_TYPE_DELETE
          (waituntilfinished_loop cb client fuel script r).1.trace ≤
        type_count PRESTOCLIENT_HTTP_REQUEST_TYPE_DELETE r.trace +
          (1 + PRESTOCLIENT_MAXIMUMRETRIES) := by
  intro fuel
  induction fuel with
  | zero =>
    intro script r
    exact ⟨Nat.le_add_right _ _, Nat.le_add_right _ _⟩
  | succ n ih =>
    intro script r
    obtain ⟨q0, q1, q2, q3⟩ := prestoclient_queryisrunning_deletes cb client script r
    unfold waituntilfinished_loop
    rcases hq : prestoclient_queryisrunning cb client script r with ⟨r1, s1, b⟩
    rw [hq] at q0 q1 q2 q3
    dsimp only at q0 q1 q2 q3
    cases b with
    | false => exact ⟨q2, q3⟩
    | true =>
      dsimp only
      obtain ⟨i1, i2⟩ := ih s1 (util_sleep (if r1.dataavailable = true then
        PRESTOCLIENT_RETRIEVEWAITTIMEMSEC else PRESTOCLIENT_UPDATEWAITTIMEMSEC) r1)
      have hs : type_count PRESTOCLIENT_HTTP_REQUEST_TYPE_DELETE
          (util_sleep (if r1.dataavailable = true then PRESTOCLIENT_RETRIEVEWAITTIMEMSEC
            else PRESTOCLIENT_UPDATEWAITTIMEMSEC) r1).trace =
          type_count PRESTOCLIENT_HTTP_REQUEST_TYPE_DELETE r.trace := by
        unfold util_sleep
        show type_count _ (r1.trace ++ [Event.sleep _]) = _
        rw [type_count_append, q1 rfl]; rfl
      rw [hs] at i1 i2
      have := busy_count_suffix s1 script q0
      exact ⟨by omega, i2⟩

/-- C14, as amended (DELETE requests of a query). In the result of a query the
number of DELETE requests is at most one plus the number of transfers the
server answers with 503, and at most six: `cancel` is called at most once, and
its DELETE is repeated like any request when it is answered with 503. -/
theorem delete_requests_bounded (cb : Callbacks) (prestoclient : Option PRESTOCLIENT)
    (sql : Option Bytes) (script : List Response) (r : PRESTOCLIENT_RESULT)
    (h : prestoclient_query cb prestoclient sql script = some r) :
    type_count PRESTOCLIENT_HTTP_REQUEST_TYPE_DELETE r.trace ≤ 1 + busy_count script ∧
      type_count PRESTOCLIENT_HTTP_REQUEST_TYPE_DELETE r.trace ≤ 6 ∧
      (busy_count script = 0 → type_count PRESTOCLIENT_HTTP_REQUEST_TYPE_DELETE r.trace ≤ 1) := by
  obtain ⟨client, hr⟩ := prestoclient_query_some cb prestoclient sql script r h
  subst hr
  have key : type_count PRESTOCLIENT_HTTP_REQUEST_TYPE_DELETE
        (prestoclient_query_run cb client script).trace ≤ 1 + busy_count script ∧
      type_count PRESTOCLIENT_HTTP_REQUEST_TYPE_DELETE
        (prestoclient_query_run cb client script).trace ≤ 6 := by
    have hsuf := (openuri_events cb PRESTOCLIENT_HTTP_REQUEST_TYPE_POST client script
      new_prestoresult).1
    have hcnt := openuri_type_count cb PRESTOCLIENT_HTTP_REQUEST_TYPE_POST
      PRESTOCLIENT_HTTP_REQUEST_TYPE_DELETE client script new_prestoresult (by decide)
    unfold prestoclient_query_run
    rcases ho : openuri cb PRESTOCLIENT_HTTP_REQUEST_TYPE_POST client script new_prestoresult
      with ⟨r1, s1⟩
    rw [ho] at hsuf hcnt
    dsimp only at hsuf hcnt ⊢
    have h0 : type_count PRESTOCLIENT_HTTP_REQUEST_TYPE_DELETE r1.trace = 0 := hcnt
    split_ifs
    · rw [h0]; omega
    · obtain ⟨w1, w2⟩ := waituntilfinished_loop_deletes cb client (s1.length + 1) s1 r1
      have := busy_count_suffix s1 script hsuf
      have hmax : PRESTOCLIENT_MAXIMUMRETRIES = 5 := rfl
      rw [h0] at w1 w2
      rw [hmax] at w2
      unfold prestoclient_waituntilfinished
      exact ⟨by omega, by omega⟩
    · rw [h0]; omega
  exact ⟨key.1, key.2, fun hb => by have := key.1; omega⟩

/-- C13 (cancellation is sticky). A driver step on a live result whose cancel
flag is set. The step returns false, so `prestoclient_waituntilfinished` ends
with it, and the flag is still set afterwards; no POST and no GET is added to
the trace; when no cancel URI has been stored the step changes nothing and
uses no transfer; when the cancel URI `u` has been stored, what the step adds to
the requests and sleeps of the trace starts with a DELETE to `u` and holds
nothing but DELETE requests to `u` and sleeps. The flag stays set through every
request and through every call of the byte sink as well. -/
theorem cancellation_sticky (cb : Callbacks) (client : PRESTOCLIENT) (script : List Response)
    (r : PRESTOCLIENT_RESULT) (hc : r.cancelquery = true) (hf : r.fault = false) :
    (prestoclient_queryisrunning cb client script r).2.2 = false ∧
      prestoclient_waituntilfinished cb client script r =
        ((prestoclient_queryisrunning cb client script r).1,
          (prestoclient_queryisrunning cb client script r).2.1) ∧
      (prestoclient_queryisrunning cb client script r).1.cancelquery = true ∧
      type_count PRESTOCLIENT_HTTP_REQUEST_TYPE_POST
          (prestoclient_queryisrunning cb client script r).1.trace =
        type_count PRESTOCLIENT_HTTP_REQUEST_TYPE_POST r.trace ∧
      type_count PRESTOCLIENT_HTTP_REQUEST_TYPE_GET
          (prestoclient_queryisrunning cb client script r).1.trace =
        type_count PRESTOCLIENT_HTTP_REQUEST_TYPE_GET r.trace ∧
      (r.lastcanceluri = none →
        (prestoclient_queryisrunning cb client script r).1 = r ∧
        (prestoclient_queryisrunning cb client script r).2.1 = script) ∧
      (∀ u, r.lastcanceluri = some u →
        ∃ more, net_events (prestoclient_queryisrunning cb client script r).1.trace =
            net_events r.trace ++ Event.request PRESTOCLIENT_HTTP_REQUEST_TYPE_DELETE u :: more ∧
          ∀ e ∈ more, e = Event.request PRESTOCLIENT_HTTP_REQUEST_TYPE_DELETE u ∨
            ∃ ms, e = Event.sleep ms) ∧
      (∀ (t : E_HTTP_REQUEST_TYPES) (transfers : List Response),
        (openuri cb t client transfers r).1.cancelquery = true) ∧
      (∀ chunk : Bytes, (WriteCallback cb chunk r).1.cancelquery = true) := by
  have hq : prestoclient_queryisrunning cb client script r =
      ((cancel cb client script r).1, (cancel cb client script r).2, false) := by
    unfold prestoclient_queryisrunning
    rw [if_neg (by rw [hf]; decide), if_pos hc]
  have hw : prestoclient_waituntilfinished cb client script r =
      ((cancel cb client script r).1, (cancel cb client script r).2) := by
    unfold prestoclient_waituntilfinished waituntilfinished_loop
    rw [hq]
  rw [hq, hw]
  dsimp only
  refine ⟨rfl, rfl, (cancel_step cb client script r).cancelquery hc, ?_, ?_, ?_, ?_,
    fun t transfers => (openuri_step cb t client transfers r).cancelquery hc,
    fun chunk => (WriteCallback_step cb chunk r).cancelquery hc⟩
  · unfold cancel
    split
    · exact openuri_type_count cb _ _ client script r (by decide)
    · rfl
  · unfold cancel
    split
    · exact openuri_type_count cb _ _ client script r (by decide)
    · rfl
  · intro hn
    unfold cancel
    rw [hn]
    exact ⟨rfl, rfl⟩
  · intro u hu
    unfold cancel
    rw [hu]
    dsimp only
    obtain ⟨_, more, a1, a2, _, _, a5⟩ :=
      openuri_events cb PRESTOCLIENT_HTTP_REQUEST_TYPE_DELETE client script r
    have hurl : openuri_url PRESTOCLIENT_HTTP_REQUEST_TYPE_DELETE client r = u := by
      simp [openuri_url, openuri_in_uri, hu]
    rw [hurl] at a2 a5
    obtain ⟨more', hm⟩ := a5 hf (by
      intro h
      have h2 : r.lastcanceluri = none := h.2
      rw [hu] at h2; cases h2)
    subst hm
    exact ⟨more', a1, fun e he => a2 e (List.mem_cons_of_mem _ he)⟩

/-! ## The accumulated server error and the outcome of a cancellation -/

theorem ErrMono.err_refl (r : PRESTOCLIENT_RESULT) : ErrMono r r :=
  fun m h => ⟨[], by rw [h]; simp⟩

theorem ErrMono.err_trans {r1 r2 r3 : PRESTOCLIENT_RESULT} (h1 : ErrMono r1 r2)
    (h2 : ErrMono r2 r3) : ErrMono r1 r3 := by
  intro m hm
  obtain ⟨s, hs⟩ := h1 m hm
  obtain ⟨s', hs'⟩ := h2 (m ++ s) hs
  exact ⟨s ++ s', by rw [hs']; simp⟩

theorem ErrMono.err_of_eq {r r' : PRESTOCLIENT_RESULT}
    (h : r'.lasterrormessage = r.lasterrormessage) : ErrMono r r' :=
  fun m hm => ⟨[], by rw [h, hm]; simp⟩

/-- The source's `alloc_add` keeps what the variable held at the front. -/
theorem alloc_add_front (var : Option Bytes) (v m : Bytes) (h : var = some m) :
    ∃ s, alloc_add var v = some (m ++ s) := by
  subst h
  unfold alloc_add
  dsimp only [Option.getD_some]
  split_ifs
  · exact ⟨[10] ++ v, by simp⟩
  · exact ⟨v, rfl⟩

theorem call_write_error (cb : Callbacks) (r : PRESTOCLIENT_RESULT) :
    (call_write cb r).lasterrormessage = r.lasterrormessage := by
  unfold call_write; split <;> rfl

theorem extract_data_error (cb : Callbacks) (r : PRESTOCLIENT_RESULT) :
    (extract_data cb r).lasterrormessage = r.lasterrormessage := by
  have hh : (extract_data_header cb r).lasterrormessage = r.lasterrormessage := by
    unfold extract_data_header
    dsimp only
    split_ifs
    · exact (call_describe_fields cb _).2.1
    · rfl
    · rfl
  unfold extract_data
  generalize extract_data_header cb r = r1 at *
  dsimp only
  split_ifs
  · exact hh
  · split
    · exact hh
    · split_ifs
      · exact (call_write_error cb _).trans hh
      · exact hh

theorem extract_column_error (r : PRESTOCLIENT_RESULT) :
    (extract_column r).lasterrormessage = r.lasterrormessage := by
  unfold extract_column
  split_ifs
  · rfl
  · split <;> rfl
  · rfl

/-- The projector's if-chain either leaves the accumulated server error alone
or adds the current value to it with `alloc_add`. -/
theorem json_extract_dispatch_error (cb : Callbacks) (r : PRESTOCLIENT_RESULT) :
    (json_extract_dispatch cb r).lasterrormessage = r.lasterrormessage ∨
      (json_extract_dispatch cb r).lasterrormessage =
        alloc_add r.lasterrormessage r.lexer.value := by
  unfold json_extract_dispatch
  dsimp only
  split_ifs
  · exact Or.inl (extract_data_error cb r)
  · exact Or.inl rfl
  · exact Or.inl rfl
  · exact Or.inl rfl
  · exact Or.inl rfl
  · exact Or.inr rfl
  · exact Or.inr rfl
  · exact Or.inl (extract_column_error r)
  · exact Or.inl rfl

theorem json_extract_dispatch_mono (cb : Callbacks) (r : PRESTOCLIENT_RESULT) :
    ErrMono r (json_extract_dispatch cb r) := by
  rcases json_extract_dispatch_error cb r with h | h
  · exact ErrMono.err_of_eq h
  · intro m hm
    rw [h]
    exact alloc_add_front _ _ m hm

theorem lexer_value_mono (cb : Callbacks) (r : PRESTOCLIENT_RESULT) (u : Option Bytes) :
    ErrMono r (lexer_value cb r u) := by
  unfold lexer_value json_extract_variables
  intro m hm
  exact json_extract_dispatch_mono cb
    { r with
      lexer := { r.lexer with value := u.getD r.json.tagbuffer }
      json := { r.json with tagbuffer := [] } } m hm

theorem json_lexer_mono (cb : Callbacks) (r : PRESTOCLIENT_RESULT) :
    ErrMono r (json_lexer cb r).1 := by
  have hs : ErrMono r (json_lexer_switch cb r) := by
    unfold json_lexer_switch
    split
    · exact ErrMono.err_of_eq rfl
    · exact ErrMono.err_of_eq rfl
    · exact ErrMono.err_of_eq rfl
    · exact ErrMono.err_of_eq rfl
    · exact ErrMono.err_of_eq rfl
    · exact ErrMono.err_of_eq rfl
    · exact ErrMono.err_of_eq rfl
    · split_ifs
      · exact lexer_value_mono cb r _
      · exact ErrMono.err_of_eq rfl
    · exact lexer_value_mono cb r _
    · exact lexer_value_mono cb r _
    · exact lexer_value_mono cb r _
    · exact lexer_value_mono cb r _
  unfold json_lexer
  exact hs

/-- The loop of the reader leaves the transport error text alone and removes
nothing from the accumulated server error. -/
theorem json_reader_loop_keep (cb : Callbacks) :
    ∀ (fuel : Nat) (r : PRESTOCLIENT_RESULT),
      (json_reader_loop cb fuel r).curl_error_buffer = r.curl_error_buffer ∧
        ErrMono r (json_reader_loop cb fuel r) := by
  intro fuel
  induction fuel with
  | zero => intro r; exact ⟨rfl, ErrMono.err_refl r⟩
  | succ n ih =>
    intro r
    unfold json_reader_loop
    split_ifs
    · exact ⟨rfl, ErrMono.err_refl r⟩
    · split
      · exact ⟨rfl, ErrMono.err_of_eq rfl⟩
      · rename_i j hj
        have hl := (json_lexer_step cb { r with json := j }).curl_error_buffer
        have hm := json_lexer_mono cb { r with json := j }
        split
        · rename_i r2 hr2
          rw [hr2] at hl hm
          exact ⟨hl, fun m h => hm m h⟩
        · rename_i r2 hr2
          rw [hr2] at hl hm
          obtain ⟨i1, i2⟩ := ih { r2 with json := { r2.json with tagbuffer := [] } }
          refine ⟨i1.trans hl, ?_⟩
          intro m h
          obtain ⟨s, hs⟩ := hm m h
          obtain ⟨s', hs'⟩ := i2 (m ++ s) hs
          exact ⟨s ++ s', by rw [hs']; simp⟩

theorem json_reader_keep (cb : Callbacks) (r : PRESTOCLIENT_RESULT) :
    (json_reader cb r).1.curl_error_buffer = r.curl_error_buffer ∧
      ErrMono r (json_reader cb r).1 := by
  obtain ⟨a1, a2⟩ := json_reader_loop_keep cb (json_measure r.lastresponse r.json + 1) r
  have hs : ∀ s : PRESTOCLIENT_RESULT,
      (json_reader_shift s).curl_error_buffer = s.curl_error_buffer ∧
        (json_reader_shift s).lasterrormessage = s.lasterrormessage := by
    intro s
    unfold json_reader_shift
    dsimp only
    split_ifs <;> exact ⟨rfl, rfl⟩
  unfold json_reader
  dsimp only
  split_ifs
  · exact ⟨a1, a2⟩
  · exact ⟨(hs _).1.trans a1, a2.err_trans (ErrMono.err_of_eq (hs _).2)⟩

theorem WriteCallback_keep (cb : Callbacks) (contents : Bytes) (r : PRESTOCLIENT_RESULT) :
    (WriteCallback cb contents r).1.curl_error_buffer = r.curl_error_buffer ∧
      ErrMono r (WriteCallback cb contents r).1 := by
  unfold WriteCallback
  split_ifs
  · exact ⟨rfl, ErrMono.err_refl r⟩
  · obtain ⟨a1, a2⟩ := json_reader_keep cb { r with lastresponse := r.lastresponse ++ contents }
    split <;> rename_i r1 hr <;> rw [hr] at a1 a2 <;> exact ⟨a1, fun m h => a2 m h⟩

theorem curl_deliver_keep (cb : Callbacks) :
    ∀ (chunks : List Bytes) (r : PRESTOCLIENT_RESULT),
      (curl_deliver cb chunks r).1.curl_error_buffer = r.curl_error_buffer ∧
        ErrMono r (curl_deliver cb chunks r).1 := by
  intro chunks
  induction chunks with
  | nil => intro r; exact ⟨rfl, ErrMono.err_refl r⟩
  | cons c rest ih =>
    intro r
    obtain ⟨a1, a2⟩ := WriteCallback_keep cb c r
    unfold curl_deliver
    rcases hw : WriteCallback cb c r with ⟨r1, n⟩
    rw [hw] at a1 a2
    dsimp only at a1 a2 ⊢
    split_ifs
    · obtain ⟨i1, i2⟩ := ih r1
      exact ⟨i1.trans a1, a2.err_trans i2⟩
    · exact ⟨a1, a2⟩

/-- A transfer removes nothing from the accumulated server error, and when it
ends with an HTTP code it leaves the transport error text alone. -/
theorem curl_easy_perform_keep (cb : Callbacks) (resp : Option Response)
    (r : PRESTOCLIENT_RESULT) :
    ErrMono r (curl_easy_perform cb resp r).1 ∧
      (∀ code, (curl_easy_perform cb resp r).2 = CurlOutcome.http code →
        (curl_easy_perform cb resp r).1.curl_error_buffer = r.curl_error_buffer) := by
  unfold curl_easy_perform
  split
  · exact ⟨ErrMono.err_of_eq rfl, fun code h => by cases h⟩
  · rename_i rs
    obtain ⟨a1, a2⟩ := curl_deliver_keep cb rs.chunks r
    split
    · rename_i r1 hr
      rw [hr] at a1 a2
      split
      · exact ⟨a2, fun _ _ => a1⟩
      · exact ⟨fun m h => a2 m h, fun code h => by cases h⟩
    · rename_i r1 hr
      rw [hr] at a1 a2
      split_ifs
      · exact ⟨a2, fun code h => by cases h⟩
      · exact ⟨fun m h => a2 m h, fun code h => by cases h⟩

theorem openuri_attempt_mono (cb : Callbacks) (t : E_HTTP_REQUEST_TYPES) (url : Bytes)
    (retrycount : Nat) (resp : Option Response) (r : PRESTOCLIENT_RESULT) :
    ErrMono r (openuri_attempt cb t url retrycount resp r).1 := by
  have h1 : ErrMono r (curl_easy_perform cb resp
      { r with trace := r.trace ++ [Event.request t url] }).1 :=
    fun m h => (curl_easy_perform_keep cb resp
      { r with trace := r.trace ++ [Event.request t url] }).1 m h
  unfold openuri_attempt
  rcases hp : curl_easy_perform cb resp
    { r with trace := r.trace ++ [Event.request t url] } with ⟨r1, out⟩
  rw [hp] at h1
  dsimp only at h1
  cases out with
  | failed =>
    dsimp only
    split_ifs
    · exact h1
    · exact fun m h => h1 m h
  | http code =>
    dsimp only
    split_ifs
    · exact h1
    · exact h1
    · exact fun m h => h1 m h
    · exact fun m h => h1 m h
    · exact fun m h => h1 m h

theorem openuri_loop_mono (cb : Callbacks) (t : E_HTTP_REQUEST_TYPES) (url : Bytes) :
    ∀ (script : List Response) (retrycount : Nat) (r : PRESTOCLIENT_RESULT),
      ErrMono r (openuri_loop cb t url retrycount script r).1 := by
  intro script
  induction script with
  | nil => intro rc r; unfold openuri_loop; exact openuri_attempt_mono cb t url _ none r
  | cons resp rest ih =>
    intro rc r
    have h1 := openuri_attempt_mono cb t url (rc + 1) (some resp) r
    unfold openuri_loop
    rcases ha : openuri_attempt cb t url (rc + 1) (some resp) r with ⟨r1, b⟩
    rw [ha] at h1
    cases b with
    | true => exact h1.err_trans (ih (rc + 1) r1)
    | false => exact h1

theorem openuri_mono (cb : Callbacks) (t : E_HTTP_REQUEST_TYPES) (client : PRESTOCLIENT)
    (script : List Response) (r : PRESTOCLIENT_RESULT) :
    ErrMono r (openuri cb t client script r).1 := by
  unfold openuri
  split_ifs
  · exact ErrMono.err_refl r
  · exact ErrMono.err_of_eq rfl
  · have hs : ErrMono r (openuri_setup t r) := by
      unfold openuri_setup
      cases t <;> exact ErrMono.err_of_eq rfl
    exact hs.err_trans (openuri_loop_mono cb t _ script 0 _)

theorem cancel_mono (cb : Callbacks) (client : PRESTOCLIENT) (script : List Response)
    (r : PRESTOCLIENT_RESULT) : ErrMono r (cancel cb client script r).1 := by
  unfold cancel
  split
  · exact openuri_mono cb _ client script r
  · exact ErrMono.err_refl r

theorem prestoclient_queryisrunning_mono (cb : Callbacks) (client : PRESTOCLIENT)
    (script : List Response) (r : PRESTOCLIENT_RESULT) :
    ErrMono r (prestoclient_queryisrunning cb client script r).1 := by
  unfold prestoclient_queryisrunning
  split_ifs
  · exact ErrMono.err_refl r
  · exact cancel_mono cb client script r
  · exact ErrMono.err_refl r
  · have h1 := openuri_mono cb PRESTOCLIENT_HTTP_REQUEST_TYPE_GET client script r
    rcases ho : openuri cb PRESTOCLIENT_HTTP_REQUEST_TYPE_GET client script r with ⟨r1, s1⟩
    rw [ho] at h1
    have h2 : ErrMono r1 (queryisrunning_after_get cb r1) :=
      ErrMono.err_of_eq (queryisrunning_after_get_spec cb r1).2.1
    dsimp only
    split_ifs
    · exact h1
    · exact h1.err_trans h2
    · exact h1.err_trans h2
    · exact h1

theorem waituntilfinished_loop_mono (cb : Callbacks) (client : PRESTOCLIENT) :
    ∀ (fuel : Nat) (script : List Response) (r : PRESTOCLIENT_RESULT),
      ErrMono r (waituntilfinished_loop cb client fuel script r).1 := by
  intro fuel
  induction fuel with
  | zero => intro script r; exact ErrMono.err_refl r
  | succ n ih =>
    intro script r
    have h1 := prestoclient_queryisrunning_mono cb client script r
    unfold waituntilfinished_loop
    rcases hq : prestoclient_queryisrunning cb client script r with ⟨r1, s1, b⟩
    rw [hq] at h1
    cases b with
    | false => exact h1
    | true =>
      dsimp only
      refine h1.err_trans (ErrMono.err_trans ?_ (ih s1 _))
      exact ErrMono.err_of_eq rfl

/-- An attempt answered with the expected code ends `openuri` with the result
as the transfer left it. -/
theorem openuri_attempt_expected_state (cb : Callbacks) (t : E_HTTP_REQUEST_TYPES) (url : Bytes)
    (retrycount : Nat) (resp : Option Response) (r : PRESTOCLIENT_RESULT)
    (hout : (curl_easy_perform cb resp
        { r with trace := r.trace ++ [Event.request t url] }).2 =
          CurlOutcome.http (expected_http_code t)) :
    openuri_attempt cb t url retrycount resp r =
      ((curl_easy_perform cb resp { r with trace := r.trace ++ [Event.request t url] }).1,
        false) := by
  unfold openuri_attempt
  rcases hp : curl_easy_perform cb resp
    { r with trace := r.trace ++ [Event.request t url] } with ⟨r1, out⟩
  rw [hp] at hout
  dsimp only at hout
  subst hout
  dsimp only
  by_cases hfl : r1.fault = true
  · rw [if_pos hfl]
  · rw [if_neg hfl, if_pos rfl]

/-- The outcome of the DELETE of `cancel`, by what `curl_easy_perform` reports
for its transfer, which leaves the result alive: the status is not changed;
after the expected code 204 both error accessors return NULL; after another
code `c` that is not 503 they return "Server returned error" and
"Http-code: c" (for `c < 2^31`); after a failed transfer the first returns
"CURL error occurred". -/
theorem cancel_transfer_outcome (cb : Callbacks) (client : PRESTOCLIENT) (resp : Response)
    (rest : List Response) (r : PRESTOCLIENT_RESULT) (u : Bytes) (hf : r.fault = false)
    (hu : r.lastcanceluri = some u)
    (hnf : (curl_easy_perform cb (some resp)
        { openuri_setup PRESTOCLIENT_HTTP_REQUEST_TYPE_DELETE r with
          trace := r.trace ++ [Event.request PRESTOCLIENT_HTTP_REQUEST_TYPE_DELETE u] }).1.fault
        = false) :
    (cancel cb client (resp :: rest) r).1.clientstatus = r.clientstatus ∧
      ((curl_easy_perform cb (some resp)
          { openuri_setup PRESTOCLIENT_HTTP_REQUEST_TYPE_DELETE r with
            trace := r.trace ++ [Event.request PRESTOCLIENT_HTTP_REQUEST_TYPE_DELETE u] }).2 =
          CurlOutcome.http PRESTOCLIENT_CURL_EXPECT_HTTP_DELETE →
        prestoclient_getlastclienterror (some (cancel cb client (resp :: rest) r).1) = none ∧
        prestoclient_getlastcurlerror (some (cancel cb client (resp :: rest) r).1) = none) ∧
      (∀ c, (curl_easy_perform cb (some resp)
          { openuri_setup PRESTOCLIENT_HTTP_REQUEST_TYPE_DELETE r with
            trace := r.trace ++ [Event.request PRESTOCLIENT_HTTP_REQUEST_TYPE_DELETE u] }).2 =
          CurlOutcome.http c →
        c ≠ PRESTOCLIENT_CURL_EXPECT_HTTP_DELETE → c ≠ PRESTOCLIENT_CURL_EXPECT_HTTP_BUSY →
        prestoclient_getlastclienterror (some (cancel cb client (resp :: rest) r).1) =
          some (ascii "Server returned error") ∧
        (c < 2 ^ 31 →
          prestoclient_getlastcurlerror (some (cancel cb client (resp :: rest) r).1) =
            some (ascii "Http-code: " ++ ascii (toString c)))) ∧
      ((curl_easy_perform cb (some resp)
          { openuri_setup PRESTOCLIENT_HTTP_REQUEST_TYPE_DELETE r with
            trace := r.trace ++ [Event.request PRESTOCLIENT_HTTP_REQUEST_TYPE_DELETE u] }).2 =
          CurlOutcome.failed →
        prestoclient_getlastclienterror (some (cancel cb client (resp :: rest) r).1) =
          some (ascii "CURL error occurred")) := by
  have hin : ¬ (PRESTOCLIENT_HTTP_REQUEST_TYPE_DELETE ≠ PRESTOCLIENT_HTTP_REQUEST_TYPE_POST ∧
      openuri_in_uri PRESTOCLIENT_HTTP_REQUEST_TYPE_DELETE r = none) := by
    intro h
    have h2 : r.lastcanceluri = none := h.2
    rw [hu] at h2; cases h2
  have hurl : openuri_url PRESTOCLIENT_HTTP_REQUEST_TYPE_DELETE client r = u := by
    simp [openuri_url, openuri_in_uri, hu]
  have hc : cancel cb client (resp :: rest) r =
      openuri_loop cb PRESTOCLIENT_HTTP_REQUEST_TYPE_DELETE u 0 (resp :: rest)
        (openuri_setup PRESTOCLIENT_HTTP_REQUEST_TYPE_DELETE r) := by
    unfold cancel
    rw [hu]
    dsimp only
    rw [openuri_eq_loop cb _ client _ r hf hin, hurl]
  have hst := (cancel_step cb client (resp :: rest) r).clientstatus
  refine ⟨hst, ?_, ?_, ?_⟩
  · intro hout
    have ha := openuri_attempt_expected_state cb PRESTOCLIENT_HTTP_REQUEST_TYPE_DELETE u 1
      (some resp) (openuri_setup PRESTOCLIENT_HTTP_REQUEST_TYPE_DELETE r) hout
    have hk := (curl_easy_perform_keep cb (some resp)
      { openuri_setup PRESTOCLIENT_HTTP_REQUEST_TYPE_DELETE r with
        trace := r.trace ++ [Event.request PRESTOCLIENT_HTTP_REQUEST_TYPE_DELETE u] }).2 _ hout
    have he := (curl_easy_perform_net cb (some resp)
      { openuri_setup PRESTOCLIENT_HTTP_REQUEST_TYPE_DELETE r with
        trace := r.trace ++ [Event.request PRESTOCLIENT_HTTP_REQUEST_TYPE_DELETE u] }).2
    have e1 : (cancel cb client (resp :: rest) r).1.errorcode = PRESTOCLIENT_RESULT_OK := by
      rw [hc, openuri_loop_stop cb _ u 0 resp rest _ (by rw [ha]), ha]
      exact he.trans (openuri_setup_fields _ r).1
    have e2 : (cancel cb client (resp :: rest) r).1.curl_error_buffer = some [] := by
      rw [hc, openuri_loop_stop cb _ u 0 resp rest _ (by rw [ha]), ha]
      exact hk
    constructor
    · simp only [prestoclient_getlastclienterror, e1]
    · simp only [prestoclient_getlastcurlerror, e2]
      rfl
  · intro c hout h1 h2
    have ha := openuri_attempt_other cb PRESTOCLIENT_HTTP_REQUEST_TYPE_DELETE u 1
      (some resp) (openuri_setup PRESTOCLIENT_HTTP_REQUEST_TYPE_DELETE r) c hout hnf h1 h2
    rw [hc, openuri_loop_stop cb _ u 0 resp rest _ (by rw [ha]), ha]
    refine ⟨rfl, ?_⟩
    intro hlt
    rw [sprintf_d_small c hlt]
    simp [prestoclient_getlastcurlerror, ascii]
  · intro hout
    have ha := openuri_attempt_failed cb PRESTOCLIENT_HTTP_REQUEST_TYPE_DELETE u 1
      (some resp) (openuri_setup PRESTOCLIENT_HTTP_REQUEST_TYPE_DELETE r) hout hnf
    rw [hc, openuri_loop_stop cb _ u 0 resp rest _ (by rw [ha]), ha]
    rfl

/-- Directly inside `error.failureInfo` the projector adds a value named
`type` or `message` to the accumulated server error and ignores any other. -/
theorem json_extract_dispatch_failure (cb : Callbacks) (r : PRESTOCLIENT_RESULT)
    (hc : in_failure_info r.lexer) :
    json_extract_dispatch cb r =
      (if r.lexer.name = ascii "type" ∨ r.lexer.name = ascii "message" then
        { r with lasterrormessage := alloc_add r.lasterrormessage r.lexer.value }
       else r) := by
  obtain ⟨n2, e3, rest, hst⟩ := hc
  have hb2 : tagordername_back r.lexer 2 = ascii "error" := by
    simp [tagordername_back, hst]
  have hb1 : tagordername_back r.lexer 1 = ascii "failureInfo" := by
    simp [tagordername_back, hst]
  have hlen : r.lexer.tagorder.length = rest.length + 3 := by rw [hst]; simp
  unfold json_extract_dispatch
  dsimp only
  rw [if_neg (by rw [hb2]; intro h; exact absurd h.2 (by decide)),
    if_neg (by intro h; omega), if_neg (by intro h; omega), if_neg (by intro h; omega),
    if_neg (by rw [hb1]; intro h; exact absurd h.2.1 (by decide))]
  by_cases h1 : r.lexer.name = ascii "type"
  · rw [if_pos ⟨by omega, hb2, hb1, h1⟩, if_pos (Or.inl h1)]
  · rw [if_neg (fun h => h1 h.2.2.2)]
    by_cases h2 : r.lexer.name = ascii "message"
    · rw [if_pos ⟨by omega, hb2, hb1, h2⟩, if_pos (Or.inr h2)]
    · rw [if_neg (fun h => h2 h.2.2.2), if_neg (by rw [hb2]; intro h; exact absurd h.2.2 (by decide)),
        if_neg (by intro h; rcases h with h | h; exact h1 h; exact h2 h)]

/-- One member with a scalar value directly inside `error.failureInfo`. -/
theorem lex_failure_member (cb : Callbacks) (n : Bytes) (v : Scalar) (r : PRESTOCLIENT_RESULT)
    (hc : in_failure_info r.lexer) (hp : r.lexer.previoustag ≠ JSON_TT_COLON)
    (hf : r.fault = false) :
    (lex_tokens cb [(JSON_TT_STRING, n), (JSON_TT_COLON, []), v.token] r).lasterrormessage =
        (if n = ascii "type" ∨ n = ascii "message" then alloc_add r.lasterrormessage v.text
         else r.lasterrormessage) ∧
      (lex_tokens cb [(JSON_TT_STRING, n), (JSON_TT_COLON, []), v.token] r).lexer.tagorder =
        r.lexer.tagorder ∧
      (lex_tokens cb [(JSON_TT_STRING, n), (JSON_TT_COLON, []), v.token] r).lexer.previoustag ≠
        JSON_TT_COLON ∧
      (lex_tokens cb [(JSON_TT_STRING, n), (JSON_TT_COLON, []), v.token] r).fault = false := by
  have ha : json_in_array r.lexer = false := by
    obtain ⟨n2, e3, rest, hst⟩ := hc
    unfold json_in_array; rw [hst]; rfl
  have hname := lex_token_name cb n r hp ha
  have h1f : (lex_token cb (JSON_TT_STRING, n) r).fault = false := by rw [hname]; exact hf
  have h2 : lex_token cb (JSON_TT_COLON, []) (lex_token cb (JSON_TT_STRING, n) r) =
      { r with
        lexer := { r.lexer with name := n, previoustag := JSON_TT_COLON }
        json := { r.json with tagtype := JSON_TT_COLON, tagbuffer := [] } } := by
    rw [lex_token_colon, hname]
  have h2f : (lex_token cb (JSON_TT_COLON, []) (lex_token cb (JSON_TT_STRING, n) r)).fault
      = false := by rw [h2]; exact hf
  rw [lex_tokens_cons cb _ _ r hf, lex_tokens_cons cb _ _ _ h1f, lex_tokens_cons cb _ _ _ h2f, h2]
  simp only [lex_tokens]
  have hc' : in_failure_info (lex_scalar_state v
      { r with
        lexer := { r.lexer with name := n, previoustag := JSON_TT_COLON }
        json := { r.json with tagtype := JSON_TT_COLON, tagbuffer := [] } }).lexer := hc
  rw [lex_token_scalar_value cb v _ rfl, json_extract_dispatch_failure cb _ hc']
  have hn : (lex_scalar_state v
      { r with
        lexer := { r.lexer with name := n, previoustag := JSON_TT_COLON }
        json := { r.json with tagtype := JSON_TT_COLON, tagbuffer := [] } }).lexer.name = n := rfl
  rw [hn]
  have hprev : ∀ s : PRESTOCLIENT_RESULT, s.json.tagtype = v.token.1 →
      (lex_finish s).lexer.previoustag ≠ JSON_TT_COLON := by
    intro s hs
    show s.json.tagtype ≠ _
    rw [hs]
    cases v <;> simp [Scalar.token]
  split_ifs
  · exact ⟨rfl, rfl, hprev _ rfl, hf⟩
  · exact ⟨rfl, rfl, hprev _ rfl, hf⟩

theorem failure_values_cons (n : Bytes) (v : Scalar) (ms : List (Bytes × Scalar))
    (acc : Option Bytes) :
    (failure_values ((n, v) :: ms)).foldl alloc_add acc =
      (failure_values ms).foldl alloc_add
        (if n = ascii "type" ∨ n = ascii "message" then alloc_add acc v.text else acc) := by
  unfold failure_values
  by_cases h : n = ascii "type" ∨ n = ascii "message"
  · rw [if_pos h, List.filter_cons_of_pos (by simpa using h)]
    rfl
  · rw [if_neg h, List.filter_cons_of_neg (by simpa using h)]

/-- The scalar members of `error.failureInfo`, lexed inside that object: the
values named `type` or `message` are added to the accumulated server error one
after another, in document order. -/
theorem lex_failure_members (cb : Callbacks) :
    ∀ (ms : List (Bytes × Scalar)) (r : PRESTOCLIENT_RESULT), in_failure_info r.lexer →
      r.lexer.previoustag ≠ JSON_TT_COLON → r.fault = false →
      (lex_tokens cb (scalar_members_tokens ms) r).lasterrormessage =
        (failure_values ms).foldl alloc_add r.lasterrormessage := by
  intro ms
  induction ms with
  | nil => intro r _ _ _; rfl
  | cons m rest ih =>
    intro r hc hp hf
    obtain ⟨n, v⟩ := m
    obtain ⟨a1, a2, a3, a4⟩ := lex_failure_member cb n v r hc hp hf
    rw [failure_values_cons]
    cases rest with
    | nil =>
      simp only [scalar_members_tokens, List.map, sep_tokens]
      rw [a1]; rfl
    | cons m2 rest2 =>
      have ih' := ih
      simp only [scalar_members_tokens, List.map] at ih'
      simp only [scalar_members_tokens, List.map, sep_tokens]
      rw [lex_tokens_append, lex_tokens_cons cb _ _ _ a4, lex_token_comma]
      have hc2 : in_failure_info (lex_tokens cb
          [(JSON_TT_STRING, n), (JSON_TT_COLON, []), v.token] r).lexer := by
        obtain ⟨n2, e3, rs, hst⟩ := hc
        exact ⟨n2, e3, rs, a2.trans hst⟩
      generalize lex_tokens cb [(JSON_TT_STRING, n), (JSON_TT_COLON, []), v.token] r = r1
        at a1 a2 a3 a4 hc2 ⊢
      have hi := ih'
        { r1 with
          lexer := { r1.lexer with previoustag := JSON_TT_COMMA }
          json := { r1.json with tagtype := JSON_TT_COMMA, tagbuffer := [] } }
        hc2 (by show JSON_TT_COMMA ≠ JSON_TT_COLON; decide) a4
      rw [hi]
      show List.foldl alloc_add r1.lasterrormessage _ = _
      rw [a1]

theorem alloc_add_none (v : Bytes) : alloc_add none v = some v := by
  simp [alloc_add]

theorem alloc_add_line (m v : Bytes) (hm : m ≠ []) :
    alloc_add (some m) v = some (m ++ [10] ++ v) := by
  have : m.length > 0 := List.length_pos.mpr hm
  simp [alloc_add, this]

theorem alloc_add_fold_none (vs : List Bytes) (acc : Option Bytes) :
    vs.foldl alloc_add acc = none ↔ acc = none ∧ vs = [] := by
  induction vs generalizing acc with
  | nil => simp
  | cons v rest ih =>
    simp only [List.foldl_cons, ih]
    constructor
    · intro h; exact absurd h.1 (by simp [alloc_add])
    · intro h; cases h.2

theorem join_lines_merge (a b : Bytes) (rest : List Bytes) :
    join_lines ((a ++ [10] ++ b) :: rest) = a ++ [10] ++ join_lines (b :: rest) := by
  cases rest with
  | nil => rfl
  | cons c rest2 => simp [join_lines]

/-- Non-empty values added to a non-empty accumulated text end up on lines of
their own after it, in order. -/
theorem alloc_add_fold_lines :
    ∀ (vs : List Bytes) (m : Bytes), m ≠ [] → (∀ v ∈ vs, v ≠ []) →
      vs.foldl alloc_add (some m) = some (join_lines (m :: vs)) := by
  intro vs
  induction vs with
  | nil => intro m _ _; rfl
  | cons v rest ih =>
    intro m hm hv
    rw [List.foldl_cons, alloc_add_line m v hm,
      ih (m ++ [10] ++ v) (by simp) (fun w hw => hv w (List.mem_cons_of_mem _ hw)),
      join_lines_merge]
    rfl

/-- C20 (error aggregation). The scalar members of an `error.failureInfo`
object reach the lexer inside that object. Then the accumulated server error,
which `prestoclient_getlastservererror` returns, is what `alloc_add` makes of
the text accumulated before and the values named `type` or `message`, taken in
document order: every value is appended, after a newline unless nothing has
been accumulated yet. So type `T` then message `M` on an empty accumulator give
`T`, newline, `M`; non-empty values end up on lines of their own, one newline
between two of them, after the text accumulated from earlier replies; and the
accessor returns NULL exactly when nothing had been accumulated and no such
value has been seen. Nothing is ever removed: whatever token the lexer handles
and whatever the driver step does, the text accumulated before is the front of
the text accumulated after. -/
theorem error_aggregation (cb : Callbacks) (ms : List (Bytes × Scalar))
    (r : PRESTOCLIENT_RESULT) (hc : in_failure_info r.lexer)
    (hp : r.lexer.previoustag ≠ JSON_TT_COLON) (hf : r.fault = false) :
    prestoclient_getlastservererror (some (lex_tokens cb (scalar_members_tokens ms) r)) =
        (failure_values ms).foldl alloc_add r.lasterrormessage ∧
      (∀ T M : Bytes, T ≠ [] →
        [T, M].foldl alloc_add none = some (T ++ [10] ++ M)) ∧
      (∀ v vs, failure_values ms = v :: vs → (∀ w ∈ v :: vs, w ≠ []) →
        r.lasterrormessage = none →
        prestoclient_getlastservererror (some (lex_tokens cb (scalar_members_tokens ms) r)) =
          some (join_lines (v :: vs))) ∧
      (∀ m, r.lasterrormessage = some m → m ≠ [] → (∀ w ∈ failure_values ms, w ≠ []) →
        prestoclient_getlastservererror (some (lex_tokens cb (scalar_members_tokens ms) r)) =
          some (join_lines (m :: failure_values ms))) ∧
      (prestoclient_getlastservererror (some (lex_tokens cb (scalar_members_tokens ms) r)) = none ↔
        r.lasterrormessage = none ∧ failure_values ms = []) ∧
      (∀ (tok : Token) (s : PRESTOCLIENT_RESULT) (m : Bytes), s.lasterrormessage = some m →
        ∃ added, (lex_token cb tok s).lasterrormessage = some (m ++ added)) ∧
      (∀ (client : PRESTOCLIENT) (script : List Response) (s : PRESTOCLIENT_RESULT) (m : Bytes),
        s.lasterrormessage = some m →
        ∃ added, (prestoclient_queryisrunning cb client script s).1.lasterrormessage =
          some (m ++ added)) := by
  have h0 : prestoclient_getlastservererror
      (some (lex_tokens cb (scalar_members_tokens ms) r)) =
      (failure_values ms).foldl alloc_add r.lasterrormessage :=
    lex_failure_members cb ms r hc hp hf
  refine ⟨h0, ?_, ?_, ?_, ?_, ?_, ?_⟩
  · intro T M hT
    simp only [List.foldl_cons, List.foldl_nil]
    rw [alloc_add_none, alloc_add_line T M hT]
  · intro v vs hv hne hn
    rw [h0, hv, hn, List.foldl_cons, alloc_add_none,
      alloc_add_fold_lines vs v (hne v (List.mem_cons_self _ _))
        (fun w hw => hne w (List.mem_cons_of_mem _ hw))]
  · intro m hm hne hall
    rw [h0, hm, alloc_add_fold_lines _ m hne hall]
  · rw [h0, alloc_add_fold_none]
  · intro tok s m hm
    have h := json_lexer_mono cb
      { s with json := { s.json with tagtype := tok.1, tagbuffer := tok.2 } } m hm
    exact h
  · intro client script s m hm
    exact prestoclient_queryisrunning_mono cb client script s m hm

/-! ## Instances: retries, cancellation and the server error -/

/-- Witness of C11: a POST answered with 500, and a POST whose transfer fails. -/
theorem only_busy_retried_witness :
    (openuri_loop example_callbacks PRESTOCLIENT_HTTP_REQUEST_TYPE_POST
        (query_full_url example_client) 0 [reply_code 500, reply_ok [s1_body]]
        new_prestoresult).2 = [reply_ok [s1_body]] ∧
      (openuri_loop example_callbacks PRESTOCLIENT_HTTP_REQUEST_TYPE_POST
        (query_full_url example_client) 0 [reply_code 500, reply_ok [s1_body]]
        new_prestoresult).1.errorcode = PRESTOCLIENT_RESULT_SERVER_ERROR ∧
      prestoclient_getlastcurlerror (some (openuri_loop example_callbacks
        PRESTOCLIENT_HTTP_REQUEST_TYPE_POST (query_full_url example_client) 0
        [reply_code 500, reply_ok [s1_body]] new_prestoresult).1) =
        some (ascii "Http-code: 500") :=
  have h := (only_busy_retried example_callbacks PRESTOCLIENT_HTTP_REQUEST_TYPE_POST
    (query_full_url example_client) 0 (reply_code 500) [reply_ok [s1_body]] new_prestoresult
    (by decide!)).1 500 (by decide!) (by decide) (by decide)
  ⟨h.1, h.2.2.1, (h.2.2.2.2.2 (by decide)).trans (by decide!)⟩

/-- C12 (cancel while a response is consumed), evaluated at scenario S6. The
row callback calls `prestoclient_cancelquery` on the first row, which arrives
in a reply that has stored a cancel URI before. The byte sink returns 0 for the
chunk, and `prestoclient_query` returns with the cancel flag set, the cancel
URI stored, and no DELETE among the requests of its trace, although the server
would have answered one: the only request is the POST when the row arrives in
the reply to the POST, and the POST and one GET when it arrives in the reply to
the first GET. -/
theorem cancelled_in_transfer_no_delete :
    (WriteCallback cancel_on_row s6_body new_prestoresult).2 = 0 ∧
      (prestoclient_query cancel_on_row (some example_client) (some example_sql) s6_script).map
        (fun r => (r.cancelquery, r.fault, r.lastcanceluri)) =
      some (true, false, some (ascii "http://h/c/1")) ∧
      (prestoclient_query cancel_on_row (some example_client) (some example_sql) s6_script).map
        (fun r => (type_count PRESTOCLIENT_HTTP_REQUEST_TYPE_DELETE r.trace,
          request_events r.trace)) =
      some (0,
        [Event.request PRESTOCLIENT_HTTP_REQUEST_TYPE_POST (ascii "http://h:8080/v1/statement")]) ∧
      (prestoclient_query cancel_on_row (some example_client) (some example_sql)
          s6_get_script).map
        (fun r => (r.cancelquery, r.fault, r.lastcanceluri)) =
      some (true, false, some (ascii "http://h/c/1")) ∧
      (prestoclient_query cancel_on_row (some example_client) (some example_sql)
          s6_get_script).map
        (fun r => (type_count PRESTOCLIENT_HTTP_REQUEST_TYPE_DELETE r.trace,
          request_events r.trace)) =
      some (0,
        [Event.request PRESTOCLIENT_HTTP_REQUEST_TYPE_POST (ascii "http://h:8080/v1/statement"),
          Event.request PRESTOCLIENT_HTTP_REQUEST_TYPE_GET (ascii "http://h/n/1")]) := by
  refine ⟨?_, ?_, ?_, ?_, ?_⟩
  · decide!
  · decide!
  · decide!
  · decide!
  · decide!

/-- Witness of C13: the driver step that follows the cancellation by the
describe callback. -/
theorem cancellation_sticky_witness :
    cancel_pending.cancelquery = true ∧
      cancel_pending.lastcanceluri = some (ascii "http://h/c/1") ∧
      (prestoclient_queryisrunning cancel_on_describe example_client [reply_code 204]
        cancel_pending).2.2 = false ∧
      type_count PRESTOCLIENT_HTTP_REQUEST_TYPE_GET
        (prestoclient_queryisrunning cancel_on_describe example_client [reply_code 204]
          cancel_pending).1.trace = 1 :=
  have h := cancellation_sticky cancel_on_describe example_client [reply_code 204] cancel_pending
    (by decide!) (by decide!)
  ⟨by decide!, by decide!, h.1, h.2.2.2.2.1.trans (by decide!)⟩

/-- C14, counterexample. The describe callback cancels the query after the
second reply, and the server answers the DELETE with 503 and then with 204:
two DELETE requests are made against the cancel URI. -/
theorem delete_repeated_when_busy :
    (prestoclient_query cancel_on_describe (some example_client) (some example_sql)
        cancel_busy_script).map
      (fun r => (r.fault, type_count PRESTOCLIENT_HTTP_REQUEST_TYPE_DELETE r.trace,
        request_events r.trace)) =
    some (false, 2,
      [Event.request PRESTOCLIENT_HTTP_REQUEST_TYPE_POST (ascii "http://h:8080/v1/statement"),
        Event.request PRESTOCLIENT_HTTP_REQUEST_TYPE_GET (ascii "http://h/n/1"),
        Event.request PRESTOCLIENT_HTTP_REQUEST_TYPE_DELETE (ascii "http://h/c/1"),
        Event.request PRESTOCLIENT_HTTP_REQUEST_TYPE_DELETE (ascii "http://h/c/1")]) := by
  rfl

/-- Witness of C14 as amended: the query of `cancel_busy_script`, with one
transfer answered with 503 and two DELETE requests. -/
theorem delete_requests_bounded_witness :
    busy_count cancel_busy_script = 1 ∧
      type_count PRESTOCLIENT_HTTP_REQUEST_TYPE_DELETE
        (prestoclient_query_run cancel_on_describe example_client cancel_busy_script).trace ≤
        1 + busy_count cancel_busy_script :=
  ⟨by decide!,
    (delete_requests_bounded cancel_on_describe (some example_client) (some example_sql)
      cancel_busy_script
      (prestoclient_query_run cancel_on_describe example_client cancel_busy_script)
      (by rfl)).1⟩

/-- C15, counterexample. The describe callback cancels the query after the
second reply, and the server answers the DELETE with 500. Before the DELETE
`prestoclient_getlastclienterror` and `prestoclient_getlastcurlerror` return
NULL; after it, and when `prestoclient_query` has returned, they return "Server
returned error" and "Http-code: 500". -/
theorem delete_outcome_reported :
    cancel_pending.cancelquery = true ∧
      prestoclient_getlastclienterror (some cancel_pending) = none ∧
      prestoclient_getlastcurlerror (some cancel_pending) = none ∧
      prestoclient_getlastclienterror
        (some (cancel cancel_on_describe example_client [reply_code 500] cancel_pending).1) =
        some (ascii "Server returned error") ∧
      prestoclient_getlastcurlerror
        (some (cancel cancel_on_describe example_client [reply_code 500] cancel_pending).1) =
        some (ascii "Http-code: 500") ∧
      (prestoclient_query cancel_on_describe (some example_client) (some example_sql)
          cancel_error_script).map
        (fun r => (prestoclient_getlastclienterror (some r),
          prestoclient_getlastcurlerror (some r))) =
        some (some (ascii "Server returned error"), some (ascii "Http-code: 500")) := by
  refine ⟨by decide!, by decide!, by decide!, by decide!, by decide!, by rfl⟩

/-- Witness of C20: scenario S5. The members `type` and `message` of
`error.failureInfo` give the two-line server error, and the query of S5 ends
with that error and the status FAILED after one row. -/
theorem error_aggregation_witness :
    prestoclient_getlastservererror (some (lex_tokens example_callbacks
        (scalar_members_tokens [(ascii "type", Scalar.str (ascii "SYNTAX_ERROR")),
          (ascii "message", Scalar.str (ascii "line 1:8: mismatched input"))])
        failure_state)) =
        some (ascii "SYNTAX_ERROR" ++ [10] ++ ascii "line 1:8: mismatched input") ∧
      (prestoclient_query example_callbacks (some example_client) (some example_sql)
          s5_script).map
        (fun r => (prestoclient_getlastservererror (some r), prestoclient_getstatus (some r),
          prestoclient_getlastserverstate (some r), (row_events r.trace).length)) =
        some (some (ascii "SYNTAX_ERROR" ++ [10] ++ ascii "line 1:8: mismatched input"),
          PRESTOCLIENT_STATUS_FAILED, some (ascii "FAILED"), 1) :=
  have h := error_aggregation example_callbacks
    [(ascii "type", Scalar.str (ascii "SYNTAX_ERROR")),
      (ascii "message", Scalar.str (ascii "line 1:8: mismatched input"))]
    failure_state ⟨JSON_TT_OBJECT_OPEN, (JSON_TT_OBJECT_OPEN, []), [], by decide!⟩
    (by decide!) (by decide!)
  ⟨h.1.trans (by decide!), by decide!⟩

/-! ## The client handle and what a query returns -/

/-- C23 (`prestoclient_init`). The call returns NULL exactly when `in_server`
is NULL or the empty string, and it does return NULL then. With a server name
that is not empty it returns a client handle whenever a user name is at hand
(`in_user` given or `USER` set), and the client of every handle it returns has
the port `*in_port` when `in_port` is given and `1 <= *in_port <= 65535` and
8080 otherwise, the catalog `in_catalog`, or "hive" when that is NULL, the
user agent "cPrestoClient/0.3.0" and the server name handed in. -/
theorem init_contract (getenv_user in_server : Option Bytes) (in_port : Option Nat)
    (in_catalog in_user in_pwd : Option Bytes) :
    (prestoclient_init getenv_user in_server in_port in_catalog in_user in_pwd = some none ↔
        in_server = none ∨ in_server = some []) ∧
      (∀ server, in_server = some server → server ≠ [] →
        (in_user.isSome = true ∨ getenv_user.isSome = true) →
        ∃ c, prestoclient_init getenv_user in_server in_port in_catalog in_user in_pwd =
          some (some c)) ∧
      (∀ c, prestoclient_init getenv_user in_server in_port in_catalog in_user in_pwd =
          some (some c) →
        (∀ p, in_port = some p → 1 ≤ p → p ≤ 65535 → c.port = p) ∧
        (∀ p, in_port = some p → ¬ (1 ≤ p ∧ p ≤ 65535) → c.port = 8080) ∧
        (in_port = none → c.port = 8080) ∧
        (∀ cat, in_catalog = some cat → c.catalog = cat) ∧
        (in_catalog = none → c.catalog = ascii "hive") ∧
        c.useragent = ascii "cPrestoClient/0.3.0" ∧
        in_server = some c.server ∧
        (∀ u, in_user = some u → c.user = u)) := by
  refine ⟨?_, ?_, ?_⟩
  · cases in_server with
    | none => simp [prestoclient_init]
    | some server =>
      cases server with
      | nil => simp [prestoclient_init]
      | cons b bs =>
        cases in_user with
        | some u => simp [prestoclient_init]
        | none => cases getenv_user <;> simp [prestoclient_init, get_username]
  · intro server hs hne hu
    subst hs
    have hl : server.length > 0 := List.length_pos.mpr hne
    cases in_user with
    | some u => simp [prestoclient_init, hl]
    | none =>
      cases getenv_user with
      | none => simp at hu
      | some e => simp [prestoclient_init, get_username, hl]
  · intro c hc
    cases in_server with
    | none => simp [prestoclient_init] at hc
    | some server =>
      unfold prestoclient_init at hc
      simp only at hc
      split_ifs at hc with hl
      swap
      · cases hc
      split at hc
      · cases hc
      · rename_i user hu
        injection hc with hc
        injection hc with hc
        subst hc
        refine ⟨?_, ?_, ?_, ?_, ?_, ?_, rfl, ?_⟩
        · intro p hp h1 h2
          subst hp
          simp only [init_port]
          rw [if_pos ⟨by omega, h2⟩]
        · intro p hp hn
          subst hp
          simp only [init_port]
          rw [if_neg (fun h => hn ⟨by omega, h.2⟩)]
          rfl
        · intro hp; subst hp; rfl
        · intro cat hcat; subst hcat; rfl
        · intro hcat; subst hcat; rfl
        · show PRESTOCLIENT_SOURCE ++ ascii "/" ++ PRESTOCLIENT_VERSION = ascii "cPrestoClient/0.3.0"
          decide
        · intro u hu'
          subst hu'
          simp only at hu
          injection hu with hu
          exact hu.symm

/-- Witness of C23: the client of the examples is what `prestoclient_init`
returns for the server `h` and the user `u`, all other arguments NULL; with the
port 70000 the default is kept, and the port 8081 is taken. -/
theorem init_contract_witness :
    prestoclient_init none (some (ascii "h")) none none (some (ascii "u")) none =
        some (some example_client) ∧
      (∀ c, prestoclient_init none (some (ascii "h")) (some 70000) none (some (ascii "u")) none =
        some (some c) → c.port = 8080) ∧
      (∀ c, prestoclient_init none (some (ascii "h")) (some 8081) none (some (ascii "u")) none =
        some (some c) → c.port = 8081) :=
  ⟨by decide,
    fun c hc => ((init_contract none (some (ascii "h")) (some 70000) none (some (ascii "u")) none).2.2
      c hc).2.1 70000 rfl (by decide),
    fun c hc => ((init_contract none (some (ascii "h")) (some 8081) none (some (ascii "u")) none).2.2
      c hc).1 8081 rfl (by decide) (by decide)⟩

theorem prestoclient_query_handle_true (cb : Callbacks) (prestoclient : Option PRESTOCLIENT)
    (sql : Option Bytes) (script : List Response) :
    prestoclient_query_handle cb prestoclient sql true script =
      prestoclient_query cb prestoclient sql script := by
  unfold prestoclient_query_handle prestoclient_query
  cases prestoclient <;> cases sql <;> simp

/-- C24 (NULL when starting the query failed), evaluated at failing inputs.
The POST of a query is answered with HTTP 500, or the server does not answer
at all, or it answers 503 six times: starting the query has failed, and the
description of `prestoclient_query` in `prestoclient.h` promises NULL then. In
each case `prestoclient_query` returns a result handle, not NULL; the handle
carries the client error of the POST. -/
theorem failed_post_returns_handle :
    (prestoclient_query example_callbacks (some example_client) (some example_sql)
        [reply_code 500]).map (fun r => (r.errorcode, prestoclient_getlastclienterror (some r))) =
      some (PRESTOCLIENT_RESULT_SERVER_ERROR, some (ascii "Server returned error")) ∧
    (prestoclient_query example_callbacks (some example_client) (some example_sql)
        []).map (fun r => (r.errorcode, prestoclient_getlastclienterror (some r))) =
      some (PRESTOCLIENT_RESULT_CURL_ERROR, some (ascii "CURL error occurred")) ∧
    (prestoclient_query example_callbacks (some example_client) (some example_sql)
        s4_script).map (fun r => (r.errorcode, prestoclient_getlastclienterror (some r))) =
      some (PRESTOCLIENT_RESULT_MAX_RETRIES_REACHED, some (ascii "Server is busy")) := by
  refine ⟨?_, ?_, ?_⟩
  · decide!
  · decide!
  · decide!

/-- What `prestoclient_query` returns. The call returns NULL
exactly when the client handle is NULL, the statement is NULL or empty, or
`curl_easy_init` gives no handle. In every other case it returns a result
handle, also when the initial POST ends with a client error: the handle is then
the result as the POST left it, no GET has been made, and
`prestoclient_getlastclienterror` returns the text of that error. -/
theorem query_null_cases (cb : Callbacks) (prestoclient : Option PRESTOCLIENT)
    (sql : Option Bytes) (hcurl : Bool) (script : List Response) :
    (prestoclient_query_handle cb prestoclient sql hcurl script = none ↔
        prestoclient = none ∨ sql = none ∨ sql = some [] ∨ hcurl = false) ∧
      (prestoclient_query cb prestoclient sql script = none ↔
        prestoclient = none ∨ sql = none ∨ sql = some []) ∧
      (∀ client s, prestoclient = some client → sql = some s → s ≠ [] →
        prestoclient_query cb prestoclient sql script =
          some (prestoclient_query_run cb client script) ∧
        ((openuri cb PRESTOCLIENT_HTTP_REQUEST_TYPE_POST client script
              new_prestoresult).1.errorcode ≠ PRESTOCLIENT_RESULT_OK →
          prestoclient_query cb prestoclient sql script =
            some (openuri cb PRESTOCLIENT_HTTP_REQUEST_TYPE_POST client script
              new_prestoresult).1 ∧
          type_count PRESTOCLIENT_HTTP_REQUEST_TYPE_GET
            (prestoclient_query_run cb client script).trace = 0 ∧
          ((openuri cb PRESTOCLIENT_HTTP_REQUEST_TYPE_POST client script
              new_prestoresult).1.fault = false →
            prestoclient_getlastclienterror (prestoclient_query cb prestoclient sql script) ≠
              none))) := by
  refine ⟨?_, ?_, ?_⟩
  · unfold prestoclient_query_handle
    cases prestoclient <;> cases sql <;> simp
    rename_i client s
    cases s <;> cases hcurl <;> simp
  · unfold prestoclient_query
    cases prestoclient <;> cases sql <;> simp
  · intro client s hp hs hne
    subst hp hs
    have hl : s.length > 0 := List.length_pos.mpr hne
    have hq : prestoclient_query cb (some client) (some s) script =
        some (prestoclient_query_run cb client script) := by
      simp [prestoclient_query, hl]
    refine ⟨hq, ?_⟩
    intro herr
    have hrun : prestoclient_query_run cb client script =
        (openuri cb PRESTOCLIENT_HTTP_REQUEST_TYPE_POST client script new_prestoresult).1 := by
      unfold prestoclient_query_run
      rcases ho : openuri cb PRESTOCLIENT_HTTP_REQUEST_TYPE_POST client script
        new_prestoresult with ⟨r1, s1⟩
      rw [ho] at herr
      dsimp only at herr ⊢
      split_ifs with h1
      · rfl
      · rfl
    refine ⟨by rw [hq, hrun], ?_, ?_⟩
    · rw [hrun, openuri_type_count cb PRESTOCLIENT_HTTP_REQUEST_TYPE_POST
        PRESTOCLIENT_HTTP_REQUEST_TYPE_GET client script new_prestoresult (by decide)]
      rfl
    · intro _
      rw [hq, hrun]
      unfold prestoclient_getlastclienterror
      dsimp only
      split
      · rename_i h; exact absurd h herr
      all_goals simp

/-- The return value of the query whose POST is answered with 500. -/
theorem query_null_cases_witness :
    prestoclient_query example_callbacks (some example_client) (some example_sql)
        [reply_code 500] =
      some (openuri example_callbacks PRESTOCLIENT_HTTP_REQUEST_TYPE_POST example_client
        [reply_code 500] new_prestoresult).1 :=
  (((query_null_cases example_callbacks (some example_client) (some example_sql) true
    [reply_code 500]).2.2 example_client example_sql rfl rfl (by decide)).2 (by decide!)).1

/-! ## The byte sink: its result and the tail of the buffer -/

/-- C27 (tail preservation), evaluated at failing inputs. (1) A first chunk
that ends after the first byte (195) of a two-byte character: one byte is
unconsumed, and the response buffer afterwards is that byte followed by a zero
byte, with the recorded length 2, not 1. (2) A first chunk that ends after the
first two bytes (226, 130) of a three-byte character: two bytes are
unconsumed, and the buffer is those bytes followed by a zero byte, with the
recorded length 3. (3) A chunk that holds nothing but the byte 195, fed to an
empty buffer: the read position is 0, `readposition - 1` wraps around, and the
zero byte is stored far outside the buffer. In (1) and (2) the byte sink
returns the chunk length and the read position is 0, as the claim says. -/
theorem tail_shift_keeps_zero :
    ((WriteCallback example_callbacks utf8_front new_prestoresult).1.lastresponse = [195, 0] ∧
        (WriteCallback example_callbacks utf8_front new_prestoresult).1.lastresponse.length = 2 ∧
        (WriteCallback example_callbacks utf8_front new_prestoresult).1.json.readposition = 0 ∧
        (WriteCallback example_callbacks utf8_front new_prestoresult).1.fault = false ∧
        (WriteCallback example_callbacks utf8_front new_prestoresult).2 = utf8_front.length) ∧
      ((WriteCallback example_callbacks utf8_front3 new_prestoresult).1.lastresponse =
          [226, 130, 0] ∧
        (WriteCallback example_callbacks utf8_front3 new_prestoresult).1.lastresponse.length = 3 ∧
        (WriteCallback example_callbacks utf8_front3 new_prestoresult).1.json.readposition = 0 ∧
        (WriteCallback example_callbacks utf8_front3 new_prestoresult).1.fault = false ∧
        (WriteCallback example_callbacks utf8_front3 new_prestoresult).2 = utf8_front3.length) ∧
      (WriteCallback example_callbacks [195] new_prestoresult).1.fault = true := by
  refine ⟨⟨?_, ?_, ?_, ?_, ?_⟩, ⟨?_, ?_, ?_, ?_, ?_⟩, ?_⟩ <;> decide!

/-- C28 (byte sink result). The byte sink takes a chunk that is not empty on a
live result, and no fault arises. It returns the number of bytes of the chunk
exactly when `json_reader` returned true and the cancel flag is not set after
the chunk has been processed, and 0 in every other case; `json_reader` returns
true exactly when neither the tokenizer's nor the lexer's error flag is set. -/
theorem sink_result (cb : Callbacks) (chunk : Bytes) (r : PRESTOCLIENT_RESULT)
    (hf : r.fault = false) (hne : chunk ≠ [])
    (hnf : (json_reader cb { r with lastresponse := r.lastresponse ++ chunk }).1.fault = false) :
    (WriteCallback cb chunk r).1 =
        (json_reader cb { r with lastresponse := r.lastresponse ++ chunk }).1 ∧
      ((WriteCallback cb chunk r).2 = chunk.length ↔
        (json_reader cb { r with lastresponse := r.lastresponse ++ chunk }).2 = true ∧
          (WriteCallback cb chunk r).1.cancelquery = false) ∧
      (¬ ((json_reader cb { r with lastresponse := r.lastresponse ++ chunk }).2 = true ∧
          (WriteCallback cb chunk r).1.cancelquery = false) →
        (WriteCallback cb chunk r).2 = 0) ∧
      ((json_reader cb { r with lastresponse := r.lastresponse ++ chunk }).2 = true ↔
        (WriteCallback cb chunk r).1.json.error = false ∧
          (WriteCallback cb chunk r).1.lexer.error = false) := by
  have hl : chunk.length ≠ 0 := fun h => hne (List.length_eq_zero.mp h)
  have hrd : (json_reader cb { r with lastresponse := r.lastresponse ++ chunk }).2 =
      (!(json_reader cb { r with lastresponse := r.lastresponse ++ chunk }).1.json.error &&
        !(json_reader cb { r with lastresponse := r.lastresponse ++ chunk }).1.lexer.error) := by
    unfold json_reader at hnf ⊢
    dsimp only at hnf ⊢
    split_ifs at hnf ⊢ with h1
    · rw [h1] at hnf; cases hnf
    · rfl
  have hw : (WriteCallback cb chunk r) =
      ((json_reader cb { r with lastresponse := r.lastresponse ++ chunk }).1,
        if (json_reader cb { r with lastresponse := r.lastresponse ++ chunk }).2 = true then
          (if (json_reader cb { r with lastresponse := r.lastresponse ++ chunk }).1.cancelquery
            = true then 0 else chunk.length)
        else 0) := by
    unfold WriteCallback
    rw [if_neg (by rw [hf]; decide)]
    rcases json_reader cb { r with lastresponse := r.lastresponse ++ chunk } with ⟨r1, b⟩
    cases b <;> simp
  generalize json_reader cb { r with lastresponse := r.lastresponse ++ chunk } = p at *
  obtain ⟨r1, b⟩ := p
  rw [hw]
  dsimp only at hrd ⊢
  refine ⟨rfl, ?_, ?_, ?_⟩
  · cases b <;> cases hc : r1.cancelquery <;> simp [hl, Ne.symm hl]
  · cases b <;> cases hc : r1.cancelquery <;> simp
  · rw [hrd]; simp

/-- Witness of C28: the reply of S1 is taken whole; the reply with a backslash
outside a string and the chunk whose row makes the row callback cancel are
refused. -/
theorem sink_result_witness :
    (WriteCallback example_callbacks s1_body new_prestoresult).2 = s1_body.length ∧
      (WriteCallback example_callbacks bad_body new_prestoresult).2 = 0 ∧
      (WriteCallback cancel_on_row s6_body new_prestoresult).2 = 0 :=
  ⟨((sink_result example_callbacks s1_body new_prestoresult rfl (by decide) (by decide!)).2.1).mpr
      ⟨by decide!, by decide!⟩,
    (sink_result example_callbacks bad_body new_prestoresult rfl (by decide) (by decide!)).2.2.1
      (by decide!),
    (sink_result cancel_on_row s6_body new_prestoresult rfl (by decide) (by decide!)).2.2.1
      (by decide!)⟩

/-! ## The status along the driver steps -/

theorem status_le_refl (a : E_CLIENTSTATUS) : status_le a a = true := by
  cases a <;> rfl

theorem status_le_trans (a b c : E_CLIENTSTATUS) (h1 : status_le a b = true)
    (h2 : status_le b c = true) : status_le a c = true := by
  revert h1 h2
  cases a <;> cases b <;> cases c <;> decide

theorem status_le_final (a b : E_CLIENTSTATUS) (h : status_le a b = true)
    (ha : a = PRESTOCLIENT_STATUS_SUCCEEDED ∨ a = PRESTOCLIENT_STATUS_FAILED) : b = a := by
  revert h
  rcases ha with ha | ha <;> subst ha <;> cases b <;> decide

theorem status_le_not_none (a b : E_CLIENTSTATUS) (h : status_le a b = true)
    (ha : a ≠ PRESTOCLIENT_STATUS_NONE) : b ≠ PRESTOCLIENT_STATUS_NONE := by
  revert h ha
  cases a <;> cases b <;> decide

/-- A driver step moves the status forward or leaves it, and keeps `StatusInv`. -/
theorem prestoclient_queryisrunning_forward (cb : Callbacks) (client : PRESTOCLIENT)
    (script : List Response) (r : PRESTOCLIENT_RESULT) (h : StatusInv r) :
    status_le r.clientstatus (prestoclient_queryisrunning cb client script r).1.clientstatus
        = true ∧
      StatusInv (prestoclient_queryisrunning cb client script r).1 := by
  unfold prestoclient_queryisrunning
  split_ifs with hf hc he
  · exact ⟨status_le_refl _, h⟩
  · have hs := cancel_step cb client script r
    rcases hcc : cancel cb client script r with ⟨r1, s1⟩
    rw [hcc] at hs
    dsimp only at hs ⊢
    refine ⟨by rw [hs.clientstatus]; exact status_le_refl _, fun _ => Or.inr (hs.cancelquery hc)⟩
  · exact ⟨status_le_refl _, h⟩
  · have hs := openuri_step cb PRESTOCLIENT_HTTP_REQUEST_TYPE_GET client script r
    rcases ho : openuri cb PRESTOCLIENT_HTTP_REQUEST_TYPE_GET client script r with ⟨r1, s1⟩
    rw [ho] at hs
    dsimp only at hs ⊢
    have hst := hs.clientstatus
    have hopen : ¬ (r.clientstatus = PRESTOCLIENT_STATUS_SUCCEEDED ∨
        r.clientstatus = PRESTOCLIENT_STATUS_FAILED) := by
      intro hh
      rcases h hh with h1 | h1
      · exact he h1
      · exact hc h1
    have hkeep : status_le r.clientstatus r1.clientstatus = true ∧ StatusInv r1 := by
      refine ⟨by rw [hst]; exact status_le_refl _, ?_⟩
      intro hh
      rw [hst] at hh
      exact absurd hh hopen
    have hget : status_le r.clientstatus (queryisrunning_after_get cb r1).clientstatus = true ∧
        StatusInv (queryisrunning_after_get cb r1) := by
      obtain ⟨a1, _, _, _, a5, _⟩ := queryisrunning_after_get_spec cb r1
      constructor
      · rw [a5]
        have : r.clientstatus = PRESTOCLIENT_STATUS_NONE ∨
            r.clientstatus = PRESTOCLIENT_STATUS_RUNNING := by
          cases hr : r.clientstatus
          · exact Or.inl rfl
          · exact Or.inr rfl
          · exact absurd (Or.inl hr) hopen
          · exact absurd (Or.inr hr) hopen
        rcases this with hn | hn <;> rw [hn] <;> split_ifs <;> rfl
      · intro hh
        rw [a5] at hh
        left
        rw [a1]
        by_cases hne : str_empty r1.lastnexturi = false
        · rw [if_pos hne] at hh
          rcases hh with hh | hh <;> cases hh
        · simpa using hne
    split_ifs
    · exact hkeep
    · exact hget
    · exact hget
    · exact hkeep

theorem driver_steps_add (cb : Callbacks) (client : PRESTOCLIENT) :
    ∀ (n k : Nat) (script : List Response) (r : PRESTOCLIENT_RESULT),
      driver_steps cb client (n + k) script r =
        driver_steps cb client k (driver_steps cb client n script r).2
          (driver_steps cb client n script r).1 := by
  intro n
  induction n with
  | zero => intro k script r; simp [driver_steps]
  | succ n ih =>
    intro k script r
    have e : n + 1 + k = (n + k) + 1 := by omega
    rw [e]
    simp only [driver_steps]
    rcases prestoclient_queryisrunning cb client script r with ⟨r1, s1, b⟩
    cases b
    · exact ih k s1 r1
    · exact ih k s1 _

theorem driver_steps_forward (cb : Callbacks) (client : PRESTOCLIENT) :
    ∀ (k : Nat) (script : List Response) (r : PRESTOCLIENT_RESULT), StatusInv r →
      status_le r.clientstatus (driver_steps cb client k script r).1.clientstatus = true ∧
        StatusInv (driver_steps cb client k script r).1 := by
  intro k
  induction k with
  | zero => intro script r h; exact ⟨status_le_refl _, h⟩
  | succ k ih =>
    intro script r h
    obtain ⟨a1, a2⟩ := prestoclient_queryisrunning_forward cb client script r h
    unfold driver_steps
    rcases hq : prestoclient_queryisrunning cb client script r with ⟨r1, s1, b⟩
    rw [hq] at a1 a2
    dsimp only at a1 a2
    cases b
    · obtain ⟨b1, b2⟩ := ih s1 r1 a2
      exact ⟨status_le_trans _ _ _ a1 b1, b2⟩
    · have a2' : StatusInv (util_sleep (poll_interval r1) r1) := a2
      obtain ⟨b1, b2⟩ := ih s1 _ a2'
      exact ⟨status_le_trans _ _ _ a1 b1, b2⟩

/-- The loop of `prestoclient_waituntilfinished` ends in one of the states of
`driver_steps`. -/
theorem waituntilfinished_loop_steps (cb : Callbacks) (client : PRESTOCLIENT) :
    ∀ (fuel : Nat) (script : List Response) (r : PRESTOCLIENT_RESULT),
      ∃ n, n ≤ fuel ∧
        waituntilfinished_loop cb client fuel script r = driver_steps cb client n script r := by
  intro fuel
  induction fuel with
  | zero => intro script r; exact ⟨0, le_refl _, rfl⟩
  | succ f ih =>
    intro script r
    rcases hq : prestoclient_queryisrunning cb client script r with ⟨r1, s1, b⟩
    cases b
    · refine ⟨1, by omega, ?_⟩
      unfold waituntilfinished_loop driver_steps
      rw [hq]
      rfl
    · obtain ⟨n, hn, e⟩ := ih s1 (util_sleep (poll_interval r1) r1)
      refine ⟨n + 1, by omega, ?_⟩
      unfold waituntilfinished_loop
      rw [hq]
      dsimp only
      conv_rhs => unfold driver_steps
      rw [hq]
      exact e

theorem query_posted_status (cb : Callbacks) (client : PRESTOCLIENT) (script : List Response) :
    (query_posted cb client script).1.clientstatus = PRESTOCLIENT_STATUS_NONE :=
  (openuri_step cb PRESTOCLIENT_HTTP_REQUEST_TYPE_POST client script new_prestoresult).clientstatus

theorem query_posted_inv (cb : Callbacks) (client : PRESTOCLIENT) (script : List Response) :
    StatusInv (query_posted cb client script).1 := by
  intro h
  rw [query_posted_status] at h
  rcases h with h | h <;> cases h

/-- C22 (status is monotone). In the run of the driver of a query the status is
NONE when the POST has been answered; the result of the query is the state
after some number of driver steps; and along the driver steps, including any
later ones, the status only moves forward in the order NONE, RUNNING,
{SUCCEEDED, FAILED}: the status after `n + k` steps is not before the status
after `n` steps, it is not NONE when that was not NONE, and it is the same
when that was SUCCEEDED or FAILED. A single driver step does the same on every
result whose status, when SUCCEEDED or FAILED, goes with an empty next URI or
a cancellation request, and it keeps that property. -/
theorem status_monotone (cb : Callbacks) (client : PRESTOCLIENT) (script : List Response) :
    (query_posted cb client script).1.clientstatus = PRESTOCLIENT_STATUS_NONE ∧
      (∃ n, prestoclient_query_run cb client script =
        (driver_steps cb client n (query_posted cb client script).2
          (query_posted cb client script).1).1) ∧
      (∀ n k,
        status_le
          (driver_steps cb client n (query_posted cb client script).2
            (query_posted cb client script).1).1.clientstatus
          (driver_steps cb client (n + k) (query_posted cb client script).2
            (query_posted cb client script).1).1.clientstatus = true ∧
        ((driver_steps cb client n (query_posted cb client script).2
            (query_posted cb client script).1).1.clientstatus ≠ PRESTOCLIENT_STATUS_NONE →
          (driver_steps cb client (n + k) (query_posted cb client script).2
            (query_posted cb client script).1).1.clientstatus ≠ PRESTOCLIENT_STATUS_NONE) ∧
        ((driver_steps cb client n (query_posted cb client script).2
            (query_posted cb client script).1).1.clientstatus = PRESTOCLIENT_STATUS_SUCCEEDED ∨
          (driver_steps cb client n (query_posted cb client script).2
            (query_posted cb client script).1).1.clientstatus = PRESTOCLIENT_STATUS_FAILED →
          (driver_steps cb client (n + k) (query_posted cb client script).2
            (query_posted cb client script).1).1.clientstatus =
          (driver_steps cb client n (query_posted cb client script).2
            (query_posted cb client script).1).1.clientstatus)) ∧
      (∀ (s : List Response) (r : PRESTOCLIENT_RESULT), StatusInv r →
        status_le r.clientstatus (prestoclient_queryisrunning cb client s r).1.clientstatus
          = true ∧
        StatusInv (prestoclient_queryisrunning cb client s r).1) := by
  refine ⟨query_posted_status cb client script, ?_, ?_, ?_⟩
  · unfold prestoclient_query_run
    show ∃ n, (match query_posted cb client script with
      | (r1, s1) =>
        if r1.fault = true then r1
        else if r1.errorcode = PRESTOCLIENT_RESULT_OK then
          (prestoclient_waituntilfinished cb client s1 r1).1 else r1) = _
    rcases query_posted cb client script with ⟨r1, s1⟩
    dsimp only
    split_ifs
    · exact ⟨0, rfl⟩
    · obtain ⟨n, _, e⟩ := waituntilfinished_loop_steps cb client (s1.length + 1) s1 r1
      exact ⟨n, by unfold prestoclient_waituntilfinished; rw [e]⟩
    · exact ⟨0, rfl⟩
  · intro n k
    have hinv := (driver_steps_forward cb client n (query_posted cb client script).2
      (query_posted cb client script).1 (query_posted_inv cb client script)).2
    have hk := (driver_steps_forward cb client k
      (driver_steps cb client n (query_posted cb client script).2
        (query_posted cb client script).1).2 _ hinv).1
    rw [← driver_steps_add] at hk
    exact ⟨hk, status_le_not_none _ _ hk, status_le_final _ _ hk⟩
  · intro s r h
    exact prestoclient_queryisrunning_forward cb client s r h

/-! ## Relations that every operation keeps -/

theorem StepClosed.lift_lexer_value {cb : Callbacks}
    {R : PRESTOCLIENT_RESULT → PRESTOCLIENT_RESULT → Prop} (h : StepClosed cb R)
    (r : PRESTOCLIENT_RESULT) (u : Option Bytes) :
    R r (lexer_value cb r u) := by
  unfold lexer_value json_extract_variables
  dsimp only
  refine h.trans _ _ _ (h.frame r _ _ _ _) (h.trans _ _ _ (h.dispatch _) (h.frame _ _ _ _ _))

theorem StepClosed.lift_lexer {cb : Callbacks}
    {R : PRESTOCLIENT_RESULT → PRESTOCLIENT_RESULT → Prop} (h : StepClosed cb R)
    (r : PRESTOCLIENT_RESULT) :
    R r (json_lexer cb r).1 := by
  have hs : R r (json_lexer_switch cb r) := by
    unfold json_lexer_switch
    split
    · exact h.frame r _ _ _ _
    · exact h.frame r _ _ _ _
    · exact h.frame r _ _ _ _
    · exact h.refl r
    · exact h.refl r
    · exact h.frame r _ _ _ _
    · exact h.frame r _ _ _ _
    · split_ifs
      · exact h.lift_lexer_value r _
      · exact h.frame r _ _ _ _
    · exact h.lift_lexer_value r _
    · exact h.lift_lexer_value r _
    · exact h.lift_lexer_value r _
    · exact h.lift_lexer_value r _
  unfold json_lexer
  exact h.trans _ _ _ hs (h.frame _ _ _ _ _)

theorem StepClosed.lift_lex_token {cb : Callbacks}
    {R : PRESTOCLIENT_RESULT → PRESTOCLIENT_RESULT → Prop} (h : StepClosed cb R)
    (tok : Token) (r : PRESTOCLIENT_RESULT) :
    R r (lex_token cb tok r) := by
  unfold lex_token
  exact h.trans _ _ _ (h.frame r { r.json with tagtype := tok.1, tagbuffer := tok.2 } r.lexer
      r.lastresponse r.fault)
    (h.trans _ _ _ (h.lift_lexer _) (h.frame _ _ _ _ _))

theorem StepClosed.lift_lex_tokens {cb : Callbacks}
    {R : PRESTOCLIENT_RESULT → PRESTOCLIENT_RESULT → Prop} (h : StepClosed cb R)
    :
    ∀ (toks : List Token) (r : PRESTOCLIENT_RESULT), R r (lex_tokens cb toks r) := by
  intro toks
  induction toks with
  | nil => intro r; exact h.refl r
  | cons tok rest ih =>
    intro r
    unfold lex_tokens
    split_ifs
    · exact h.refl r
    · exact h.trans _ _ _ (h.lift_lex_token tok r) (ih _)

theorem StepClosed.lift_reader_loop {cb : Callbacks}
    {R : PRESTOCLIENT_RESULT → PRESTOCLIENT_RESULT → Prop} (h : StepClosed cb R)
    :
    ∀ (fuel : Nat) (r : PRESTOCLIENT_RESULT), R r (json_reader_loop cb fuel r) := by
  intro fuel
  induction fuel with
  | zero => intro r; exact h.refl r
  | succ n ih =>
    intro r
    unfold json_reader_loop
    split_ifs
    · exact h.refl r
    · split
      · exact h.frame r _ _ _ _
      · rename_i j hj
        have hl := h.lift_lexer { r with json := j }
        have hj' : R r { r with json := j } := h.frame r j r.lexer r.lastresponse r.fault
        split
        · rename_i r2 hr2
          rw [hr2] at hl
          exact h.trans _ _ _ hj' hl
        · rename_i r2 hr2
          rw [hr2] at hl
          exact h.trans _ _ _ hj' (h.trans _ _ _ hl
            (h.trans _ _ _ (h.frame r2 { r2.json with tagbuffer := [] } r2.lexer r2.lastresponse
              r2.fault) (ih _)))

theorem StepClosed.lift_reader_shift {cb : Callbacks}
    {R : PRESTOCLIENT_RESULT → PRESTOCLIENT_RESULT → Prop} (h : StepClosed cb R)
    (r : PRESTOCLIENT_RESULT) :
    R r (json_reader_shift r) := by
  unfold json_reader_shift
  dsimp only
  split_ifs
  · exact h.frame r _ _ _ _
  · exact h.frame r _ _ _ _
  · exact h.frame r _ _ _ _

theorem StepClosed.lift_reader {cb : Callbacks}
    {R : PRESTOCLIENT_RESULT → PRESTOCLIENT_RESULT → Prop} (h : StepClosed cb R)
    (r : PRESTOCLIENT_RESULT) :
    R r (json_reader cb r).1 := by
  have a := h.lift_reader_loop (json_measure r.lastresponse r.json + 1) r
  unfold json_reader
  dsimp only
  split_ifs
  · exact a
  · exact h.trans _ _ _ a (h.lift_reader_shift _)

theorem StepClosed.lift_sink {cb : Callbacks}
    {R : PRESTOCLIENT_RESULT → PRESTOCLIENT_RESULT → Prop} (h : StepClosed cb R)
    (contents : Bytes) (r : PRESTOCLIENT_RESULT) :
    R r (WriteCallback cb contents r).1 := by
  unfold WriteCallback
  split_ifs
  · exact h.refl r
  · have a := h.lift_reader { r with lastresponse := r.lastresponse ++ contents }
    have b : R r { r with lastresponse := r.lastresponse ++ contents } :=
      h.frame r r.json r.lexer _ r.fault
    split <;> rename_i r1 hr <;> rw [hr] at a <;> exact h.trans _ _ _ b a

theorem StepClosed.lift_deliver {cb : Callbacks}
    {R : PRESTOCLIENT_RESULT → PRESTOCLIENT_RESULT → Prop} (h : StepClosed cb R)
    :
    ∀ (chunks : List Bytes) (r : PRESTOCLIENT_RESULT), R r (curl_deliver cb chunks r).1 := by
  intro chunks
  induction chunks with
  | nil => intro r; exact h.refl r
  | cons c rest ih =>
    intro r
    have a := h.lift_sink c r
    unfold curl_deliver
    rcases hw : WriteCallback cb c r with ⟨r1, n⟩
    rw [hw] at a
    dsimp only at a ⊢
    split_ifs
    · exact h.trans _ _ _ a (ih r1)
    · exact a

theorem DriverClosed.lift_perform {cb : Callbacks}
    {R : PRESTOCLIENT_RESULT → PRESTOCLIENT_RESULT → Prop} (h : DriverClosed cb R)
    (resp : Option Response) (r : PRESTOCLIENT_RESULT) :
    R r (curl_easy_perform cb resp r).1 := by
  unfold curl_easy_perform
  split
  · exact h.error r r.errorcode _
  · rename_i rs
    have a := h.sink.lift_deliver rs.chunks r
    split
    · rename_i r1 hr
      rw [hr] at a
      split
      · exact a
      · exact h.sink.trans _ _ _ a (h.error r1 r1.errorcode _)
    · rename_i r1 hr
      rw [hr] at a
      split_ifs
      · exact a
      · exact h.sink.trans _ _ _ a (h.error r1 r1.errorcode _)

theorem DriverClosed.lift_sleep {cb : Callbacks}
    {R : PRESTOCLIENT_RESULT → PRESTOCLIENT_RESULT → Prop} (h : DriverClosed cb R)
    (msec : Nat) (r : PRESTOCLIENT_RESULT) :
    R r (util_sleep msec r) :=
  h.net r (Event.sleep (msec / 1000)) rfl

theorem DriverClosed.lift_attempt {cb : Callbacks}
    {R : PRESTOCLIENT_RESULT → PRESTOCLIENT_RESULT → Prop} (h : DriverClosed cb R)
    (t : E_HTTP_REQUEST_TYPES) (url : Bytes)
    (retrycount : Nat) (resp : Option Response) (r : PRESTOCLIENT_RESULT) :
    R r (openuri_attempt cb t url retrycount resp r).1 := by
  have h0 : R r { r with trace := r.trace ++ [Event.request t url] } :=
    h.net r (Event.request t url) rfl
  have h1 := h.sink.trans _ _ _ h0
    (h.lift_perform resp { r with trace := r.trace ++ [Event.request t url] })
  unfold openuri_attempt
  rcases hp : curl_easy_perform cb resp
    { r with trace := r.trace ++ [Event.request t url] } with ⟨r1, out⟩
  rw [hp] at h1
  dsimp only at h1
  cases out with
  | failed =>
    dsimp only
    split_ifs
    · exact h1
    · exact h.sink.trans _ _ _ h1 (h.error r1 _ r1.curl_error_buffer)
  | http code =>
    dsimp only
    split_ifs
    · exact h1
    · exact h1
    · exact h.sink.trans _ _ _ h1 (h.sink.trans _ _ _ (h.lift_sleep _ r1)
        (h.error _ _ (util_sleep _ r1).curl_error_buffer))
    · exact h.sink.trans _ _ _ h1 (h.lift_sleep _ r1)
    · exact h.sink.trans _ _ _ h1 (h.error r1 _ _)

theorem DriverClosed.lift_openuri_loop {cb : Callbacks}
    {R : PRESTOCLIENT_RESULT → PRESTOCLIENT_RESULT → Prop} (h : DriverClosed cb R)
    (t : E_HTTP_REQUEST_TYPES) (url : Bytes) :
    ∀ (script : List Response) (retrycount : Nat) (r : PRESTOCLIENT_RESULT),
      R r (openuri_loop cb t url retrycount script r).1 := by
  intro script
  induction script with
  | nil => intro rc r; unfold openuri_loop; exact h.lift_attempt t url _ none r
  | cons resp rest ih =>
    intro rc r
    have h1 := h.lift_attempt t url (rc + 1) (some resp) r
    unfold openuri_loop
    rcases ha : openuri_attempt cb t url (rc + 1) (some resp) r with ⟨r1, b⟩
    rw [ha] at h1
    cases b with
    | true => exact h.sink.trans _ _ _ h1 (ih (rc + 1) r1)
    | false => exact h1

theorem DriverClosed.lift_openuri {cb : Callbacks}
    {R : PRESTOCLIENT_RESULT → PRESTOCLIENT_RESULT → Prop} (h : DriverClosed cb R)
    (t : E_HTTP_REQUEST_TYPES) (client : PRESTOCLIENT)
    (script : List Response) (r : PRESTOCLIENT_RESULT) :
    R r (openuri cb t client script r).1 := by
  unfold openuri
  split_ifs
  · exact h.sink.refl r
  · exact h.error r _ r.curl_error_buffer
  · exact h.sink.trans _ _ _ (h.setup t r) (h.lift_openuri_loop t _ script 0 _)

theorem DriverClosed.lift_cancel {cb : Callbacks}
    {R : PRESTOCLIENT_RESULT → PRESTOCLIENT_RESULT → Prop} (h : DriverClosed cb R)
    (client : PRESTOCLIENT) (script : List Response)
    (r : PRESTOCLIENT_RESULT) : R r (cancel cb client script r).1 := by
  unfold cancel
  split
  · exact h.lift_openuri _ client script r
  · exact h.sink.refl r

theorem DriverClosed.lift_step {cb : Callbacks}
    {R : PRESTOCLIENT_RESULT → PRESTOCLIENT_RESULT → Prop} (h : DriverClosed cb R)
    (client : PRESTOCLIENT) (script : List Response)
    (r : PRESTOCLIENT_RESULT) : R r (prestoclient_queryisrunning cb client script r).1 := by
  unfold prestoclient_queryisrunning
  split_ifs
  · exact h.sink.refl r
  · exact h.lift_cancel client script r
  · exact h.sink.refl r
  · have h1 := h.lift_openuri PRESTOCLIENT_HTTP_REQUEST_TYPE_GET client script r
    rcases ho : openuri cb PRESTOCLIENT_HTTP_REQUEST_TYPE_GET client script r with ⟨r1, s1⟩
    rw [ho] at h1
    dsimp only
    split_ifs
    · exact h1
    · exact h.sink.trans _ _ _ h1 (h.after_get r1)
    · exact h.sink.trans _ _ _ h1 (h.after_get r1)
    · exact h1

theorem DriverClosed.lift_wait_loop {cb : Callbacks}
    {R : PRESTOCLIENT_RESULT → PRESTOCLIENT_RESULT → Prop} (h : DriverClosed cb R)
    (client : PRESTOCLIENT) :
    ∀ (fuel : Nat) (script : List Response) (r : PRESTOCLIENT_RESULT),
      R r (waituntilfinished_loop cb client fuel script r).1 := by
  intro fuel
  induction fuel with
  | zero => intro script r; exact h.sink.refl r
  | succ n ih =>
    intro script r
    have h1 := h.lift_step client script r
    unfold waituntilfinished_loop
    rcases hq : prestoclient_queryisrunning cb client script r with ⟨r1, s1, b⟩
    rw [hq] at h1
    cases b with
    | false => exact h1
    | true =>
      dsimp only
      exact h.sink.trans _ _ _ h1 (h.sink.trans _ _ _ (h.lift_sleep _ r1) (ih s1 _))

theorem DriverClosed.lift_steps {cb : Callbacks}
    {R : PRESTOCLIENT_RESULT → PRESTOCLIENT_RESULT → Prop} (h : DriverClosed cb R)
    (client : PRESTOCLIENT) :
    ∀ (n : Nat) (script : List Response) (r : PRESTOCLIENT_RESULT),
      R r (driver_steps cb client n script r).1 := by
  intro n
  induction n with
  | zero => intro script r; exact h.sink.refl r
  | succ n ih =>
    intro script r
    have h1 := h.lift_step client script r
    unfold driver_steps
    rcases hq : prestoclient_queryisrunning cb client script r with ⟨r1, s1, b⟩
    rw [hq] at h1
    cases b with
    | false => exact h.sink.trans _ _ _ h1 (ih s1 r1)
    | true =>
      dsimp only
      exact h.sink.trans _ _ _ h1 (h.sink.trans _ _ _ (h.lift_sleep _ r1) (ih s1 _))

theorem DriverClosed.lift_query {cb : Callbacks}
    {R : PRESTOCLIENT_RESULT → PRESTOCLIENT_RESULT → Prop} (h : DriverClosed cb R)
    (client : PRESTOCLIENT) (script : List Response) :
    R new_prestoresult (prestoclient_query_run cb client script) := by
  have h1 := h.lift_openuri PRESTOCLIENT_HTTP_REQUEST_TYPE_POST client script new_prestoresult
  unfold prestoclient_query_run
  rcases ho : openuri cb PRESTOCLIENT_HTTP_REQUEST_TYPE_POST client script
    new_prestoresult with ⟨r1, s1⟩
  rw [ho] at h1
  dsimp only at h1 ⊢
  split_ifs
  · exact h1
  · exact h.sink.trans _ _ _ h1 (h.lift_wait_loop client _ s1 r1)
  · exact h1

/-! ## The column count -/

theorem call_describe_data (cb : Callbacks) (r : PRESTOCLIENT_RESULT) :
    (call_describe cb r).columns = r.columns ∧
      (call_describe cb r).columninfoavailable = r.columninfoavailable ∧
      (call_describe cb r).dataavailable = r.dataavailable ∧
      (call_describe cb r).currentdatacolumn = r.currentdatacolumn ∧
      row_events (call_describe cb r).trace = row_events r.trace := by
  unfold call_describe
  split
  · exact ⟨rfl, rfl, rfl, rfl, rfl⟩
  · refine ⟨rfl, rfl, rfl, rfl, ?_⟩
    simp [row_events, is_row_event]

theorem call_write_data (cb : Callbacks) (r : PRESTOCLIENT_RESULT) :
    (call_write cb r).columns = r.columns ∧
      (call_write cb r).columninfoavailable = r.columninfoavailable ∧
      (call_write cb r).dataavailable = r.dataavailable ∧
      (call_write cb r).currentdatacolumn = r.currentdatacolumn ∧
      (cb.write_callback_function.isSome = true → row_events (call_write cb r).trace ≠ []) := by
  unfold call_write
  split
  · rename_i h
    refine ⟨rfl, rfl, rfl, rfl, ?_⟩
    intro hh
    rw [h] at hh
    cases hh
  · refine ⟨rfl, rfl, rfl, rfl, ?_⟩
    intro _
    simp [row_events, is_row_event]

theorem extract_data_header_data (cb : Callbacks) (r : PRESTOCLIENT_RESULT) :
    (extract_data_header cb r).columns = r.columns ∧
      (r.columninfoavailable = true → (extract_data_header cb r).columninfoavailable = true) ∧
      (extract_data_header cb r).dataavailable = r.dataavailable ∧
      row_events (extract_data_header cb r).trace = row_events r.trace := by
  unfold extract_data_header
  dsimp only
  split_ifs
  · obtain ⟨a, b, c, _, e⟩ := call_describe_data cb
      { r with columninfoavailable := true, columninfoprinted := true }
    exact ⟨a, fun _ => b, c, e⟩
  · exact ⟨rfl, fun _ => rfl, rfl, rfl⟩
  · exact ⟨rfl, fun h => h, rfl, rfl⟩

/-- What the data branch of the projector does to the column count, the
column flag, `dataavailable` and the rows of the trace. -/
theorem extract_data_data (cb : Callbacks) (r : PRESTOCLIENT_RESULT) :
    (extract_data cb r).columns.length = r.columns.length ∧
      (r.columninfoavailable = true → (extract_data cb r).columninfoavailable = true) ∧
      (RowInv cb r → RowInv cb (extract_data cb r)) := by
  obtain ⟨h1, h2, h3, h4⟩ := extract_data_header_data cb r
  unfold extract_data
  generalize extract_data_header cb r = r1 at *
  have hinv : RowInv cb r → RowInv cb r1 := by
    intro hi hw
    rw [h3, h4]
    exact hi hw
  dsimp only
  split_ifs
  · exact ⟨by rw [← h1], h2, hinv⟩
  · split
    · exact ⟨by rw [← h1], h2, hinv⟩
    · split_ifs
      · obtain ⟨a, b, c, _, e⟩ := call_write_data cb
          { r1 with
            currentdatacolumn := -1
            dataavailable := true
            columns := r1.columns.set (r1.currentdatacolumn + 1).toNat
              (extract_data_field ‹_› r1.json.tagtype r1.lexer.value) }
        refine ⟨?_, ?_, ?_⟩
        · rw [a]; simp [h1]
        · intro h; rw [b]; exact h2 h
        · intro _ hw
          rw [c]
          exact ⟨fun _ => e hw, fun _ => rfl⟩
      · exact ⟨by simp [h1], h2, hinv⟩

theorem extract_column_data (r : PRESTOCLIENT_RESULT) :
    r.columns.length ≤ (extract_column r).columns.length ∧
      (extract_column r).columninfoavailable = r.columninfoavailable ∧
      (extract_column r).dataavailable = r.dataavailable ∧
      (extract_column r).trace = r.trace := by
  unfold extract_column
  split_ifs with h1 h2
  · exact ⟨by simp, rfl, rfl, rfl⟩
  · split
    · exact ⟨le_refl _, rfl, rfl, rfl⟩
    · refine ⟨?_, rfl, rfl, rfl⟩
      simp
      omega
  · exact ⟨le_refl _, rfl, rfl, rfl⟩

theorem ColMono.col_refl (r : PRESTOCLIENT_RESULT) : ColMono r r :=
  ⟨le_refl _, fun h => ⟨h, rfl⟩⟩

theorem ColMono.col_trans {r1 r2 r3 : PRESTOCLIENT_RESULT} (h1 : ColMono r1 r2)
    (h2 : ColMono r2 r3) : ColMono r1 r3 :=
  ⟨le_trans h1.1 h2.1, fun h =>
    ⟨(h2.2 (h1.2 h).1).1, ((h2.2 (h1.2 h).1).2).trans (h1.2 h).2⟩⟩

theorem ColMono.col_of_eq {r r' : PRESTOCLIENT_RESULT} (hc : r'.columns = r.columns)
    (ha : r.columninfoavailable = true → r'.columninfoavailable = true) : ColMono r r' :=
  ⟨by rw [hc], fun h => ⟨ha h, by rw [hc]⟩⟩

theorem json_extract_dispatch_col (cb : Callbacks) (r : PRESTOCLIENT_RESULT) :
    ColMono r (json_extract_dispatch cb r) := by
  unfold json_extract_dispatch
  dsimp only
  split_ifs with h1 h2 h3 h4 h5 h6 h7 h8
  · obtain ⟨a, b, _⟩ := extract_data_data cb r
    exact ⟨by rw [a], fun h => ⟨b h, a⟩⟩
  · exact ColMono.col_refl r
  · exact ColMono.col_refl r
  · exact ColMono.col_refl r
  · exact ColMono.col_refl r
  · exact ColMono.col_refl r
  · exact ColMono.col_refl r
  · obtain ⟨a, b, _, _⟩ := extract_column_data r
    refine ⟨a, fun h => ?_⟩
    rw [h8.1] at h
    cases h
  · exact ColMono.col_refl r

theorem queryisrunning_after_get_data (cb : Callbacks) (r : PRESTOCLIENT_RESULT) :
    (queryisrunning_after_get cb r).columns = r.columns ∧
      (r.columninfoavailable = true →
        (queryisrunning_after_get cb r).columninfoavailable = true) ∧
      (queryisrunning_after_get cb r).dataavailable = r.dataavailable ∧
      row_events (queryisrunning_after_get cb r).trace = row_events r.trace := by
  unfold queryisrunning_after_get
  dsimp only
  have hd := fun s => call_describe_data cb s
  split_ifs <;>
    first
    | exact ⟨rfl, fun h => h, rfl, rfl⟩
    | exact ⟨rfl, fun _ => rfl, rfl, rfl⟩
    | exact ⟨(hd _).1, fun h => (hd _).2.1.trans h, (hd _).2.2.1, (hd _).2.2.2.2⟩
    | exact ⟨(hd _).1, fun _ => (hd _).2.1, (hd _).2.2.1, (hd _).2.2.2.2⟩

/-- Every operation of the library keeps `ColMono`. -/
theorem ColMono.col_closed (cb : Callbacks) : DriverClosed cb ColMono where
  sink :=
    { refl := ColMono.col_refl
      trans := fun _ _ _ h1 h2 => h1.col_trans h2
      dispatch := json_extract_dispatch_col cb
      frame := fun r _ _ _ _ => ColMono.col_of_eq rfl (fun h => h) }
  net := fun r _ _ => ColMono.col_of_eq rfl (fun h => h)
  error := fun r _ _ => ColMono.col_of_eq rfl (fun h => h)
  setup := fun t r => by cases t <;> exact ColMono.col_of_eq rfl (fun h => h)
  after_get := fun r =>
    ColMono.col_of_eq (queryisrunning_after_get_data cb r).1
      (queryisrunning_after_get_data cb r).2.1

theorem row_events_net (tr : List Event) (e : Event) (h : is_net_event e = true) :
    row_events (tr ++ [e]) = row_events tr := by
  cases e <;> simp [row_events, is_row_event, is_net_event] at h ⊢

theorem json_extract_dispatch_row (cb : Callbacks) (r : PRESTOCLIENT_RESULT) :
    RowKeep cb r (json_extract_dispatch cb r) := by
  unfold json_extract_dispatch
  dsimp only
  split_ifs with h1 h2 h3 h4 h5 h6 h7 h8
  · exact (extract_data_data cb r).2.2
  · exact fun h => h
  · exact fun h => h
  · exact fun h => h
  · exact fun h => h
  · exact fun h => h
  · exact fun h => h
  · obtain ⟨_, _, c, d⟩ := extract_column_data r
    intro hi hw
    rw [c, d]
    exact hi hw
  · exact fun h => h

/-- Every operation of the library keeps the link between `dataavailable`
and the rows delivered. -/
theorem RowKeep.row_closed (cb : Callbacks) : DriverClosed cb (RowKeep cb) where
  sink :=
    { refl := fun _ h => h
      trans := fun _ _ _ h1 h2 h => h2 (h1 h)
      dispatch := json_extract_dispatch_row cb
      frame := fun r _ _ _ _ h => h }
  net := fun r e he h hw => by
    have := h hw
    show _ ↔ row_events (r.trace ++ [e]) ≠ []
    rw [row_events_net r.trace e he]
    exact this
  error := fun r _ _ h => h
  setup := fun t r h => by cases t <;> exact h
  after_get := fun r h hw => by
    obtain ⟨_, _, c, d⟩ := queryisrunning_after_get_data cb r
    rw [c, d]
    exact h hw

theorem new_prestoresult_row (cb : Callbacks) : RowInv cb new_prestoresult :=
  fun _ => ⟨fun h => (by cases h), fun h => absurd rfl h⟩

theorem driver_steps_inv (cb : Callbacks) (client : PRESTOCLIENT) :
    ∀ (n : Nat) (script : List Response) (r : PRESTOCLIENT_RESULT), DescInv cb r →
      DescInv cb (driver_steps cb client n script r).1 := by
  intro n
  induction n with
  | zero => intro script r h; exact h
  | succ n ih =>
    intro script r h
    have h1 := prestoclient_queryisrunning_inv cb client script r h
    unfold driver_steps
    rcases hq : prestoclient_queryisrunning cb client script r with ⟨r1, s1, b⟩
    rw [hq] at h1
    cases b
    · exact ih s1 r1 h1
    · exact ih s1 _ ((util_sleep_step cb _ r1).inv h1)

theorem query_posted_desc (cb : Callbacks) (client : PRESTOCLIENT) (script : List Response) :
    DescInv cb (query_posted cb client script).1 :=
  (openuri_step cb PRESTOCLIENT_HTTP_REQUEST_TYPE_POST client script new_prestoresult).inv
    (new_prestoresult_inv cb)

/-- C21 (the column count). `ColMono r r'` says that the column count of `r'`
is not below that of `r`, and that it is the same, with the column info still
available, when the column info is available in `r`. It holds from before to
after every token the lexer handles, every chunk the byte sink takes and every
driver step, and from the state after `n` driver steps of a query to the state
after `n + k`; so the column count never decreases. When a row has been
delivered in one of these states the column info is available there, so the
column count is the same in every later state; and every row of the trace of
a finished query was delivered with as many cells as the result has columns
when the query ends. -/
theorem columns_frozen (cb : Callbacks) (client : PRESTOCLIENT) (script : List Response) :
    (∀ (tok : Token) (r : PRESTOCLIENT_RESULT), ColMono r (lex_token cb tok r)) ∧
      (∀ (chunk : Bytes) (r : PRESTOCLIENT_RESULT), ColMono r (WriteCallback cb chunk r).1) ∧
      (∀ (s : List Response) (r : PRESTOCLIENT_RESULT),
        ColMono r (prestoclient_queryisrunning cb client s r).1) ∧
      ColMono new_prestoresult (query_posted cb client script).1 ∧
      (∀ n k,
        ColMono
          (driver_steps cb client n (query_posted cb client script).2
            (query_posted cb client script).1).1
          (driver_steps cb client (n + k) (query_posted cb client script).2
            (query_posted cb client script).1).1) ∧
      (∀ n k cells cur,
        Event.row cells cur ∈
          (driver_steps cb client n (query_posted cb client script).2
            (query_posted cb client script).1).1.trace →
        cells.length =
          (driver_steps cb client n (query_posted cb client script).2
            (query_posted cb client script).1).1.columns.length ∧
        (driver_steps cb client (n + k) (query_posted cb client script).2
            (query_posted cb client script).1).1.columns.length =
          (driver_steps cb client n (query_posted cb client script).2
            (query_posted cb client script).1).1.columns.length) ∧
      (∀ cells cur, Event.row cells cur ∈ (prestoclient_query_run cb client script).trace →
        cells.length = (prestoclient_query_run cb client script).columns.length) := by
  have hcl := ColMono.col_closed cb
  have hsteps : ∀ n k,
      ColMono
        (driver_steps cb client n (query_posted cb client script).2
          (query_posted cb client script).1).1
        (driver_steps cb client (n + k) (query_posted cb client script).2
          (query_posted cb client script).1).1 := by
    intro n k
    rw [driver_steps_add]
    exact hcl.lift_steps client k _ _
  refine ⟨fun tok r => hcl.sink.lift_lex_token tok r, fun chunk r => hcl.sink.lift_sink chunk r,
    fun s r => hcl.lift_step client s r, hcl.lift_openuri _ client script _, hsteps, ?_, ?_⟩
  · intro n k cells cur hm
    have hinv := driver_steps_inv cb client n (query_posted cb client script).2 _
      (query_posted_desc cb client script)
    obtain ⟨a, b, _⟩ := hinv.rows cells cur hm
    exact ⟨b, ((hsteps n k).2 a).2⟩
  · intro cells cur hm
    exact ((prestoclient_query_run_inv cb client script).rows cells cur hm).2.1

/-! ## The polling sleeps -/

theorem NetGrow.net_of_eq {r r' : PRESTOCLIENT_RESULT}
    (h : net_events r'.trace = net_events r.trace) : NetGrow r r' :=
  ⟨[], by rw [h]; simp⟩

/-- Every operation of the library only adds to the requests and sleeps recorded. -/
theorem NetGrow.net_closed (cb : Callbacks) : DriverClosed cb NetGrow where
  sink :=
    { refl := fun _ => ⟨[], by simp⟩
      trans := fun _ _ _ h1 h2 => by
        obtain ⟨m1, e1⟩ := h1
        obtain ⟨m2, e2⟩ := h2
        exact ⟨m1 ++ m2, by rw [e2, e1]; simp⟩
      dispatch := fun r => NetGrow.net_of_eq (json_extract_dispatch_step cb r).net
      frame := fun r _ _ _ _ => ⟨[], by simp⟩ }
  net := fun r e he => ⟨[e], by
    show net_events (r.trace ++ [e]) = _
    rw [net_events_append]
    simp [net_events, he]⟩
  error := fun r _ _ => ⟨[], by simp⟩
  setup := fun t r => by cases t <;> exact ⟨[], by simp [openuri_setup]⟩
  after_get := fun r => NetGrow.net_of_eq (queryisrunning_after_get_net cb r)

/-- A driver step on a live result that is not cancelled and has a next URI
starts with the GET to that URI. -/
theorem prestoclient_queryisrunning_get (cb : Callbacks) (client : PRESTOCLIENT)
    (script : List Response) (r : PRESTOCLIENT_RESULT) (hf : r.fault = false)
    (hc : r.cancelquery = false) (u : Bytes) (hu : r.lastnexturi = some u) (hne : u ≠ []) :
    ∃ more, net_events (prestoclient_queryisrunning cb client script r).1.trace =
      net_events r.trace ++ Event.request PRESTOCLIENT_HTTP_REQUEST_TYPE_GET u :: more := by
  have he : str_empty r.lastnexturi = false := by
    rw [hu]
    cases u with
    | nil => exact absurd rfl hne
    | cons b bs => rfl
  obtain ⟨_, more, e1, _, _, _, e5⟩ :=
    openuri_events cb PRESTOCLIENT_HTTP_REQUEST_TYPE_GET client script r
  obtain ⟨more', e6⟩ := e5 hf (by
    intro hh
    have := hh.2
    simp [openuri_in_uri, hu] at this)
  have hurl : openuri_url PRESTOCLIENT_HTTP_REQUEST_TYPE_GET client r = u := by
    simp [openuri_url, openuri_in_uri, hu]
  rw [e6, hurl] at e1
  unfold prestoclient_queryisrunning
  rw [if_neg (by rw [hf]; decide), if_neg (by rw [hc]; decide), if_neg (by rw [he]; decide)]
  rcases ho : openuri cb PRESTOCLIENT_HTTP_REQUEST_TYPE_GET client script r with ⟨r1, s1⟩
  rw [ho] at e1
  dsimp only at e1 ⊢
  split_ifs
  · exact ⟨more', e1⟩
  · exact ⟨more', by rw [queryisrunning_after_get_net]; exact e1⟩
  · exact ⟨more', by rw [queryisrunning_after_get_net]; exact e1⟩
  · exact ⟨more', e1⟩

/-- The loop of `prestoclient_waituntilfinished` on a live result that is not
cancelled and has a next URI starts with the GET to that URI: no sleep comes
first. -/
theorem waituntilfinished_loop_get (cb : Callbacks) (client : PRESTOCLIENT) (fuel : Nat)
    (script : List Response) (r : PRESTOCLIENT_RESULT) (hf : r.fault = false)
    (hc : r.cancelquery = false) (u : Bytes) (hu : r.lastnexturi = some u) (hne : u ≠ []) :
    ∃ more, net_events (waituntilfinished_loop cb client (fuel + 1) script r).1.trace =
      net_events r.trace ++ Event.request PRESTOCLIENT_HTTP_REQUEST_TYPE_GET u :: more := by
  obtain ⟨m1, e1⟩ := prestoclient_queryisrunning_get cb client script r hf hc u hu hne
  unfold waituntilfinished_loop
  rcases hq : prestoclient_queryisrunning cb client script r with ⟨r1, s1, b⟩
  rw [hq] at e1
  dsimp only at e1
  cases b
  · exact ⟨m1, e1⟩
  · dsimp only
    obtain ⟨m2, e2⟩ := (NetGrow.net_closed cb).sink.trans _ _ _
      ((NetGrow.net_closed cb).lift_sleep
        (if r1.dataavailable then PRESTOCLIENT_RETRIEVEWAITTIMEMSEC
          else PRESTOCLIENT_UPDATEWAITTIMEMSEC) r1)
      ((NetGrow.net_closed cb).lift_wait_loop client fuel s1 _)
    exact ⟨m1 ++ m2, by rw [e2, e1]; simp⟩

/-- A driver step that returns true leaves a live result with a next URI. -/
theorem prestoclient_queryisrunning_true (cb : Callbacks) (client : PRESTOCLIENT)
    (script : List Response) (r : PRESTOCLIENT_RESULT)
    (h : (prestoclient_queryisrunning cb client script r).2.2 = true) :
    (prestoclient_queryisrunning cb client script r).1.fault = false ∧
      str_empty (prestoclient_queryisrunning cb client script r).1.lastnexturi = false := by
  unfold prestoclient_queryisrunning at h ⊢
  by_cases h1 : r.fault = true
  · rw [if_pos h1] at h; cases h
  rw [if_neg h1] at h ⊢
  by_cases h2 : r.cancelquery = true
  · rw [if_pos h2] at h
    rcases cancel cb client script r with ⟨r1, s1⟩
    cases h
  rw [if_neg h2] at h ⊢
  by_cases h3 : str_empty r.lastnexturi = true
  · rw [if_pos h3] at h; cases h
  rw [if_neg h3] at h ⊢
  rcases ho : openuri cb PRESTOCLIENT_HTTP_REQUEST_TYPE_GET client script r with ⟨r1, s1⟩
  rw [ho] at h
  dsimp only at h ⊢
  split_ifs at h ⊢ with h4 h5 h6
  refine ⟨?_, by simpa using h6⟩
  show (queryisrunning_after_get cb r1).fault = false
  rw [(queryisrunning_after_get_spec cb r1).2.2.2.1]
  simpa using h4

/-- C26 (polling interval), evaluated at failing inputs. `util_sleep` is asked
for the polling interval in milliseconds and sleeps the whole seconds in it:
asked for 50 ms it sleeps 0 seconds, asked for 1500 ms it sleeps 1 second. In
a query with three follow-up requests (`poll_script`) the second GET is
preceded by a sleep of 1 second, not 1500 ms, and the third, which follows the
delivery of a row, by a sleep of 0 seconds, not 50 ms. The first GET comes
right after the POST, without any sleep; in scenario S2 the only follow-up GET
does, and the requests and sleeps of the trace are the POST and the GET. -/
theorem polling_sleep_seconds :
    ((util_sleep PRESTOCLIENT_RETRIEVEWAITTIMEMSEC new_prestoresult).trace = [Event.sleep 0] ∧
        (util_sleep PRESTOCLIENT_UPDATEWAITTIMEMSEC new_prestoresult).trace = [Event.sleep 1]) ∧
    (prestoclient_query example_callbacks (some example_client) (some example_sql)
        poll_script).map (fun r => net_events r.trace) =
      some [Event.request PRESTOCLIENT_HTTP_REQUEST_TYPE_POST (ascii "http://h:8080/v1/statement"),
        Event.request PRESTOCLIENT_HTTP_REQUEST_TYPE_GET (ascii "http://h/n/1"),
        Event.sleep 1,
        Event.request PRESTOCLIENT_HTTP_REQUEST_TYPE_GET (ascii "http://h/n/2"),
        Event.sleep 0,
        Event.request PRESTOCLIENT_HTTP_REQUEST_TYPE_GET (ascii "http://h/n/1")] ∧
    (prestoclient_query example_callbacks (some example_client) (some example_sql)
        s2_script).map (fun r => net_events r.trace) =
      some [Event.request PRESTOCLIENT_HTTP_REQUEST_TYPE_POST (ascii "http://h:8080/v1/statement"),
        Event.request PRESTOCLIENT_HTTP_REQUEST_TYPE_GET (ascii "http://h/n/1")] := by
  refine ⟨⟨?_, ?_⟩, ?_, ?_⟩ <;> decide!

/-- The polling loop of `prestoclient_waituntilfinished` on a live result `r`
that is not cancelled and has the next URI `u`, such as the result of a POST.
(1) The first thing it adds to the requests and sleeps of the trace is the GET
to `u`: the first follow-up GET is not preceded by a sleep. (2) When a driver
step has returned true, the result is live and has a next URI, and the loop
calls `util_sleep` once with the polling interval before it makes the next
driver step; unless cancellation has been requested, that step starts with
the GET to the next URI, so this GET is immediately preceded by the sleep,
which lasts the whole seconds in the polling interval. (3) The polling
interval is 50 ms when `dataavailable` is set and 1500 ms otherwise; with a
row callback registered, and `dataavailable` set in `r` exactly when a row has
been delivered (which holds from the start of a query on), it is 50 ms exactly
when at least one row has been delivered so far. -/
theorem polling_sleep (cb : Callbacks) (client : PRESTOCLIENT) (script : List Response)
    (r : PRESTOCLIENT_RESULT) (hf : r.fault = false) (hc : r.cancelquery = false) (u : Bytes)
    (hu : r.lastnexturi = some u) (hne : u ≠ []) (hrow : RowInv cb r) :
    (∀ fuel, ∃ more, net_events (waituntilfinished_loop cb client (fuel + 1) script r).1.trace =
        net_events r.trace ++ Event.request PRESTOCLIENT_HTTP_REQUEST_TYPE_GET u :: more) ∧
      ((prestoclient_queryisrunning cb client script r).2.2 = true →
        (prestoclient_queryisrunning cb client script r).1.fault = false ∧
        str_empty (prestoclient_queryisrunning cb client script r).1.lastnexturi = false ∧
        (∀ fuel, waituntilfinished_loop cb client (fuel + 1) script r =
          waituntilfinished_loop cb client fuel (prestoclient_queryisrunning cb client script r).2.1
            (util_sleep (poll_interval (prestoclient_queryisrunning cb client script r).1)
              (prestoclient_queryisrunning cb client script r).1)) ∧
        ((prestoclient_queryisrunning cb client script r).1.cancelquery = false →
          ∀ fuel, ∃ more,
            net_events (waituntilfinished_loop cb client (fuel + 2) script r).1.trace =
              net_events (prestoclient_queryisrunning cb client script r).1.trace ++
                Event.sleep
                  (poll_interval (prestoclient_queryisrunning cb client script r).1 / 1000) ::
                Event.request PRESTOCLIENT_HTTP_REQUEST_TYPE_GET
                  ((prestoclient_queryisrunning cb client script r).1.lastnexturi.getD []) ::
                more)) ∧
      poll_interval (prestoclient_queryisrunning cb client script r).1 =
        (if (prestoclient_queryisrunning cb client script r).1.dataavailable = true then 50
          else 1500) ∧
      (cb.write_callback_function.isSome = true →
        (poll_interval (prestoclient_queryisrunning cb client script r).1 = 50 ↔
          row_events (prestoclient_queryisrunning cb client script r).1.trace ≠ []) ∧
        (poll_interval (prestoclient_queryisrunning cb client script r).1 = 1500 ↔
          row_events (prestoclient_queryisrunning cb client script r).1.trace = [])) := by
  have hpi : ∀ s : PRESTOCLIENT_RESULT,
      poll_interval s = (if s.dataavailable = true then 50 else 1500) := by
    intro s
    unfold poll_interval
    split_ifs <;> rfl
  refine ⟨fun fuel => waituntilfinished_loop_get cb client fuel script r hf hc u hu hne, ?_,
    hpi _, ?_⟩
  · intro ht
    obtain ⟨a1, a2⟩ := prestoclient_queryisrunning_true cb client script r ht
    have hloop : ∀ fuel, waituntilfinished_loop cb client (fuel + 1) script r =
        waituntilfinished_loop cb client fuel (prestoclient_queryisrunning cb client script r).2.1
          (util_sleep (poll_interval (prestoclient_queryisrunning cb client script r).1)
            (prestoclient_queryisrunning cb client script r).1) := by
      intro fuel
      conv_lhs => unfold waituntilfinished_loop
      rcases hq : prestoclient_queryisrunning cb client script r with ⟨r1, s1, b⟩
      rw [hq] at ht
      dsimp only at ht
      subst ht
      rfl
    refine ⟨a1, a2, hloop, ?_⟩
    intro hcc fuel
    rw [hloop (fuel + 1)]
    generalize (prestoclient_queryisrunning cb client script r).1 = r1 at *
    generalize (prestoclient_queryisrunning cb client script r).2.1 = s1 at *
    cases hn : r1.lastnexturi with
    | none => rw [hn] at a2; cases a2
    | some u1 =>
      have hne1 : u1 ≠ [] := by
        intro hh
        rw [hn, hh] at a2
        cases a2
      obtain ⟨more, e⟩ := waituntilfinished_loop_get cb client fuel s1
        (util_sleep (poll_interval r1) r1) a1 hcc u1 hn hne1
      refine ⟨more, ?_⟩
      rw [e]
      show net_events (r1.trace ++ [Event.sleep (poll_interval r1 / 1000)]) ++ _ = _
      rw [net_events_append]
      simp [net_events, is_net_event]
  · intro hw
    have hinv : RowInv cb (prestoclient_queryisrunning cb client script r).1 :=
      (RowKeep.row_closed cb).lift_step client script r hrow
    have hd := hinv hw
    rw [hpi]
    generalize (prestoclient_queryisrunning cb client script r).1 = r1 at *
    constructor
    · rw [← hd]
      split_ifs with h1
      · simp [h1]
      · simp [h1]
    · have : row_events r1.trace = [] ↔ ¬ r1.dataavailable = true := by
        rw [hd]
        simp
      rw [this]
      split_ifs with h1
      · simp [h1]
      · simp [h1]

/-! ## Members without a branch of the projector -/

theorem call_describe_uris (cb : Callbacks) (r : PRESTOCLIENT_RESULT) :
    (call_describe cb r).lastinfouri = r.lastinfouri ∧
      (call_describe cb r).lastcanceluri = r.lastcanceluri ∧
      (call_describe cb r).laststate = r.laststate := by
  unfold call_describe
  split <;> exact ⟨rfl, rfl, rfl⟩

theorem call_write_uris (cb : Callbacks) (r : PRESTOCLIENT_RESULT) :
    (call_write cb r).lastinfouri = r.lastinfouri ∧
      (call_write cb r).lastcanceluri = r.lastcanceluri ∧
      (call_write cb r).laststate = r.laststate := by
  unfold call_write
  split <;> exact ⟨rfl, rfl, rfl⟩

theorem extract_data_uris (cb : Callbacks) (r : PRESTOCLIENT_RESULT) :
    (extract_data cb r).lastinfouri = r.lastinfouri ∧
      (extract_data cb r).lastcanceluri = r.lastcanceluri ∧
      (extract_data cb r).laststate = r.laststate := by
  have hh : (extract_data_header cb r).lastinfouri = r.lastinfouri ∧
      (extract_data_header cb r).lastcanceluri = r.lastcanceluri ∧
      (extract_data_header cb r).laststate = r.laststate := by
    unfold extract_data_header
    dsimp only
    split_ifs
    · exact call_describe_uris cb _
    · exact ⟨rfl, rfl, rfl⟩
    · exact ⟨rfl, rfl, rfl⟩
  unfold extract_data
  generalize extract_data_header cb r = r1 at *
  dsimp only
  split_ifs
  · exact hh
  · split
    · exact hh
    · split_ifs
      · obtain ⟨a, b, c⟩ := call_write_uris cb
          { r1 with
            currentdatacolumn := -1
            dataavailable := true
            columns := r1.columns.set (r1.currentdatacolumn + 1).toNat
              (extract_data_field ‹_› r1.json.tagtype r1.lexer.value) }
        exact ⟨a.trans hh.1, b.trans hh.2.1, c.trans hh.2.2⟩
      · exact hh

/-- The column branch of the projector leaves the cells of the columns alone:
it appends a column or changes the type of the last one. -/
theorem extract_column_cells (r : PRESTOCLIENT_RESULT) :
    row_view r <+: row_view (extract_column r) ∧
      (extract_column r).currentdatacolumn = r.currentdatacolumn ∧
      (extract_column r).laststate = r.laststate := by
  unfold extract_column
  split_ifs with h1 h2
  · refine ⟨?_, rfl, rfl⟩
    simp [row_view]
  · split
    · exact ⟨List.prefix_refl _, rfl, rfl⟩
    · rename_i f hl
      refine ⟨?_, rfl, rfl⟩
      have hcols : r.columns = r.columns.dropLast ++ [f] := by
        have hne : r.columns ≠ [] := by
          intro hh; rw [hh] at hl; simp at hl
        rw [List.getLast?_eq_getLast _ hne] at hl
        injection hl with hl
        rw [← hl]
        exact (List.dropLast_append_getLast hne).symm
      have : row_view r = row_view { r with
          columns := r.columns.dropLast ++ [{ f with type := presto_type_of r.lexer.value }] } := by
        unfold row_view
        dsimp only
        conv_lhs => rw [hcols]
        simp
      rw [← this]
  · exact ⟨List.prefix_refl _, rfl, rfl⟩

/-- The if-chain of the projector leaves the result as it is when none of its
branch conditions holds. -/
theorem json_extract_dispatch_unmatched (cb : Callbacks) (r : PRESTOCLIENT_RESULT)
    (h : ¬ projector_branch r) : json_extract_dispatch cb r = r := by
  unfold projector_branch at h
  unfold json_extract_dispatch
  dsimp only
  split_ifs with h1 h2 h3 h4 h5 h6 h7 h8
  · exact absurd (Or.inl h1) h
  · exact absurd (Or.inr (Or.inl h2)) h
  · exact absurd (Or.inr (Or.inr (Or.inl h3))) h
  · exact absurd (Or.inr (Or.inr (Or.inr (Or.inl h4)))) h
  · exact absurd (Or.inr (Or.inr (Or.inr (Or.inr (Or.inl h5))))) h
  · exact absurd (Or.inr (Or.inr (Or.inr (Or.inr (Or.inr
      (Or.inl ⟨h6.1, h6.2.1, h6.2.2.1, Or.inl h6.2.2.2⟩)))))) h
  · exact absurd (Or.inr (Or.inr (Or.inr (Or.inr (Or.inr
      (Or.inl ⟨h7.1, h7.2.1, h7.2.2.1, Or.inr h7.2.2.2⟩)))))) h
  · unfold extract_column
    split_ifs with c1 c2
    · exact absurd (Or.inr (Or.inr (Or.inr (Or.inr (Or.inr
        (Or.inr ⟨h8.1, h8.2.1, h8.2.2, Or.inl c1⟩)))))) h
    · exact absurd (Or.inr (Or.inr (Or.inr (Or.inr (Or.inr
        (Or.inr ⟨h8.1, h8.2.1, h8.2.2, Or.inr c2⟩)))))) h
    · rfl
  · rfl

/-- What the if-chain of the projector does to the last server state, the
cells and the cell cursor outside the branches that are there for them. -/
theorem json_extract_dispatch_only (cb : Callbacks) (r : PRESTOCLIENT_RESULT) :
    (¬ (r.lexer.tagorder.length > 1 ∧ tagordername_back r.lexer 1 = ascii "stats" ∧
          r.lexer.name = ascii "state") →
        (json_extract_dispatch cb r).laststate = r.laststate) ∧
      (¬ (r.lexer.tagorder.length > 2 ∧ tagordername_back r.lexer 2 = ascii "data") →
        row_view r <+: row_view (json_extract_dispatch cb r) ∧
        (json_extract_dispatch cb r).currentdatacolumn = r.currentdatacolumn ∧
        row_events (json_extract_dispatch cb r).trace = row_events r.trace) := by
  unfold json_extract_dispatch
  dsimp only
  split_ifs with h1 h2 h3 h4 h5 h6 h7 h8
  · exact ⟨fun _ => (extract_data_uris cb r).2.2, fun hn => absurd h1 hn⟩
  · exact ⟨fun _ => rfl, fun _ => ⟨List.prefix_refl _, rfl, rfl⟩⟩
  · exact ⟨fun _ => rfl, fun _ => ⟨List.prefix_refl _, rfl, rfl⟩⟩
  · exact ⟨fun _ => rfl, fun _ => ⟨List.prefix_refl _, rfl, rfl⟩⟩
  · exact ⟨fun hn => absurd h5 hn, fun _ => ⟨List.prefix_refl _, rfl, rfl⟩⟩
  · exact ⟨fun _ => rfl, fun _ => ⟨List.prefix_refl _, rfl, rfl⟩⟩
  · exact ⟨fun _ => rfl, fun _ => ⟨List.prefix_refl _, rfl, rfl⟩⟩
  · obtain ⟨a, b, c⟩ := extract_column_cells r
    exact ⟨fun _ => c, fun _ => ⟨a, b, by rw [(extract_column_data r).2.2.2]⟩⟩
  · exact ⟨fun _ => rfl, fun _ => ⟨List.prefix_refl _, rfl, rfl⟩⟩

theorem lexer_value_only (cb : Callbacks) (r : PRESTOCLIENT_RESULT) (u : Option Bytes) :
    (¬ projector_branch r →
        projected_state (lexer_value cb r u) = projected_state r ∧
        (lexer_value cb r u).trace = r.trace ∧ (lexer_value cb r u).fault = r.fault) ∧
      (¬ (r.lexer.tagorder.length > 1 ∧ tagordername_back r.lexer 1 = ascii "stats" ∧
          r.lexer.name = ascii "state") →
        (lexer_value cb r u).laststate = r.laststate) ∧
      (¬ (r.lexer.tagorder.length > 2 ∧ tagordername_back r.lexer 2 = ascii "data") →
        row_view r <+: row_view (lexer_value cb r u) ∧
        (lexer_value cb r u).currentdatacolumn = r.currentdatacolumn ∧
        row_events (lexer_value cb r u).trace = row_events r.trace) := by
  unfold lexer_value json_extract_variables
  dsimp only
  refine ⟨?_, ?_, ?_⟩
  · intro h
    have h' : ¬ projector_branch
        { r with
          lexer := { r.lexer with value := u.getD r.json.tagbuffer }
          json := { r.json with tagbuffer := [] } } := h
    rw [json_extract_dispatch_unmatched cb _ h']
    exact ⟨rfl, rfl, rfl⟩
  · intro h
    exact (json_extract_dispatch_only cb
      { r with
        lexer := { r.lexer with value := u.getD r.json.tagbuffer }
        json := { r.json with tagbuffer := [] } }).1 h
  · intro h
    exact (json_extract_dispatch_only cb
      { r with
        lexer := { r.lexer with value := u.getD r.json.tagbuffer }
        json := { r.json with tagbuffer := [] } }).2 h

theorem json_lexer_switch_only (cb : Callbacks) (r : PRESTOCLIENT_RESULT) :
    (¬ projector_branch r →
        projected_state (json_lexer_switch cb r) = projected_state r ∧
        (json_lexer_switch cb r).trace = r.trace ∧ (json_lexer_switch cb r).fault = r.fault) ∧
      (¬ (r.lexer.tagorder.length > 1 ∧ tagordername_back r.lexer 1 = ascii "stats" ∧
          r.lexer.name = ascii "state") →
        (json_lexer_switch cb r).laststate = r.laststate) ∧
      (¬ (r.lexer.tagorder.length > 2 ∧ tagordername_back r.lexer 2 = ascii "data") →
        row_view r <+: row_view (json_lexer_switch cb r) ∧
        (json_lexer_switch cb r).currentdatacolumn = r.currentdatacolumn ∧
        row_events (json_lexer_switch cb r).trace = row_events r.trace) := by
  have hsame : ∀ s : PRESTOCLIENT_RESULT, projected_state s = projected_state r →
      s.trace = r.trace → s.fault = r.fault →
      (¬ projector_branch r →
        projected_state s = projected_state r ∧ s.trace = r.trace ∧ s.fault = r.fault) ∧
      (¬ (r.lexer.tagorder.length > 1 ∧ tagordername_back r.lexer 1 = ascii "stats" ∧
          r.lexer.name = ascii "state") → s.laststate = r.laststate) ∧
      (¬ (r.lexer.tagorder.length > 2 ∧ tagordername_back r.lexer 2 = ascii "data") →
        row_view r <+: row_view s ∧ s.currentdatacolumn = r.currentdatacolumn ∧
        row_events s.trace = row_events r.trace) := by
    intro s h1 h2 h3
    have hc : s.columns = r.columns := congrArg (fun p => p.1) h1
    have hcur : s.currentdatacolumn = r.currentdatacolumn := congrArg (fun p => p.2.1) h1
    have hst : s.laststate = r.laststate := congrArg (fun p => p.2.2.2.2.2.1) h1
    refine ⟨fun _ => ⟨h1, h2, h3⟩, fun _ => hst, fun _ => ⟨?_, hcur, by rw [h2]⟩⟩
    unfold row_view
    rw [hc]
  unfold json_lexer_switch
  split
  · exact hsame _ rfl rfl rfl
  · exact hsame _ rfl rfl rfl
  · exact hsame _ rfl rfl rfl
  · exact hsame _ rfl rfl rfl
  · exact hsame _ rfl rfl rfl
  · exact hsame _ rfl rfl rfl
  · exact hsame _ rfl rfl rfl
  · split_ifs
    · exact lexer_value_only cb r _
    · exact hsame _ rfl rfl rfl
  · exact lexer_value_only cb r _
  · exact lexer_value_only cb r _
  · exact lexer_value_only cb r _
  · exact lexer_value_only cb r _

/-- C25, counterexample. In the reply `{"x":{"stats":{"state":"Z"}}}` the
member `state` lies in a member `stats` of the unknown member `x`, not of the
root object, and the byte sink stores "Z" as the last server state. In a reply
with one column and the member `"x":{"data":[["v"]]}` the value `v` lies in a
`data` array of the unknown member `x`, and it is written to the cell of the
column and delivered as a row. -/
theorem nested_lookalikes_projected :
    (WriteCallback example_callbacks nested_stats_body new_prestoresult).1.laststate =
        some (ascii "Z") ∧
      (WriteCallback example_callbacks nested_stats_body new_prestoresult).2 =
        nested_stats_body.length ∧
      row_view (WriteCallback example_callbacks nested_data_body new_prestoresult).1 =
        [(ascii "v", false)] ∧
      row_events (WriteCallback example_callbacks nested_data_body new_prestoresult).1.trace =
        [Event.row [(ascii "v", false)] (-1)] := by
  refine ⟨?_, ?_, ?_, ?_⟩ <;> decide!

/-- C25, as amended (unknown members are ignored). The lexer handles a token
`tok` on the result `r`. (1) When none of the branch conditions of the
projector holds for the container stack, the name and the column flag of `r`,
the result state is unchanged: column vector with its cells, cell cursor,
info, next and cancel URI, last server state and accumulated server error are
as before, no callback is invoked and no fault arises. (2) The last server
state changes only when the innermost open container is named `stats`, at
whatever depth it lies, and the current name is `state`. (3) Cells are written,
the cell cursor moves and a row is delivered only when the container around
the innermost open container is named `data` and lies below at least one more
container, at whatever depth: otherwise the cells of the columns at hand are as
before, the cursor is the same and no row callback is invoked. -/
theorem unknown_members_ignored (cb : Callbacks) (tok : Token) (r : PRESTOCLIENT_RESULT) :
    (¬ projector_branch r →
        projected_state (lex_token cb tok r) = projected_state r ∧
        (lex_token cb tok r).trace = r.trace ∧ (lex_token cb tok r).fault = r.fault) ∧
      (¬ (r.lexer.tagorder.length > 1 ∧ tagordername_back r.lexer 1 = ascii "stats" ∧
          r.lexer.name = ascii "state") →
        (lex_token cb tok r).laststate = r.laststate) ∧
      (¬ (r.lexer.tagorder.length > 2 ∧ tagordername_back r.lexer 2 = ascii "data") →
        row_view r <+: row_view (lex_token cb tok r) ∧
        (lex_token cb tok r).currentdatacolumn = r.currentdatacolumn ∧
        row_events (lex_token cb tok r).trace = row_events r.trace) := by
  have h := json_lexer_switch_only cb
    { r with json := { r.json with tagtype := tok.1, tagbuffer := tok.2 } }
  unfold lex_token json_lexer
  exact h

/-! ## The tokenizer: strings -/

theorem is_char_spec (c : Bytes) (h : is_char c = true) :
    ∃ x xs, c = x :: xs ∧ c.length = json_clength x ∧ x ≠ 0 ∧ ∀ b ∈ c, b ≠ 0 := by
  unfold is_char at h
  simp only [Bool.and_eq_true, bne_iff_ne, ne_eq, beq_iff_eq, List.all_eq_true] at h
  obtain ⟨⟨h1, h2⟩, h3⟩ := h
  cases c with
  | nil => exact absurd rfl h1
  | cons x xs =>
    refine ⟨x, xs, rfl, by simpa using h2, ?_, fun b hb => h3 b hb⟩
    exact h3 x (by simp)

theorem chars_bytes_append (xs ys : List Bytes) :
    chars_bytes (xs ++ ys) = chars_bytes xs ++ chars_bytes ys := by
  induction xs with
  | nil => rfl
  | cons c rest ih => simp [chars_bytes, ih]

theorem chars_bytes_length (cs : List Bytes) (h : ∀ c ∈ cs, is_char c = true) :
    cs.length ≤ (chars_bytes cs).length := by
  induction cs with
  | nil => simp [chars_bytes]
  | cons c rest ih =>
    obtain ⟨x, xs, hc, _⟩ := is_char_spec c (h c (by simp))
    have := ih (fun d hd => h d (by simp [hd]))
    subst hc
    simp [chars_bytes]
    omega

/-- The tokenizer's `json_getnextchar` on a buffer that holds the character
`c` at the read position. -/
theorem json_getnextchar_char (a c b : Bytes) (j : JSONPARSER) (hc : is_char c = true)
    (hs : j.skipnextread = false) (hr : j.readposition = a.length) :
    json_getnextchar (a ++ c ++ b) j =
      ({ j with clength := c.length, c := c, readposition := a.length + c.length,
                control := char_control c }, true) := by
  obtain ⟨x, xs, hcx, hlen, hx0, _⟩ := is_char_spec c hc
  have hget : (a ++ c ++ b).getD a.length 0 = x := by
    subst hcx
    rw [List.getD_eq_getElem?_getD, List.append_assoc, List.getElem?_append_right (le_refl _)]
    simp
  have hdrop : ((a ++ c ++ b).drop a.length).take c.length = c := by
    simp [List.append_assoc, List.drop_append_of_le_length, List.take_append_of_le_length]
  have hcl : json_clength x = c.length := hlen.symm
  unfold json_getnextchar
  rw [hs, hr]
  simp only [Bool.false_eq_true, if_false]
  rw [hget]
  have hguard : ¬ ((a ++ c ++ b).length = 0 ∨ a.length > (a ++ c ++ b).length - 1 ∨ x = 0) := by
    subst hcx
    simp only [List.length_append, List.length_cons]
    intro h
    rcases h with h | h | h
    · omega
    · omega
    · exact hx0 h
  rw [if_neg hguard]
  rw [hcl]
  have hfit : ¬ (a.length + c.length > (a ++ c ++ b).length) := by
    simp only [List.length_append]
    omega
  rw [if_neg hfit, hdrop]
  rfl

/-- At the end of the buffer `json_getnextchar` returns false and changes nothing. -/
theorem json_getnextchar_end (buf : Bytes) (j : JSONPARSER) (hs : j.skipnextread = false)
    (hr : j.readposition = buf.length) : json_getnextchar buf j = (j, false) := by
  unfold json_getnextchar
  rw [hs, hr]
  simp only [Bool.false_eq_true, if_false]
  rw [if_pos]
  by_cases h : buf.length = 0
  · exact Or.inl h
  · exact Or.inr (Or.inl (by omega))

theorem json_addtotag_char (j : JSONPARSER) (c : Bytes) (hc : is_char c = true)
    (h1 : j.c = c) (h2 : j.clength = c.length) :
    json_addtotag j = { j with tagbuffer := j.tagbuffer ++ c } := by
  obtain ⟨_, _, _, _, _, h0⟩ := is_char_spec c hc
  unfold json_addtotag
  rw [h1, h2, List.take_length]
  have : c.takeWhile (fun b => b != 0) = c := by
    rw [List.takeWhile_eq_self_iff]
    intro b hb
    simpa using h0 b hb
  rw [this]

theorem is_char_quote : is_char [34] = true := by decide

/-- The tokenizer loop inside a string: it takes the characters up to the
closing quote into the tag buffer as they are and returns the STRING token. -/
theorem json_parser_loop_string (post : Bytes) :
    ∀ (body : List Bytes) (a : Bytes) (j : JSONPARSER) (fuel : Nat),
      (∀ c ∈ body, is_char c = true) → string_content j.isbackslash body = true →
      j.state = JSON_RS_READ_STRING → j.skipnextread = false → j.error = false →
      j.readposition = a.length → body.length < fuel →
      json_parser_loop (a ++ chars_bytes body ++ [34] ++ post) fuel j =
        ({ state := JSON_RS_SEARCH_OBJECT
           isbackslash := false
           readposition := a.length + (chars_bytes body).length + 1
           skipnextread := false
           error := false
           c := [34]
           control := JSON_CC_QT
           clength := 1
           tagbuffer := j.tagbuffer ++ chars_bytes body
           tagtype := JSON_TT_STRING }, true) := by
  intro body
  induction body with
  | nil =>
    intro a j fuel _ hsc hst hsk herr hrp hfuel
    obtain ⟨n, rfl⟩ : ∃ n, fuel = n + 1 := ⟨fuel - 1, by simp at hfuel; omega⟩
    have hesc : j.isbackslash = false := by
      cases hb : j.isbackslash
      · rfl
      · rw [hb] at hsc; simp [string_content] at hsc
    have hg := json_getnextchar_char a [34] post j is_char_quote hsk hrp
    have hbuf : a ++ chars_bytes [] ++ [34] ++ post = a ++ [34] ++ post := by
      simp [chars_bytes]
    rw [hbuf]
    unfold json_parser_loop
    rw [herr]
    simp only [Bool.false_eq_true, if_false]
    rw [hg]
    simp only
    unfold json_parser_step
    simp only [hst, hesc, Bool.false_eq_true, if_false]
    have hctl : char_control [34] = JSON_CC_QT := by decide
    rw [hctl]
    simp only [reduceCtorEq, if_false, if_true]
    simp [chars_bytes, herr, hsk]
  | cons c rest ih =>
    intro a j fuel hchars hsc hst hsk herr hrp hfuel
    obtain ⟨n, rfl⟩ : ∃ n, fuel = n + 1 := ⟨fuel - 1, by simp at hfuel; omega⟩
    have hc : is_char c = true := hchars c (by simp)
    have hrest : ∀ d ∈ rest, is_char d = true := fun d hd => hchars d (by simp [hd])
    have hbuf : a ++ chars_bytes (c :: rest) ++ [34] ++ post =
        a ++ c ++ (chars_bytes rest ++ [34] ++ post) := by
      simp [chars_bytes, List.append_assoc]
    have hbuf' : a ++ chars_bytes (c :: rest) ++ [34] ++ post =
        (a ++ c) ++ chars_bytes rest ++ [34] ++ post := by
      simp [chars_bytes, List.append_assoc]
    have hg := json_getnextchar_char a c (chars_bytes rest ++ [34] ++ post) j hc hsk hrp
    rw [← hbuf] at hg
    unfold json_parser_loop
    rw [herr]
    simp only [Bool.false_eq_true, if_false]
    rw [hg]
    simp only
    have hlen : rest.length < n := by simp at hfuel; omega
    -- the three ways the character is added
    have hfin : ∀ (j2 : JSONPARSER), j2.state = JSON_RS_READ_STRING → j2.skipnextread = false →
        j2.error = false → j2.readposition = (a ++ c).length →
        j2.tagbuffer = j.tagbuffer ++ c → string_content j2.isbackslash rest = true →
        json_parser_loop (a ++ chars_bytes (c :: rest) ++ [34] ++ post) n j2 =
          ({ state := JSON_RS_SEARCH_OBJECT
             isbackslash := false
             readposition := a.length + (chars_bytes (c :: rest)).length + 1
             skipnextread := false
             error := false
             c := [34]
             control := JSON_CC_QT
             clength := 1
             tagbuffer := j.tagbuffer ++ chars_bytes (c :: rest)
             tagtype := JSON_TT_STRING }, true) := by
      intro j2 h1 h2 h3 h4 h5 h6
      rw [hbuf', ih (a ++ c) j2 n hrest h6 h1 h2 h3 h4 hlen, h5]
      simp [chars_bytes, List.append_assoc, Nat.add_assoc]
    unfold json_parser_step
    simp only [hst]
    by_cases hb : j.isbackslash = true
    · simp only [hb, if_true]
      rw [json_addtotag_char _ c hc rfl rfl]
      refine hfin _ rfl hsk herr (by simp) rfl ?_
      rw [hb] at hsc
      simpa [string_content] using hsc
    · have hb' : j.isbackslash = false := by simpa using hb
      rw [hb'] at hsc
      simp only [string_content, Bool.and_eq_true, bne_iff_ne, ne_eq] at hsc
      simp only [hb', Bool.false_eq_true, if_false]
      by_cases hbs : char_control c = JSON_CC_BS
      · simp only [hbs, if_true]
        rw [json_addtotag_char _ c hc rfl rfl]
        refine hfin _ rfl hsk herr (by simp) rfl ?_
        have := hsc.2
        rw [hbs] at this
        simpa using this
      · simp only [hbs, if_false]
        rw [if_neg hsc.1]
        rw [json_addtotag_char _ c hc rfl rfl]
        refine hfin _ rfl hsk herr (by simp) rfl ?_
        have := hsc.2
        have hne : (char_control c == JSON_CC_BS) = false := by simpa using hbs
        rw [hne] at this
        exact this

theorem string_content_append :
    ∀ (b1 b2 : List Bytes) (esc : Bool), string_content esc (b1 ++ b2) = true →
      ∃ e, string_scan esc b1 = some e ∧ string_content e b2 = true := by
  intro b1
  induction b1 with
  | nil => intro b2 esc h; exact ⟨esc, by cases esc <;> rfl, h⟩
  | cons c rest ih =>
    intro b2 esc h
    cases esc
    · simp only [List.cons_append, string_content, Bool.and_eq_true, bne_iff_ne, ne_eq] at h
      obtain ⟨e, h1, h2⟩ := ih b2 _ h.2
      exact ⟨e, by simp only [string_scan]; rw [if_neg h.1]; exact h1, h2⟩
    · simp only [List.cons_append, string_content] at h
      obtain ⟨e, h1, h2⟩ := ih b2 _ h
      exact ⟨e, by simp only [string_scan]; exact h1, h2⟩

/-- The tokenizer loop inside a string, on a buffer that ends before the
closing quote: it takes the characters into the tag buffer and returns false
without a token, still in the STRING state. -/
theorem json_parser_loop_string_end :
    ∀ (body : List Bytes) (a : Bytes) (j : JSONPARSER) (fuel : Nat) (e : Bool),
      (∀ c ∈ body, is_char c = true) → string_scan j.isbackslash body = some e →
      j.state = JSON_RS_READ_STRING → j.skipnextread = false → j.error = false →
      j.readposition = a.length → body.length < fuel →
      (json_parser_loop (a ++ chars_bytes body) fuel j).2 = false ∧
        (json_parser_loop (a ++ chars_bytes body) fuel j).1.state = JSON_RS_READ_STRING ∧
        (json_parser_loop (a ++ chars_bytes body) fuel j).1.skipnextread = false ∧
        (json_parser_loop (a ++ chars_bytes body) fuel j).1.error = false ∧
        (json_parser_loop (a ++ chars_bytes body) fuel j).1.isbackslash = e ∧
        (json_parser_loop (a ++ chars_bytes body) fuel j).1.readposition =
          (a ++ chars_bytes body).length ∧
        (json_parser_loop (a ++ chars_bytes body) fuel j).1.tagbuffer =
          j.tagbuffer ++ chars_bytes body ∧
        (json_parser_loop (a ++ chars_bytes body) fuel j).1.tagtype = j.tagtype := by
  intro body
  induction body with
  | nil =>
    intro a j fuel e _ hsc hst hsk herr hrp hfuel
    obtain ⟨n, rfl⟩ : ∃ n, fuel = n + 1 := ⟨fuel - 1, by simp at hfuel; omega⟩
    have hbuf : a ++ chars_bytes [] = a := by simp [chars_bytes]
    rw [hbuf]
    have hg := json_getnextchar_end a j hsk hrp
    have he : j.isbackslash = e := by
      cases hb : j.isbackslash <;> rw [hb] at hsc <;> simpa [string_scan] using hsc
    unfold json_parser_loop
    rw [if_neg (by rw [herr]; decide), hg]
    dsimp only
    exact ⟨rfl, hst, hsk, herr, he, hrp, by simp [chars_bytes], rfl⟩
  | cons c rest ih =>
    intro a j fuel e hchars hsc hst hsk herr hrp hfuel
    obtain ⟨n, rfl⟩ : ∃ n, fuel = n + 1 := ⟨fuel - 1, by simp at hfuel; omega⟩
    have hc : is_char c = true := hchars c (by simp)
    have hrest : ∀ d ∈ rest, is_char d = true := fun d hd => hchars d (by simp [hd])
    have hbuf : a ++ chars_bytes (c :: rest) = a ++ c ++ chars_bytes rest := by
      simp [chars_bytes, List.append_assoc]
    have hg := json_getnextchar_char a c (chars_bytes rest) j hc hsk hrp
    have hlen : rest.length < n := by simp at hfuel; omega
    have hfin : ∀ (j2 : JSONPARSER), j2.state = JSON_RS_READ_STRING → j2.skipnextread = false →
        j2.error = false → j2.readposition = (a ++ c).length →
        j2.tagbuffer = j.tagbuffer ++ c → j2.tagtype = j.tagtype →
        string_scan j2.isbackslash rest = some e →
        (json_parser_loop (a ++ c ++ chars_bytes rest) n j2).2 = false ∧
        (json_parser_loop (a ++ c ++ chars_bytes rest) n j2).1.state = JSON_RS_READ_STRING ∧
        (json_parser_loop (a ++ c ++ chars_bytes rest) n j2).1.skipnextread = false ∧
        (json_parser_loop (a ++ c ++ chars_bytes rest) n j2).1.error = false ∧
        (json_parser_loop (a ++ c ++ chars_bytes rest) n j2).1.isbackslash = e ∧
        (json_parser_loop (a ++ c ++ chars_bytes rest) n j2).1.readposition =
          (a ++ c ++ chars_bytes rest).length ∧
        (json_parser_loop (a ++ c ++ chars_bytes rest) n j2).1.tagbuffer =
          j.tagbuffer ++ chars_bytes (c :: rest) ∧
        (json_parser_loop (a ++ c ++ chars_bytes rest) n j2).1.tagtype = j.tagtype := by
      intro j2 h1 h2 h3 h4 h5 h6 h7
      obtain ⟨i1, i2, i3, i4, i5, i6, i7, i8⟩ := ih (a ++ c) j2 n e hrest h7 h1 h2 h3 h4 hlen
      refine ⟨i1, i2, i3, i4, i5, i6, ?_, i8.trans h6⟩
      rw [i7, h5]
      simp [chars_bytes, List.append_assoc]
    rw [hbuf]
    unfold json_parser_loop
    rw [if_neg (by rw [herr]; decide), hg]
    dsimp only
    unfold json_parser_step
    simp only [hst]
    by_cases hb : j.isbackslash = true
    · simp only [hb, if_true]
      rw [json_addtotag_char _ c hc rfl rfl]
      refine hfin _ rfl hsk herr (by simp) rfl rfl ?_
      rw [hb] at hsc
      simpa [string_scan] using hsc
    · have hb' : j.isbackslash = false := by simpa using hb
      rw [hb'] at hsc
      simp only [string_scan] at hsc
      simp only [hb', Bool.false_eq_true, if_false]
      by_cases hq : char_control c = JSON_CC_QT
      · rw [if_pos hq] at hsc; cases hsc
      rw [if_neg hq] at hsc
      by_cases hbs : char_control c = JSON_CC_BS
      · simp only [hbs, if_true]
        rw [json_addtotag_char _ c hc rfl rfl]
        refine hfin _ rfl hsk herr (by simp) rfl rfl ?_
        rw [hbs] at hsc
        simpa using hsc
      · simp only [hbs, if_false]
        rw [if_neg hq]
        rw [json_addtotag_char _ c hc rfl rfl]
        refine hfin _ rfl hsk herr (by simp) rfl rfl ?_
        have hne : (char_control c == JSON_CC_BS) = false := by simpa using hbs
        rw [hne] at hsc
        exact hsc

/-- A string split over two buffers between two of its characters: on the
first buffer `json_parser` returns false without a token, and resumed at the
start of the second buffer it returns the STRING token with the whole text. -/
theorem json_parser_run_string_split (pre post : Bytes) (b1 b2 : List Bytes) (j : JSONPARSER)
    (hchars : ∀ c ∈ b1 ++ b2, is_char c = true)
    (hsc : string_content false (b1 ++ b2) = true)
    (hst : j.state = JSON_RS_SEARCH_OBJECT) (hsk : j.skipnextread = false)
    (herr : j.error = false) (hbs : j.isbackslash = false) (hrp : j.readposition = pre.length) :
    (json_parser_run (pre ++ [34] ++ chars_bytes b1) j).2 = false ∧
      (json_parser_run (pre ++ [34] ++ chars_bytes b1) j).1.tagtype = JSON_TT_UNKNOWN ∧
      (json_parser_run (pre ++ [34] ++ chars_bytes b1) j).1.readposition =
        (pre ++ [34] ++ chars_bytes b1).length ∧
      json_parser_run (chars_bytes b2 ++ [34] ++ post)
          { (json_parser_run (pre ++ [34] ++ chars_bytes b1) j).1 with readposition := 0 } =
        ({ state := JSON_RS_SEARCH_OBJECT
           isbackslash := false
           readposition := (chars_bytes b2).length + 1
           skipnextread := false
           error := false
           c := [34]
           control := JSON_CC_QT
           clength := 1
           tagbuffer := j.tagbuffer ++ chars_bytes (b1 ++ b2)
           tagtype := JSON_TT_STRING }, true) := by
  have h1 : ∀ c ∈ b1, is_char c = true := fun c hc => hchars c (by simp [hc])
  have h2 : ∀ c ∈ b2, is_char c = true := fun c hc => hchars c (by simp [hc])
  obtain ⟨e, hscan, hcont⟩ := string_content_append b1 b2 false hsc
  have hlen1 := chars_bytes_length b1 h1
  have hlen2 := chars_bytes_length b2 h2
  -- the first buffer
  have hg := json_getnextchar_char pre [34] (chars_bytes b1) { j with tagtype := JSON_TT_UNKNOWN }
    is_char_quote hsk hrp
  have hstep : json_parser_step
      { j with tagtype := JSON_TT_UNKNOWN, clength := [34].length, c := [34],
               readposition := pre.length + [34].length, control := char_control [34] } =
      ({ j with tagtype := JSON_TT_UNKNOWN, clength := [34].length, c := [34],
                readposition := pre.length + [34].length, control := char_control [34],
                state := JSON_RS_READ_STRING }, false) := by
    have hctl : char_control [34] = JSON_CC_QT := by decide
    unfold json_parser_step
    simp only [hst, hctl]
  obtain ⟨f, hf, hfl⟩ : ∃ f, json_measure (pre ++ [34] ++ chars_bytes b1) j + 1 = f + 1 ∧
      b1.length < f := by
    refine ⟨json_measure (pre ++ [34] ++ chars_bytes b1) j, rfl, ?_⟩
    unfold json_measure json_skip_extra
    rw [hsk, hrp]
    simp only [List.length_append, List.length_cons, List.length_nil, Bool.false_eq_true,
      if_false]
    omega
  have hend := json_parser_loop_string_end b1 (pre ++ [34])
    { j with tagtype := JSON_TT_UNKNOWN, clength := [34].length, c := [34],
             readposition := pre.length + [34].length, control := char_control [34],
             state := JSON_RS_READ_STRING }
    f e h1 (by rw [← hbs] at hscan; exact hscan) rfl hsk herr (by simp) hfl
  have hrun : json_parser_run (pre ++ [34] ++ chars_bytes b1) j =
      json_parser_loop (pre ++ [34] ++ chars_bytes b1) f
        { j with tagtype := JSON_TT_UNKNOWN, clength := [34].length, c := [34],
                 readposition := pre.length + [34].length, control := char_control [34],
                 state := JSON_RS_READ_STRING } := by
    unfold json_parser_run
    rw [hf]
    conv_lhs => unfold json_parser_loop
    rw [if_neg (by rw [herr]; decide), hg]
    dsimp only
    rw [hstep]
  rw [hrun]
  obtain ⟨i1, i2, i3, i4, i5, i6, i7, i8⟩ := hend
  refine ⟨i1, i8, i6, ?_⟩
  -- the second buffer
  generalize (json_parser_loop (pre ++ [34] ++ chars_bytes b1) f
      { j with tagtype := JSON_TT_UNKNOWN, clength := [34].length, c := [34],
               readposition := pre.length + [34].length, control := char_control [34],
               state := JSON_RS_READ_STRING }).1 = J1 at i2 i3 i4 i5 i7 ⊢
  have hfl2 : b2.length < json_measure (chars_bytes b2 ++ [34] ++ post)
      { J1 with readposition := 0 } + 1 := by
    unfold json_measure json_skip_extra
    simp only [i3, List.length_append, List.length_cons, List.length_nil, Bool.false_eq_true,
      if_false]
    omega
  have hbuf : chars_bytes b2 ++ [34] ++ post = [] ++ chars_bytes b2 ++ [34] ++ post := by simp
  unfold json_parser_run
  generalize json_measure (chars_bytes b2 ++ [34] ++ post) { J1 with readposition := 0 } + 1 = f2
    at hfl2
  rw [hbuf]
  rw [json_parser_loop_string post b2 [] { J1 with readposition := 0, tagtype := JSON_TT_UNKNOWN }
    f2 h2 (by rw [← i5] at hcont; exact hcont) i2 i3 i4 rfl hfl2]
  simp only [List.length_nil, Nat.zero_add, i7]
  simp [chars_bytes_append, List.append_assoc]

/-- The closing quote of a string is determined: of two ways to split a
sequence of characters into a string content, a double quote and a rest, the
contents are the same. -/
theorem string_content_unique :
    ∀ (b1 b2 r1 r2 : List Bytes) (esc : Bool), string_content esc b1 = true →
      string_content esc b2 = true → b1 ++ [34] :: r1 = b2 ++ [34] :: r2 → b1 = b2 := by
  intro b1
  induction b1 with
  | nil =>
    intro b2 r1 r2 esc h1 h2 he
    cases b2 with
    | nil => rfl
    | cons c rest =>
      simp only [List.nil_append, List.cons_append, List.cons.injEq] at he
      obtain ⟨hc, _⟩ := he
      subst hc
      cases esc
      · simp [string_content, char_control, json_control] at h2
      · simp [string_content] at h1
  | cons c rest ih =>
    intro b2 r1 r2 esc h1 h2 he
    cases b2 with
    | nil =>
      simp only [List.nil_append, List.cons_append, List.cons.injEq] at he
      obtain ⟨hc, _⟩ := he
      subst hc
      cases esc
      · simp [string_content, char_control, json_control] at h1
      · simp [string_content] at h2
    | cons d rest2 =>
      simp only [List.cons_append, List.cons.injEq] at he
      obtain ⟨hc, he⟩ := he
      subst hc
      cases esc
      · simp only [string_content, Bool.and_eq_true] at h1 h2
        rw [ih rest2 r1 r2 _ h1.2 h2.2 he]
      · simp only [string_content] at h1 h2
        rw [ih rest2 r1 r2 _ h1 h2 he]

/-- The tokenizer loop at a double quote in the SEARCH state: it returns the
STRING token of the string that starts there. -/
theorem json_parser_loop_quote (pre post : Bytes) (body : List Bytes) (j : JSONPARSER)
    (fuel : Nat) (hchars : ∀ c ∈ body, is_char c = true)
    (hsc : string_content false body = true)
    (hst : j.state = JSON_RS_SEARCH_OBJECT) (hsk : j.skipnextread = false)
    (herr : j.error = false) (hbs : j.isbackslash = false) (hrp : j.readposition = pre.length)
    (hfuel : body.length < fuel) :
    json_parser_loop (pre ++ [34] ++ chars_bytes body ++ [34] ++ post) (fuel + 1) j =
        ({ state := JSON_RS_SEARCH_OBJECT
           isbackslash := false
           readposition := pre.length + (chars_bytes body).length + 2
           skipnextread := false
           error := false
           c := [34]
           control := JSON_CC_QT
           clength := 1
           tagbuffer := j.tagbuffer ++ chars_bytes body
           tagtype := JSON_TT_STRING }, true) := by
  have hbuf : pre ++ [34] ++ chars_bytes body ++ [34] ++ post =
      pre ++ [34] ++ (chars_bytes body ++ [34] ++ post) := by
    simp [List.append_assoc]
  have hg := json_getnextchar_char pre [34] (chars_bytes body ++ [34] ++ post) j
    is_char_quote hsk hrp
  rw [← hbuf] at hg
  have hstep : json_parser_step
      { j with clength := [34].length, c := [34], readposition := pre.length + [34].length,
               control := char_control [34] } =
      ({ j with clength := [34].length, c := [34], readposition := pre.length + [34].length,
                control := char_control [34], state := JSON_RS_READ_STRING }, false) := by
    have hctl : char_control [34] = JSON_CC_QT := by decide
    unfold json_parser_step
    simp only [hst, hctl]
  have hloop := json_parser_loop_string post body (pre ++ [34])
    { j with clength := [34].length, c := [34], readposition := pre.length + [34].length,
             control := char_control [34], state := JSON_RS_READ_STRING }
    fuel hchars (by rw [← hbs] at hsc; exact hsc) rfl hsk herr (by simp) hfuel
  unfold json_parser_loop
  rw [if_neg (by rw [herr]; decide), hg]
  dsimp only
  rw [hstep]
  dsimp only
  rw [hloop]
  simp [Nat.add_assoc]
  omega

/-- C29 (string tokens). The tokenizer, in the SEARCH state, is at a double
quote of the buffer; after the quote come the characters `body`, of which none
is a double quote unless it is the character right after an escaping
backslash and the last is not an escaping backslash, then a double quote, then
anything. (The characters are those `json_getnextchar` takes: as many bytes as
the first byte declares, none of them zero.) Then `json_parser` returns true
with a STRING token; the text it has added to the tag buffer, which the reader
has emptied before, is the bytes of `body` exactly as they are in the buffer,
every backslash kept; the read position is behind the closing quote and the
state is SEARCH again. The closing quote is determined by the condition on
`body`: two such contents followed by a double quote that start the same
sequence of characters are equal. The token is the same when the buffer ends
between two characters of `body` and the tokenizer is resumed at the start of
a buffer with the rest: the first call returns false without a token, the
second returns the STRING token with the whole text. -/
theorem string_token (pre post : Bytes) (body : List Bytes) (j : JSONPARSER)
    (hchars : ∀ c ∈ body, is_char c = true) (hsc : string_content false body = true)
    (hst : j.state = JSON_RS_SEARCH_OBJECT) (hsk : j.skipnextread = false)
    (herr : j.error = false) (hbs : j.isbackslash = false) (hrp : j.readposition = pre.length) :
    json_parser_run (pre ++ [34] ++ chars_bytes body ++ [34] ++ post) j =
        ({ state := JSON_RS_SEARCH_OBJECT
           isbackslash := false
           readposition := pre.length + (chars_bytes body).length + 2
           skipnextread := false
           error := false
           c := [34]
           control := JSON_CC_QT
           clength := 1
           tagbuffer := j.tagbuffer ++ chars_bytes body
           tagtype := JSON_TT_STRING }, true) ∧
      (j.tagbuffer = [] →
        (json_parser_run (pre ++ [34] ++ chars_bytes body ++ [34] ++ post) j).1.tagbuffer =
          chars_bytes body) ∧
      (∀ (other rest rest' : List Bytes), string_content false other = true →
        body ++ [34] :: rest = other ++ [34] :: rest' → other = body) ∧
      (∀ b1 b2 : List Bytes, body = b1 ++ b2 →
        (json_parser_run (pre ++ [34] ++ chars_bytes b1) j).2 = false ∧
        (json_parser_run (pre ++ [34] ++ chars_bytes b1) j).1.tagtype = JSON_TT_UNKNOWN ∧
        (json_parser_run (chars_bytes b2 ++ [34] ++ post)
          { (json_parser_run (pre ++ [34] ++ chars_bytes b1) j).1 with
            readposition := 0 }).2 = true ∧
        (json_parser_run (chars_bytes b2 ++ [34] ++ post)
          { (json_parser_run (pre ++ [34] ++ chars_bytes b1) j).1 with
            readposition := 0 }).1.tagtype = JSON_TT_STRING ∧
        (json_parser_run (chars_bytes b2 ++ [34] ++ post)
          { (json_parser_run (pre ++ [34] ++ chars_bytes b1) j).1 with
            readposition := 0 }).1.tagbuffer = j.tagbuffer ++ chars_bytes body ∧
        (json_parser_run (chars_bytes b2 ++ [34] ++ post)
          { (json_parser_run (pre ++ [34] ++ chars_bytes b1) j).1 with
            readposition := 0 }).1.state = JSON_RS_SEARCH_OBJECT) := by
  have hmain : json_parser_run (pre ++ [34] ++ chars_bytes body ++ [34] ++ post) j =
        ({ state := JSON_RS_SEARCH_OBJECT
           isbackslash := false
           readposition := pre.length + (chars_bytes body).length + 2
           skipnextread := false
           error := false
           c := [34]
           control := JSON_CC_QT
           clength := 1
           tagbuffer := j.tagbuffer ++ chars_bytes body
           tagtype := JSON_TT_STRING }, true) := by
    have hlen := chars_bytes_length body hchars
    have hm : json_measure (pre ++ [34] ++ chars_bytes body ++ [34] ++ post) j =
        2 * (1 + (chars_bytes body).length + 1 + post.length) := by
      unfold json_measure json_skip_extra
      rw [hsk, hrp]
      simp only [List.length_append, List.length_cons, List.length_nil, Bool.false_eq_true,
        if_false]
      omega
    unfold json_parser_run
    rw [hm]
    exact json_parser_loop_quote pre post body { j with tagtype := JSON_TT_UNKNOWN } _ hchars hsc
      hst hsk herr hbs hrp (by omega)
  refine ⟨hmain, ?_, ?_, ?_⟩
  · intro htb
    rw [hmain, htb]
    rfl
  · intro other rest rest' ho he
    exact string_content_unique other body rest' rest false ho hsc he.symm
  · intro b1 b2 hsplit
    subst hsplit
    obtain ⟨s1, s2, _, s4⟩ :=
      json_parser_run_string_split pre post b1 b2 j hchars hsc hst hsk herr hbs hrp
    rw [s4]
    exact ⟨s1, s2, rfl, rfl, rfl, rfl⟩

/-! ## The tokenizer: tokens that are not strings -/

theorem is_terminator_control (c : Bytes) :
    is_terminator c = true ↔
      (char_control c = JSON_CC_AC ∨ char_control c = JSON_CC_OC ∨
        char_control c = JSON_CC_COMMA) := by
  unfold is_terminator
  simp [Bool.or_eq_true, beq_iff_eq, or_assoc]

/-- One pass of the tokenizer in the NONSTRING state on a character that is
not a terminator: the character is added to the tag buffer. -/
theorem json_parser_step_nonstring (j : JSONPARSER) (c : Bytes) (hc : is_char c = true)
    (ht : is_terminator c = false) (hst : j.state = JSON_RS_READ_NONSTRING) (h1 : j.c = c)
    (h2 : j.clength = c.length) (h3 : j.control = char_control c) :
    json_parser_step j = ({ j with tagbuffer := j.tagbuffer ++ c }, false) := by
  have hn : ¬ (j.control = JSON_CC_AC ∨ j.control = JSON_CC_OC ∨ j.control = JSON_CC_COMMA) := by
    rw [h3, ← is_terminator_control, ht]
    decide
  unfold json_parser_step
  rw [hst]
  dsimp only
  rw [if_neg hn, json_addtotag_char j c hc h1 h2]
  simp [hst]

/-- One pass of the tokenizer in the NONSTRING state on a terminator: the
token is complete, its kind is decided from the tag buffer, and the terminator
is kept for the next pass. -/
theorem json_parser_step_terminator (j : JSONPARSER) (c : Bytes)
    (ht : is_terminator c = true) (hst : j.state = JSON_RS_READ_NONSTRING)
    (h3 : j.control = char_control c) :
    json_parser_step j =
      ({ j with state := JSON_RS_SEARCH_OBJECT, skipnextread := true,
                tagtype := nonstring_kind j.tagbuffer }, true) := by
  have hn : j.control = JSON_CC_AC ∨ j.control = JSON_CC_OC ∨ j.control = JSON_CC_COMMA := by
    rw [h3, ← is_terminator_control, ht]
  unfold json_parser_step
  rw [hst]
  dsimp only
  rw [if_pos hn]
  simp [hst, nonstring_kind]

/-- The tokenizer loop inside a token that is not a string: it takes every
character up to the terminator into the tag buffer and returns the token. -/
theorem json_parser_loop_nonstring (t post : Bytes) (ht : is_char t = true)
    (htt : is_terminator t = true) :
    ∀ (cs : List Bytes) (a : Bytes) (j : JSONPARSER) (fuel : Nat),
      (∀ c ∈ cs, is_char c = true ∧ is_terminator c = false) →
      j.state = JSON_RS_READ_NONSTRING → j.skipnextread = false → j.error = false →
      j.readposition = a.length → cs.length < fuel →
      json_parser_loop (a ++ chars_bytes cs ++ t ++ post) fuel j =
        ({ state := JSON_RS_SEARCH_OBJECT
           isbackslash := j.isbackslash
           readposition := a.length + (chars_bytes cs).length + t.length
           skipnextread := true
           error := false
           c := t
           control := char_control t
           clength := t.length
           tagbuffer := j.tagbuffer ++ chars_bytes cs
           tagtype := nonstring_kind (j.tagbuffer ++ chars_bytes cs) }, true) := by
  intro cs
  induction cs with
  | nil =>
    intro a j fuel _ hst hsk herr hrp hfuel
    obtain ⟨n, rfl⟩ : ∃ n, fuel = n + 1 := ⟨fuel - 1, by simp at hfuel; omega⟩
    have hg := json_getnextchar_char a t post j ht hsk hrp
    have hbuf : a ++ chars_bytes [] ++ t ++ post = a ++ t ++ post := by simp [chars_bytes]
    have hstep := json_parser_step_terminator
      { j with clength := t.length, c := t, readposition := a.length + t.length,
               control := char_control t } t htt hst rfl
    rw [hbuf]
    unfold json_parser_loop
    rw [if_neg (by rw [herr]; decide), hg]
    dsimp only
    rw [hstep]
    simp [chars_bytes, herr]
  | cons c rest ih =>
    intro a j fuel hchars hst hsk herr hrp hfuel
    obtain ⟨n, rfl⟩ : ∃ n, fuel = n + 1 := ⟨fuel - 1, by simp at hfuel; omega⟩
    obtain ⟨hc, hct⟩ := hchars c (by simp)
    have hrest : ∀ d ∈ rest, is_char d = true ∧ is_terminator d = false :=
      fun d hd => hchars d (by simp [hd])
    have hbuf : a ++ chars_bytes (c :: rest) ++ t ++ post =
        a ++ c ++ (chars_bytes rest ++ t ++ post) := by
      simp [chars_bytes, List.append_assoc]
    have hbuf' : a ++ chars_bytes (c :: rest) ++ t ++ post =
        (a ++ c) ++ chars_bytes rest ++ t ++ post := by
      simp [chars_bytes, List.append_assoc]
    have hg := json_getnextchar_char a c (chars_bytes rest ++ t ++ post) j hc hsk hrp
    rw [← hbuf] at hg
    have hstep := json_parser_step_nonstring
      { j with clength := c.length, c := c, readposition := a.length + c.length,
               control := char_control c } c hc hct hst rfl rfl rfl
    have hlen : rest.length < n := by simp at hfuel; omega
    have hih := ih (a ++ c)
      { j with clength := c.length, c := c, readposition := a.length + c.length,
               control := char_control c, tagbuffer := j.tagbuffer ++ c }
      n hrest hst hsk herr (by simp) hlen
    unfold json_parser_loop
    rw [if_neg (by rw [herr]; decide), hg]
    dsimp only
    rw [hstep]
    dsimp only
    rw [hbuf', hih]
    simp [chars_bytes, List.append_assoc, Nat.add_assoc]

/-- The tokenizer loop inside a token that is not a string, on a buffer that
ends before the terminator: it takes the characters into the tag buffer and
returns false without a token, still in the NONSTRING state. -/
theorem json_parser_loop_nonstring_end :
    ∀ (cs : List Bytes) (a : Bytes) (j : JSONPARSER) (fuel : Nat),
      (∀ c ∈ cs, is_char c = true ∧ is_terminator c = false) →
      j.state = JSON_RS_READ_NONSTRING → j.skipnextread = false → j.error = false →
      j.readposition = a.length → cs.length < fuel →
      (json_parser_loop (a ++ chars_bytes cs) fuel j).2 = false ∧
        (json_parser_loop (a ++ chars_bytes cs) fuel j).1.state = JSON_RS_READ_NONSTRING ∧
        (json_parser_loop (a ++ chars_bytes cs) fuel j).1.skipnextread = false ∧
        (json_parser_loop (a ++ chars_bytes cs) fuel j).1.error = false ∧
        (json_parser_loop (a ++ chars_bytes cs) fuel j).1.readposition =
          (a ++ chars_bytes cs).length ∧
        (json_parser_loop (a ++ chars_bytes cs) fuel j).1.tagbuffer =
          j.tagbuffer ++ chars_bytes cs ∧
        (json_parser_loop (a ++ chars_bytes cs) fuel j).1.tagtype = j.tagtype := by
  intro cs
  induction cs with
  | nil =>
    intro a j fuel _ hst hsk herr hrp hfuel
    obtain ⟨n, rfl⟩ : ∃ n, fuel = n + 1 := ⟨fuel - 1, by simp at hfuel; omega⟩
    have hbuf : a ++ chars_bytes [] = a := by simp [chars_bytes]
    rw [hbuf]
    have hg := json_getnextchar_end a j hsk hrp
    unfold json_parser_loop
    rw [if_neg (by rw [herr]; decide), hg]
    dsimp only
    exact ⟨rfl, hst, hsk, herr, hrp, by simp [chars_bytes], rfl⟩
  | cons c rest ih =>
    intro a j fuel hchars hst hsk herr hrp hfuel
    obtain ⟨n, rfl⟩ : ∃ n, fuel = n + 1 := ⟨fuel - 1, by simp at hfuel; omega⟩
    obtain ⟨hc, hct⟩ := hchars c (by simp)
    have hrest : ∀ d ∈ rest, is_char d = true ∧ is_terminator d = false :=
      fun d hd => hchars d (by simp [hd])
    have hbuf : a ++ chars_bytes (c :: rest) = a ++ c ++ chars_bytes rest := by
      simp [chars_bytes, List.append_assoc]
    have hg := json_getnextchar_char a c (chars_bytes rest) j hc hsk hrp
    have hstep := json_parser_step_nonstring
      { j with clength := c.length, c := c, readposition := a.length + c.length,
               control := char_control c } c hc hct hst rfl rfl rfl
    have hlen : rest.length < n := by simp at hfuel; omega
    have hih := ih (a ++ c)
      { j with clength := c.length, c := c, readposition := a.length + c.length,
               control := char_control c, tagbuffer := j.tagbuffer ++ c }
      n hrest hst hsk herr (by simp) hlen
    rw [hbuf]
    unfold json_parser_loop
    rw [if_neg (by rw [herr]; decide), hg]
    dsimp only
    rw [hstep]
    dsimp only
    obtain ⟨i1, i2, i3, i4, i5, i6, i7⟩ := hih
    refine ⟨i1, i2, i3, i4, i5, ?_, i7⟩
    rw [i6]
    simp [chars_bytes, List.append_assoc]

/-- The first two passes of the tokenizer on a character that starts a token
which is not a string: the state becomes NONSTRING and the character is added
to the tag buffer. -/
theorem json_parser_loop_plain (a c b : Bytes) (j : JSONPARSER) (fuel : Nat)
    (hc : is_char c = true) (hn : char_control c = JSON_CC_NONE)
    (hst : j.state = JSON_RS_SEARCH_OBJECT) (hsk : j.skipnextread = false)
    (herr : j.error = false) (hrp : j.readposition = a.length) :
    json_parser_loop (a ++ c ++ b) (fuel + 2) j =
      json_parser_loop (a ++ c ++ b) fuel
        { j with state := JSON_RS_READ_NONSTRING, clength := c.length, c := c,
                 readposition := a.length + c.length, control := char_control c,
                 tagbuffer := j.tagbuffer ++ c } := by
  have hg := json_getnextchar_char a c b j hc hsk hrp
  have hstep1 : json_parser_step
      { j with clength := c.length, c := c, readposition := a.length + c.length,
               control := char_control c } =
      ({ j with clength := c.length, c := c, readposition := a.length + c.length,
                control := char_control c, state := JSON_RS_READ_NONSTRING,
                skipnextread := true }, false) := by
    unfold json_parser_step
    simp only [hst, hn]
  have hg2 : json_getnextchar (a ++ c ++ b)
      { j with clength := c.length, c := c, readposition := a.length + c.length,
               control := char_control c, state := JSON_RS_READ_NONSTRING,
               skipnextread := true } =
      ({ j with clength := c.length, c := c, readposition := a.length + c.length,
                control := char_control c, state := JSON_RS_READ_NONSTRING,
                skipnextread := false }, true) := by
    unfold json_getnextchar
    rfl
  have hterm : is_terminator c = false := by
    unfold is_terminator
    rw [hn]
    rfl
  have hstep2 := json_parser_step_nonstring
    { j with clength := c.length, c := c, readposition := a.length + c.length,
             control := char_control c, state := JSON_RS_READ_NONSTRING,
             skipnextread := false } c hc hterm rfl rfl rfl rfl
  conv_lhs => unfold json_parser_loop
  rw [if_neg (by rw [herr]; decide), hg]
  dsimp only
  rw [hstep1]
  dsimp only
  conv_lhs => unfold json_parser_loop
  rw [if_neg (by rw [herr]; decide), hg2]
  dsimp only
  rw [hstep2]
  dsimp only
  rw [← hsk]

/-- The tokenizer on a token that is not a string and is followed by its
terminator in the buffer. -/
theorem json_parser_run_nonstring (pre post t c0 : Bytes) (cs : List Bytes) (j : JSONPARSER)
    (hc0 : is_char c0 = true) (hn : char_control c0 = JSON_CC_NONE)
    (hcs : ∀ c ∈ cs, is_char c = true ∧ is_terminator c = false)
    (ht : is_char t = true) (htt : is_terminator t = true)
    (hst : j.state = JSON_RS_SEARCH_OBJECT) (hsk : j.skipnextread = false)
    (herr : j.error = false) (hrp : j.readposition = pre.length) :
    json_parser_run (pre ++ chars_bytes (c0 :: cs) ++ t ++ post) j =
      ({ state := JSON_RS_SEARCH_OBJECT
         isbackslash := j.isbackslash
         readposition := pre.length + (chars_bytes (c0 :: cs)).length + t.length
         skipnextread := true
         error := false
         c := t
         control := char_control t
         clength := t.length
         tagbuffer := j.tagbuffer ++ chars_bytes (c0 :: cs)
         tagtype := nonstring_kind (j.tagbuffer ++ chars_bytes (c0 :: cs)) }, true) := by
  obtain ⟨x, xs, hx, _⟩ := is_char_spec c0 hc0
  obtain ⟨y, ys, hy, _⟩ := is_char_spec t ht
  have hlen := chars_bytes_length cs (fun c hc => (hcs c hc).1)
  have hbuf : pre ++ chars_bytes (c0 :: cs) ++ t ++ post =
      pre ++ c0 ++ (chars_bytes cs ++ t ++ post) := by
    simp [chars_bytes, List.append_assoc]
  have hbuf' : pre ++ c0 ++ (chars_bytes cs ++ t ++ post) =
      (pre ++ c0) ++ chars_bytes cs ++ t ++ post := by
    simp [List.append_assoc]
  obtain ⟨f, hf, hfl⟩ : ∃ f, json_measure (pre ++ chars_bytes (c0 :: cs) ++ t ++ post) j + 1 =
      f + 2 ∧ cs.length < f := by
    refine ⟨json_measure (pre ++ chars_bytes (c0 :: cs) ++ t ++ post) j - 1, ?_, ?_⟩ <;>
    · unfold json_measure json_skip_extra
      rw [hsk, hrp, hx, hy]
      simp only [chars_bytes, List.length_append, List.length_cons, Bool.false_eq_true, if_false]
      omega
  unfold json_parser_run
  rw [hf, hbuf]
  rw [json_parser_loop_plain pre c0 (chars_bytes cs ++ t ++ post)
    { j with tagtype := JSON_TT_UNKNOWN } f hc0 hn hst hsk herr hrp]
  rw [hbuf']
  rw [json_parser_loop_nonstring t post ht htt cs (pre ++ c0)
    { j with tagtype := JSON_TT_UNKNOWN, state := JSON_RS_READ_NONSTRING, clength := c0.length,
             c := c0, readposition := pre.length + c0.length, control := char_control c0,
             tagbuffer := j.tagbuffer ++ c0 }
    f hcs rfl hsk herr (by simp) hfl]
  simp [chars_bytes, List.append_assoc, Nat.add_assoc]

/-- The tokenizer after a token that is not a string, the tag buffer emptied:
the terminator that ended the token is returned as a structural token, without
another character being read. -/
theorem json_parser_run_terminator (buf t : Bytes) (j : JSONPARSER)
    (htt : is_terminator t = true) (hst : j.state = JSON_RS_SEARCH_OBJECT)
    (hsk : j.skipnextread = true) (herr : j.error = false) (hctl : j.control = char_control t) :
    json_parser_run buf j =
      ({ j with skipnextread := false, tagtype := terminator_kind t }, true) := by
  have hg : json_getnextchar buf { j with tagtype := JSON_TT_UNKNOWN } =
      ({ j with tagtype := JSON_TT_UNKNOWN, skipnextread := false }, true) := by
    unfold json_getnextchar
    rw [if_pos hsk]
  have hstep : json_parser_step { j with tagtype := JSON_TT_UNKNOWN, skipnextread := false } =
      ({ j with skipnextread := false, tagtype := terminator_kind t }, true) := by
    unfold json_parser_step terminator_kind
    rcases (is_terminator_control t).mp htt with h | h | h <;> simp [hst, hctl, h]
  unfold json_parser_run
  unfold json_parser_loop
  rw [if_neg (by rw [herr]; decide), hg]
  dsimp only
  rw [hstep]
  simp [herr]

/-- The tokenizer on a buffer that ends inside a token that is not a string:
no token is returned and no kind is decided; the text read so far is kept in
the tag buffer. -/
theorem json_parser_run_nonstring_end (pre c0 : Bytes) (cs : List Bytes) (j : JSONPARSER)
    (hc0 : is_char c0 = true) (hn : char_control c0 = JSON_CC_NONE)
    (hcs : ∀ c ∈ cs, is_char c = true ∧ is_terminator c = false)
    (hst : j.state = JSON_RS_SEARCH_OBJECT) (hsk : j.skipnextread = false)
    (herr : j.error = false) (hrp : j.readposition = pre.length) :
    (json_parser_run (pre ++ chars_bytes (c0 :: cs)) j).2 = false ∧
      (json_parser_run (pre ++ chars_bytes (c0 :: cs)) j).1.state = JSON_RS_READ_NONSTRING ∧
      (json_parser_run (pre ++ chars_bytes (c0 :: cs)) j).1.skipnextread = false ∧
      (json_parser_run (pre ++ chars_bytes (c0 :: cs)) j).1.error = false ∧
      (json_parser_run (pre ++ chars_bytes (c0 :: cs)) j).1.readposition =
        (pre ++ chars_bytes (c0 :: cs)).length ∧
      (json_parser_run (pre ++ chars_bytes (c0 :: cs)) j).1.tagbuffer =
        j.tagbuffer ++ chars_bytes (c0 :: cs) ∧
      (json_parser_run (pre ++ chars_bytes (c0 :: cs)) j).1.tagtype = JSON_TT_UNKNOWN := by
  obtain ⟨x, xs, hx, _⟩ := is_char_spec c0 hc0
  have hlen := chars_bytes_length cs (fun c hc => (hcs c hc).1)
  have hbuf : pre ++ chars_bytes (c0 :: cs) = pre ++ c0 ++ chars_bytes cs := by
    simp [chars_bytes, List.append_assoc]
  obtain ⟨f, hf, hfl⟩ : ∃ f, json_measure (pre ++ chars_bytes (c0 :: cs)) j + 1 =
      f + 2 ∧ cs.length < f := by
    refine ⟨json_measure (pre ++ chars_bytes (c0 :: cs)) j - 1, ?_, ?_⟩ <;>
    · unfold json_measure json_skip_extra
      rw [hsk, hrp, hx]
      simp only [chars_bytes, List.length_append, List.length_cons, Bool.false_eq_true, if_false]
      omega
  unfold json_parser_run
  rw [hf, hbuf]
  rw [json_parser_loop_plain pre c0 (chars_bytes cs)
    { j with tagtype := JSON_TT_UNKNOWN } f hc0 hn hst hsk herr hrp]
  obtain ⟨i1, i2, i3, i4, i5, i6, i7⟩ := json_parser_loop_nonstring_end cs (pre ++ c0)
    { j with tagtype := JSON_TT_UNKNOWN, state := JSON_RS_READ_NONSTRING, clength := c0.length,
             c := c0, readposition := pre.length + c0.length, control := char_control c0,
             tagbuffer := j.tagbuffer ++ c0 }
    f hcs rfl hsk herr (by simp) hfl
  refine ⟨i1, i2, i3, i4, i5, ?_, i7⟩
  rw [i6]
  simp [chars_bytes, List.append_assoc]

/-- The tokenizer resumed inside a token that is not a string, on the buffer
of the next chunk: the token is completed at the terminator. -/
theorem json_parser_run_resume (post t : Bytes) (cs : List Bytes) (j : JSONPARSER)
    (hcs : ∀ c ∈ cs, is_char c = true ∧ is_terminator c = false)
    (ht : is_char t = true) (htt : is_terminator t = true)
    (hst : j.state = JSON_RS_READ_NONSTRING) (hsk : j.skipnextread = false)
    (herr : j.error = false) (hrp : j.readposition = 0) :
    (json_parser_run (chars_bytes cs ++ t ++ post) j).2 = true ∧
      (json_parser_run (chars_bytes cs ++ t ++ post) j).1.tagbuffer =
        j.tagbuffer ++ chars_bytes cs ∧
      (json_parser_run (chars_bytes cs ++ t ++ post) j).1.tagtype =
        nonstring_kind (j.tagbuffer ++ chars_bytes cs) ∧
      (json_parser_run (chars_bytes cs ++ t ++ post) j).1.state = JSON_RS_SEARCH_OBJECT := by
  have hlen := chars_bytes_length cs (fun c hc => (hcs c hc).1)
  have hbuf : chars_bytes cs ++ t ++ post = [] ++ chars_bytes cs ++ t ++ post := by simp
  have hfl : cs.length < json_measure (chars_bytes cs ++ t ++ post) j + 1 := by
    unfold json_measure json_skip_extra
    rw [hsk, hrp]
    simp only [List.length_append, Bool.false_eq_true, if_false]
    omega
  unfold json_parser_run
  generalize json_measure (chars_bytes cs ++ t ++ post) j + 1 = f at hfl
  rw [hbuf]
  rw [json_parser_loop_nonstring t post ht htt cs [] { j with tagtype := JSON_TT_UNKNOWN } f hcs
    hst hsk herr hrp hfl]
  exact ⟨rfl, rfl, rfl, rfl⟩

theorem nonstring_kind_spec (text : Bytes) :
    (text.take 4 = ascii "true" → nonstring_kind text = JSON_TT_TRUE) ∧
      (text.take 5 = ascii "false" → nonstring_kind text = JSON_TT_FALSE) ∧
      (text.take 4 = ascii "null" → nonstring_kind text = JSON_TT_NULL) ∧
      (text.take 4 ≠ ascii "true" → text.take 5 ≠ ascii "false" → text.take 4 ≠ ascii "null" →
        nonstring_kind text = JSON_TT_NUMBER) := by
  have h4 : (ascii "true").length = 4 := by decide
  have h5 : (ascii "false").length = 5 := by decide
  have h4' : (ascii "null").length = 4 := by decide
  unfold nonstring_kind strncmp_eq
  rw [h4, h5, h4']
  simp only [beq_iff_eq]
  refine ⟨fun h => by rw [if_pos h], ?_, ?_, fun a b c => by rw [if_neg a, if_neg b, if_neg c]⟩
  · intro h
    have hne : text.take 4 ≠ ascii "true" := by
      intro hh
      have e1 : (text.take 5).head? = (text.take 4).head? := by
        cases text <;> simp
      rw [h, hh] at e1
      revert e1
      decide
    rw [if_neg hne, if_pos h]
  · intro h
    have hne : text.take 4 ≠ ascii "true" := by
      intro hh
      rw [h] at hh
      revert hh
      decide
    have hne2 : text.take 5 ≠ ascii "false" := by
      intro hh
      have e1 : (text.take 5).head? = (text.take 4).head? := by
        cases text <;> simp
      rw [h, hh] at e1
      revert e1
      decide
    rw [if_neg hne, if_neg hne2, if_pos h]

/-- C30 (tokens that are not strings). The tokenizer, in the SEARCH state, is
at a character `c0` that is neither whitespace, a structural character, a
quote nor a backslash; after it come the characters `cs`, none of them `]`,
`}` or `,`, then such a terminator `t`, then anything. (1) `json_parser`
returns true with a token whose text, added to the tag buffer, is every byte
from `c0` up to, not including, the terminator, whatever the characters are;
its kind is `nonstring_kind` of the text; the state is SEARCH again and the
terminator is kept. (2) On the next call, the tag buffer emptied by the reader,
`json_parser` returns the terminator as a structural token of its own without
reading a character. (3) The kind is TRUE, FALSE or NULL when the text starts
with `true`, `false` or `null`, and NUMBER otherwise. (4) When the buffer ends
after `c0` and the characters `cs1`, before the terminator, `json_parser`
returns false and decides no kind, with the text read so far in the tag
buffer; resumed at the start of a buffer that holds the remaining characters
`cs2` and the terminator it returns the token with the same text and the same
kind as in (1). -/
theorem nonstring_token (pre post t c0 : Bytes) (cs : List Bytes) (j : JSONPARSER)
    (hc0 : is_char c0 = true) (hn : char_control c0 = JSON_CC_NONE)
    (hcs : ∀ c ∈ cs, is_char c = true ∧ is_terminator c = false)
    (ht : is_char t = true) (htt : is_terminator t = true)
    (hst : j.state = JSON_RS_SEARCH_OBJECT) (hsk : j.skipnextread = false)
    (herr : j.error = false) (hrp : j.readposition = pre.length) :
    json_parser_run (pre ++ chars_bytes (c0 :: cs) ++ t ++ post) j =
        (after_nonstring j (pre.length + (chars_bytes (c0 :: cs)).length + t.length) t
          (j.tagbuffer ++ chars_bytes (c0 :: cs)), true) ∧
      json_parser_run (pre ++ chars_bytes (c0 :: cs) ++ t ++ post)
          (after_nonstring j (pre.length + (chars_bytes (c0 :: cs)).length + t.length) t []) =
        ({ after_nonstring j (pre.length + (chars_bytes (c0 :: cs)).length + t.length) t [] with
            skipnextread := false, tagtype := terminator_kind t }, true) ∧
      (terminator_kind t = JSON_TT_ARRAY_CLOSE ∨ terminator_kind t = JSON_TT_OBJECT_CLOSE ∨
        terminator_kind t = JSON_TT_COMMA) ∧
      (∀ text : Bytes,
        (text.take 4 = ascii "true" → nonstring_kind text = JSON_TT_TRUE) ∧
        (text.take 5 = ascii "false" → nonstring_kind text = JSON_TT_FALSE) ∧
        (text.take 4 = ascii "null" → nonstring_kind text = JSON_TT_NULL) ∧
        (text.take 4 ≠ ascii "true" → text.take 5 ≠ ascii "false" →
          text.take 4 ≠ ascii "null" → nonstring_kind text = JSON_TT_NUMBER)) ∧
      (∀ cs1 cs2 : List Bytes, cs = cs1 ++ cs2 →
        (json_parser_run (pre ++ chars_bytes (c0 :: cs1)) j).2 = false ∧
        (json_parser_run (pre ++ chars_bytes (c0 :: cs1)) j).1.tagtype = JSON_TT_UNKNOWN ∧
        (json_parser_run (pre ++ chars_bytes (c0 :: cs1)) j).1.tagbuffer =
          j.tagbuffer ++ chars_bytes (c0 :: cs1) ∧
        (json_parser_run (pre ++ chars_bytes (c0 :: cs1)) j).1.readposition =
          (pre ++ chars_bytes (c0 :: cs1)).length ∧
        (json_parser_run (chars_bytes cs2 ++ t ++ post)
          { (json_parser_run (pre ++ chars_bytes (c0 :: cs1)) j).1 with
            readposition := 0 }).2 = true ∧
        (json_parser_run (chars_bytes cs2 ++ t ++ post)
          { (json_parser_run (pre ++ chars_bytes (c0 :: cs1)) j).1 with
            readposition := 0 }).1.tagbuffer = j.tagbuffer ++ chars_bytes (c0 :: cs) ∧
        (json_parser_run (chars_bytes cs2 ++ t ++ post)
          { (json_parser_run (pre ++ chars_bytes (c0 :: cs1)) j).1 with
            readposition := 0 }).1.tagtype =
          nonstring_kind (j.tagbuffer ++ chars_bytes (c0 :: cs))) := by
  refine ⟨json_parser_run_nonstring pre post t c0 cs j hc0 hn hcs ht htt hst hsk herr hrp,
    json_parser_run_terminator _ t _ htt rfl rfl rfl rfl, ?_, nonstring_kind_spec, ?_⟩
  · unfold terminator_kind
    rcases (is_terminator_control t).mp htt with h | h | h <;> simp [h]
  · intro cs1 cs2 hsplit
    have h1 : ∀ c ∈ cs1, is_char c = true ∧ is_terminator c = false :=
      fun c hc => hcs c (by rw [hsplit]; simp [hc])
    have h2 : ∀ c ∈ cs2, is_char c = true ∧ is_terminator c = false :=
      fun c hc => hcs c (by rw [hsplit]; simp [hc])
    obtain ⟨e1, e2, e3, e4, e5, e6, e7⟩ :=
      json_parser_run_nonstring_end pre c0 cs1 j hc0 hn h1 hst hsk herr hrp
    obtain ⟨f1, f2, f3, _⟩ := json_parser_run_resume post t cs2
      { (json_parser_run (pre ++ chars_bytes (c0 :: cs1)) j).1 with readposition := 0 }
      h2 ht htt e2 e3 e4 rfl
    have htext : (json_parser_run (pre ++ chars_bytes (c0 :: cs1)) j).1.tagbuffer ++
        chars_bytes cs2 = j.tagbuffer ++ chars_bytes (c0 :: cs) := by
      rw [e6, hsplit]
      simp [chars_bytes, chars_bytes_append, List.append_assoc]
    refine ⟨e1, e7, e6, e5, f1, ?_, ?_⟩
    · rw [f2]; exact htext
    · rw [f3]
      exact congrArg nonstring_kind htext

/-- Witness of C30: the token `true` before `]`, in the buffer `[true]`, and
split over the buffers `[tr` and `ue]`. -/
theorem nonstring_token_witness :
    (json_parser_run (ascii "[" ++ chars_bytes ([116] :: [[114], [117], [101]]) ++ [93] ++ [])
        { json_new_parser_state with readposition := 1 }).1.tagtype = JSON_TT_TRUE ∧
      (json_parser_run (chars_bytes [[117], [101]] ++ [93] ++ [])
        { (json_parser_run (ascii "[" ++ chars_bytes ([116] :: [[114]]))
            { json_new_parser_state with readposition := 1 }).1 with
          readposition := 0 }).1.tagbuffer = ascii "true" :=
  have h := nonstring_token (ascii "[") [] [93] [116] [[114], [117], [101]]
    { json_new_parser_state with readposition := 1 } (by decide) (by decide) (by decide)
    (by decide) (by decide) rfl rfl rfl rfl
  ⟨(congrArg (fun p => p.1.tagtype) h.1).trans (by decide),
    ((h.2.2.2.2 [[114]] [[117], [101]] rfl).2.2.2.2.2.1).trans (by decide)⟩

/-! ## Instances: polling, strings and split literals -/

/-- The polling loop at the query of `poll_script` after its POST. The driver
step of the first GET returns true, no row has been delivered, and the polling
interval is 1500 ms. -/
theorem polling_sleep_witness :
    (prestoclient_queryisrunning example_callbacks example_client
        (query_posted example_callbacks example_client poll_script).2
        (query_posted example_callbacks example_client poll_script).1).2.2 = true ∧
      poll_interval (prestoclient_queryisrunning example_callbacks example_client
        (query_posted example_callbacks example_client poll_script).2
        (query_posted example_callbacks example_client poll_script).1).1 = 1500 :=
  have h := polling_sleep example_callbacks example_client
    (query_posted example_callbacks example_client poll_script).2
    (query_posted example_callbacks example_client poll_script).1
    (by decide!) (by decide!) (ascii "http://h/n/1") (by decide!) (by decide)
    ((RowKeep.row_closed example_callbacks).lift_openuri PRESTOCLIENT_HTTP_REQUEST_TYPE_POST
      example_client poll_script new_prestoresult (new_prestoresult_row example_callbacks))
  ⟨by decide!, ((h.2.2.2 rfl).2).mpr (by decide!)⟩

/-- Witness of C29: in the buffer `{"a\"b":1}` the string that starts at the
first quote has the text `a\"b`, backslash and escaped quote kept; in the
buffer `{"\\"x"` the string has the text `\\` and ends at the quote after the
second backslash; a two-byte character is taken whole. -/
theorem string_token_witness :
    (json_parser_run
        (ascii "\x7b" ++ [34] ++ chars_bytes [[97], [92], [34], [98]] ++ [34] ++ ascii ":1\x7d")
        { json_new_parser_state with readposition := 1 }).1.tagbuffer = ascii "a\\\"b" ∧
      (json_parser_run (ascii "\x7b" ++ [34] ++ chars_bytes [[92], [92]] ++ [34] ++ ascii "x\"")
        { json_new_parser_state with readposition := 1 }).1.readposition = 5 ∧
      (json_parser_run (ascii "\x7b" ++ [34] ++ chars_bytes [[195, 169]] ++ [34] ++ [])
        { json_new_parser_state with readposition := 1 }).1.tagbuffer = [195, 169] :=
  ⟨((string_token (ascii "\x7b") (ascii ":1\x7d") [[97], [92], [34], [98]]
        { json_new_parser_state with readposition := 1 } (by decide) (by decide) rfl rfl rfl rfl
        rfl).2.1 rfl).trans (by decide),
    (congrArg (fun p => p.1.readposition)
      (string_token (ascii "\x7b") (ascii "x\"") [[92], [92]]
        { json_new_parser_state with readposition := 1 } (by decide) (by decide) rfl rfl rfl rfl
        rfl).1).trans (by decide),
    ((string_token (ascii "\x7b") [] [[195, 169]]
        { json_new_parser_state with readposition := 1 } (by decide) (by decide) rfl rfl rfl rfl
        rfl).2.1 rfl).trans (by decide)⟩

/-- The literal `true` split over two chunks reaches the row callback as the
same cell as in one chunk. -/
theorem split_literal_row :
    row_events (curl_deliver example_callbacks [split_literal_front, split_literal_back]
        new_prestoresult).1.trace = [Event.row [(ascii "1", false)] (-1)] ∧
      row_events (curl_deliver example_callbacks [split_literal_front ++ split_literal_back]
        new_prestoresult).1.trace = [Event.row [(ascii "1", false)] (-1)] := by
  constructor <;> decide!

/-! ## UTF-8 stepping -/

/-- The length `json_getnextchar` declares for a character, by the range of
its first byte. -/
theorem json_clength_ranges (b : Nat) (hb : b < 256) :
    json_clength b =
      (if b < 128 then 1 else if b < 224 then 2 else if b < 240 then 3 else 4) := by
  interval_cases b <;> rfl

/-- C31, counterexample. A zero byte at the read position, with a byte after
it in the buffer: its declared length would be 1 and one byte remains, but
`json_getnextchar` returns false and the read position stays where it is, at
the start of the buffer as well as in its middle. With `skipnextread` set the
function returns true and the read position stays at 0 although the byte `A`
there has length 1. And when the byte 0xC3, of declared length 2, is the last
of the buffer, the function returns false with the read position unchanged,
but the tokenizer is not unchanged: the declared length 2 has been recorded in
`clength`, which was 0. -/
theorem zero_byte_not_stepped :
    json_getnextchar [0, 65] json_new_parser_state = (json_new_parser_state, false) ∧
      json_getnextchar [65, 0, 66] { json_new_parser_state with readposition := 1 } =
        ({ json_new_parser_state with readposition := 1 }, false) ∧
      json_getnextchar [65] { json_new_parser_state with skipnextread := true } =
        (json_new_parser_state, true) ∧
      json_getnextchar [195] json_new_parser_state =
        ({ json_new_parser_state with clength := 2 }, false) ∧
      json_new_parser_state.clength = 0 := by
  refine ⟨?_, ?_, ?_, ?_, ?_⟩ <;> decide

/-- C31, as amended (UTF-8 stepping). (1) With `skipnextread` set,
`json_getnextchar` clears it and returns true; no byte is read and the read
position stays. (2) Otherwise, at the end of the buffer it returns false and
changes nothing. (3) Otherwise let `b` be the byte at the read position. The
declared length of `b` is 1 for `b < 0x80`, 2 for `0x80 <= b < 0xE0` (lead
bytes of two-byte characters and continuation bytes), 3 for
`0xE0 <= b < 0xF0` and 4 for `b >= 0xF0`. If `b` is zero the function returns
false and changes nothing. If `b` is not zero and fewer bytes than the
declared length remain, it returns false and changes nothing but the recorded
length `clength`: read position and read state are as before. If enough bytes
remain it returns true, the read position has advanced by exactly the declared
length, the current character is made of the bytes passed over, and its
control class is that of `b`. -/
theorem utf8_stepping (buf : Bytes) (j : JSONPARSER) :
    (j.skipnextread = true →
        json_getnextchar buf j = ({ j with skipnextread := false }, true)) ∧
      (j.skipnextread = false → buf.length ≤ j.readposition →
        json_getnextchar buf j = (j, false)) ∧
      (j.skipnextread = false → j.readposition < buf.length →
        buf.getD j.readposition 0 < 256 →
        (json_clength (buf.getD j.readposition 0) = 1 ↔ buf.getD j.readposition 0 < 128) ∧
        (json_clength (buf.getD j.readposition 0) = 2 ↔
          128 ≤ buf.getD j.readposition 0 ∧ buf.getD j.readposition 0 < 224) ∧
        (json_clength (buf.getD j.readposition 0) = 3 ↔
          224 ≤ buf.getD j.readposition 0 ∧ buf.getD j.readposition 0 < 240) ∧
        (json_clength (buf.getD j.readposition 0) = 4 ↔ 240 ≤ buf.getD j.readposition 0) ∧
        (buf.getD j.readposition 0 = 0 → json_getnextchar buf j = (j, false)) ∧
        (buf.getD j.readposition 0 ≠ 0 →
          buf.length < j.readposition + json_clength (buf.getD j.readposition 0) →
          json_getnextchar buf j =
            ({ j with clength := json_clength (buf.getD j.readposition 0) }, false)) ∧
        (buf.getD j.readposition 0 ≠ 0 →
          j.readposition + json_clength (buf.getD j.readposition 0) ≤ buf.length →
          json_getnextchar buf j =
            ({ j with
                clength := json_clength (buf.getD j.readposition 0)
                c := (buf.drop j.readposition).take (json_clength (buf.getD j.readposition 0))
                readposition := j.readposition + json_clength (buf.getD j.readposition 0)
                control := json_control (buf.getD j.readposition 0) }, true))) := by
  refine ⟨?_, ?_, ?_⟩
  · intro hs
    unfold json_getnextchar
    rw [if_pos hs]
  · intro hs hr
    unfold json_getnextchar
    rw [hs]
    simp only [Bool.false_eq_true, if_false]
    rw [if_pos]
    by_cases h : buf.length = 0
    · exact Or.inl h
    · exact Or.inr (Or.inl (by omega))
  · intro hs hr hb
    have hcl := json_clength_ranges _ hb
    refine ⟨?_, ?_, ?_, ?_, ?_, ?_, ?_⟩
    · rw [hcl]; split_ifs <;> constructor <;> intro h <;> omega
    · rw [hcl]; split_ifs <;> constructor <;> intro h <;> omega
    · rw [hcl]; split_ifs <;> constructor <;> intro h <;> omega
    · rw [hcl]; split_ifs <;> constructor <;> intro h <;> omega
    · intro h0
      unfold json_getnextchar
      rw [hs]
      simp only [Bool.false_eq_true, if_false]
      rw [if_pos (Or.inr (Or.inr h0))]
    · intro h0 hlt
      unfold json_getnextchar
      rw [hs]
      simp only [Bool.false_eq_true, if_false]
      rw [if_neg (by
        intro h
        rcases h with h | h | h
        · omega
        · omega
        · exact h0 h)]
      rw [if_pos (by omega)]
    · intro h0 hle
      unfold json_getnextchar
      rw [hs]
      simp only [Bool.false_eq_true, if_false]
      rw [if_neg (by
        intro h
        rcases h with h | h | h
        · omega
        · omega
        · exact h0 h)]
      rw [if_neg (by omega)]
      have hc : ((buf.drop j.readposition).take
          (json_clength (buf.getD j.readposition 0))).getD 0 0 = buf.getD j.readposition 0 := by
        have hpos := json_clength_pos (buf.getD j.readposition 0)
        generalize json_clength (buf.getD j.readposition 0) = n at hpos
        rw [List.getD_eq_getElem?_getD, List.getD_eq_getElem?_getD,
          List.getElem?_take_of_lt (by omega), List.getElem?_drop]
        simp
      rw [hc]

/-! ## A tokenizer failure and the feeds after it -/

/-- A chunk the byte sink does not take ends the delivery: the chunks after it
are not fed. -/
theorem curl_deliver_refused (cb : Callbacks) (chunk : Bytes) (more : List Bytes)
    (r : PRESTOCLIENT_RESULT) (h : (WriteCallback cb chunk r).2 ≠ chunk.length) :
    curl_deliver cb (chunk :: more) r = ((WriteCallback cb chunk r).1, false) := by
  unfold curl_deliver
  rcases hw : WriteCallback cb chunk r with ⟨r1, n⟩
  rw [hw] at h
  dsimp only at h ⊢
  rw [if_neg h]

/-- A transfer whose delivery was ended by the byte sink fails. -/
theorem curl_easy_perform_refused (cb : Callbacks) (resp : Response) (r : PRESTOCLIENT_RESULT)
    (h : (curl_deliver cb resp.chunks r).2 = false) :
    (curl_easy_perform cb (some resp) r).2 = CurlOutcome.failed := by
  unfold curl_easy_perform
  dsimp only
  rcases hd : curl_deliver cb resp.chunks r with ⟨r1, b⟩
  rw [hd] at h
  dsimp only at h
  subst h
  dsimp only
  split_ifs <;> rfl

/-- A failed transfer is not tried again. -/
theorem openuri_attempt_no_retry (cb : Callbacks) (t : E_HTTP_REQUEST_TYPES) (url : Bytes)
    (retrycount : Nat) (resp : Option Response) (r : PRESTOCLIENT_RESULT)
    (h : (curl_easy_perform cb resp
        { r with trace := r.trace ++ [Event.request t url] }).2 = CurlOutcome.failed) :
    (openuri_attempt cb t url retrycount resp r).2 = false := by
  unfold openuri_attempt
  rcases hp : curl_easy_perform cb resp
    { r with trace := r.trace ++ [Event.request t url] } with ⟨r1, out⟩
  rw [hp] at h
  dsimp only at h
  subst h
  dsimp only
  split_ifs <;> rfl

/-- C33, counterexample. The bytes `[}` are fed to the byte sink on a new
result: the `}` meets an array as the innermost open container. The lexer does
not set its error flag, `json_reader` returns true (the sink returns the chunk
length, 2) and the array has been removed from the stack. The same holds for
`{]`, and for a lone `}` on the empty stack, which changes nothing. -/
theorem mismatched_close_accepted :
    ((WriteCallback example_callbacks (ascii "[\x7d") new_prestoresult).2 = 2 ∧
        (WriteCallback example_callbacks (ascii "[\x7d") new_prestoresult).1.lexer.error = false ∧
        (WriteCallback example_callbacks (ascii "[\x7d") new_prestoresult).1.lexer.tagorder = []) ∧
      ((WriteCallback example_callbacks (ascii "\x7b]") new_prestoresult).2 = 2 ∧
        (WriteCallback example_callbacks (ascii "\x7b]") new_prestoresult).1.lexer.error = false ∧
        (WriteCallback example_callbacks (ascii "\x7b]") new_prestoresult).1.lexer.tagorder = []) ∧
      ((WriteCallback example_callbacks (ascii "\x7d") new_prestoresult).2 = 1 ∧
        (WriteCallback example_callbacks (ascii "\x7d") new_prestoresult).1.lexer.error = false ∧
        (WriteCallback example_callbacks (ascii "\x7d") new_prestoresult).1.lexer.tagorder = []) ∧
      (json_reader example_callbacks
          { new_prestoresult with lastresponse := ascii "[\x7d" }).2 = true ∧
      (json_reader example_callbacks
          { new_prestoresult with lastresponse := ascii "\x7b]" }).2 = true ∧
      (json_reader example_callbacks
          { new_prestoresult with lastresponse := ascii "\x7d" }).2 = true := by
  refine ⟨⟨?_, ?_, ?_⟩, ⟨?_, ?_, ?_⟩, ⟨?_, ?_, ?_⟩, ?_, ?_, ?_⟩ <;> decide!

/-- C33, as amended (a mismatched close is not detected). The lexer handles a
closing token, `}` or `]`, whatever the innermost open container is. It
removes the innermost container from the stack without looking at its kind,
and removes nothing when the stack is empty; it records the token kind and
changes nothing else. The lexer's error flag is as before, and `json_lexer`
returns true unless the flag was set before. -/
theorem close_pops_any (cb : Callbacks) (r : PRESTOCLIENT_RESULT)
    (h : r.json.tagtype = JSON_TT_OBJECT_CLOSE ∨ r.json.tagtype = JSON_TT_ARRAY_CLOSE) :
    (json_lexer cb r).1 =
        { r with lexer := { r.lexer with
            tagorder := r.lexer.tagorder.tail, previoustag := r.json.tagtype } } ∧
      (json_lexer cb r).1.lexer.error = r.lexer.error ∧
      (json_lexer cb r).2 = !r.lexer.error ∧
      (r.lexer.tagorder = [] → (json_lexer cb r).1.lexer.tagorder = []) ∧
      (∀ kind name rest, r.lexer.tagorder = (kind, name) :: rest →
        (json_lexer cb r).1.lexer.tagorder = rest) := by
  have hl : json_lexer cb r =
      ({ r with lexer := { r.lexer with
          tagorder := r.lexer.tagorder.tail, previoustag := r.json.tagtype } },
        !r.lexer.error) := by
    unfold json_lexer json_lexer_switch json_remove_lexer_last_tagorder
    rcases h with h | h <;> simp only [h]
  rw [hl]
  refine ⟨rfl, rfl, rfl, ?_, ?_⟩
  · intro he
    dsimp only
    rw [he]
    rfl
  · intro kind name rest he
    dsimp only
    rw [he]
    rfl

/-- Witness of C33 as amended: a `}` handled while the innermost open
container is an array inside the root object. The array is removed, the root
object stays, and `json_lexer` returns true. -/
theorem close_pops_any_witness :
    (json_lexer example_callbacks
        { new_prestoresult with
          json := { json_new_parser_state with tagtype := JSON_TT_OBJECT_CLOSE }
          lexer := { json_new_lexer with
            tagorder := [(JSON_TT_ARRAY_OPEN, ascii "a"), (JSON_TT_OBJECT_OPEN, [])] } }).1.lexer.tagorder =
        [(JSON_TT_OBJECT_OPEN, [])] ∧
      (json_lexer example_callbacks
        { new_prestoresult with
          json := { json_new_parser_state with tagtype := JSON_TT_OBJECT_CLOSE }
          lexer := { json_new_lexer with
            tagorder := [(JSON_TT_ARRAY_OPEN, ascii "a"), (JSON_TT_OBJECT_OPEN, [])] } }).2 = true :=
  have h := close_pops_any example_callbacks
    { new_prestoresult with
      json := { json_new_parser_state with tagtype := JSON_TT_OBJECT_CLOSE }
      lexer := { json_new_lexer with
        tagorder := [(JSON_TT_ARRAY_OPEN, ascii "a"), (JSON_TT_OBJECT_OPEN, [])] } } (Or.inl rfl)
  ⟨h.2.2.2.2 JSON_TT_ARRAY_OPEN (ascii "a") [(JSON_TT_OBJECT_OPEN, [])] rfl, h.2.2.1⟩

/-! ## The retry loop -/

/-- Every attempt of `openuri` performs exactly one request. -/
theorem openuri_attempt_requests (cb : Callbacks) (t : E_HTTP_REQUEST_TYPES) (url : Bytes)
    (retrycount : Nat) (resp : Option Response) (r : PRESTOCLIENT_RESULT) :
    request_count (openuri_attempt cb t url retrycount resp r).1.trace =
      request_count r.trace + 1 := by
  have h := (openuri_attempt_events cb t url retrycount resp r).1
  rw [← request_count_net (openuri_attempt cb t url retrycount resp r).1.trace,
    ← request_count_net r.trace]
  rcases h with h | h <;> rw [h, request_count_append] <;> rfl

/-- What an attempt of `openuri` tells about its transfer: it asks for another
attempt only after an answer 503 with fewer than six attempts made, leaving the
error code alone, and it sets `PRESTOCLIENT_RESULT_MAX_RETRIES_REACHED` only
after an answer 503 to the sixth or a later attempt. -/
theorem openuri_attempt_cases (cb : Callbacks) (t : E_HTTP_REQUEST_TYPES) (url : Bytes)
    (retrycount : Nat) (resp : Option Response) (r : PRESTOCLIENT_RESULT)
    (hne : r.errorcode ≠ PRESTOCLIENT_RESULT_MAX_RETRIES_REACHED) :
    ((openuri_attempt cb t url retrycount resp r).2 = true →
        (curl_easy_perform cb resp { r with trace := r.trace ++ [Event.request t url] }).2 =
          CurlOutcome.http PRESTOCLIENT_CURL_EXPECT_HTTP_BUSY ∧
        (curl_easy_perform cb resp
          { r with trace := r.trace ++ [Event.request t url] }).1.fault = false ∧
        retrycount ≤ PRESTOCLIENT_MAXIMUMRETRIES ∧
        (openuri_attempt cb t url retrycount resp r).1.errorcode = r.errorcode) ∧
      ((openuri_attempt cb t url retrycount resp r).2 = false →
        (openuri_attempt cb t url retrycount resp r).1.errorcode =
          PRESTOCLIENT_RESULT_MAX_RETRIES_REACHED →
        (curl_easy_perform cb resp { r with trace := r.trace ++ [Event.request t url] }).2 =
          CurlOutcome.http PRESTOCLIENT_CURL_EXPECT_HTTP_BUSY ∧
        (curl_easy_perform cb resp
          { r with trace := r.trace ++ [Event.request t url] }).1.fault = false ∧
        PRESTOCLIENT_MAXIMUMRETRIES < retrycount) := by
  have he := (curl_easy_perform_net cb resp
    { r with trace := r.trace ++ [Event.request t url] }).2
  unfold openuri_attempt
  rcases hp : curl_easy_perform cb resp
    { r with trace := r.trace ++ [Event.request t url] } with ⟨r1, out⟩
  rw [hp] at he
  dsimp only at he
  cases out with
  | failed =>
    dsimp only
    split_ifs
    · refine ⟨fun h => (by cases h), fun _ h => ?_⟩
      rw [he] at h
      exact absurd h hne
    · refine ⟨fun h => (by cases h), fun _ h => ?_⟩
      cases h
  | http code =>
    dsimp only
    split_ifs with h1 h2 h3 h4
    · refine ⟨fun h => (by cases h), fun _ h => ?_⟩
      rw [he] at h
      exact absurd h hne
    · refine ⟨fun h => (by cases h), fun _ h => ?_⟩
      rw [he] at h
      exact absurd h hne
    · refine ⟨fun h => (by cases h), fun _ _ => ?_⟩
      exact ⟨by rw [h3], by simpa using h1, h4⟩
    · refine ⟨fun _ => ?_, fun h => (by cases h)⟩
      refine ⟨by rw [h3], by simpa using h1, by omega, ?_⟩
      unfold util_sleep
      exact he
    · refine ⟨fun h => (by cases h), fun _ h => ?_⟩
      cases h

/-- The retry loop started with `rc <= 5` attempts made: it uses up at most
`6 - rc` transfers of the script and performs at least one and at most
`6 - rc` requests. -/
theorem openuri_loop_bounded (cb : Callbacks) (t : E_HTTP_REQUEST_TYPES) (url : Bytes) :
    ∀ (script : List Response) (rc : Nat) (r : PRESTOCLIENT_RESULT), rc ≤ 5 →
      (∃ k, k ≤ 6 - rc ∧ (openuri_loop cb t url rc script r).2 = script.drop k) ∧
        request_count r.trace + 1 ≤ request_count (openuri_loop cb t url rc script r).1.trace ∧
        request_count (openuri_loop cb t url rc script r).1.trace ≤
          request_count r.trace + (6 - rc) := by
  intro script
  induction script with
  | nil =>
    intro rc r hrc
    unfold openuri_loop
    rw [openuri_attempt_requests]
    exact ⟨⟨0, by omega, rfl⟩, le_refl _, by omega⟩
  | cons resp rest ih =>
    intro rc r hrc
    have hreq := openuri_attempt_requests cb t url (rc + 1) (some resp) r
    have hev := (openuri_attempt_events cb t url (rc + 1) (some resp) r).2
    unfold openuri_loop
    rcases ha : openuri_attempt cb t url (rc + 1) (some resp) r with ⟨r1, b⟩
    rw [ha] at hreq hev
    dsimp only at hreq hev ⊢
    cases b with
    | false =>
      dsimp only
      exact ⟨⟨1, by omega, rfl⟩, by omega, by omega⟩
    | true =>
      dsimp only
      have hle : rc + 1 ≤ 5 := (hev rfl).2
      obtain ⟨⟨k, hk, hdrop⟩, hlo, hhi⟩ := ih (rc + 1) r1 hle
      refine ⟨⟨k + 1, by omega, ?_⟩, by omega, by omega⟩
      rw [hdrop]
      rfl

/-- The retry loop gives up with `PRESTOCLIENT_RESULT_MAX_RETRIES_REACHED`
only when every transfer up to the sixth attempt was answered with 503. -/
theorem openuri_loop_exhausted (cb : Callbacks) (t : E_HTTP_REQUEST_TYPES) (url : Bytes) :
    ∀ (script : List Response) (rc : Nat) (r : PRESTOCLIENT_RESULT), rc ≤ 5 →
      r.errorcode ≠ PRESTOCLIENT_RESULT_MAX_RETRIES_REACHED →
      (openuri_loop cb t url rc script r).1.errorcode = PRESTOCLIENT_RESULT_MAX_RETRIES_REACHED →
      openuri_answers cb t url (List.replicate (6 - rc) PRESTOCLIENT_CURL_EXPECT_HTTP_BUSY) rc
        script r := by
  intro script
  induction script with
  | nil =>
    intro rc r hrc hne h
    exfalso
    have hc := openuri_attempt_cases cb t url (rc + 1) none r hne
    unfold openuri_loop at h
    dsimp only at h
    by_cases hb : (openuri_attempt cb t url (rc + 1) none r).2 = true
    · have h1 := (hc.1 hb).1
      obtain ⟨rs, hrs, _⟩ := curl_easy_perform_http cb none _ _ h1
      exact Option.noConfusion hrs
    · have hb' : (openuri_attempt cb t url (rc + 1) none r).2 = false := by simpa using hb
      have h1 := (hc.2 hb' h).1
      obtain ⟨rs, hrs, _⟩ := curl_easy_perform_http cb none _ _ h1
      exact Option.noConfusion hrs
  | cons resp rest ih =>
    intro rc r hrc hne h
    have hc := openuri_attempt_cases cb t url (rc + 1) (some resp) r hne
    unfold openuri_loop at h
    have hk : 6 - rc = (5 - rc) + 1 := by omega
    rw [hk, List.replicate_succ]
    unfold openuri_answers
    rcases ha : openuri_attempt cb t url (rc + 1) (some resp) r with ⟨r1, b⟩
    rw [ha] at h hc
    dsimp only at h hc ⊢
    cases b with
    | true =>
      dsimp only at h
      obtain ⟨h1, h2, h3, h4⟩ := hc.1 rfl
      have h3' : rc + 1 ≤ 5 := h3
      refine ⟨h1, h2, ?_⟩
      have hi := ih (rc + 1) r1 h3' (by rw [h4]; exact hne) h
      have hk2 : 6 - (rc + 1) = 5 - rc := by omega
      rw [hk2] at hi
      exact hi
    | false =>
      dsimp only at h
      obtain ⟨h1, h2, h3⟩ := hc.2 rfl h
      have h3' : 5 < rc + 1 := h3
      have hrc5 : 5 - rc = 0 := by omega
      refine ⟨h1, h2, ?_⟩
      rw [hrc5]
      simp [openuri_answers]

/-- C35 (the retry loop always ends). A request of `openuri` on a live result
with its URI argument present, for a script of any length and content.
`openuri` is a total function: it returns for every script. It uses up at most
six transfers of the script, whatever the length of the script and however
many of its transfers are answered with 503, and it performs at least one and
at most six requests. It returns `PRESTOCLIENT_RESULT_MAX_RETRIES_REACHED`
exactly when the first six transfers of the script are answered with 503 (each
a completed transfer with HTTP code 503), and then it has performed exactly
six requests and used up exactly six transfers. -/
theorem retry_loop_ends (cb : Callbacks) (t : E_HTTP_REQUEST_TYPES) (client : PRESTOCLIENT)
    (script : List Response) (r : PRESTOCLIENT_RESULT) (hf : r.fault = false)
    (hin : ¬ (t ≠ PRESTOCLIENT_HTTP_REQUEST_TYPE_POST ∧ openuri_in_uri t r = none)) :
    (∃ k, k ≤ 6 ∧ (openuri cb t client script r).2 = script.drop k) ∧
      request_count r.trace + 1 ≤ request_count (openuri cb t client script r).1.trace ∧
      request_count (openuri cb t client script r).1.trace ≤ request_count r.trace + 6 ∧
      ((openuri cb t client script r).1.errorcode = PRESTOCLIENT_RESULT_MAX_RETRIES_REACHED ↔
        openuri_answers cb t (openuri_url t client r)
          (List.replicate 6 PRESTOCLIENT_CURL_EXPECT_HTTP_BUSY) 0 script (openuri_setup t r)) ∧
      ((openuri cb t client script r).1.errorcode = PRESTOCLIENT_RESULT_MAX_RETRIES_REACHED →
        request_count (openuri cb t client script r).1.trace = request_count r.trace + 6 ∧
        (openuri cb t client script r).2 = script.drop 6) := by
  have hs := openuri_setup_fields t r
  have hb := openuri_loop_bounded cb t (openuri_url t client r) script 0 (openuri_setup t r)
    (by omega)
  have hex : openuri_answers cb t (openuri_url t client r)
      (List.replicate 6 PRESTOCLIENT_CURL_EXPECT_HTTP_BUSY) 0 script (openuri_setup t r) →
      (openuri_loop cb t (openuri_url t client r) 0 script (openuri_setup t r)).1.errorcode =
          PRESTOCLIENT_RESULT_MAX_RETRIES_REACHED ∧
        request_count (openuri_loop cb t (openuri_url t client r) 0 script
          (openuri_setup t r)).1.trace = request_count r.trace + 6 ∧
        (openuri_loop cb t (openuri_url t client r) 0 script (openuri_setup t r)).2 =
          script.drop 6 := by
    intro ha
    obtain ⟨e1, e2, e3⟩ := openuri_loop_exhaust cb t (openuri_url t client r) 6 0 script
      (openuri_setup t r) (by omega) (by omega) ha
    refine ⟨e1, ?_, e3⟩
    rw [← request_count_net, e2, request_count_append, request_count_retry, request_count_net,
      hs.2.1]
  have hconv := openuri_loop_exhausted cb t (openuri_url t client r) script 0 (openuri_setup t r)
    (by omega) (by rw [hs.1]; exact fun h => E_RESULTCODES.noConfusion h)
  rw [openuri_eq_loop cb t client script r hf hin]
  rw [hs.2.1] at hb
  refine ⟨hb.1, hb.2.1, hb.2.2, ⟨hconv, fun ha => (hex ha).1⟩, fun h => ?_⟩
  exact (hex (hconv h)).2

/-- Witness of C35: the POST of a query to a server that answers 503 ten
times. `openuri` gives up after six requests, four transfers of the script are
left, and the error code is `PRESTOCLIENT_RESULT_MAX_RETRIES_REACHED`. -/
theorem retry_loop_ends_witness :
    (openuri example_callbacks PRESTOCLIENT_HTTP_REQUEST_TYPE_POST example_client
        (List.replicate 10 reply_busy) new_prestoresult).1.errorcode =
        PRESTOCLIENT_RESULT_MAX_RETRIES_REACHED ∧
      request_count (openuri example_callbacks PRESTOCLIENT_HTTP_REQUEST_TYPE_POST example_client
        (List.replicate 10 reply_busy) new_prestoresult).1.trace = 6 ∧
      (openuri example_callbacks PRESTOCLIENT_HTTP_REQUEST_TYPE_POST example_client
        (List.replicate 10 reply_busy) new_prestoresult).2 = List.replicate 4 reply_busy :=
  have h := retry_loop_ends example_callbacks PRESTOCLIENT_HTTP_REQUEST_TYPE_POST example_client
    (List.replicate 10 reply_busy) new_prestoresult rfl (by decide)
  have hm := h.2.2.2.1.mpr (by decide!)
  ⟨hm, (h.2.2.2.2 hm).1, (h.2.2.2.2 hm).2⟩

/-! ## The cursor stays in step with the columns -/

/-- The invariant only looks at the lexer's error flag, the fault flag, the
cursor and the column count. -/
theorem LexInv.inv_of_core {r r' : PRESTOCLIENT_RESULT} (h : LexInv r)
    (he : r'.lexer.error = r.lexer.error) (hf : r'.fault = false → r.fault = false)
    (hc : r'.currentdatacolumn = r.currentdatacolumn)
    (hn : r'.columns.length = r.columns.length) : LexInv r' := by
  refine ⟨by rw [he]; exact h.1, fun hf' => ?_⟩
  have h2 := h.2 (hf hf')
  unfold CellInv at h2 ⊢
  rw [hc, hn]
  exact h2

theorem new_prestoresult_lexinv : LexInv new_prestoresult :=
  ⟨rfl, fun _ => Or.inl rfl⟩

theorem call_write_core (cb : Callbacks) (r : PRESTOCLIENT_RESULT) :
    (call_write cb r).fault = r.fault ∧ (call_write cb r).columns = r.columns ∧
      (call_write cb r).currentdatacolumn = r.currentdatacolumn ∧
      (call_write cb r).lexer = r.lexer := by
  unfold call_write
  cases cb.write_callback_function <;> exact ⟨rfl, rfl, rfl, rfl⟩

theorem call_describe_core (cb : Callbacks) (r : PRESTOCLIENT_RESULT) :
    (call_describe cb r).fault = r.fault ∧ (call_describe cb r).columns = r.columns ∧
      (call_describe cb r).currentdatacolumn = r.currentdatacolumn ∧
      (call_describe cb r).lexer = r.lexer := by
  unfold call_describe
  cases cb.describe_callback_function <;> exact ⟨rfl, rfl, rfl, rfl⟩

/-- The data branch of the projector, whatever the cursor: the lexer is left
alone, the column count stays, and a fault stays. -/
theorem extract_data_general (cb : Callbacks) (r : PRESTOCLIENT_RESULT) :
    (extract_data cb r).lexer = r.lexer ∧
      (extract_data cb r).columns.length = r.columns.length ∧
      (r.fault = true → (extract_data cb r).fault = true) := by
  obtain ⟨hcols, _, hlex, _, hfault, _⟩ := extract_data_header_columns cb r
  unfold extract_data
  generalize extract_data_header cb r = r1 at *
  dsimp only
  split_ifs
  · exact ⟨hlex, by rw [hcols], fun _ => rfl⟩
  · split
    · exact ⟨hlex, by rw [hcols], fun _ => rfl⟩
    · split_ifs
      · obtain ⟨a, b, _, d⟩ := call_write_core cb
          { r1 with
            currentdatacolumn := -1
            dataavailable := true
            columns := r1.columns.set (r1.currentdatacolumn + 1).toNat
              (extract_data_field ‹_› r1.json.tagtype r1.lexer.value) }
        refine ⟨?_, ?_, ?_⟩
        · rw [d]; exact hlex
        · rw [b]; simp [hcols]
        · intro h; rw [a]; show r1.fault = true; rw [hfault]; exact h
      · refine ⟨hlex, by simp [hcols], ?_⟩
        intro h; show r1.fault = true; rw [hfault]; exact h

/-- The data branch of the projector with the cursor at `k - 1` and a column
`k`: the cell of column `k` is written, no fault arises, and the cursor moves
to `k`, or back to -1 when column `k` is the last one. -/
theorem extract_data_cell (cb : Callbacks) (r : PRESTOCLIENT_RESULT) (k : Nat)
    (hcur : r.currentdatacolumn = (k : Int) - 1) (hk : k < r.columns.length) :
    ∃ f, r.columns[k]? = some f ∧
      (extract_data cb r).columns =
        r.columns.set k (extract_data_field f r.json.tagtype r.lexer.value) ∧
      (extract_data cb r).currentdatacolumn =
        (if k + 1 = r.columns.length then -1 else (k : Int)) ∧
      (extract_data cb r).fault = r.fault := by
  by_cases hl : k + 1 = r.columns.length
  · obtain ⟨hcols, hc, hlex, hjson, hfault, hav⟩ := extract_data_header_columns cb r
    refine ⟨r.columns[k], by simp [hk], ?_⟩
    rw [if_pos hl]
    unfold extract_data
    generalize extract_data_header cb r = r1 at *
    have hcol : r1.currentdatacolumn + 1 = (k : Int) := by rw [hc, hcur]; omega
    have hget : r1.columns[(r1.currentdatacolumn + 1).toNat]? = some r.columns[k] := by
      rw [hcol, hcols]; simp [hk]
    dsimp only
    rw [if_neg (by rw [hcol]; omega)]
    simp only [hget]
    rw [if_pos (by rw [hcol]; simp only [List.length_set]; rw [hcols]; omega)]
    obtain ⟨a, b, c, _⟩ := call_write_core cb
      { r1 with
        currentdatacolumn := -1
        dataavailable := true
        columns := r1.columns.set (r1.currentdatacolumn + 1).toNat
          (extract_data_field r.columns[k] r1.json.tagtype r1.lexer.value) }
    refine ⟨?_, ?_, ?_⟩
    · rw [b]
      show r1.columns.set _ _ = _
      rw [hcol, hcols, hjson, hlex]; rfl
    · rw [c]
    · rw [a]; exact hfault
  · obtain ⟨f, h1, h2, h3, _, h5, _⟩ := extract_data_mid cb r k hcur (by omega)
    exact ⟨f, h1, h2, by rw [if_neg hl]; exact h3, h5⟩

/-- The data branch of the projector with the cursor at -1 and no column: the
cell to write lies outside the column array. -/
theorem extract_data_no_column (cb : Callbacks) (r : PRESTOCLIENT_RESULT)
    (hcur : r.currentdatacolumn = -1) (hn : r.columns.length = 0) :
    (extract_data cb r).fault = true := by
  obtain ⟨hcols, hc, _, _, _, _⟩ := extract_data_header_columns cb r
  unfold extract_data
  generalize extract_data_header cb r = r1 at *
  have hcol : r1.currentdatacolumn + 1 = 0 := by rw [hc, hcur]; rfl
  have hnil : r1.columns = [] := by rw [hcols]; exact List.length_eq_zero.mp hn
  dsimp only
  rw [if_neg (by rw [hcol]; omega)]
  have hget : r1.columns[(r1.currentdatacolumn + 1).toNat]? = none := by
    rw [hnil]; rfl
  simp only [hget]

/-- The data branch of the projector on a result whose cursor is in step with
the columns: a cell inside the column array is written and the cursor is in
step again, unless there is no column at all, and only then a fault arises. -/
theorem extract_data_inv (cb : Callbacks) (r : PRESTOCLIENT_RESULT) (h : CellInv r) :
    (0 < r.columns.length →
        CellInv (extract_data cb r) ∧ (extract_data cb r).fault = r.fault) ∧
      (r.columns.length = 0 → (extract_data cb r).fault = true) := by
  have hlen := (extract_data_general cb r).2.1
  refine ⟨fun hpos => ?_, fun h0 => ?_⟩
  · have hk : ∃ k : Nat, r.currentdatacolumn = (k : Int) - 1 ∧ k < r.columns.length := by
      rcases h with h | ⟨h1, h2⟩
      · exact ⟨0, by rw [h]; rfl, hpos⟩
      · exact ⟨(r.currentdatacolumn + 1).toNat, by omega, by omega⟩
    obtain ⟨k, hcur, hlt⟩ := hk
    obtain ⟨f, _, _, hc, hf⟩ := extract_data_cell cb r k hcur hlt
    refine ⟨?_, hf⟩
    unfold CellInv
    rw [hc, hlen]
    split_ifs with hl
    · exact Or.inl rfl
    · exact Or.inr ⟨by omega, by omega⟩
  · rcases h with h | ⟨h1, h2⟩
    · exact extract_data_no_column cb r h h0
    · omega

theorem extract_column_core (r : PRESTOCLIENT_RESULT) :
    (extract_column r).fault = r.fault ∧ (extract_column r).lexer = r.lexer ∧
      (extract_column r).currentdatacolumn = r.currentdatacolumn := by
  unfold extract_column
  split_ifs
  · exact ⟨rfl, rfl, rfl⟩
  · split <;> exact ⟨rfl, rfl, rfl⟩
  · exact ⟨rfl, rfl, rfl⟩

/-- The if-chain of the projector leaves the lexer alone and keeps a fault. -/
theorem json_extract_dispatch_lexer (cb : Callbacks) (r : PRESTOCLIENT_RESULT) :
    (json_extract_dispatch cb r).lexer = r.lexer ∧
      (r.fault = true → (json_extract_dispatch cb r).fault = true) := by
  unfold json_extract_dispatch
  dsimp only
  split_ifs
  · exact ⟨(extract_data_general cb r).1, (extract_data_general cb r).2.2⟩
  · exact ⟨rfl, id⟩
  · exact ⟨rfl, id⟩
  · exact ⟨rfl, id⟩
  · exact ⟨rfl, id⟩
  · exact ⟨rfl, id⟩
  · exact ⟨rfl, id⟩
  · exact ⟨(extract_column_core r).2.1, fun h => by rw [(extract_column_core r).1]; exact h⟩
  · exact ⟨rfl, id⟩

/-- The if-chain of the projector on a live result whose cursor is in step
with the columns: the cursor is in step afterwards, unless a fault has arisen,
and a fault arises only in the data branch, with no column at all. -/
theorem json_extract_dispatch_cell (cb : Callbacks) (r : PRESTOCLIENT_RESULT)
    (hf : r.fault = false) (h : CellInv r) :
    ((json_extract_dispatch cb r).fault = false → CellInv (json_extract_dispatch cb r)) ∧
      ((json_extract_dispatch cb r).fault = true →
        (r.lexer.tagorder.length > 2 ∧ tagordername_back r.lexer 2 = ascii "data") ∧
          r.columns.length = 0) := by
  have hcol := extract_column_core r
  have hcl := (extract_column_data r).1
  unfold json_extract_dispatch
  dsimp only
  split_ifs with h1
  · have hi := extract_data_inv cb r h
    by_cases hn : 0 < r.columns.length
    · obtain ⟨a, b⟩ := hi.1 hn
      refine ⟨fun _ => a, fun hc => ?_⟩
      rw [b, hf] at hc
      cases hc
    · have h0 : r.columns.length = 0 := by omega
      have hb := hi.2 h0
      refine ⟨fun hc => ?_, fun _ => ⟨h1, h0⟩⟩
      rw [hb] at hc
      cases hc
  · exact ⟨fun _ => h, fun hc => by rw [hf] at hc; cases hc⟩
  · exact ⟨fun _ => h, fun hc => by rw [hf] at hc; cases hc⟩
  · exact ⟨fun _ => h, fun hc => by rw [hf] at hc; cases hc⟩
  · exact ⟨fun _ => h, fun hc => by rw [hf] at hc; cases hc⟩
  · exact ⟨fun _ => h, fun hc => by rw [hf] at hc; cases hc⟩
  · exact ⟨fun _ => h, fun hc => by rw [hf] at hc; cases hc⟩
  · refine ⟨fun _ => ?_, fun hc => by rw [hcol.1, hf] at hc; cases hc⟩
    unfold CellInv at h ⊢
    rw [hcol.2.2]
    rcases h with h | ⟨a, b⟩
    · exact Or.inl h
    · exact Or.inr ⟨a, by omega⟩
  · exact ⟨fun _ => h, fun hc => by rw [hf] at hc; cases hc⟩

theorem json_extract_dispatch_inv (cb : Callbacks) (r : PRESTOCLIENT_RESULT) (h : LexInv r) :
    LexInv (json_extract_dispatch cb r) := by
  obtain ⟨hl, hm⟩ := json_extract_dispatch_lexer cb r
  refine ⟨by rw [hl]; exact h.1, fun hf' => ?_⟩
  have hf : r.fault = false := by
    cases hr : r.fault
    · rfl
    · rw [hm hr] at hf'
      cases hf'
  exact (json_extract_dispatch_cell cb r hf (h.2 hf)).1 hf'

theorem lexer_value_inv (cb : Callbacks) (r : PRESTOCLIENT_RESULT) (u : Option Bytes)
    (h : LexInv r) : LexInv (lexer_value cb r u) := by
  unfold lexer_value json_extract_variables
  dsimp only
  have h1 : LexInv { r with
      lexer := { r.lexer with value := u.getD r.json.tagbuffer }
      json := { r.json with tagbuffer := [] } } := h.inv_of_core rfl id rfl rfl
  exact (json_extract_dispatch_inv cb _ h1).inv_of_core rfl id rfl rfl

/-- The lexer on a token of one of the eleven real kinds: the error flag is
not touched, the invariant is kept and `json_lexer` returns true unless the
flag was set before. -/
theorem json_lexer_inv (cb : Callbacks) (r : PRESTOCLIENT_RESULT)
    (ht : r.json.tagtype ≠ JSON_TT_UNKNOWN) :
    (json_lexer cb r).1.lexer.error = r.lexer.error ∧
      (json_lexer cb r).2 = !r.lexer.error ∧
      (LexInv r → LexInv (json_lexer cb r).1) := by
  have hv : ∀ u, (lexer_value cb r u).lexer.error = r.lexer.error := by
    intro u
    unfold lexer_value json_extract_variables
    dsimp only
    rw [(json_extract_dispatch_lexer cb _).1]
  have hs : (json_lexer_switch cb r).lexer.error = r.lexer.error ∧
      (LexInv r → LexInv (json_lexer_switch cb r)) := by
    unfold json_lexer_switch
    split
    · rename_i h0
      exact absurd h0 ht
    · exact ⟨rfl, fun h => h.inv_of_core rfl id rfl rfl⟩
    · exact ⟨rfl, fun h => h.inv_of_core rfl id rfl rfl⟩
    · exact ⟨rfl, id⟩
    · exact ⟨rfl, id⟩
    · exact ⟨rfl, fun h => h.inv_of_core rfl id rfl rfl⟩
    · exact ⟨rfl, fun h => h.inv_of_core rfl id rfl rfl⟩
    · split_ifs
      · exact ⟨hv _, lexer_value_inv cb r _⟩
      · exact ⟨rfl, fun h => h.inv_of_core rfl id rfl rfl⟩
    · exact ⟨hv _, lexer_value_inv cb r _⟩
    · exact ⟨hv _, lexer_value_inv cb r _⟩
    · exact ⟨hv _, lexer_value_inv cb r _⟩
    · exact ⟨hv _, lexer_value_inv cb r _⟩
  unfold json_lexer
  dsimp only
  refine ⟨hs.1, by rw [hs.1], fun h => (hs.2 h).inv_of_core rfl id rfl rfl⟩

/-- A pass of the tokenizer that ends a token has set one of the eleven real
token kinds, and has left the error flag alone. -/
theorem json_parser_step_kind (j j2 : JSONPARSER) (h : json_parser_step j = (j2, true)) :
    j2.tagtype ≠ JSON_TT_UNKNOWN ∧ j2.error = j.error := by
  unfold json_parser_step at h
  split at h
  · split at h <;>
      first
      | (simp only [Prod.mk.injEq, Bool.false_eq_true, and_false] at h; done)
      | (obtain ⟨h1, _⟩ := Prod.mk.inj h
         subst h1
         exact ⟨fun hc => E_JSON_TAGTYPES.noConfusion hc, rfl⟩)
  · split_ifs at h <;>
      first
      | (simp only [Prod.mk.injEq, Bool.false_eq_true, and_false] at h; done)
      | (obtain ⟨h1, _⟩ := Prod.mk.inj h
         subst h1
         exact ⟨fun hc => E_JSON_TAGTYPES.noConfusion hc, rfl⟩)
  · split_ifs at h <;>
      first
      | (simp only [Prod.mk.injEq, Bool.false_eq_true, and_false] at h; done)
      | (obtain ⟨h1, _⟩ := Prod.mk.inj h
         subst h1
         exact ⟨fun hc => E_JSON_TAGTYPES.noConfusion hc, rfl⟩)

/-- When the loop of `json_parser` returns true, the token kind is one of the
eleven real kinds and the error flag is not set. -/
theorem json_parser_loop_kind (buf : Bytes) :
    ∀ (fuel : Nat) (j j' : JSONPARSER), json_parser_loop buf fuel j = (j', true) →
      j'.tagtype ≠ JSON_TT_UNKNOWN ∧ j'.error = false := by
  intro fuel
  induction fuel with
  | zero =>
    intro j j' h
    unfold json_parser_loop at h
    cases (Prod.mk.inj h).2
  | succ n ih =>
    intro j j' h
    unfold json_parser_loop at h
    split_ifs at h with he
    · cases (Prod.mk.inj h).2
    · rcases hg : json_getnextchar buf j with ⟨j1, b⟩
      rw [hg] at h
      cases b with
      | false => cases (Prod.mk.inj h).2
      | true =>
        dsimp only at h
        rcases hs : json_parser_step j1 with ⟨j2, c⟩
        rw [hs] at h
        cases c with
        | true =>
          dsimp only at h
          obtain ⟨h1, h2⟩ := Prod.mk.inj h
          subst h1
          refine ⟨(json_parser_step_kind j1 j2 hs).1, ?_⟩
          simpa using h2
        | false =>
          dsimp only at h
          exact ih j2 j' h

/-- When `json_parser` returns true, the token kind is one of the eleven real
kinds, never UNKNOWN, and the error flag is not set. -/
theorem json_parser_run_kind (buf : Bytes) (j j' : JSONPARSER)
    (h : json_parser_run buf j = (j', true)) :
    j'.tagtype ≠ JSON_TT_UNKNOWN ∧ j'.error = false :=
  json_parser_loop_kind buf _ _ j' h

/-- The loop of `json_reader` keeps the invariant. -/
theorem json_reader_loop_inv (cb : Callbacks) :
    ∀ (fuel : Nat) (r : PRESTOCLIENT_RESULT), LexInv r → LexInv (json_reader_loop cb fuel r) := by
  intro fuel
  induction fuel with
  | zero => intro r h; exact h
  | succ n ih =>
    intro r h
    unfold json_reader_loop
    split_ifs
    · exact h
    · split
      · exact h.inv_of_core rfl id rfl rfl
      · rename_i j hj
        have hk := (json_parser_run_kind _ _ j hj).1
        have h1 : LexInv { r with json := j } := h.inv_of_core rfl id rfl rfl
        have hl := (json_lexer_inv cb { r with json := j } hk).2.2 h1
        split
        · rename_i r2 hr2
          rw [hr2] at hl
          exact hl
        · rename_i r2 hr2
          rw [hr2] at hl
          exact ih _ (hl.inv_of_core rfl id rfl rfl)

theorem json_reader_shift_inv (r : PRESTOCLIENT_RESULT) (h : LexInv r) :
    LexInv (json_reader_shift r) := by
  unfold json_reader_shift
  dsimp only
  split_ifs
  · exact h.inv_of_core rfl id rfl rfl
  · exact h.inv_of_core rfl id rfl rfl
  · exact ⟨h.1, fun hc => by cases hc⟩

theorem json_reader_inv (cb : Callbacks) (r : PRESTOCLIENT_RESULT) (h : LexInv r) :
    LexInv (json_reader cb r).1 := by
  have a := json_reader_loop_inv cb (json_measure r.lastresponse r.json + 1) r h
  unfold json_reader
  dsimp only
  split_ifs
  · exact a
  · exact json_reader_shift_inv _ a

theorem WriteCallback_inv (cb : Callbacks) (contents : Bytes) (r : PRESTOCLIENT_RESULT)
    (h : LexInv r) : LexInv (WriteCallback cb contents r).1 := by
  unfold WriteCallback
  split_ifs
  · exact h
  · have a := json_reader_inv cb { r with lastresponse := r.lastresponse ++ contents }
      (h.inv_of_core rfl id rfl rfl)
    split <;> rename_i r1 hr <;> rw [hr] at a <;> exact a

theorem curl_deliver_inv (cb : Callbacks) :
    ∀ (chunks : List Bytes) (r : PRESTOCLIENT_RESULT), LexInv r →
      LexInv (curl_deliver cb chunks r).1 := by
  intro chunks
  induction chunks with
  | nil => intro r h; exact h
  | cons c rest ih =>
    intro r h
    have a := WriteCallback_inv cb c r h
    unfold curl_deliver
    rcases hw : WriteCallback cb c r with ⟨r1, n⟩
    rw [hw] at a
    dsimp only at a ⊢
    split_ifs
    · exact ih r1 a
    · exact a

theorem curl_easy_perform_inv (cb : Callbacks) (resp : Option Response)
    (r : PRESTOCLIENT_RESULT) (h : LexInv r) : LexInv (curl_easy_perform cb resp r).1 := by
  unfold curl_easy_perform
  split
  · exact h.inv_of_core rfl id rfl rfl
  · rename_i rs
    have a := curl_deliver_inv cb rs.chunks r h
    split
    · rename_i r1 hr
      rw [hr] at a
      split
      · exact a
      · exact a.inv_of_core rfl id rfl rfl
    · rename_i r1 hr
      rw [hr] at a
      split_ifs
      · exact a
      · exact a.inv_of_core rfl id rfl rfl

theorem openuri_attempt_inv (cb : Callbacks) (t : E_HTTP_REQUEST_TYPES) (url : Bytes)
    (retrycount : Nat) (resp : Option Response) (r : PRESTOCLIENT_RESULT) (h : LexInv r) :
    LexInv (openuri_attempt cb t url retrycount resp r).1 := by
  have h1 := curl_easy_perform_inv cb resp { r with trace := r.trace ++ [Event.request t url] }
    (h.inv_of_core rfl id rfl rfl)
  unfold openuri_attempt
  rcases hp : curl_easy_perform cb resp
    { r with trace := r.trace ++ [Event.request t url] } with ⟨r1, out⟩
  rw [hp] at h1
  dsimp only at h1
  cases out with
  | failed =>
    dsimp only
    split_ifs
    · exact h1
    · exact h1.inv_of_core rfl id rfl rfl
  | http code =>
    dsimp only
    split_ifs
    · exact h1
    · exact h1
    · exact h1.inv_of_core rfl id rfl rfl
    · exact h1.inv_of_core rfl id rfl rfl
    · exact h1.inv_of_core rfl id rfl rfl

theorem openuri_loop_inv (cb : Callbacks) (t : E_HTTP_REQUEST_TYPES) (url : Bytes) :
    ∀ (script : List Response) (retrycount : Nat) (r : PRESTOCLIENT_RESULT), LexInv r →
      LexInv (openuri_loop cb t url retrycount script r).1 := by
  intro script
  induction script with
  | nil => intro rc r h; unfold openuri_loop; exact openuri_attempt_inv cb t url _ none r h
  | cons resp rest ih =>
    intro rc r h
    have h1 := openuri_attempt_inv cb t url (rc + 1) (some resp) r h
    unfold openuri_loop
    rcases ha : openuri_attempt cb t url (rc + 1) (some resp) r with ⟨r1, b⟩
    rw [ha] at h1
    cases b with
    | true => exact ih (rc + 1) r1 h1
    | false => exact h1

theorem openuri_inv (cb : Callbacks) (t : E_HTTP_REQUEST_TYPES) (client : PRESTOCLIENT)
    (script : List Response) (r : PRESTOCLIENT_RESULT) (h : LexInv r) :
    LexInv (openuri cb t client script r).1 := by
  unfold openuri
  split_ifs
  · exact h
  · exact h.inv_of_core rfl id rfl rfl
  · apply openuri_loop_inv
    unfold openuri_setup
    cases t <;> exact h.inv_of_core rfl id rfl rfl

theorem cancel_inv (cb : Callbacks) (client : PRESTOCLIENT) (script : List Response)
    (r : PRESTOCLIENT_RESULT) (h : LexInv r) : LexInv (cancel cb client script r).1 := by
  unfold cancel
  split
  · exact openuri_inv cb _ client script r h
  · exact h

theorem queryisrunning_after_get_inv2 (cb : Callbacks) (r : PRESTOCLIENT_RESULT)
    (h : LexInv r) : LexInv (queryisrunning_after_get cb r) := by
  have hcols := (queryisrunning_after_get_data cb r).1
  have hcore : (queryisrunning_after_get cb r).fault = r.fault ∧
      (queryisrunning_after_get cb r).currentdatacolumn = r.currentdatacolumn := by
    unfold queryisrunning_after_get
    dsimp only
    split_ifs <;>
      first
      | exact ⟨rfl, rfl⟩
      | exact ⟨(call_describe_core cb _).1, (call_describe_core cb _).2.2.1⟩
  refine ⟨?_, fun hf => ?_⟩
  · unfold queryisrunning_after_get json_reset_lexer
    rfl
  · have h2 := h.2 (by rw [← hcore.1]; exact hf)
    unfold CellInv at h2 ⊢
    rw [hcore.2, hcols]
    exact h2

theorem prestoclient_queryisrunning_inv2 (cb : Callbacks) (client : PRESTOCLIENT)
    (script : List Response) (r : PRESTOCLIENT_RESULT) (h : LexInv r) :
    LexInv (prestoclient_queryisrunning cb client script r).1 := by
  unfold prestoclient_queryisrunning
  split_ifs
  · exact h
  · exact cancel_inv cb client script r h
  · exact h
  · have h1 := openuri_inv cb PRESTOCLIENT_HTTP_REQUEST_TYPE_GET client script r h
    rcases ho : openuri cb PRESTOCLIENT_HTTP_REQUEST_TYPE_GET client script r with ⟨r1, s1⟩
    rw [ho] at h1
    dsimp only
    split_ifs
    · exact h1
    · exact queryisrunning_after_get_inv2 cb r1 h1
    · exact queryisrunning_after_get_inv2 cb r1 h1
    · exact h1

theorem waituntilfinished_loop_inv2 (cb : Callbacks) (client : PRESTOCLIENT) :
    ∀ (fuel : Nat) (script : List Response) (r : PRESTOCLIENT_RESULT), LexInv r →
      LexInv (waituntilfinished_loop cb client fuel script r).1 := by
  intro fuel
  induction fuel with
  | zero => intro script r h; exact h
  | succ n ih =>
    intro script r h
    have h1 := prestoclient_queryisrunning_inv2 cb client script r h
    unfold waituntilfinished_loop
    rcases hq : prestoclient_queryisrunning cb client script r with ⟨r1, s1, b⟩
    rw [hq] at h1
    cases b with
    | false => exact h1
    | true =>
      dsimp only
      exact ih s1 _ (h1.inv_of_core rfl id rfl rfl)

theorem driver_steps_lexinv (cb : Callbacks) (client : PRESTOCLIENT) :
    ∀ (n : Nat) (script : List Response) (r : PRESTOCLIENT_RESULT), LexInv r →
      LexInv (driver_steps cb client n script r).1 := by
  intro n
  induction n with
  | zero => intro script r h; exact h
  | succ n ih =>
    intro script r h
    have h1 := prestoclient_queryisrunning_inv2 cb client script r h
    unfold driver_steps
    rcases hq : prestoclient_queryisrunning cb client script r with ⟨r1, s1, b⟩
    rw [hq] at h1
    cases b with
    | false => exact ih s1 r1 h1
    | true =>
      dsimp only
      exact ih s1 _ (h1.inv_of_core rfl id rfl rfl)

theorem prestoclient_query_run_lexinv (cb : Callbacks) (client : PRESTOCLIENT)
    (script : List Response) : LexInv (prestoclient_query_run cb client script) := by
  have h1 := openuri_inv cb PRESTOCLIENT_HTTP_REQUEST_TYPE_POST client script new_prestoresult
    new_prestoresult_lexinv
  unfold prestoclient_query_run
  rcases ho : openuri cb PRESTOCLIENT_HTTP_REQUEST_TYPE_POST client script
    new_prestoresult with ⟨r1, s1⟩
  rw [ho] at h1
  dsimp only at h1 ⊢
  split_ifs
  · exact h1
  · exact waituntilfinished_loop_inv2 cb client _ s1 r1 h1
  · exact h1

/-! ## The lexer flag -/

/-- The loop of `json_reader` never changes the lexer's error flag. -/
theorem json_reader_loop_flag (cb : Callbacks) :
    ∀ (fuel : Nat) (r : PRESTOCLIENT_RESULT),
      (json_reader_loop cb fuel r).lexer.error = r.lexer.error := by
  intro fuel
  induction fuel with
  | zero => intro r; rfl
  | succ n ih =>
    intro r
    unfold json_reader_loop
    split_ifs
    · rfl
    · split
      · rfl
      · rename_i j hj
        have hk := (json_parser_run_kind _ _ j hj).1
        have hl := (json_lexer_inv cb { r with json := j } hk).1
        split
        · rename_i r2 hr2
          rw [hr2] at hl
          exact hl
        · rename_i r2 hr2
          rw [hr2] at hl
          rw [ih]
          exact hl

/-- The reader never changes the lexer's error flag, and when no fault arises
its return value is decided by the two error flags. -/
theorem json_reader_flag (cb : Callbacks) (r : PRESTOCLIENT_RESULT) :
    (json_reader cb r).1.lexer.error = r.lexer.error ∧
      ((json_reader cb r).1.fault = false →
        (json_reader cb r).2 = (!(json_reader cb r).1.json.error && !r.lexer.error)) := by
  have a := json_reader_loop_flag cb (json_measure r.lastresponse r.json + 1) r
  unfold json_reader
  dsimp only
  generalize json_reader_loop cb (json_measure r.lastresponse r.json + 1) r = r1 at a
  have hs : (json_reader_shift r1).lexer.error = r1.lexer.error := by
    unfold json_reader_shift
    dsimp only
    split_ifs <;> rfl
  split_ifs with hf
  · refine ⟨a, fun hc => ?_⟩
    dsimp only at hc
    rw [hc] at hf
    cases hf
  · refine ⟨by rw [← a]; exact hs, fun _ => ?_⟩
    dsimp only
    rw [hs, a]

theorem WriteCallback_flag (cb : Callbacks) (contents : Bytes) (r : PRESTOCLIENT_RESULT) :
    (WriteCallback cb contents r).1.lexer.error = r.lexer.error := by
  unfold WriteCallback
  split_ifs
  · rfl
  · have a := (json_reader_flag cb { r with lastresponse := r.lastresponse ++ contents }).1
    split <;> rename_i r1 hr <;> rw [hr] at a <;> exact a

/-- C39 (the lexer never fails). (1) Whenever `json_parser` returns true the
token kind is one of the eleven real kinds, never UNKNOWN. (2) On a token of a
real kind `json_lexer` leaves the lexer's error flag as it is and returns true
unless the flag was set before; so after a call of `json_parser` that returned
true, with the flag not set, `json_lexer` returns true. (3) `json_reader` and
the byte sink never change the flag; when the flag is not set and no fault
arises, `json_reader` returns false exactly when the tokenizer's error flag is
set. (4) The flag is not set in a new result, nor after any number of driver
steps of a query, nor in the result of a query. -/
theorem lexer_never_fails (cb : Callbacks) (client : PRESTOCLIENT) (script : List Response) :
    (∀ (buf : Bytes) (j : JSONPARSER), (json_parser_run buf j).2 = true →
        (json_parser_run buf j).1.tagtype ≠ JSON_TT_UNKNOWN ∧
        (json_parser_run buf j).1.tagtype ∈
          [JSON_TT_STRING, JSON_TT_NUMBER, JSON_TT_OBJECT_OPEN, JSON_TT_OBJECT_CLOSE,
            JSON_TT_ARRAY_OPEN, JSON_TT_ARRAY_CLOSE, JSON_TT_COLON, JSON_TT_COMMA, JSON_TT_TRUE,
            JSON_TT_FALSE, JSON_TT_NULL]) ∧
      (∀ r : PRESTOCLIENT_RESULT, r.json.tagtype ≠ JSON_TT_UNKNOWN →
        (json_lexer cb r).1.lexer.error = r.lexer.error ∧
        (json_lexer cb r).2 = !r.lexer.error) ∧
      (∀ (r : PRESTOCLIENT_RESULT) (j : JSONPARSER),
        json_parser_run r.lastresponse r.json = (j, true) → r.lexer.error = false →
        (json_lexer cb { r with json := j }).2 = true ∧
        (json_lexer cb { r with json := j }).1.lexer.error = false) ∧
      (∀ r : PRESTOCLIENT_RESULT, (json_reader cb r).1.lexer.error = r.lexer.error) ∧
      (∀ (chunk : Bytes) (r : PRESTOCLIENT_RESULT),
        (WriteCallback cb chunk r).1.lexer.error = r.lexer.error) ∧
      (∀ r : PRESTOCLIENT_RESULT, r.lexer.error = false → (json_reader cb r).1.fault = false →
        ((json_reader cb r).2 = false ↔ (json_reader cb r).1.json.error = true)) ∧
      new_prestoresult.lexer.error = false ∧
      (∀ n, (driver_steps cb client n (query_posted cb client script).2
        (query_posted cb client script).1).1.lexer.error = false) ∧
      (prestoclient_query_run cb client script).lexer.error = false := by
  refine ⟨?_, ?_, ?_, ?_, ?_, ?_, rfl, ?_, ?_⟩
  · intro buf j h
    rcases hr : json_parser_run buf j with ⟨j', b⟩
    rw [hr] at h
    dsimp only at h
    subst h
    have hk := (json_parser_run_kind buf j j' hr).1
    refine ⟨hk, ?_⟩
    dsimp only
    cases ht : j'.tagtype
    · exact absurd ht hk
    all_goals simp
  · intro r ht
    exact ⟨(json_lexer_inv cb r ht).1, (json_lexer_inv cb r ht).2.1⟩
  · intro r j hj he
    have hk := (json_parser_run_kind _ _ j hj).1
    have a := json_lexer_inv cb { r with json := j } hk
    refine ⟨?_, ?_⟩
    · rw [a.2.1]
      show (!r.lexer.error) = true
      rw [he]
      rfl
    · rw [a.1]
      exact he
  · intro r
    exact (json_reader_flag cb r).1
  · intro chunk r
    exact WriteCallback_flag cb chunk r
  · intro r he hf
    rw [(json_reader_flag cb r).2 hf, he]
    cases (json_reader cb r).1.json.error <;> simp
  · intro n
    exact (driver_steps_lexinv cb client n _ _
      (openuri_inv cb _ client script new_prestoresult new_prestoresult_lexinv)).1
  · exact (prestoclient_query_run_lexinv cb client script).1

/-! ## Cell writes -/

/-- C38 (cell index safety). `CellInv r` says that the cursor of `r` is -1 or
the index of a cell that is not the last of its row. (1) When a data value is
dispatched on such a result with at least one column known, the cell written
is that of column `k = cursor + 1`, which lies within `[0, column count)`;
no fault arises, the cursor is in step again, and when the cell completes the
row (`k + 1` is the column count) the cursor is -1 right after. (2) On a live
result whose cursor is in step, the projector runs into a fault only in its
data branch and only when the column count is 0. (3) The cursor is in step in
a new result, stays in step through every chunk the byte sink takes while no
fault arises, whatever the lengths of the data sub-arrays, and is in step
after any number of driver steps of a query and in the result of a query, as
long as the result is live; and every row callback of a query was entered
with the cursor at -1. (4) The out-of-range branch is reached by the reply
`{"data":[[1]]}` on a new result, which has no column. -/
theorem cell_index_safe (cb : Callbacks) (client : PRESTOCLIENT) (script : List Response) :
    (∀ r : PRESTOCLIENT_RESULT, CellInv r → 0 < r.columns.length →
        ∃ k : Nat, (k : Int) = r.currentdatacolumn + 1 ∧ k < r.columns.length ∧
          ∃ f, r.columns[k]? = some f ∧
            (extract_data cb r).columns =
              r.columns.set k (extract_data_field f r.json.tagtype r.lexer.value) ∧
            (extract_data cb r).fault = r.fault ∧
            CellInv (extract_data cb r) ∧
            (k + 1 = r.columns.length → (extract_data cb r).currentdatacolumn = -1)) ∧
      (∀ r : PRESTOCLIENT_RESULT, r.fault = false → CellInv r →
        (json_extract_dispatch cb r).fault = true →
        (r.lexer.tagorder.length > 2 ∧ tagordername_back r.lexer 2 = ascii "data") ∧
          r.columns.length = 0) ∧
      (∀ r : PRESTOCLIENT_RESULT, r.fault = false → CellInv r →
        (json_extract_dispatch cb r).fault = false → CellInv (json_extract_dispatch cb r)) ∧
      CellInv new_prestoresult ∧
      (∀ (chunk : Bytes) (r : PRESTOCLIENT_RESULT), LexInv r →
        (WriteCallback cb chunk r).1.fault = false → CellInv (WriteCallback cb chunk r).1) ∧
      (∀ n, (driver_steps cb client n (query_posted cb client script).2
          (query_posted cb client script).1).1.fault = false →
        CellInv (driver_steps cb client n (query_posted cb client script).2
          (query_posted cb client script).1).1) ∧
      ((prestoclient_query_run cb client script).fault = false →
        CellInv (prestoclient_query_run cb client script)) ∧
      (∀ cells cur, Event.row cells cur ∈ (prestoclient_query_run cb client script).trace →
        cur = -1) ∧
      (WriteCallback example_callbacks data_only_body new_prestoresult).1.fault = true := by
  refine ⟨?_, ?_, ?_, Or.inl rfl, ?_, ?_, ?_, ?_, by decide!⟩
  · intro r h hpos
    have hk : ∃ k : Nat, r.currentdatacolumn = (k : Int) - 1 ∧ k < r.columns.length := by
      rcases h with h | ⟨h1, h2⟩
      · exact ⟨0, by rw [h]; rfl, hpos⟩
      · exact ⟨(r.currentdatacolumn + 1).toNat, by omega, by omega⟩
    obtain ⟨k, hcur, hlt⟩ := hk
    obtain ⟨f, h1, h2, h3, h4⟩ := extract_data_cell cb r k hcur hlt
    refine ⟨k, by omega, hlt, f, h1, h2, h4, ((extract_data_inv cb r h).1 hpos).1, fun hl => ?_⟩
    rw [h3, if_pos hl]
  · intro r hf h hc
    exact (json_extract_dispatch_cell cb r hf h).2 hc
  · intro r hf h hc
    exact (json_extract_dispatch_cell cb r hf h).1 hc
  · intro chunk r h hf
    exact (WriteCallback_inv cb chunk r h).2 hf
  · intro n hf
    exact (driver_steps_lexinv cb client n _ _
      (openuri_inv cb _ client script new_prestoresult new_prestoresult_lexinv)).2 hf
  · intro hf
    exact (prestoclient_query_run_lexinv cb client script).2 hf
  · intro cells cur hmem
    exact ((prestoclient_query_run_inv cb client script).rows cells cur hmem).2.2

/-! ## Rows by cell count -/

theorem full_rows_short (n : Nat) (w : List (Bytes × Bool)) (h : w.length < n) :
    full_rows n w = [] := by
  unfold full_rows
  rw [Nat.div_eq_of_lt h]
  rfl

theorem full_rows_step (n : Nat) (w : List (Bytes × Bool)) (hn : 0 < n) (h : n ≤ w.length) :
    full_rows n w = w.take n :: full_rows n (w.drop n) := by
  unfold full_rows
  have hq : w.length / n = (w.drop n).length / n + 1 := by
    rw [List.length_drop]
    have := Nat.sub_add_cancel h
    conv_lhs => rw [← this]
    rw [Nat.add_div_right _ hn]
  rw [hq, List.range_succ_eq_map, List.map_cons, List.map_map]
  congr 1
  · simp
  · apply List.map_congr_left
    intro j _
    simp only [Function.comp, List.drop_drop]
    congr 2
    rw [Nat.succ_mul]
    omega

theorem full_rows_length (n : Nat) (w : List (Bytes × Bool)) :
    (full_rows n w).length = w.length / n := by
  unfold full_rows
  simp

theorem full_rows_get (n : Nat) (w : List (Bytes × Bool)) (j : Nat) (hj : j < w.length / n) :
    (full_rows n w)[j]? = some ((w.drop (j * n)).take n) := by
  unfold full_rows
  rw [List.getElem?_map, List.getElem?_range hj]
  rfl

/-- The complete rows of a stream that is continued: those of the front, then
those of what the front leaves over followed by the continuation. -/
theorem full_rows_append (n : Nat) (hn : 0 < n) :
    ∀ (m : Nat) (w v : List (Bytes × Bool)), w.length ≤ m →
      full_rows n (w ++ v) =
        full_rows n w ++ full_rows n (w.drop (w.length / n * n) ++ v) := by
  intro m
  induction m with
  | zero =>
    intro w v h
    have hw : w = [] := List.length_eq_zero.mp (by omega)
    subst hw
    simp [full_rows_short n [] (by simpa using hn)]
  | succ m ih =>
    intro w v h
    by_cases hlt : w.length < n
    · rw [full_rows_short n w hlt, Nat.div_eq_of_lt hlt]
      simp
    · have hle : n ≤ w.length := by omega
      rw [full_rows_step n (w ++ v) hn (by simp; omega), full_rows_step n w hn hle]
      rw [List.take_append_of_le_length hle, List.drop_append_of_le_length hle]
      rw [ih (w.drop n) v (by rw [List.length_drop]; omega)]
      rw [List.drop_drop, List.length_drop]
      have hq : n + (w.length - n) / n * n = w.length / n * n := by
        have := Nat.sub_add_cancel hle
        conv_rhs => rw [← this]
        rw [Nat.add_div_right _ hn, Nat.succ_mul]
        omega
      rw [hq]
      rfl

/-- What a continued stream leaves over: what is left over of what the front
leaves over followed by the continuation. -/
theorem leftover_append (n : Nat) (hn : 0 < n) (w v : List (Bytes × Bool)) :
    (w ++ v).drop ((w ++ v).length / n * n) =
      (w.drop (w.length / n * n) ++ v).drop
        ((w.drop (w.length / n * n) ++ v).length / n * n) := by
  have hle : w.length / n * n ≤ w.length := Nat.div_mul_le_self _ _
  have hmod : w.length - w.length / n * n = w.length % n := by
    have := Nat.div_add_mod w.length n
    rw [Nat.mul_comm] at this
    omega
  have hsplit : (w ++ v).length / n = w.length / n + (w.length % n + v.length) / n := by
    rw [List.length_append]
    have := Nat.div_add_mod w.length n
    conv_lhs => rw [← this]
    rw [Nat.add_assoc, Nat.mul_comm, Nat.add_comm, Nat.add_mul_div_right _ _ hn, Nat.add_comm]
  rw [hsplit, Nat.add_mul, ← List.drop_drop, List.drop_append_of_le_length hle]
  simp only [List.length_append, List.length_drop, hmod]

theorem row_view_length (r : PRESTOCLIENT_RESULT) : (row_view r).length = r.columns.length := by
  simp [row_view]

/-- With the cursor in step and a column at hand, fewer cells are pending than
there are columns. -/
theorem pending_cells_length (r : PRESTOCLIENT_RESULT) (h : CellInv r)
    (hpos : 0 < r.columns.length) :
    (pending_cells r).length = (r.currentdatacolumn + 1).toNat ∧
      (pending_cells r).length < r.columns.length := by
  have hk : (r.currentdatacolumn + 1).toNat < r.columns.length := by
    rcases h with h | ⟨h1, h2⟩
    · rw [h]; exact hpos
    · omega
  unfold pending_cells
  rw [List.length_take, row_view_length]
  omega

theorem row_events_header (cb : Callbacks) (r : PRESTOCLIENT_RESULT) :
    row_events (header_events cb r) = [] := by
  unfold header_events
  split_ifs <;> rfl

theorem row_events_append (a b : List Event) :
    row_events (a ++ b) = row_events a ++ row_events b := by
  simp [row_events]

/-- A step that leaves the rows delivered, the columns, the cursor and the
fault flag alone feeds no cell. -/
theorem CellFeed.feed_same {r r' : PRESTOCLIENT_RESULT} (hpos : 0 < r.columns.length)
    (hinv : CellInv r) (hf : r'.fault = false)
    (ht : row_events r'.trace = row_events r.trace) (hc : r'.columns = r.columns)
    (hcur : r'.currentdatacolumn = r.currentdatacolumn) : CellFeed [] r r' := by
  obtain ⟨_, hlt⟩ := pending_cells_length r hinv hpos
  have hp : pending_cells r' = pending_cells r := by
    unfold pending_cells row_view
    rw [hc, hcur]
  refine ⟨?_, ?_, by rw [hc], ?_, hf⟩
  · rw [List.append_nil, full_rows_short _ _ hlt, ht]
    simp
  · rw [List.append_nil, Nat.div_eq_of_lt hlt, hp]
    simp
  · unfold CellInv at hinv ⊢
    rw [hcur, hc]
    exact hinv

/-- Feeding cells to a result that has the rows delivered, the columns and
the cursor of another one is feeding them to that one. -/
theorem CellFeed.feed_from {vs : List (Bytes × Bool)} {r0 r r' : PRESTOCLIENT_RESULT}
    (h : CellFeed vs r r') (ht : row_events r.trace = row_events r0.trace)
    (hc : r.columns = r0.columns) (hcur : r.currentdatacolumn = r0.currentdatacolumn) :
    CellFeed vs r0 r' := by
  have hp : pending_cells r = pending_cells r0 := by
    unfold pending_cells row_view
    rw [hc, hcur]
  obtain ⟨a, b, c, d, e⟩ := h
  rw [hp, hc] at a b
  rw [ht] at a
  exact ⟨a, b, by rw [c, hc], d, e⟩

/-- A result that has the rows delivered, the columns, the cursor and the
fault flag of the result of a feed is a result of that feed. -/
theorem CellFeed.feed_to {vs : List (Bytes × Bool)} {r r1 r2 : PRESTOCLIENT_RESULT}
    (h : CellFeed vs r r1) (ht : row_events r2.trace = row_events r1.trace)
    (hc : r2.columns = r1.columns) (hcur : r2.currentdatacolumn = r1.currentdatacolumn)
    (hf : r2.fault = r1.fault) : CellFeed vs r r2 := by
  have hp : pending_cells r2 = pending_cells r1 := by
    unfold pending_cells row_view
    rw [hc, hcur]
  obtain ⟨a, b, c, d, e⟩ := h
  refine ⟨by rw [ht]; exact a, by rw [hp]; exact b, by rw [hc]; exact c, ?_, by rw [hf]; exact e⟩
  unfold CellInv at d ⊢
  rw [hcur, hc]
  exact d

/-- Feeding cells and then more cells is feeding them all. -/
theorem CellFeed.feed_trans {v1 v2 : List (Bytes × Bool)} {r r1 r2 : PRESTOCLIENT_RESULT}
    (hpos : 0 < r.columns.length) (h1 : CellFeed v1 r r1) (h2 : CellFeed v2 r1 r2) :
    CellFeed (v1 ++ v2) r r2 := by
  obtain ⟨a1, b1, c1, _, _⟩ := h1
  obtain ⟨a2, b2, c2, d2, e2⟩ := h2
  rw [c1] at a2 b2
  refine ⟨?_, ?_, by rw [c2, c1], d2, e2⟩
  · rw [a2, a1, b1, ← List.append_assoc (pending_cells r),
      full_rows_append _ hpos _ (pending_cells r ++ v1) v2 (le_refl _)]
    simp
  · rw [b2, b1, ← List.append_assoc (pending_cells r)]
    exact (leftover_append _ hpos _ _).symm

/-- One scalar inside a data sub-array feeds its cell. -/
theorem lex_token_feed (cb : Callbacks) (g : PRESTOCLIENT_RESULT → Bool)
    (hw : cb.write_callback_function = some g) (v : Scalar) (r : PRESTOCLIENT_RESULT)
    (hd : in_data_row r.lexer) (hnf : r.fault = false) (hinv : CellInv r)
    (hpos : 0 < r.columns.length) :
    CellFeed [v.cell] r (lex_token cb v.token r) ∧
      (lex_token cb v.token r).lexer.tagorder = r.lexer.tagorder := by
  obtain ⟨hpl, hplt⟩ := pending_cells_length r hinv hpos
  have hk : ∃ k : Nat, r.currentdatacolumn = (k : Int) - 1 ∧ k < r.columns.length := by
    rcases hinv with h | ⟨h1, h2⟩
    · exact ⟨0, by rw [h]; rfl, hpos⟩
    · exact ⟨(r.currentdatacolumn + 1).toNat, by omega, by omega⟩
  obtain ⟨k, hcur, hlt⟩ := hk
  have hpk : pending_cells r = (row_view r).take k := by
    unfold pending_cells
    rw [hcur]
    congr 1
    omega
  have hplen : (pending_cells r ++ [v.cell]).length = k + 1 := by
    rw [List.length_append, hpk, List.length_take, row_view_length]
    simp
    omega
  rw [lex_token_scalar_data cb v r hd]
  by_cases hl : k + 1 < r.columns.length
  · obtain ⟨f, _, hcols, hc, htr, hfault, hlex, _⟩ :=
      extract_data_mid cb (lex_scalar_state v r) k hcur hl
    refine ⟨⟨?_, ?_, ?_, ?_, ?_⟩, ?_⟩
    · show row_events (extract_data cb (lex_scalar_state v r)).trace = _
      rw [htr, row_events_append, row_events_header,
        full_rows_short _ _ (by rw [hplen]; exact hl)]
      simp [lex_scalar_state]
    · rw [hplen, Nat.div_eq_of_lt hl, Nat.zero_mul, List.drop_zero, hpk]
      show ((extract_data cb (lex_scalar_state v r)).columns.map
          (fun f => (f.data, f.dataisnull))).take
        ((extract_data cb (lex_scalar_state v r)).currentdatacolumn + 1).toNat = _
      rw [hcols, hc, List.map_set]
      have e : ((k : Int) + 1).toNat = k + 1 := by omega
      rw [e]
      show List.take (k + 1) ((row_view r).set k
        ((extract_data_field f v.token.1 v.text).data,
          (extract_data_field f v.token.1 v.text).dataisnull)) = _
      rw [extract_data_field_cell]
      exact list_take_set_succ _ _ _ (by rw [row_view_length]; exact hlt)
    · show (extract_data cb (lex_scalar_state v r)).columns.length = _
      rw [hcols]
      simp [lex_scalar_state]
    · show CellInv (lex_finish (extract_data cb (lex_scalar_state v r)))
      unfold CellInv
      show (extract_data cb (lex_scalar_state v r)).currentdatacolumn = -1 ∨
        0 ≤ (extract_data cb (lex_scalar_state v r)).currentdatacolumn ∧
          (extract_data cb (lex_scalar_state v r)).currentdatacolumn + 1 <
            ((extract_data cb (lex_scalar_state v r)).columns.length : Int)
      rw [hc, hcols]
      right
      simp only [List.length_set]
      have : (lex_scalar_state v r).columns.length = r.columns.length := rfl
      rw [this]
      omega
    · show (extract_data cb (lex_scalar_state v r)).fault = false
      rw [hfault]
      exact hnf
    · show (extract_data cb (lex_scalar_state v r)).lexer.tagorder = _
      rw [hlex]
      rfl
  · have hl' : k + 1 = r.columns.length := by omega
    obtain ⟨f, _, hcols, hc, htr, hfault, hlex, _⟩ :=
      extract_data_last cb g hw (lex_scalar_state v r) k hcur hl'
    have hview : ((lex_scalar_state v r).columns.set k
        (extract_data_field f (lex_scalar_state v r).json.tagtype
          (lex_scalar_state v r).lexer.value)).map (fun f => (f.data, f.dataisnull)) =
        pending_cells r ++ [v.cell] := by
      show (r.columns.set k (extract_data_field f v.token.1 v.text)).map _ = _
      rw [List.map_set, extract_data_field_cell, hpk]
      exact list_set_last _ _ _ (by rw [List.length_map]; exact hl')
    have hfull : full_rows r.columns.length (pending_cells r ++ [v.cell]) =
        [pending_cells r ++ [v.cell]] := by
      rw [full_rows_step _ _ hpos (by rw [hplen]; omega),
        full_rows_short _ _ (by rw [List.length_drop, hplen]; omega)]
      rw [List.take_of_length_le (by rw [hplen]; omega)]
    refine ⟨⟨?_, ?_, ?_, ?_, ?_⟩, ?_⟩
    · show row_events (extract_data cb (lex_scalar_state v r)).trace = _
      rw [htr, hview, row_events_append, row_events_append, row_events_header, hfull]
      simp [lex_scalar_state, row_events, is_row_event]
    · rw [hplen, hl', Nat.div_self hpos, Nat.one_mul,
        List.drop_of_length_le (by rw [hplen]; omega)]
      show (row_view (lex_finish (extract_data cb (lex_scalar_state v r)))).take
        ((extract_data cb (lex_scalar_state v r)).currentdatacolumn + 1).toNat = _
      rw [hc]
      rfl
    · show (extract_data cb (lex_scalar_state v r)).columns.length = _
      rw [hcols]
      simp [lex_scalar_state]
    · left
      exact hc
    · show (extract_data cb (lex_scalar_state v r)).fault = false
      rw [hfault]
      exact hnf
    · show (extract_data cb (lex_scalar_state v r)).lexer.tagorder = _
      rw [hlex]
      rfl

theorem sep_tokens_cons (p : List Token) (l : List (List Token)) (h : l ≠ []) :
    sep_tokens (p :: l) = p ++ (JSON_TT_COMMA, []) :: sep_tokens l := by
  cases l with
  | nil => exact absurd rfl h
  | cons q rest => rfl

/-- The scalars of a data sub-array, however many, feed their cells. -/
theorem lex_values_feed (cb : Callbacks) (g : PRESTOCLIENT_RESULT → Bool)
    (hw : cb.write_callback_function = some g) :
    ∀ (vs : List Scalar) (r : PRESTOCLIENT_RESULT), in_data_row r.lexer → r.fault = false →
      CellInv r → 0 < r.columns.length →
      CellFeed (vs.map Scalar.cell) r (lex_tokens cb (values_tokens vs) r) ∧
        (lex_tokens cb (values_tokens vs) r).lexer.tagorder = r.lexer.tagorder := by
  intro vs
  induction vs with
  | nil =>
    intro r _ hnf hinv hpos
    exact ⟨CellFeed.feed_same hpos hinv hnf rfl rfl rfl, rfl⟩
  | cons v rest ih =>
    intro r hd hnf hinv hpos
    obtain ⟨f1, t1⟩ := lex_token_feed cb g hw v r hd hnf hinv hpos
    cases rest with
    | nil =>
      have hstep : lex_tokens cb (values_tokens [v]) r = lex_token cb v.token r := by
        show lex_tokens cb [v.token] r = _
        rw [lex_tokens_cons cb _ _ r hnf]
        rfl
      rw [hstep]
      exact ⟨f1, t1⟩
    | cons w rest2 =>
      have hstep : lex_tokens cb (values_tokens (v :: w :: rest2)) r =
          lex_tokens cb (values_tokens (w :: rest2))
            (lex_token cb (JSON_TT_COMMA, []) (lex_token cb v.token r)) := by
        show lex_tokens cb (v.token :: (JSON_TT_COMMA, []) :: values_tokens (w :: rest2)) r = _
        rw [lex_tokens_cons cb _ _ r hnf, lex_tokens_cons cb _ _ _ f1.fault]
      rw [hstep, lex_token_comma]
      generalize lex_token cb v.token r = r1 at f1 t1 ⊢
      have hd1 : in_data_row r1.lexer := by
        obtain ⟨nm, t2, e3, rs, hst⟩ := hd
        exact ⟨nm, t2, e3, rs, by rw [t1, hst]⟩
      obtain ⟨f2, t2⟩ := ih
        { r1 with
          lexer := { r1.lexer with previoustag := JSON_TT_COMMA }
          json := { r1.json with tagtype := JSON_TT_COMMA, tagbuffer := [] } }
        hd1 f1.fault f1.inv (by show 0 < r1.columns.length; rw [f1.len]; exact hpos)
      have f3 := CellFeed.feed_trans hpos f1 (f2.feed_from rfl rfl rfl)
      exact ⟨f3, by rw [t2]; exact t1⟩

/-- One data sub-array, whatever its length, feeds the cells of its scalars. -/
theorem lex_row_feed (cb : Callbacks) (g : PRESTOCLIENT_RESULT → Bool)
    (hw : cb.write_callback_function = some g) (vs : List Scalar) (r : PRESTOCLIENT_RESULT)
    (hd : in_data_array r.lexer) (hnf : r.fault = false) (hinv : CellInv r)
    (hpos : 0 < r.columns.length) :
    CellFeed (vs.map Scalar.cell) r (lex_tokens cb (row_tokens vs) r) ∧
      (lex_tokens cb (row_tokens vs) r).lexer.tagorder = r.lexer.tagorder := by
  obtain ⟨t2, e3, rest, hst⟩ := hd
  unfold row_tokens
  rw [List.cons_append, lex_tokens_cons cb _ _ r hnf, lex_tokens_append, lex_token_array_open]
  obtain ⟨f1, t1⟩ := lex_values_feed cb g hw vs
    { r with
      lexer := { r.lexer with
        tagorder := (JSON_TT_ARRAY_OPEN, r.lexer.name.take 20) :: r.lexer.tagorder
        name := []
        previoustag := JSON_TT_ARRAY_OPEN }
      json := { r.json with tagtype := JSON_TT_ARRAY_OPEN, tagbuffer := [] } }
    ⟨_, t2, e3, rest, by show _ :: r.lexer.tagorder = _; rw [hst]⟩ hnf hinv hpos
  generalize lex_tokens cb (values_tokens vs) _ = r2 at f1 t1 ⊢
  rw [lex_tokens_cons cb _ _ r2 f1.fault, lex_token_array_close]
  simp only [lex_tokens]
  refine ⟨?_, ?_⟩
  · exact CellFeed.feed_to (f1.feed_from rfl rfl rfl) rfl rfl rfl rfl
  · show r2.lexer.tagorder.tail = _
    rw [t1]
    rfl

/-- The data sub-arrays of a data array, whatever their lengths, feed the
cells of their scalars one after another. -/
theorem lex_rows_feed (cb : Callbacks) (g : PRESTOCLIENT_RESULT → Bool)
    (hw : cb.write_callback_function = some g) :
    ∀ (rows : List (List Scalar)) (r : PRESTOCLIENT_RESULT), in_data_array r.lexer →
      r.fault = false → CellInv r → 0 < r.columns.length →
      CellFeed (rows.flatten.map Scalar.cell) r
          (lex_tokens cb (sep_tokens (rows.map row_tokens)) r) ∧
        (lex_tokens cb (sep_tokens (rows.map row_tokens)) r).lexer.tagorder =
          r.lexer.tagorder := by
  intro rows
  induction rows with
  | nil =>
    intro r _ hnf hinv hpos
    exact ⟨CellFeed.feed_same hpos hinv hnf rfl rfl rfl, rfl⟩
  | cons row rest ih =>
    intro r hd hnf hinv hpos
    obtain ⟨f1, t1⟩ := lex_row_feed cb g hw row r hd hnf hinv hpos
    cases rest with
    | nil =>
      have e : [row].flatten = row := by simp
      rw [e]
      exact ⟨f1, t1⟩
    | cons row2 rest2 =>
      have hsplit : sep_tokens ((row :: row2 :: rest2).map row_tokens) =
          row_tokens row ++ (JSON_TT_COMMA, []) :: sep_tokens ((row2 :: rest2).map row_tokens) :=
        rfl
      rw [hsplit, lex_tokens_append]
      generalize lex_tokens cb (row_tokens row) r = r1 at f1 t1 ⊢
      rw [lex_tokens_cons cb _ _ r1 f1.fault, lex_token_comma]
      obtain ⟨t2, e3, rs, hst⟩ := hd
      obtain ⟨f2, t2'⟩ := ih
        { r1 with
          lexer := { r1.lexer with previoustag := JSON_TT_COMMA }
          json := { r1.json with tagtype := JSON_TT_COMMA, tagbuffer := [] } }
        ⟨t2, e3, rs, by show r1.lexer.tagorder = _; rw [t1, hst]⟩ f1.fault f1.inv
        (by show 0 < r1.columns.length; rw [f1.len]; exact hpos)
      have f3 := CellFeed.feed_trans hpos f1 (f2.feed_from rfl rfl rfl)
      refine ⟨?_, by rw [t2']; exact t1⟩
      have e : (row :: row2 :: rest2).flatten.map Scalar.cell =
          row.map Scalar.cell ++ (row2 :: rest2).flatten.map Scalar.cell := by
        simp
      rw [e]
      exact f3

/-- Complete data sub-arrays followed by one that is still open: the cells of
all the scalars read so far have been fed. -/
theorem lex_unfinished_feed (cb : Callbacks) (g : PRESTOCLIENT_RESULT → Bool)
    (hw : cb.write_callback_function = some g) (vs : List Scalar) :
    ∀ (rows : List (List Scalar)) (r : PRESTOCLIENT_RESULT), in_data_array r.lexer →
      r.fault = false → CellInv r → 0 < r.columns.length →
      CellFeed ((rows.flatten ++ vs).map Scalar.cell) r
        (lex_tokens cb
          (sep_tokens (rows.map row_tokens ++ [(JSON_TT_ARRAY_OPEN, []) :: values_tokens vs]))
          r) := by
  intro rows
  induction rows with
  | nil =>
    intro r hd hnf hinv hpos
    obtain ⟨t2, e3, rest, hst⟩ := hd
    show CellFeed _ r (lex_tokens cb ((JSON_TT_ARRAY_OPEN, []) :: values_tokens vs) r)
    rw [lex_tokens_cons cb _ _ r hnf, lex_token_array_open]
    obtain ⟨f1, _⟩ := lex_values_feed cb g hw vs
      { r with
        lexer := { r.lexer with
          tagorder := (JSON_TT_ARRAY_OPEN, r.lexer.name.take 20) :: r.lexer.tagorder
          name := []
          previoustag := JSON_TT_ARRAY_OPEN }
        json := { r.json with tagtype := JSON_TT_ARRAY_OPEN, tagbuffer := [] } }
      ⟨_, t2, e3, rest, by show _ :: r.lexer.tagorder = _; rw [hst]⟩ hnf hinv hpos
    have e : ([] : List (List Scalar)).flatten ++ vs = vs := by simp
    rw [e]
    exact f1.feed_from rfl rfl rfl
  | cons row rest ih =>
    intro r hd hnf hinv hpos
    obtain ⟨f1, t1⟩ := lex_row_feed cb g hw row r hd hnf hinv hpos
    rw [List.map_cons, List.cons_append, sep_tokens_cons _ _ (by simp), lex_tokens_append]
    generalize lex_tokens cb (row_tokens row) r = r1 at f1 t1 ⊢
    rw [lex_tokens_cons cb _ _ r1 f1.fault, lex_token_comma]
    obtain ⟨t2, e3, rs, hst⟩ := hd
    have f2 := ih
      { r1 with
        lexer := { r1.lexer with previoustag := JSON_TT_COMMA }
        json := { r1.json with tagtype := JSON_TT_COMMA, tagbuffer := [] } }
      ⟨t2, e3, rs, by show r1.lexer.tagorder = _; rw [t1, hst]⟩ f1.fault f1.inv
      (by show 0 < r1.columns.length; rw [f1.len]; exact hpos)
    have f3 := CellFeed.feed_trans hpos f1 (f2.feed_from rfl rfl rfl)
    have e : ((row :: rest).flatten ++ vs).map Scalar.cell =
        row.map Scalar.cell ++ (rest.flatten ++ vs).map Scalar.cell := by
      simp
    rw [e]
    exact f3

/-- The cursor after a feed: one less than the number of cells left over. -/
theorem CellFeed.feed_cursor {vs : List (Bytes × Bool)} {r r' : PRESTOCLIENT_RESULT}
    (h : CellFeed vs r r') (hpos : 0 < r.columns.length) :
    r'.currentdatacolumn + 1 =
      (((pending_cells r ++ vs).length % r.columns.length : Nat) : Int) := by
  obtain ⟨hl, _⟩ := pending_cells_length r' h.inv (by rw [h.len]; exact hpos)
  have hp := congrArg List.length h.pending
  rw [hl, List.length_drop] at hp
  have hmod : (pending_cells r ++ vs).length -
      (pending_cells r ++ vs).length / r.columns.length * r.columns.length =
      (pending_cells r ++ vs).length % r.columns.length := by
    have := Nat.div_add_mod (pending_cells r ++ vs).length r.columns.length
    rw [Nat.mul_comm] at this
    omega
  rw [hmod] at hp
  have hge : -1 ≤ r'.currentdatacolumn := by
    rcases h.inv with h1 | ⟨h1, _⟩ <;> omega
  omega

theorem pending_cells_start (r : PRESTOCLIENT_RESULT) (h : r.currentdatacolumn = -1) :
    pending_cells r = [] := by
  unfold pending_cells
  rw [h]
  rfl

/-- The value of a member `data`, an array of sub-arrays of whatever lengths,
feeds the cells of all its scalars. -/
theorem lex_data_feed (cb : Callbacks) (g : PRESTOCLIENT_RESULT → Bool)
    (hw : cb.write_callback_function = some g) (rows : List (List Scalar))
    (r : PRESTOCLIENT_RESULT) (hs : r.lexer.tagorder ≠ []) (hname : r.lexer.name = ascii "data")
    (hnf : r.fault = false) (hinv : CellInv r) (hpos : 0 < r.columns.length) :
    CellFeed (rows.flatten.map Scalar.cell) r (lex_tokens cb (data_tokens rows) r) ∧
      (lex_tokens cb (data_tokens rows) r).lexer.tagorder = r.lexer.tagorder := by
  obtain ⟨e3, rest, hst⟩ := List.exists_cons_of_ne_nil hs
  unfold data_tokens
  rw [List.cons_append, lex_tokens_cons cb _ _ r hnf, lex_tokens_append, lex_token_array_open]
  obtain ⟨f1, t1⟩ := lex_rows_feed cb g hw rows
    { r with
      lexer := { r.lexer with
        tagorder := (JSON_TT_ARRAY_OPEN, r.lexer.name.take 20) :: r.lexer.tagorder
        name := []
        previoustag := JSON_TT_ARRAY_OPEN }
      json := { r.json with tagtype := JSON_TT_ARRAY_OPEN, tagbuffer := [] } }
    ⟨JSON_TT_ARRAY_OPEN, e3, rest, by
      show (JSON_TT_ARRAY_OPEN, r.lexer.name.take 20) :: r.lexer.tagorder = _
      rw [hname, hst]
      rfl⟩ hnf hinv hpos
  generalize lex_tokens cb (sep_tokens (rows.map row_tokens)) _ = r2 at f1 t1 ⊢
  rw [lex_tokens_cons cb _ _ r2 f1.fault, lex_token_array_close]
  simp only [lex_tokens]
  refine ⟨?_, ?_⟩
  · exact CellFeed.feed_to (f1.feed_from rfl rfl rfl) rfl rfl rfl rfl
  · show r2.lexer.tagorder.tail = _
    rw [t1]
    rfl

/-- The value of a member `data` read up to some point inside a sub-array: the
cells of all the scalars read so far have been fed. -/
theorem lex_data_unfinished (cb : Callbacks) (g : PRESTOCLIENT_RESULT → Bool)
    (hw : cb.write_callback_function = some g) (rows : List (List Scalar)) (vs : List Scalar)
    (r : PRESTOCLIENT_RESULT) (hs : r.lexer.tagorder ≠ []) (hname : r.lexer.name = ascii "data")
    (hnf : r.fault = false) (hinv : CellInv r) (hpos : 0 < r.columns.length) :
    CellFeed ((rows.flatten ++ vs).map Scalar.cell) r
      (lex_tokens cb ((JSON_TT_ARRAY_OPEN, []) ::
        sep_tokens (rows.map row_tokens ++ [(JSON_TT_ARRAY_OPEN, []) :: values_tokens vs])) r) := by
  obtain ⟨e3, rest, hst⟩ := List.exists_cons_of_ne_nil hs
  rw [lex_tokens_cons cb _ _ r hnf, lex_token_array_open]
  have f1 := lex_unfinished_feed cb g hw vs rows
    { r with
      lexer := { r.lexer with
        tagorder := (JSON_TT_ARRAY_OPEN, r.lexer.name.take 20) :: r.lexer.tagorder
        name := []
        previoustag := JSON_TT_ARRAY_OPEN }
      json := { r.json with tagtype := JSON_TT_ARRAY_OPEN, tagbuffer := [] } }
    ⟨JSON_TT_ARRAY_OPEN, e3, rest, by
      show (JSON_TT_ARRAY_OPEN, r.lexer.name.take 20) :: r.lexer.tagorder = _
      rw [hname, hst]
      rfl⟩ hnf hinv hpos
  exact f1.feed_from rfl rfl rfl

/-- C36 (rows are delimited by counting cells only). The value of a member
`data`, an array of sub-arrays of scalars of whatever lengths, reaches the
lexer on a live result with `n >= 1` columns, a row callback registered and
the cursor in step with the columns; `m` is the number of scalars in all the
sub-arrays together. (1) With the cursor at -1, as at the start of a query,
the rows delivered are the complete rows of `n` cells of the stream of all
scalars: exactly `m / n` row callbacks (rounded down), the one with index `j`
(from 0) showing the cells of the scalars `j * n` to `j * n + n - 1`, each with
the cursor at -1 when the callback is entered; afterwards the cursor is
`m % n - 1` and the cells of the last `m % n` scalars are those of the
unfinished row. (2) The same holds when the array has only been read up to
some point inside a sub-array: after `m'` scalars exactly `m' / n` rows have
been delivered, so the row with index `j` is delivered when scalar number
`(j + 1) * n` has been read, wherever the sub-arrays end. (3) With cells of
an unfinished row pending, as the `data` of an earlier reply or an earlier
short sub-array leaves them, the rows are the complete rows of the pending
cells followed by the scalars (`CellFeed`): the cells of a sub-array shorter
than `n` are completed by the scalars that come next. -/
theorem rows_by_cell_count (cb : Callbacks) (g : PRESTOCLIENT_RESULT → Bool)
    (hw : cb.write_callback_function = some g) (rows : List (List Scalar)) (vs : List Scalar)
    (r : PRESTOCLIENT_RESULT) (hs : r.lexer.tagorder ≠ []) (hname : r.lexer.name = ascii "data")
    (hnf : r.fault = false) (hinv : CellInv r) (hpos : 0 < r.columns.length) :
    (r.currentdatacolumn = -1 →
        row_events (lex_tokens cb (data_tokens rows) r).trace =
          row_events r.trace ++
            (full_rows r.columns.length (rows.flatten.map Scalar.cell)).map
              (fun c => Event.row c (-1)) ∧
        (full_rows r.columns.length (rows.flatten.map Scalar.cell)).length =
          rows.flatten.length / r.columns.length ∧
        (∀ j, j < rows.flatten.length / r.columns.length →
          (full_rows r.columns.length (rows.flatten.map Scalar.cell))[j]? =
            some (((rows.flatten.drop (j * r.columns.length)).take r.columns.length).map
              Scalar.cell)) ∧
        (lex_tokens cb (data_tokens rows) r).currentdatacolumn + 1 =
          ((rows.flatten.length % r.columns.length : Nat) : Int) ∧
        pending_cells (lex_tokens cb (data_tokens rows) r) =
          (rows.flatten.drop
            (rows.flatten.length / r.columns.length * r.columns.length)).map Scalar.cell ∧
        row_events (lex_tokens cb ((JSON_TT_ARRAY_OPEN, []) ::
            sep_tokens (rows.map row_tokens ++ [(JSON_TT_ARRAY_OPEN, []) :: values_tokens vs]))
            r).trace =
          row_events r.trace ++
            (full_rows r.columns.length ((rows.flatten ++ vs).map Scalar.cell)).map
              (fun c => Event.row c (-1)) ∧
        (full_rows r.columns.length ((rows.flatten ++ vs).map Scalar.cell)).length =
          (rows.flatten ++ vs).length / r.columns.length) ∧
      CellFeed (rows.flatten.map Scalar.cell) r (lex_tokens cb (data_tokens rows) r) ∧
      CellFeed ((rows.flatten ++ vs).map Scalar.cell) r
        (lex_tokens cb ((JSON_TT_ARRAY_OPEN, []) ::
          sep_tokens (rows.map row_tokens ++ [(JSON_TT_ARRAY_OPEN, []) :: values_tokens vs])) r) ∧
      (lex_tokens cb (data_tokens rows) r).fault = false ∧
      (lex_tokens cb (data_tokens rows) r).columns.length = r.columns.length ∧
      (lex_tokens cb (data_tokens rows) r).lexer.tagorder = r.lexer.tagorder := by
  obtain ⟨f1, t1⟩ := lex_data_feed cb g hw rows r hs hname hnf hinv hpos
  have f2 := lex_data_unfinished cb g hw rows vs r hs hname hnf hinv hpos
  refine ⟨fun hcur => ?_, f1, f2, f1.fault, f1.len, t1⟩
  have hp := pending_cells_start r hcur
  have a := f1.rows
  have b := f1.pending
  have c := f1.feed_cursor hpos
  have d := f2.rows
  rw [hp, List.nil_append] at a b c d
  rw [List.length_map] at b c
  refine ⟨a, by rw [full_rows_length, List.length_map], ?_, c, ?_, d,
    by rw [full_rows_length, List.length_map]⟩
  · intro j hj
    rw [full_rows_get _ _ j (by rw [List.length_map]; exact hj), List.map_take, List.map_drop]
  · rw [b, List.map_drop]

/-- Witness of C36: the value `[[1],[2,3],[4,5,6]]` of `data`, reaching the
lexer in the result left by the front of the first reply of scenario S2, which
has two columns: three rows are delivered, (1,2), (3,4) and (5,6). -/
theorem rows_by_cell_count_witness :
    row_events (lex_tokens example_callbacks
        (data_tokens [[Scalar.num (ascii "1")], [Scalar.num (ascii "2"), Scalar.num (ascii "3")],
          [Scalar.num (ascii "4"), Scalar.num (ascii "5"), Scalar.num (ascii "6")]])
        data_state).trace =
      [Event.row [(ascii "1", false), (ascii "2", false)] (-1),
        Event.row [(ascii "3", false), (ascii "4", false)] (-1),
        Event.row [(ascii "5", false), (ascii "6", false)] (-1)] :=
  have h := rows_by_cell_count example_callbacks (fun _ => false) rfl
    [[Scalar.num (ascii "1")], [Scalar.num (ascii "2"), Scalar.num (ascii "3")],
      [Scalar.num (ascii "4"), Scalar.num (ascii "5"), Scalar.num (ascii "6")]] []
    data_state (by decide!) (by rfl) (by rfl) (Or.inl (by rfl)) (by decide!)
  (h.1 (by rfl)).1.trans (by decide!)

/-- The same through the byte sink and the driver: the reply with the data
`[[1],[2,3],[4,5,6]]` and two columns delivers the rows (1,2), (3,4), (5,6);
and when the data `[[1],[2,3]]` of a first reply ends in the middle of a row,
the value 4 of the next reply completes the row (3,4). -/
theorem ragged_rows_delivered :
    row_events (WriteCallback example_callbacks ragged_body new_prestoresult).1.trace =
        [Event.row [(ascii "1", false), (ascii "2", false)] (-1),
          Event.row [(ascii "3", false), (ascii "4", false)] (-1),
          Event.row [(ascii "5", false), (ascii "6", false)] (-1)] ∧
      row_events (prestoclient_query_run example_callbacks example_client
          [reply_ok [ragged_first], reply_ok [ragged_second]]).trace =
        [Event.row [(ascii "1", false), (ascii "2", false)] (-1),
          Event.row [(ascii "3", false), (ascii "4", false)] (-1)] := by
  constructor <;> decide!

/-! ## Repeated columns -/

theorem lex_token_object_open (cb : Callbacks) (r : PRESTOCLIENT_RESULT) :
    lex_token cb (JSON_TT_OBJECT_OPEN, []) r =
      { r with
        lexer := { r.lexer with
          tagorder := (JSON_TT_OBJECT_OPEN, r.lexer.name.take 20) :: r.lexer.tagorder
          name := []
          previoustag := JSON_TT_OBJECT_OPEN }
        json := { r.json with tagtype := JSON_TT_OBJECT_OPEN, tagbuffer := [] } } := by
  simp only [lex_token, json_lexer, json_lexer_switch, json_add_lexer_tagorder]

theorem lex_token_object_close (cb : Callbacks) (r : PRESTOCLIENT_RESULT) :
    lex_token cb (JSON_TT_OBJECT_CLOSE, []) r =
      { r with
        lexer := { r.lexer with
          tagorder := r.lexer.tagorder.tail
          previoustag := JSON_TT_OBJECT_CLOSE }
        json := { r.json with tagtype := JSON_TT_OBJECT_CLOSE, tagbuffer := [] } } := by
  simp only [lex_token, json_lexer, json_lexer_switch, json_remove_lexer_last_tagorder]

/-- A value named `type` in an element of `columns`: the type of the last
column is set, and the lexer is ready for the next member. -/
theorem lex_token_column_type_state (cb : Callbacks) (v : Scalar) (r : PRESTOCLIENT_RESULT)
    (f : PRESTOCLIENT_FIELD) (hc : in_columns_element r.lexer)
    (hav : r.columninfoavailable = false) (hname : r.lexer.name = ascii "type")
    (hp : r.lexer.previoustag = JSON_TT_COLON) (hlast : r.columns.getLast? = some f) :
    lex_token cb v.token r =
      lex_finish { lex_scalar_state v r with
        columns := r.columns.dropLast ++ [{ f with type := presto_type_of v.text }] } := by
  rw [lex_token_scalar_value cb v r hp,
    json_extract_dispatch_column cb (lex_scalar_state v r) hc hav (Or.inr hname)]
  have hlen : r.columns.length > 0 := by
    cases hcol : r.columns with
    | nil => rw [hcol] at hlast; cases hlast
    | cons a b => simp
  unfold extract_column
  have hn1 : (lex_scalar_state v r).lexer.name = ascii "type" := hname
  rw [if_neg (by rw [hn1]; decide), if_pos ⟨hlen, hn1⟩]
  have hl2 : (lex_scalar_state v r).columns.getLast? = some f := hlast
  rw [hl2]
  rfl

/-- An element `{"name": n, "type": t}` of `columns`, lexed inside the array
before the column info is frozen: one column with that name and the type of
that text is appended. -/
theorem lex_column_element (cb : Callbacks) (c : Bytes × Bytes) (r : PRESTOCLIENT_RESULT)
    (t2 : E_JSON_TAGTYPES) (e3 : E_JSON_TAGTYPES × Bytes)
    (rest : List (E_JSON_TAGTYPES × Bytes))
    (hst : r.lexer.tagorder = (t2, ascii "columns") :: e3 :: rest)
    (hav : r.columninfoavailable = false) (hnf : r.fault = false) :
    lex_tokens cb (column_tokens c) r =
      { r with
        columns := r.columns ++ [column_field c]
        lexer := { r.lexer with
          name := [], value := [], previoustag := JSON_TT_OBJECT_CLOSE }
        json := { r.json with tagtype := JSON_TT_OBJECT_CLOSE, tagbuffer := [] } } := by
  unfold column_tokens
  rw [lex_tokens_cons cb _ _ r hnf, lex_token_object_open]
  rw [lex_tokens_cons]; swap; exact hnf
  rw [lex_token_name]; rotate_left
  · simp
  · simp [json_in_array]
  dsimp only
  rw [lex_tokens_cons]; swap; exact hnf
  rw [lex_token_colon]
  dsimp only
  rw [lex_tokens_cons]; swap; exact hnf
  rw [show (JSON_TT_STRING, c.1) = (Scalar.str c.1).token from rfl]
  rw [lex_token_column_name cb (Scalar.str c.1)]; rotate_left
  · exact ⟨(JSON_TT_OBJECT_OPEN, List.take 20 r.lexer.name), t2, e3, rest, by simp [hst]⟩
  · exact hav
  · rfl
  · rfl
  simp only [lex_finish, lex_scalar_state, Scalar.text, Scalar.token]
  rw [lex_tokens_cons]; swap; exact hnf
  rw [lex_token_comma]
  dsimp only
  rw [lex_tokens_cons]; swap; exact hnf
  rw [lex_token_name]; rotate_left
  · simp
  · simp [json_in_array]
  dsimp only
  rw [lex_tokens_cons]; swap; exact hnf
  rw [lex_token_colon]
  dsimp only
  rw [lex_tokens_cons]; swap; exact hnf
  rw [show (JSON_TT_STRING, c.2) = (Scalar.str c.2).token from rfl]
  rw [lex_token_column_type_state cb (Scalar.str c.2) _ (named_field c.1)]; rotate_left
  · exact ⟨(JSON_TT_OBJECT_OPEN, List.take 20 r.lexer.name), t2, e3, rest, by simp [hst]⟩
  · exact hav
  · rfl
  · rfl
  · simp
  simp only [lex_finish, lex_scalar_state, Scalar.text, Scalar.token]
  rw [lex_tokens_cons]; swap; exact hnf
  rw [lex_token_object_close]
  simp only [lex_tokens, List.dropLast_concat, List.tail_cons,
    named_field, new_prestofield, alloc_copy, column_field]

theorem ColsFeed.cols_same {r r' : PRESTOCLIENT_RESULT} (hc : r'.columns = r.columns)
    (ha : r'.columninfoavailable = r.columninfoavailable) (hf : r'.fault = r.fault)
    (hs : r'.lexer.tagorder = r.lexer.tagorder)
    (hcur : r'.currentdatacolumn = r.currentdatacolumn) : ColsFeed [] r r' :=
  ⟨by rw [hc, List.append_nil], ha, hf, hs, hcur⟩

theorem ColsFeed.cols_trans {F G : List PRESTOCLIENT_FIELD} {r r1 r2 : PRESTOCLIENT_RESULT}
    (a : ColsFeed F r r1) (b : ColsFeed G r1 r2) : ColsFeed (F ++ G) r r2 :=
  ⟨by rw [b.columns, a.columns, List.append_assoc], b.avail.trans a.avail,
    b.fault.trans a.fault, b.stack.trans a.stack, b.cursor.trans a.cursor⟩

/-- The elements of `columns`, however many: one column each is appended. -/
theorem lex_columns_elements (cb : Callbacks) (cols : List (Bytes × Bytes)) :
    ∀ (r : PRESTOCLIENT_RESULT) (t2 : E_JSON_TAGTYPES) (e3 : E_JSON_TAGTYPES × Bytes)
      (rest : List (E_JSON_TAGTYPES × Bytes)),
      r.lexer.tagorder = (t2, ascii "columns") :: e3 :: rest →
      r.columninfoavailable = false → r.fault = false →
      ColsFeed (cols.map column_field) r
        (lex_tokens cb (sep_tokens (cols.map column_tokens)) r) := by
  induction cols with
  | nil =>
    intro r t2 e3 rest _ _ _
    exact ColsFeed.cols_same rfl rfl rfl rfl rfl
  | cons c cs ih =>
    intro r t2 e3 rest hst hav hnf
    have he := lex_column_element cb c r t2 e3 rest hst hav hnf
    have f1 : ColsFeed [column_field c] r (lex_tokens cb (column_tokens c) r) := by
      rw [he]
      exact ⟨rfl, rfl, rfl, rfl, rfl⟩
    cases cs with
    | nil => exact f1
    | cons d ds =>
      show ColsFeed (List.map column_field (c :: d :: ds)) r
        (lex_tokens cb (sep_tokens (column_tokens c :: List.map column_tokens (d :: ds))) r)
      rw [sep_tokens_cons _ _ (by simp), lex_tokens_append,
        lex_tokens_cons cb _ _ _ (f1.fault.trans hnf), lex_token_comma]
      have f2 : ColsFeed [] (lex_tokens cb (column_tokens c) r)
          { lex_tokens cb (column_tokens c) r with
            lexer := { (lex_tokens cb (column_tokens c) r).lexer with
              previoustag := JSON_TT_COMMA }
            json := { (lex_tokens cb (column_tokens c) r).json with
              tagtype := JSON_TT_COMMA, tagbuffer := [] } } :=
        ColsFeed.cols_same rfl rfl rfl rfl rfl
      have f3 := ih _ t2 e3 rest ((f1.cols_trans f2).stack.trans hst)
        ((f1.cols_trans f2).avail.trans hav) ((f1.cols_trans f2).fault.trans hnf)
      have f4 := (f1.cols_trans f2).cols_trans f3
      simpa using f4

/-- The value of a member `columns` outside `data`, lexed before the column
info is frozen: its columns are appended to those that are there. -/
theorem lex_columns_array (cb : Callbacks) (cols : List (Bytes × Bytes))
    (r : PRESTOCLIENT_RESULT) (hname : r.lexer.name = ascii "columns")
    (hst : r.lexer.tagorder ≠ []) (hav : r.columninfoavailable = false)
    (hnf : r.fault = false) :
    ColsFeed (cols.map column_field) r (lex_tokens cb (columns_tokens cols) r) := by
  obtain ⟨e3, rest, hst'⟩ := List.exists_cons_of_ne_nil hst
  unfold columns_tokens
  rw [List.cons_append, lex_tokens_cons cb _ _ _ hnf, lex_token_array_open, lex_tokens_append]
  have f1 : ColsFeed (cols.map column_field)
      { r with
        lexer := { r.lexer with
          tagorder := (JSON_TT_ARRAY_OPEN, r.lexer.name.take 20) :: r.lexer.tagorder
          name := []
          previoustag := JSON_TT_ARRAY_OPEN }
        json := { r.json with tagtype := JSON_TT_ARRAY_OPEN, tagbuffer := [] } }
      (lex_tokens cb (sep_tokens (cols.map column_tokens))
        { r with
          lexer := { r.lexer with
            tagorder := (JSON_TT_ARRAY_OPEN, r.lexer.name.take 20) :: r.lexer.tagorder
            name := []
            previoustag := JSON_TT_ARRAY_OPEN }
          json := { r.json with tagtype := JSON_TT_ARRAY_OPEN, tagbuffer := [] } }) :=
    lex_columns_elements cb cols _ JSON_TT_ARRAY_OPEN e3 rest
      (by
        show (JSON_TT_ARRAY_OPEN, r.lexer.name.take 20) :: r.lexer.tagorder = _
        rw [hname, hst']
        rfl) hav hnf
  rw [lex_tokens_cons cb _ _ _ (f1.fault.trans hnf), lex_token_array_close]
  exact ⟨f1.columns, f1.avail, f1.fault,
    by
      show (lex_tokens cb _ _).lexer.tagorder.tail = _
      rw [f1.stack]
      rfl,
    f1.cursor⟩

/-- A scalar member directly inside the root object: columns, column flag,
cursor, container stack and fault mark are left alone. -/
theorem lex_root_scalar (cb : Callbacks) (v : Scalar) (r : PRESTOCLIENT_RESULT)
    (e : E_JSON_TAGTYPES × Bytes) (hst : r.lexer.tagorder = [e])
    (hp : r.lexer.previoustag = JSON_TT_COLON) :
    ColsFeed [] r (lex_token cb v.token r) := by
  rw [lex_token_scalar_value cb v r hp]
  have hl : (lex_scalar_state v r).lexer.tagorder.length = 1 := by
    show r.lexer.tagorder.length = 1
    rw [hst]; rfl
  unfold json_extract_dispatch
  simp only [hl]
  split_ifs <;>
    first
      | omega
      | exact ColsFeed.cols_same rfl rfl rfl rfl rfl

theorem json_in_array_object (r : PRESTOCLIENT_RESULT) (n : Bytes)
    (h : r.lexer.tagorder = [(JSON_TT_OBJECT_OPEN, n)]) : json_in_array r.lexer = false := by
  unfold json_in_array
  rw [h]
  rfl

/-- Scalar members of the root object, each followed by a comma. -/
theorem lex_root_pre (cb : Callbacks) (pre : List (Bytes × Scalar)) :
    ∀ (r : PRESTOCLIENT_RESULT) (n : Bytes), r.lexer.tagorder = [(JSON_TT_OBJECT_OPEN, n)] →
      r.lexer.previoustag ≠ JSON_TT_COLON → r.fault = false →
      ColsFeed [] r
          (lex_tokens cb (pre.map (fun m => [(JSON_TT_STRING, m.1), (JSON_TT_COLON, []),
            m.2.token, (JSON_TT_COMMA, [])])).flatten r) ∧
        (lex_tokens cb (pre.map (fun m => [(JSON_TT_STRING, m.1), (JSON_TT_COLON, []),
            m.2.token, (JSON_TT_COMMA, [])])).flatten r).lexer.previoustag ≠ JSON_TT_COLON := by
  induction pre with
  | nil =>
    intro r n _ hp _
    exact ⟨ColsFeed.cols_same rfl rfl rfl rfl rfl, hp⟩
  | cons m ms ih =>
    intro r n hst hp hnf
    simp only [List.map_cons, List.flatten_cons, List.cons_append, List.nil_append]
    rw [lex_tokens_cons cb _ _ _ hnf, lex_token_name cb _ _ hp (json_in_array_object r n hst)]
    rw [lex_tokens_cons]; swap; exact hnf
    rw [lex_token_colon]
    rw [lex_tokens_cons]; swap; exact hnf
    have f1 := lex_root_scalar cb m.2
      { r with
        lexer := { r.lexer with name := m.1, previoustag := JSON_TT_COLON }
        json := { r.json with tagtype := JSON_TT_COLON, tagbuffer := [] } }
      (JSON_TT_OBJECT_OPEN, n) hst rfl
    dsimp only at f1 ⊢
    generalize lex_token cb m.2.token
      { r with
        lexer := { r.lexer with name := m.1, previoustag := JSON_TT_COLON }
        json := { r.json with tagtype := JSON_TT_COLON, tagbuffer := [] } } = s at f1 ⊢
    have hs : s.fault = false := f1.fault.trans hnf
    rw [lex_tokens_cons cb _ _ _ hs, lex_token_comma]
    have f2 := ih { s with
        lexer := { s.lexer with previoustag := JSON_TT_COMMA }
        json := { s.json with tagtype := JSON_TT_COMMA, tagbuffer := [] } } n
      (f1.stack.trans hst) (fun h => E_JSON_TAGTYPES.noConfusion h) hs
    refine ⟨?_, f2.2⟩
    have f3 : ColsFeed [] s { s with
        lexer := { s.lexer with previoustag := JSON_TT_COMMA }
        json := { s.json with tagtype := JSON_TT_COMMA, tagbuffer := [] } } :=
      ColsFeed.cols_same rfl rfl rfl rfl rfl
    have f4 : ColsFeed [] r s :=
      ⟨f1.columns, f1.avail, f1.fault, f1.stack, f1.cursor⟩
    exact (f4.cols_trans f3).cols_trans f2.1

/-- Scalar members of the root object, each after a comma. -/
theorem lex_root_post (cb : Callbacks) (post : List (Bytes × Scalar)) :
    ∀ (r : PRESTOCLIENT_RESULT) (n : Bytes), r.lexer.tagorder = [(JSON_TT_OBJECT_OPEN, n)] →
      r.fault = false →
      ColsFeed [] r
          (lex_tokens cb (post.map (fun m => [(JSON_TT_COMMA, []), (JSON_TT_STRING, m.1),
            (JSON_TT_COLON, []), m.2.token])).flatten r) := by
  induction post with
  | nil =>
    intro r n _ _
    exact ColsFeed.cols_same rfl rfl rfl rfl rfl
  | cons m ms ih =>
    intro r n hst hnf
    simp only [List.map_cons, List.flatten_cons, List.cons_append, List.nil_append]
    rw [lex_member_prelude cb m.1 _ r (json_in_array_object r n hst) hnf]
    rw [lex_tokens_cons]; swap; exact hnf
    have f1 := lex_root_scalar cb m.2
      { r with
        lexer := { r.lexer with name := m.1, previoustag := JSON_TT_COLON }
        json := { r.json with tagtype := JSON_TT_COLON, tagbuffer := [] } }
      (JSON_TT_OBJECT_OPEN, n) hst rfl
    dsimp only at f1 ⊢
    generalize lex_token cb m.2.token
      { r with
        lexer := { r.lexer with name := m.1, previoustag := JSON_TT_COLON }
        json := { r.json with tagtype := JSON_TT_COLON, tagbuffer := [] } } = s at f1 ⊢
    have hs : s.fault = false := f1.fault.trans hnf
    have f2 := ih s n (f1.stack.trans hst) hs
    have f4 : ColsFeed [] r s :=
      ⟨f1.columns, f1.avail, f1.fault, f1.stack, f1.cursor⟩
    exact f4.cols_trans f2

/-- A reply up to the end of its scalar members after `columns`, lexed from
outside every container before the column info is frozen: the columns of the
reply are appended to those that are there. -/
theorem lex_columns_head (cb : Callbacks) (pre post : List (Bytes × Scalar))
    (cols : List (Bytes × Bytes)) (r : PRESTOCLIENT_RESULT) (hst : r.lexer.tagorder = [])
    (hav : r.columninfoavailable = false) (hnf : r.fault = false) :
    (lex_tokens cb (columns_head pre cols post) r).columns =
        r.columns ++ cols.map column_field ∧
      (lex_tokens cb (columns_head pre cols post) r).columninfoavailable = false ∧
      (lex_tokens cb (columns_head pre cols post) r).fault = false ∧
      (lex_tokens cb (columns_head pre cols post) r).lexer.tagorder =
        [(JSON_TT_OBJECT_OPEN, r.lexer.name.take 20)] ∧
      (lex_tokens cb (columns_head pre cols post) r).currentdatacolumn =
        r.currentdatacolumn := by
  unfold columns_head
  rw [List.cons_append, List.cons_append, lex_tokens_cons cb _ _ _ hnf, lex_token_object_open,
    List.append_assoc, lex_tokens_append]
  have f1 := lex_root_pre cb pre
    { r with
      lexer := { r.lexer with
        tagorder := (JSON_TT_OBJECT_OPEN, r.lexer.name.take 20) :: r.lexer.tagorder
        name := []
        previoustag := JSON_TT_OBJECT_OPEN }
      json := { r.json with tagtype := JSON_TT_OBJECT_OPEN, tagbuffer := [] } }
    (r.lexer.name.take 20)
    (by
      show (JSON_TT_OBJECT_OPEN, r.lexer.name.take 20) :: r.lexer.tagorder = _
      rw [hst])
    (fun h => E_JSON_TAGTYPES.noConfusion h) hnf
  dsimp only at f1 ⊢
  generalize lex_tokens cb (pre.map (fun m => [(JSON_TT_STRING, m.1), (JSON_TT_COLON, []),
      m.2.token, (JSON_TT_COMMA, [])])).flatten
    { r with
      lexer := { r.lexer with
        tagorder := (JSON_TT_OBJECT_OPEN, r.lexer.name.take 20) :: r.lexer.tagorder
        name := []
        previoustag := JSON_TT_OBJECT_OPEN }
      json := { r.json with tagtype := JSON_TT_OBJECT_OPEN, tagbuffer := [] } } = s at f1 ⊢
  obtain ⟨f1, hp1⟩ := f1
  have c1 : s.columns = r.columns := by rw [f1.columns]; exact List.append_nil _
  have a1 : s.columninfoavailable = false := f1.avail.trans hav
  have n1 : s.fault = false := f1.fault.trans hnf
  have s1 : s.lexer.tagorder = [(JSON_TT_OBJECT_OPEN, r.lexer.name.take 20)] := by
    rw [f1.stack]
    show (JSON_TT_OBJECT_OPEN, r.lexer.name.take 20) :: r.lexer.tagorder = _
    rw [hst]
  have u1 : s.currentdatacolumn = r.currentdatacolumn := f1.cursor
  rw [List.cons_append, List.cons_append, lex_tokens_cons cb _ _ _ n1,
    lex_token_name cb _ _ hp1 (json_in_array_object s _ s1)]
  rw [lex_tokens_cons]; swap; exact n1
  rw [lex_token_colon, lex_tokens_append]
  have f2 := lex_columns_array cb cols
    { s with
      lexer := { s.lexer with name := ascii "columns", previoustag := JSON_TT_COLON }
      json := { s.json with tagtype := JSON_TT_COLON, tagbuffer := [] } }
    rfl
    (by
      show s.lexer.tagorder ≠ []
      rw [s1]
      exact List.cons_ne_nil _ _) a1 n1
  dsimp only at f2 ⊢
  generalize lex_tokens cb (columns_tokens cols)
    { s with
      lexer := { s.lexer with name := ascii "columns", previoustag := JSON_TT_COLON }
      json := { s.json with tagtype := JSON_TT_COLON, tagbuffer := [] } } = s2 at f2 ⊢
  have f3 := lex_root_post cb post s2 (r.lexer.name.take 20) (f2.stack.trans s1)
    (f2.fault.trans n1)
  refine ⟨?_, ?_, ?_, ?_, ?_⟩
  · rw [f3.columns, f2.columns, List.append_nil]
    show s.columns ++ _ = _
    rw [c1]
  · exact f3.avail.trans (f2.avail.trans a1)
  · exact f3.fault.trans (f2.fault.trans n1)
  · exact f3.stack.trans (f2.stack.trans s1)
  · exact f3.cursor.trans (f2.cursor.trans u1)

/-- The data branch of the projector leaves its mark: the cursor has moved
from -1 or a row has been completed. -/
theorem extract_data_mark (cb : Callbacks) (r : PRESTOCLIENT_RESULT)
    (h : -1 ≤ r.currentdatacolumn) :
    -1 ≤ (extract_data cb r).currentdatacolumn ∧ DataMark (extract_data cb r) := by
  obtain ⟨_, hc, _, _, _, _⟩ := extract_data_header_columns cb r
  unfold extract_data
  generalize extract_data_header cb r = r1 at *
  have hcol : 0 ≤ r1.currentdatacolumn + 1 := by rw [hc]; omega
  dsimp only
  rw [if_neg (by omega)]
  split
  · refine ⟨?_, Or.inl ?_⟩
    · show -1 ≤ r1.currentdatacolumn + 1
      omega
    · show r1.currentdatacolumn + 1 ≠ -1
      omega
  · split_ifs
    · obtain ⟨_, _, c, d, _⟩ := call_write_data cb
        { r1 with
          currentdatacolumn := -1
          dataavailable := true
          columns := r1.columns.set (r1.currentdatacolumn + 1).toNat
            (extract_data_field ‹_› r1.json.tagtype r1.lexer.value) }
      refine ⟨?_, Or.inr ?_⟩
      · rw [d]
      · rw [c]
    · refine ⟨?_, Or.inl ?_⟩
      · show -1 ≤ r1.currentdatacolumn + 1
        omega
      · show r1.currentdatacolumn + 1 ≠ -1
        omega

theorem PostKeep.post_of_same {r r' : PRESTOCLIENT_RESULT}
    (hs : r'.clientstatus = r.clientstatus)
    (hc : r'.currentdatacolumn = r.currentdatacolumn)
    (hd : r'.dataavailable = r.dataavailable)
    (ha : r'.columninfoavailable = r.columninfoavailable) : PostKeep r r' := by
  intro h
  refine ⟨hs ▸ h, fun hcur => ⟨by rw [hc]; exact hcur, ?_, ?_⟩⟩
  · intro hm
    unfold DataMark at hm ⊢
    rw [hc, hd]
    exact hm
  · intro hav
    rw [ha] at hav
    exact Or.inl hav

theorem json_extract_dispatch_post (cb : Callbacks) (r : PRESTOCLIENT_RESULT) :
    PostKeep r (json_extract_dispatch cb r) := by
  unfold json_extract_dispatch
  dsimp only
  split_ifs with h1 h2 h3 h4 h5 h6 h7 h8
  · intro h
    rw [(extract_data_step cb r).clientstatus] at h
    refine ⟨h, fun hcur => ?_⟩
    obtain ⟨a, b⟩ := extract_data_mark cb r hcur
    exact ⟨a, fun _ => b, fun _ => Or.inr b⟩
  · exact PostKeep.post_of_same rfl rfl rfl rfl
  · exact PostKeep.post_of_same rfl rfl rfl rfl
  · exact PostKeep.post_of_same rfl rfl rfl rfl
  · exact PostKeep.post_of_same rfl rfl rfl rfl
  · exact PostKeep.post_of_same rfl rfl rfl rfl
  · exact PostKeep.post_of_same rfl rfl rfl rfl
  · obtain ⟨_, b, c, _⟩ := extract_column_data r
    exact PostKeep.post_of_same (extract_column_step cb r h8.1).clientstatus
      (extract_column_core r).2.2 c b
  · exact PostKeep.post_of_same rfl rfl rfl rfl

/-- Every operation of the library keeps the link between the column flag and
the data values dispatched, as long as no follow-up GET has been completed. -/
theorem PostKeep.post_closed (cb : Callbacks) : DriverClosed cb PostKeep where
  sink :=
    { refl := fun _ => PostKeep.post_of_same rfl rfl rfl rfl
      trans := fun r1 r2 r3 h12 h23 h3 => by
        obtain ⟨s2, k23⟩ := h23 h3
        obtain ⟨s1, k12⟩ := h12 s2
        refine ⟨s1, fun hcur => ?_⟩
        obtain ⟨c2, m12, a12⟩ := k12 hcur
        obtain ⟨c3, m23, a23⟩ := k23 c2
        refine ⟨c3, fun hm => m23 (m12 hm), fun hav => ?_⟩
        rcases a23 hav with h | h
        · rcases a12 h with h' | h'
          · exact Or.inl h'
          · exact Or.inr (m23 h')
        · exact Or.inr h
      dispatch := json_extract_dispatch_post cb
      frame := fun r _ _ _ _ => PostKeep.post_of_same rfl rfl rfl rfl }
  net := fun r _ _ => PostKeep.post_of_same rfl rfl rfl rfl
  error := fun r _ _ => PostKeep.post_of_same rfl rfl rfl rfl
  setup := fun t r => by cases t <;> exact PostKeep.post_of_same rfl rfl rfl rfl
  after_get := fun r h => by
    rw [(queryisrunning_after_get_spec cb r).2.2.2.2.1] at h
    split_ifs at h

/-- When the POST has been answered, whatever the server sent, the column info
is marked available only if a data value has been dispatched. -/
theorem query_posted_flag (cb : Callbacks) (client : PRESTOCLIENT) (script : List Response)
    (h : (query_posted cb client script).1.columninfoavailable = true) :
    DataMark (query_posted cb client script).1 := by
  have k := (PostKeep.post_closed cb).lift_openuri PRESTOCLIENT_HTTP_REQUEST_TYPE_POST client
    script new_prestoresult (query_posted_status cb client script)
  obtain ⟨_, _, a⟩ := k.2 (by decide)
  rcases a h with h' | h'
  · cases h'
  · exact h'

theorem queryisrunning_after_get_flag (cb : Callbacks) (r : PRESTOCLIENT_RESULT) :
    (0 < r.columns.length → (queryisrunning_after_get cb r).columninfoavailable = true) ∧
      (r.columns.length = 0 →
        (queryisrunning_after_get cb r).columninfoavailable = r.columninfoavailable) := by
  have hda : ∀ s, (call_describe cb s).columninfoavailable = s.columninfoavailable :=
    fun s => (call_describe_data cb s).2.1
  unfold queryisrunning_after_get
  dsimp only
  refine ⟨fun hl => ?_, fun h0 => ?_⟩
  · split_ifs <;> simp_all
  · split_ifs <;> simp_all

/-- A data value freezes the column info when there is a column. -/
theorem extract_data_freezes (cb : Callbacks) (r : PRESTOCLIENT_RESULT)
    (h : 0 < r.columns.length) : (extract_data cb r).columninfoavailable = true := by
  obtain ⟨_, _, _, _, _, hav⟩ := extract_data_header_columns cb r
  have hav := hav h
  unfold extract_data
  generalize extract_data_header cb r = r1 at *
  dsimp only
  split_ifs
  · exact hav
  · split
    · exact hav
    · split_ifs
      · rw [(call_write_data cb _).2.1]
        exact hav
      · exact hav

/-- The reply with its member `data`: the rows are taken by the columns that
are there, whose count stays. -/
theorem lex_columns_data (cb : Callbacks) (g : PRESTOCLIENT_RESULT → Bool)
    (hw : cb.write_callback_function = some g) (pre post : List (Bytes × Scalar))
    (cols : List (Bytes × Bytes)) (rows : List (List Scalar)) (r : PRESTOCLIENT_RESULT)
    (hst : r.lexer.tagorder = []) (hav : r.columninfoavailable = false)
    (hnf : r.fault = false) (hcur : r.currentdatacolumn = -1) (hpos : 0 < cols.length) :
    (lex_tokens cb (columns_data_reply pre cols post rows) r).columns.length =
        r.columns.length + cols.length ∧
      (lex_tokens cb (columns_data_reply pre cols post rows) r).fault = false := by
  obtain ⟨h1, h2, h3, h4, h5⟩ := lex_columns_head cb pre post cols r hst hav hnf
  unfold columns_data_reply
  rw [lex_tokens_append, lex_tokens_append]
  generalize lex_tokens cb (columns_head pre cols post) r = s at h1 h2 h3 h4 h5 ⊢
  rw [lex_member_prelude cb _ _ s (json_in_array_object s _ h4) h3]
  have hlen : s.columns.length = r.columns.length + cols.length := by
    rw [h1, List.length_append, List.length_map]
  obtain ⟨f, hs⟩ := lex_data_feed cb g hw rows
    { s with
      lexer := { s.lexer with name := ascii "data", previoustag := JSON_TT_COLON }
      json := { s.json with tagtype := JSON_TT_COLON, tagbuffer := [] } }
    (by
      show s.lexer.tagorder ≠ []
      rw [h4]
      exact List.cons_ne_nil _ _)
    rfl h3 (Or.inl (h5.trans hcur))
    (by
      show 0 < s.columns.length
      omega)
  rw [lex_tokens_cons cb _ _ _ f.fault, lex_token_object_close]
  exact ⟨f.len.trans hlen, f.fault⟩

/-- C37 (the column info is frozen only by a data value or by a completed
follow-up GET, never by the POST reply). A result with no columns, the column
info not frozen, outside every container, takes the reply to the POST: a root
object with any scalar members, the member `columns` with the `n` elements
`cols`, and any scalar members after it, no data. Then the result has those
`n` columns and the column info is still not frozen. The follow-up GET is
started and its reply announces the same columns again: after it the column
vector is the `n` columns followed by the same `n` columns, and when
`prestoclient_queryisrunning` has done its bookkeeping for the GET the column
count is `2 * n` and, for `n > 0`, the column info is frozen. The count is
`2 * n` as well when the follow-up reply carries rows in a member `data` after
its columns, with a row callback registered. In general: when the POST has
been answered, whatever the server sent, the column info is frozen only if a
data value has been dispatched; a data value freezes it when there is a
column, and so does the bookkeeping after a GET. -/
theorem columns_doubled (cb : Callbacks) (pre1 post1 pre2 post2 : List (Bytes × Scalar))
    (cols : List (Bytes × Bytes)) (url : Bytes) (r0 : PRESTOCLIENT_RESULT)
    (hst : r0.lexer.tagorder = []) (hcols : r0.columns = [])
    (hav : r0.columninfoavailable = false) (hnf : r0.fault = false)
    (hcur : r0.currentdatacolumn = -1) :
    (lex_tokens cb (columns_reply pre1 cols post1) r0).columns = cols.map column_field ∧
      (lex_tokens cb (columns_reply pre1 cols post1) r0).columninfoavailable = false ∧
      (lex_tokens cb (columns_reply pre2 cols post2)
          (get_started url (lex_tokens cb (columns_reply pre1 cols post1) r0))).columns =
        cols.map column_field ++ cols.map column_field ∧
      (queryisrunning_after_get cb (lex_tokens cb (columns_reply pre2 cols post2)
          (get_started url (lex_tokens cb (columns_reply pre1 cols post1) r0)))).columns.length =
        2 * cols.length ∧
      (0 < cols.length →
        (queryisrunning_after_get cb (lex_tokens cb (columns_reply pre2 cols post2)
          (get_started url (lex_tokens cb (columns_reply pre1 cols post1) r0)))
          ).columninfoavailable = true) ∧
      (∀ (g : PRESTOCLIENT_RESULT → Bool) (rows : List (List Scalar)),
        cb.write_callback_function = some g → 0 < cols.length →
        (queryisrunning_after_get cb (lex_tokens cb (columns_data_reply pre2 cols post2 rows)
          (get_started url (lex_tokens cb (columns_reply pre1 cols post1) r0)))).columns.length =
          2 * cols.length ∧
        (lex_tokens cb (columns_data_reply pre2 cols post2 rows)
          (get_started url (lex_tokens cb (columns_reply pre1 cols post1) r0))).fault = false) ∧
      (∀ (client : PRESTOCLIENT) (script : List Response),
        (query_posted cb client script).1.columninfoavailable = true →
        DataMark (query_posted cb client script).1) ∧
      (∀ r : PRESTOCLIENT_RESULT, 0 < r.columns.length →
        (extract_data cb r).columninfoavailable = true ∧
        (queryisrunning_after_get cb r).columninfoavailable = true) := by
  obtain ⟨a1, a2, a3, a4, a5⟩ := lex_columns_head cb pre1 post1 cols r0 hst hav hnf
  have hs1 : lex_tokens cb (columns_reply pre1 cols post1) r0 =
      lex_token cb (JSON_TT_OBJECT_CLOSE, []) (lex_tokens cb (columns_head pre1 cols post1) r0) := by
    unfold columns_reply
    rw [lex_tokens_append, lex_tokens_cons cb _ _ _ a3]
    rfl
  rw [lex_token_object_close] at hs1
  generalize lex_tokens cb (columns_head pre1 cols post1) r0 = h1 at a1 a2 a3 a4 a5 hs1
  generalize lex_tokens cb (columns_reply pre1 cols post1) r0 = s1 at hs1 ⊢
  have b1 : s1.columns = cols.map column_field := by
    rw [hs1]
    show h1.columns = _
    rw [a1, hcols, List.nil_append]
  have b2 : s1.columninfoavailable = false := by rw [hs1]; exact a2
  have b3 : s1.fault = false := by rw [hs1]; exact a3
  have b4 : s1.lexer.tagorder = [] := by
    rw [hs1]
    show h1.lexer.tagorder.tail = []
    rw [a4]
    rfl
  have b5 : s1.currentdatacolumn = -1 := by rw [hs1]; exact a5.trans hcur
  have c1 : (get_started url s1).columns = cols.map column_field := b1
  have c2 : (get_started url s1).columninfoavailable = false := b2
  have c3 : (get_started url s1).fault = false := b3
  have c4 : (get_started url s1).lexer.tagorder = [] := b4
  have c5 : (get_started url s1).currentdatacolumn = -1 := b5
  obtain ⟨d1, d2, d3, d4, d5⟩ :=
    lex_columns_head cb pre2 post2 cols (get_started url s1) c4 c2 c3
  have hs2 : lex_tokens cb (columns_reply pre2 cols post2) (get_started url s1) =
      lex_token cb (JSON_TT_OBJECT_CLOSE, [])
        (lex_tokens cb (columns_head pre2 cols post2) (get_started url s1)) := by
    unfold columns_reply
    rw [lex_tokens_append, lex_tokens_cons cb _ _ _ d3]
    rfl
  rw [lex_token_object_close] at hs2
  have e1 : (lex_tokens cb (columns_reply pre2 cols post2) (get_started url s1)).columns =
      cols.map column_field ++ cols.map column_field := by
    rw [hs2]
    show (lex_tokens cb (columns_head pre2 cols post2) (get_started url s1)).columns = _
    rw [d1, c1]
  have e2 : (lex_tokens cb (columns_reply pre2 cols post2) (get_started url s1)).columns.length =
      2 * cols.length := by
    rw [e1, List.length_append, List.length_map]
    omega
  refine ⟨b1, b2, e1, ?_, ?_, ?_, ?_, ?_⟩
  · rw [(queryisrunning_after_get_data cb _).1]
    exact e2
  · intro hpos
    exact (queryisrunning_after_get_flag cb _).1 (by rw [e2]; omega)
  · intro g rows hw hpos
    obtain ⟨f1, f2⟩ := lex_columns_data cb g hw pre2 post2 cols rows (get_started url s1)
      c4 c2 c3 c5 hpos
    refine ⟨?_, f2⟩
    rw [(queryisrunning_after_get_data cb _).1, f1, c1, List.length_map]
    omega
  · intro client script h
    exact query_posted_flag cb client script h
  · intro r h
    exact ⟨extract_data_freezes cb r h, (queryisrunning_after_get_flag cb r).1 h⟩

/-- C37 at an instance: one column `a` of type varchar, announced by the reply
to the POST and again by the reply to the follow-up GET. -/
theorem columns_doubled_witness :
    (lex_tokens example_callbacks
        (columns_reply [] [(ascii "a", ascii "varchar")] [])
        (get_started (ascii "u") (lex_tokens example_callbacks
          (columns_reply [(ascii "nextUri", Scalar.str (ascii "u"))]
            [(ascii "a", ascii "varchar")] []) new_prestoresult))).columns =
      [column_field (ascii "a", ascii "varchar"), column_field (ascii "a", ascii "varchar")] :=
  (columns_doubled example_callbacks [(ascii "nextUri", Scalar.str (ascii "u"))] [] [] []
    [(ascii "a", ascii "varchar")] (ascii "u") new_prestoresult rfl rfl rfl rfl rfl).2.2.1

/-- The same through the byte sink and the driver. The POST is answered with a
reply that announces the columns `a` and `b` and a next URI, the follow-up GET
with a reply that announces `a` and `b` again and carries the data
`[["x",1],["y",2]]`. After the POST there are two columns and the column info
is not frozen; the query ends with four columns `a`, `b`, `a`, `b`, the
describe callback is given these four, and the four values are delivered as
one row of four cells. -/
theorem repeated_columns_run :
    ((query_posted example_callbacks example_client repeat_script).1.columns.length = 2 ∧
        (query_posted example_callbacks example_client
          repeat_script).1.columninfoavailable = false) ∧
      describe_view (prestoclient_query_run example_callbacks example_client repeat_script) =
        [(some (ascii "a"), PRESTOCLIENT_TYPE_VARCHAR), (some (ascii "b"), PRESTOCLIENT_TYPE_BIGINT),
          (some (ascii "a"), PRESTOCLIENT_TYPE_VARCHAR),
          (some (ascii "b"), PRESTOCLIENT_TYPE_BIGINT)] ∧
      (prestoclient_query_run example_callbacks example_client repeat_script).trace.filter
          (fun e => is_describe_event e || is_row_event e) =
        [Event.describe [(some (ascii "a"), PRESTOCLIENT_TYPE_VARCHAR),
            (some (ascii "b"), PRESTOCLIENT_TYPE_BIGINT),
            (some (ascii "a"), PRESTOCLIENT_TYPE_VARCHAR),
            (some (ascii "b"), PRESTOCLIENT_TYPE_BIGINT)],
          Event.row [(ascii "x", false), (ascii "1", false), (ascii "y", false),
            (ascii "2", false)] (-1)] := by
  refine ⟨⟨?_, ?_⟩, ?_, ?_⟩ <;> decide!

/-! ## Name and value pairing -/

theorem call_write_json (cb : Callbacks) (r : PRESTOCLIENT_RESULT) :
    (call_write cb r).json = r.json := by
  unfold call_write
  split <;> rfl

theorem extract_data_json (cb : Callbacks) (r : PRESTOCLIENT_RESULT) :
    (extract_data cb r).json = r.json := by
  obtain ⟨_, _, _, hjson, _, _⟩ := extract_data_header_columns cb r
  unfold extract_data
  generalize extract_data_header cb r = r1 at *
  dsimp only
  split_ifs
  · exact hjson
  · split
    · exact hjson
    · split_ifs
      · rw [call_write_json]
        exact hjson
      · exact hjson

theorem extract_column_json (r : PRESTOCLIENT_RESULT) : (extract_column r).json = r.json := by
  unfold extract_column
  split_ifs
  · rfl
  · split <;> rfl
  · rfl

/-- The if-chain of the projector leaves the lexer and the tokenizer alone. -/
theorem json_extract_dispatch_books (cb : Callbacks) (r : PRESTOCLIENT_RESULT) :
    (json_extract_dispatch cb r).lexer = r.lexer ∧
      (json_extract_dispatch cb r).json = r.json := by
  refine ⟨(json_extract_dispatch_lexer cb r).1, ?_⟩
  unfold json_extract_dispatch
  dsimp only
  split_ifs
  · exact extract_data_json cb r
  · rfl
  · rfl
  · rfl
  · rfl
  · rfl
  · rfl
  · exact extract_column_json r
  · rfl

/-- The lexer on a scalar that stands where a value may stand: after a colon
or inside an array if it is a string, anywhere if it is not. The projector is
invoked once, with the stack and the pending name as they are. -/
theorem lex_token_dispatch (cb : Callbacks) (v : Scalar) (r : PRESTOCLIENT_RESULT)
    (h : ∀ t, v = Scalar.str t →
      r.lexer.previoustag = JSON_TT_COLON ∨ json_in_array r.lexer = true) :
    lex_token cb v.token r =
      dispatch cb
        { stack := r.lexer.tagorder, previoustag := r.lexer.previoustag,
          name := r.lexer.name, value := v } r := by
  show _ = lex_finish (json_extract_dispatch cb (lex_scalar_state v r))
  cases v with
  | str t =>
    have hc := h t rfl
    simp only [lex_token, json_lexer, json_lexer_switch, lexer_value, json_extract_variables,
      lex_finish, lex_scalar_state, Scalar.token, Scalar.text, Option.getD_none,
      Option.getD_some]
    rw [if_pos hc]
  | num t =>
    simp only [lex_token, json_lexer, json_lexer_switch, lexer_value, json_extract_variables,
      lex_finish, lex_scalar_state, Scalar.token, Scalar.text, Option.getD_none,
      Option.getD_some]
  | tru =>
    simp only [lex_token, json_lexer, json_lexer_switch, lexer_value, json_extract_variables,
      lex_finish, lex_scalar_state, Scalar.token, Scalar.text, Option.getD_none,
      Option.getD_some]
  | fls =>
    simp only [lex_token, json_lexer, json_lexer_switch, lexer_value, json_extract_variables,
      lex_finish, lex_scalar_state, Scalar.token, Scalar.text, Option.getD_none,
      Option.getD_some]
  | nul =>
    simp only [lex_token, json_lexer, json_lexer_switch, lexer_value, json_extract_variables,
      lex_finish, lex_scalar_state, Scalar.token, Scalar.text, Option.getD_none,
      Option.getD_some]

/-- After an invocation of the projector name and value are empty, and the
lexer's bookkeeping is settled: the stack is the one of the invocation and the
scalar is the token recorded last. -/
theorem dispatch_settled (cb : Callbacks) (d : Dispatch) (r : PRESTOCLIENT_RESULT) :
    (dispatch cb d r).lexer.name = [] ∧ (dispatch cb d r).lexer.value = [] ∧
      settle d.stack d.value.token.1 (dispatch cb d r) = dispatch cb d r := by
  refine ⟨rfl, rfl, ?_⟩
  unfold dispatch
  obtain ⟨hl, hj⟩ := json_extract_dispatch_books cb (lex_scalar_state d.value
    { r with lexer := { r.lexer with
        tagorder := d.stack, previoustag := d.previoustag, name := d.name } })
  generalize json_extract_dispatch cb (lex_scalar_state d.value
    { r with lexer := { r.lexer with
        tagorder := d.stack, previoustag := d.previoustag, name := d.name } }) = x at hl hj
  unfold settle lex_finish
  rw [hl, hj]
  rfl

theorem SameData.same_symm {r r' : PRESTOCLIENT_RESULT} (h : SameData r r') : SameData r' r :=
  Eq.symm h

theorem SameData.same_trans {r1 r2 r3 : PRESTOCLIENT_RESULT} (h : SameData r1 r2)
    (k : SameData r2 r3) : SameData r1 r3 :=
  Eq.trans h k

theorem SameData.same_fault {r r' : PRESTOCLIENT_RESULT} (h : SameData r r') :
    r.fault = r'.fault := by
  have k : settle [] JSON_TT_UNKNOWN r = settle [] JSON_TT_UNKNOWN r' := h
  have k2 := congrArg PRESTOCLIENT_RESULT.fault k
  exact k2

theorem SameData.same_settle {r r' : PRESTOCLIENT_RESULT} (h : SameData r r')
    (stack : List (E_JSON_TAGTYPES × Bytes)) (tag : E_JSON_TAGTYPES) :
    settle stack tag r = settle stack tag r' := by
  show settle stack tag (settle [] JSON_TT_UNKNOWN r) =
    settle stack tag (settle [] JSON_TT_UNKNOWN r')
  rw [show settle [] JSON_TT_UNKNOWN r = settle [] JSON_TT_UNKNOWN r' from h]

theorem SameData.same_dispatch {r r' : PRESTOCLIENT_RESULT} (h : SameData r r')
    (cb : Callbacks) (d : Dispatch) : dispatch cb d r = dispatch cb d r' := by
  show dispatch cb d (settle [] JSON_TT_UNKNOWN r) = dispatch cb d (settle [] JSON_TT_UNKNOWN r')
  rw [show settle [] JSON_TT_UNKNOWN r = settle [] JSON_TT_UNKNOWN r' from h]

theorem dispatch_all_fault (cb : Callbacks) (ds : List Dispatch) (r : PRESTOCLIENT_RESULT)
    (h : r.fault = true) : dispatch_all cb ds r = r := by
  cases ds with
  | nil => rfl
  | cons d rest => simp [dispatch_all, h]

theorem dispatch_all_cons (cb : Callbacks) (d : Dispatch) (ds : List Dispatch)
    (r : PRESTOCLIENT_RESULT) (h : r.fault = false) :
    dispatch_all cb (d :: ds) r = dispatch_all cb ds (dispatch cb d r) := by
  simp [dispatch_all, h]

theorem dispatch_all_append (cb : Callbacks) (a b : List Dispatch) (r : PRESTOCLIENT_RESULT) :
    dispatch_all cb (a ++ b) r = dispatch_all cb b (dispatch_all cb a r) := by
  induction a generalizing r with
  | nil => rfl
  | cons d ds ih =>
    by_cases hf : r.fault = true
    · rw [dispatch_all_fault cb _ r hf, dispatch_all_fault cb _ r hf,
        dispatch_all_fault cb _ r hf]
    · have hf' : r.fault = false := by simpa using hf
      rw [List.cons_append, dispatch_all_cons cb _ _ r hf', dispatch_all_cons cb _ _ r hf', ih]

theorem SameData.same_all {r r' : PRESTOCLIENT_RESULT} (h : SameData r r') (cb : Callbacks)
    (ds : List Dispatch) : SameData (dispatch_all cb ds r) (dispatch_all cb ds r') := by
  cases ds with
  | nil => exact h
  | cons d rest =>
    by_cases hf : r.fault = true
    · rw [dispatch_all_fault cb _ r hf, dispatch_all_fault cb _ r' (h.same_fault ▸ hf)]
      exact h
    · have hf' : r.fault = false := by simpa using hf
      rw [dispatch_all_cons cb _ _ r hf', dispatch_all_cons cb _ _ r' (h.same_fault ▸ hf'),
        h.same_dispatch cb d]
      rfl

/-- A token run and a run of invocations, one after the other: when the first
token run is the first run of invocations up to the bookkeeping and the second
is so from the result of the first, the whole is. -/
theorem SameData.same_seq {cb : Callbacks} {a b : List Token} {da db : List Dispatch}
    {r : PRESTOCLIENT_RESULT}
    (h1 : SameData (lex_tokens cb a r) (dispatch_all cb da r))
    (h2 : (lex_tokens cb a r).fault = false →
      SameData (lex_tokens cb b (lex_tokens cb a r)) (dispatch_all cb db (lex_tokens cb a r))) :
    SameData (lex_tokens cb (a ++ b) r) (dispatch_all cb (da ++ db) r) := by
  rw [lex_tokens_append, dispatch_all_append]
  by_cases hf : (lex_tokens cb a r).fault = true
  · rw [lex_tokens_fault cb _ _ hf, dispatch_all_fault cb _ _ (h1.same_fault ▸ hf)]
    exact h1
  · have hf' : (lex_tokens cb a r).fault = false := by simpa using hf
    exact (h2 hf').same_trans (h1.same_all cb db)

theorem settle_fields {stack : List (E_JSON_TAGTYPES × Bytes)} {tag : E_JSON_TAGTYPES}
    {x : PRESTOCLIENT_RESULT} (h : settle stack tag x = x) :
    x.lexer.tagorder = stack ∧ x.lexer.previoustag = tag ∧ x.lexer.name = [] := by
  refine ⟨?_, ?_, ?_⟩
  · have k := congrArg (fun z : PRESTOCLIENT_RESULT => z.lexer.tagorder) h
    exact k.symm
  · have k := congrArg (fun z : PRESTOCLIENT_RESULT => z.lexer.previoustag) h
    exact k.symm
  · have k := congrArg (fun z : PRESTOCLIENT_RESULT => z.lexer.name) h
    exact k.symm

/-- A closing token after the contents of a container: the container is taken
off the stack and the bookkeeping is settled. -/
theorem settle_close {e : E_JSON_TAGTYPES × Bytes} {stack : List (E_JSON_TAGTYPES × Bytes)}
    {tag : E_JSON_TAGTYPES} (c : E_JSON_TAGTYPES) {x : PRESTOCLIENT_RESULT}
    (h : settle (e :: stack) tag x = x) :
    settle stack c
        { x with
          lexer := { x.lexer with tagorder := x.lexer.tagorder.tail, previoustag := c }
          json := { x.json with tagtype := c, tagbuffer := [] } } =
      { x with
        lexer := { x.lexer with tagorder := x.lexer.tagorder.tail, previoustag := c }
        json := { x.json with tagtype := c, tagbuffer := [] } } := by
  rw [← h]
  rfl

theorem json_in_array_stack (l l' : JSONLEXER) (h : l.tagorder = l'.tagorder) :
    json_in_array l = json_in_array l' := by
  unfold json_in_array
  rw [h]

theorem value_run_scalar (cb : Callbacks) (s : Scalar) : ValueRun cb (Json.scalar s) := by
  intro r hf _ _ hctx
  have e : lex_tokens cb (Json.scalar s).tokens r =
      dispatch cb
        { stack := r.lexer.tagorder, previoustag := r.lexer.previoustag,
          name := r.lexer.name, value := s } r := by
    show lex_tokens cb [s.token] r = _
    rw [lex_tokens_cons cb _ _ r hf]
    exact lex_token_dispatch cb s r (fun t ht => hctx t (by rw [ht]))
  have e2 : dispatch_all cb
      ((Json.scalar s).dispatches r.lexer.tagorder r.lexer.previoustag r.lexer.name) r =
      dispatch cb
        { stack := r.lexer.tagorder, previoustag := r.lexer.previoustag,
          name := r.lexer.name, value := s } r := by
    show dispatch_all cb [_] r = _
    rw [dispatch_all_cons cb _ _ r hf]
    rfl
  rw [e, e2]
  exact ⟨rfl, fun _ => (dispatch_settled cb _ r).2.2⟩

theorem value_run_object (cb : Callbacks) (ms : Members) (hm : MembersRun cb ms) :
    ValueRun cb (Json.object ms) := by
  intro r hf hn hnm _
  have htake : r.lexer.name.take 20 = r.lexer.name := List.take_of_length_le (by omega)
  show SameData (lex_tokens cb ((JSON_TT_OBJECT_OPEN, []) ::
      (ms.tokens true ++ [(JSON_TT_OBJECT_CLOSE, [])])) r)
      (dispatch_all cb (ms.dispatches ((JSON_TT_OBJECT_OPEN, r.lexer.name) :: r.lexer.tagorder)) r) ∧
    ((lex_tokens cb ((JSON_TT_OBJECT_OPEN, []) ::
      (ms.tokens true ++ [(JSON_TT_OBJECT_CLOSE, [])])) r).fault = false →
      settle r.lexer.tagorder JSON_TT_OBJECT_CLOSE (lex_tokens cb ((JSON_TT_OBJECT_OPEN, []) ::
        (ms.tokens true ++ [(JSON_TT_OBJECT_CLOSE, [])])) r) =
      lex_tokens cb ((JSON_TT_OBJECT_OPEN, []) ::
        (ms.tokens true ++ [(JSON_TT_OBJECT_CLOSE, [])])) r)
  rw [lex_tokens_cons cb _ _ r hf, lex_token_object_open, htake]
  obtain ⟨h1, h2⟩ := hm true
    { r with
      lexer := { r.lexer with
        tagorder := (JSON_TT_OBJECT_OPEN, r.lexer.name) :: r.lexer.tagorder
        name := []
        previoustag := JSON_TT_OBJECT_OPEN }
      json := { r.json with tagtype := JSON_TT_OBJECT_OPEN, tagbuffer := [] } }
    hf hn rfl rfl (fun _ h => E_JSON_TAGTYPES.noConfusion h)
  dsimp only at h1 h2
  generalize hr1 : ({ r with
      lexer := { r.lexer with
        tagorder := (JSON_TT_OBJECT_OPEN, r.lexer.name) :: r.lexer.tagorder
        name := []
        previoustag := JSON_TT_OBJECT_OPEN }
      json := { r.json with tagtype := JSON_TT_OBJECT_OPEN, tagbuffer := [] } } :
        PRESTOCLIENT_RESULT) = r1 at h1 h2 ⊢
  have s1 : SameData r1 r := by rw [← hr1]; rfl
  have h1' : SameData (lex_tokens cb (ms.tokens true) r1)
      (dispatch_all cb (ms.dispatches ((JSON_TT_OBJECT_OPEN, r.lexer.name) :: r.lexer.tagorder))
        r) := h1.same_trans (s1.same_all cb _)
  rw [lex_tokens_append]
  generalize lex_tokens cb (ms.tokens true) r1 = x at h1 h2 h1' ⊢
  by_cases hx : x.fault = true
  · rw [lex_tokens_fault cb _ x hx]
    exact ⟨h1', fun hc => absurd hx (by rw [hc]; decide)⟩
  · have hx' : x.fault = false := by simpa using hx
    rw [lex_tokens_cons cb _ _ x hx', lex_token_object_close]
    refine ⟨SameData.same_trans ?_ h1', fun _ => ?_⟩
    · rfl
    · exact settle_close JSON_TT_OBJECT_CLOSE (h2 hx')

theorem value_run_array (cb : Callbacks) (es : Elements) (he : ElementsRun cb es) :
    ValueRun cb (Json.array es) := by
  intro r hf hn hnm _
  have htake : r.lexer.name.take 20 = r.lexer.name := List.take_of_length_le (by omega)
  show SameData (lex_tokens cb ((JSON_TT_ARRAY_OPEN, []) ::
      (es.tokens true ++ [(JSON_TT_ARRAY_CLOSE, [])])) r)
      (dispatch_all cb
        (es.dispatches ((JSON_TT_ARRAY_OPEN, r.lexer.name) :: r.lexer.tagorder) true) r) ∧
    ((lex_tokens cb ((JSON_TT_ARRAY_OPEN, []) ::
      (es.tokens true ++ [(JSON_TT_ARRAY_CLOSE, [])])) r).fault = false →
      settle r.lexer.tagorder JSON_TT_ARRAY_CLOSE (lex_tokens cb ((JSON_TT_ARRAY_OPEN, []) ::
        (es.tokens true ++ [(JSON_TT_ARRAY_CLOSE, [])])) r) =
      lex_tokens cb ((JSON_TT_ARRAY_OPEN, []) ::
        (es.tokens true ++ [(JSON_TT_ARRAY_CLOSE, [])])) r)
  rw [lex_tokens_cons cb _ _ r hf, lex_token_array_open, htake]
  obtain ⟨h1, h2⟩ := he true
    { r with
      lexer := { r.lexer with
        tagorder := (JSON_TT_ARRAY_OPEN, r.lexer.name) :: r.lexer.tagorder
        name := []
        previoustag := JSON_TT_ARRAY_OPEN }
      json := { r.json with tagtype := JSON_TT_ARRAY_OPEN, tagbuffer := [] } }
    hf hn rfl rfl (fun _ => rfl)
  dsimp only at h1 h2
  generalize hr1 : ({ r with
      lexer := { r.lexer with
        tagorder := (JSON_TT_ARRAY_OPEN, r.lexer.name) :: r.lexer.tagorder
        name := []
        previoustag := JSON_TT_ARRAY_OPEN }
      json := { r.json with tagtype := JSON_TT_ARRAY_OPEN, tagbuffer := [] } } :
        PRESTOCLIENT_RESULT) = r1 at h1 h2 ⊢
  have s1 : SameData r1 r := by rw [← hr1]; rfl
  have h1' : SameData (lex_tokens cb (es.tokens true) r1)
      (dispatch_all cb
        (es.dispatches ((JSON_TT_ARRAY_OPEN, r.lexer.name) :: r.lexer.tagorder) true)
        r) := h1.same_trans (s1.same_all cb _)
  rw [lex_tokens_append]
  generalize lex_tokens cb (es.tokens true) r1 = x at h1 h2 h1' ⊢
  by_cases hx : x.fault = true
  · rw [lex_tokens_fault cb _ x hx]
    exact ⟨h1', fun hc => absurd hx (by rw [hc]; decide)⟩
  · have hx' : x.fault = false := by simpa using hx
    rw [lex_tokens_cons cb _ _ x hx', lex_token_array_close]
    refine ⟨SameData.same_trans ?_ h1', fun _ => ?_⟩
    · rfl
    · exact settle_close JSON_TT_ARRAY_CLOSE (h2 hx')

theorem members_run_nil (cb : Callbacks) : MembersRun cb Members.nil := by
  intro first r _ _ _ hset _
  exact ⟨rfl, fun _ => hset⟩

theorem elements_run_nil (cb : Callbacks) : ElementsRun cb Elements.nil := by
  intro first r _ _ _ hset _
  exact ⟨rfl, fun _ => hset⟩

/-- The start of a member: after the comma, if the member is not the first,
its name is the pending name and the colon is the token recorded last. -/
theorem lex_member_start (cb : Callbacks) (n : Bytes) (v : Json) (rest : Members)
    (first : Bool) (r : PRESTOCLIENT_RESULT) (hf : r.fault = false)
    (hin : json_in_array r.lexer = false)
    (hfirst : first = true → r.lexer.previoustag ≠ JSON_TT_COLON) :
    lex_tokens cb ((Members.cons n v rest).tokens first) r =
      lex_tokens cb (v.tokens ++ rest.tokens false)
        { r with
          lexer := { r.lexer with name := n, previoustag := JSON_TT_COLON }
          json := { r.json with tagtype := JSON_TT_COLON, tagbuffer := [] } } := by
  cases first with
  | true =>
    show lex_tokens cb ((JSON_TT_STRING, n) :: (JSON_TT_COLON, []) ::
      (v.tokens ++ rest.tokens false)) r = _
    rw [lex_tokens_cons cb _ _ r hf, lex_token_name cb n r (hfirst rfl) hin]
    rw [lex_tokens_cons]; swap; exact hf
    rw [lex_token_colon]
  | false =>
    show lex_tokens cb ((JSON_TT_COMMA, []) :: (JSON_TT_STRING, n) :: (JSON_TT_COLON, []) ::
      (v.tokens ++ rest.tokens false)) r = _
    exact lex_member_prelude cb n _ r hin hf

theorem members_run_cons (cb : Callbacks) (n : Bytes) (v : Json) (rest : Members)
    (hv : ValueRun cb v) (hr : MembersRun cb rest) :
    MembersRun cb (Members.cons n v rest) := by
  intro first r hf hn hin hset hfirst
  have hn' : n.length < 20 ∧ v.names_short ∧ rest.names_short := hn
  obtain ⟨hn1, hn2, hn3⟩ := hn'
  rw [lex_member_start cb n v rest first r hf hin hfirst]
  show SameData _ (dispatch_all cb
      (v.dispatches r.lexer.tagorder JSON_TT_COLON n ++ rest.dispatches r.lexer.tagorder) r) ∧
    (_ → settle r.lexer.tagorder (rest.last_tag v.last_tag) _ = _)
  obtain ⟨a1, a2⟩ := hv
    { r with
      lexer := { r.lexer with name := n, previoustag := JSON_TT_COLON }
      json := { r.json with tagtype := JSON_TT_COLON, tagbuffer := [] } }
    hf hn2 hn1 (fun _ _ => Or.inl rfl)
  dsimp only at a1 a2
  generalize hrc : ({ r with
      lexer := { r.lexer with name := n, previoustag := JSON_TT_COLON }
      json := { r.json with tagtype := JSON_TT_COLON, tagbuffer := [] } } :
        PRESTOCLIENT_RESULT) = rc at a1 a2 ⊢
  have sc : SameData rc r := by rw [← hrc]; rfl
  have key : (lex_tokens cb v.tokens rc).fault = false →
      SameData (lex_tokens cb (rest.tokens false) (lex_tokens cb v.tokens rc))
          (dispatch_all cb (rest.dispatches r.lexer.tagorder) (lex_tokens cb v.tokens rc)) ∧
        ((lex_tokens cb (rest.tokens false) (lex_tokens cb v.tokens rc)).fault = false →
          settle r.lexer.tagorder (rest.last_tag v.last_tag)
              (lex_tokens cb (rest.tokens false) (lex_tokens cb v.tokens rc)) =
            lex_tokens cb (rest.tokens false) (lex_tokens cb v.tokens rc)) := by
    intro hx
    have hs := a2 hx
    obtain ⟨f1, f2, _⟩ := settle_fields hs
    have b := hr false (lex_tokens cb v.tokens rc) hx hn3
      (by rw [json_in_array_stack _ r.lexer f1]; exact hin)
      (by rw [f1, f2]; exact hs)
      (fun h => Bool.noConfusion h)
    rw [f1, f2] at b
    exact b
  refine ⟨?_, ?_⟩
  · exact (SameData.same_seq a1 (fun hx => (key hx).1)).same_trans (sc.same_all cb _)
  · intro hy
    rw [lex_tokens_append] at hy ⊢
    exact (key (lex_tokens_fault_false cb _ _ hy)).2 hy

theorem elements_run_cons (cb : Callbacks) (v : Json) (rest : Elements)
    (hv : ValueRun cb v) (hr : ElementsRun cb rest) :
    ElementsRun cb (Elements.cons v rest) := by
  intro first r hf hn hin hset hfirst
  have hn' : v.names_short ∧ rest.names_short := hn
  obtain ⟨hn2, hn3⟩ := hn'
  obtain ⟨g1, g2, g3⟩ := settle_fields hset
  have start : ∃ rc : PRESTOCLIENT_RESULT,
      lex_tokens cb ((Elements.cons v rest).tokens first) r =
        lex_tokens cb (v.tokens ++ rest.tokens false) rc ∧
      SameData rc r ∧ rc.fault = false ∧ rc.lexer.tagorder = r.lexer.tagorder ∧
      rc.lexer.name = [] ∧
      rc.lexer.previoustag = (if first then JSON_TT_ARRAY_OPEN else JSON_TT_COMMA) := by
    cases first with
    | true => exact ⟨r, rfl, rfl, hf, rfl, g3, hfirst rfl⟩
    | false =>
      refine ⟨{ r with
          lexer := { r.lexer with previoustag := JSON_TT_COMMA }
          json := { r.json with tagtype := JSON_TT_COMMA, tagbuffer := [] } },
        ?_, ?_, hf, rfl, g3, rfl⟩
      · show lex_tokens cb ((JSON_TT_COMMA, []) :: (v.tokens ++ rest.tokens false)) r = _
        rw [lex_tokens_cons cb _ _ r hf, lex_token_comma]
      · rfl
  obtain ⟨rc, e0, sc, hfc, tc, nc, pc⟩ := start
  rw [e0]
  show SameData _ (dispatch_all cb
      (v.dispatches r.lexer.tagorder (if first then JSON_TT_ARRAY_OPEN else JSON_TT_COMMA) [] ++
        rest.dispatches r.lexer.tagorder false) r) ∧
    (_ → settle r.lexer.tagorder (rest.last_tag v.last_tag) _ = _)
  have hinc : json_in_array rc.lexer = true := by
    rw [json_in_array_stack _ r.lexer tc]; exact hin
  obtain ⟨a1, a2⟩ := hv rc hfc hn2 (by rw [nc]; decide) (fun _ _ => Or.inr hinc)
  rw [tc, nc, pc] at a1
  rw [tc] at a2
  have key : (lex_tokens cb v.tokens rc).fault = false →
      SameData (lex_tokens cb (rest.tokens false) (lex_tokens cb v.tokens rc))
          (dispatch_all cb (rest.dispatches r.lexer.tagorder false)
            (lex_tokens cb v.tokens rc)) ∧
        ((lex_tokens cb (rest.tokens false) (lex_tokens cb v.tokens rc)).fault = false →
          settle r.lexer.tagorder (rest.last_tag v.last_tag)
              (lex_tokens cb (rest.tokens false) (lex_tokens cb v.tokens rc)) =
            lex_tokens cb (rest.tokens false) (lex_tokens cb v.tokens rc)) := by
    intro hx
    have hs := a2 hx
    obtain ⟨f1, f2, _⟩ := settle_fields hs
    have b := hr false (lex_tokens cb v.tokens rc) hx hn3
      (by rw [json_in_array_stack _ r.lexer f1]; exact hin)
      (by rw [f1, f2]; exact hs)
      (fun h => Bool.noConfusion h)
    rw [f1, f2] at b
    exact b
  refine ⟨?_, ?_⟩
  · exact (SameData.same_seq a1 (fun hx => (key hx).1)).same_trans (sc.same_all cb _)
  · intro hy
    rw [lex_tokens_append] at hy ⊢
    exact (key (lex_tokens_fault_false cb _ _ hy)).2 hy

/-- Every JSON value is handled by the lexer as the run of its invocations of
the projector. -/
theorem value_run (cb : Callbacks) (v : Json) : ValueRun cb v :=
  @Json.rec (fun v => ValueRun cb v) (fun ms => MembersRun cb ms) (fun es => ElementsRun cb es)
    (fun s => value_run_scalar cb s)
    (fun ms hm => value_run_object cb ms hm)
    (fun es he => value_run_array cb es he)
    (members_run_nil cb)
    (fun n v rest hv hr => members_run_cons cb n v rest hv hr)
    (elements_run_nil cb)
    (fun v rest hv hr => elements_run_cons cb v rest hv hr)
    v

/-- C34 (name/value pairing). A well-formed JSON value `doc` whose member
names are all shorter than 20 bytes is lexed from a result `r` (its pending
name shorter than 20 bytes; a string that is the whole document is left out,
the lexer takes it for a name). The invocations of the projector the document
calls for are listed by `Json.dispatches`, in document order: every scalar
once; a scalar member of an object with that member's own name as the pending
name, after the colon; a scalar element of an array with an empty name; the
stack at each invocation lists the containers open at that point, innermost
first, each with its kind and the name it is a member under (empty for an
element of an array and for the document); no member name is among the values
dispatched. (1) When no fault arises, the run of the lexer over the document
is exactly the run of these invocations one after another, followed by the
lexer's bookkeeping: the stack is back where it was before the document, empty
when it was empty, no name is pending and the last token is recorded.
(2) Whether or not a fault arises, the run of the lexer and the run of these
invocations differ at most in the lexer's bookkeeping. (3) After every
invocation the pending name and the value are empty and the stack is the one
of the invocation. (4) to (7) spell out `Json.dispatches` for the members of
an object and the elements of an array. -/
theorem name_value_pairing (cb : Callbacks) (doc : Json) (r : PRESTOCLIENT_RESULT)
    (hn : doc.names_short) (hname : r.lexer.name.length < 20)
    (hdoc : ∀ t, doc = Json.scalar (Scalar.str t) →
      r.lexer.previoustag = JSON_TT_COLON ∨ json_in_array r.lexer = true) :
    ((lex_tokens cb doc.tokens r).fault = false →
        lex_tokens cb doc.tokens r =
          settle r.lexer.tagorder doc.last_tag
            (dispatch_all cb
              (doc.dispatches r.lexer.tagorder r.lexer.previoustag r.lexer.name) r) ∧
        (lex_tokens cb doc.tokens r).lexer.tagorder = r.lexer.tagorder ∧
        (r.lexer.tagorder = [] → (lex_tokens cb doc.tokens r).lexer.tagorder = []) ∧
        (lex_tokens cb doc.tokens r).lexer.name = [] ∧
        (lex_tokens cb doc.tokens r).lexer.previoustag = doc.last_tag) ∧
      SameData (lex_tokens cb doc.tokens r)
        (dispatch_all cb (doc.dispatches r.lexer.tagorder r.lexer.previoustag r.lexer.name) r) ∧
      (∀ (d : Dispatch) (x : PRESTOCLIENT_RESULT),
        (dispatch cb d x).lexer.name = [] ∧ (dispatch cb d x).lexer.value = [] ∧
        (dispatch cb d x).lexer.tagorder = d.stack) ∧
      (∀ (stack : List (E_JSON_TAGTYPES × Bytes)) (n : Bytes) (s : Scalar) (rest : Members),
        Members.dispatches stack (Members.cons n (Json.scalar s) rest) =
          { stack := stack, previoustag := JSON_TT_COLON, name := n, value := s } ::
            Members.dispatches stack rest) ∧
      (∀ (stack : List (E_JSON_TAGTYPES × Bytes)) (first : Bool) (s : Scalar) (rest : Elements),
        Elements.dispatches stack first (Elements.cons (Json.scalar s) rest) =
          { stack := stack, previoustag := if first then JSON_TT_ARRAY_OPEN else JSON_TT_COMMA,
            name := [], value := s } :: Elements.dispatches stack false rest) ∧
      (∀ (stack : List (E_JSON_TAGTYPES × Bytes)) (n : Bytes) (ms : Members) (es : Elements)
          (rest : Members),
        Members.dispatches stack (Members.cons n (Json.object ms) rest) =
            Members.dispatches ((JSON_TT_OBJECT_OPEN, n) :: stack) ms ++
              Members.dispatches stack rest ∧
          Members.dispatches stack (Members.cons n (Json.array es) rest) =
            Elements.dispatches ((JSON_TT_ARRAY_OPEN, n) :: stack) true es ++
              Members.dispatches stack rest) ∧
      (∀ (stack : List (E_JSON_TAGTYPES × Bytes)) (first : Bool) (ms : Members) (es : Elements)
          (rest : Elements),
        Elements.dispatches stack first (Elements.cons (Json.object ms) rest) =
            Members.dispatches ((JSON_TT_OBJECT_OPEN, []) :: stack) ms ++
              Elements.dispatches stack false rest ∧
          Elements.dispatches stack first (Elements.cons (Json.array es) rest) =
            Elements.dispatches ((JSON_TT_ARRAY_OPEN, []) :: stack) true es ++
              Elements.dispatches stack false rest) := by
  have main : ((lex_tokens cb doc.tokens r).fault = false →
        settle r.lexer.tagorder doc.last_tag (lex_tokens cb doc.tokens r) =
          lex_tokens cb doc.tokens r) ∧
      SameData (lex_tokens cb doc.tokens r)
        (dispatch_all cb
          (doc.dispatches r.lexer.tagorder r.lexer.previoustag r.lexer.name) r) := by
    by_cases hf : r.fault = true
    · rw [lex_tokens_fault cb _ r hf, dispatch_all_fault cb _ r hf]
      exact ⟨fun hc => absurd hf (by rw [hc]; decide), rfl⟩
    · have hf' : r.fault = false := by simpa using hf
      obtain ⟨a, b⟩ := value_run cb doc r hf' hn hname hdoc
      exact ⟨b, a⟩
  obtain ⟨hs, hd⟩ := main
  refine ⟨fun hx => ?_, hd, ?_, ?_, ?_, ?_, ?_⟩
  · obtain ⟨f1, f2, f3⟩ := settle_fields (hs hx)
    refine ⟨?_, f1, fun h0 => f1.trans h0, f3, f2⟩
    rw [← hd.same_settle r.lexer.tagorder doc.last_tag]
    exact (hs hx).symm
  · intro d x
    obtain ⟨a, b, c⟩ := dispatch_settled cb d x
    exact ⟨a, b, (settle_fields c).1⟩
  · intro stack n s rest
    rfl
  · intro stack first s rest
    rfl
  · intro stack n ms es rest
    exact ⟨rfl, rfl⟩
  · intro stack first ms es rest
    exact ⟨rfl, rfl⟩

theorem pairing_doc_names : pairing_doc.names_short := by
  unfold pairing_doc
  simp only [Json.names_short, Members.names_short, Elements.names_short, and_true, true_and]
  decide

/-- C34 at an instance: the document
`{"id":"q1","stats":{"state":"RUNNING","n":[1,true]},"tags":["x",{"k":null}]}`
lexed from a new result is the run of six invocations of the projector, each
value with its own name and its own path, followed by the bookkeeping with an
empty stack. -/
theorem name_value_pairing_witness :
    lex_tokens example_callbacks pairing_doc.tokens new_prestoresult =
      settle [] JSON_TT_OBJECT_CLOSE
        (dispatch_all example_callbacks
          [{ stack := [(JSON_TT_OBJECT_OPEN, [])], previoustag := JSON_TT_COLON,
             name := ascii "id", value := Scalar.str (ascii "q1") },
           { stack := [(JSON_TT_OBJECT_OPEN, ascii "stats"), (JSON_TT_OBJECT_OPEN, [])],
             previoustag := JSON_TT_COLON, name := ascii "state",
             value := Scalar.str (ascii "RUNNING") },
           { stack := [(JSON_TT_ARRAY_OPEN, ascii "n"), (JSON_TT_OBJECT_OPEN, ascii "stats"),
               (JSON_TT_OBJECT_OPEN, [])],
             previoustag := JSON_TT_ARRAY_OPEN, name := [], value := Scalar.num (ascii "1") },
           { stack := [(JSON_TT_ARRAY_OPEN, ascii "n"), (JSON_TT_OBJECT_OPEN, ascii "stats"),
               (JSON_TT_OBJECT_OPEN, [])],
             previoustag := JSON_TT_COMMA, name := [], value := Scalar.tru },
           { stack := [(JSON_TT_ARRAY_OPEN, ascii "tags"), (JSON_TT_OBJECT_OPEN, [])],
             previoustag := JSON_TT_ARRAY_OPEN, name := [], value := Scalar.str (ascii "x") },
           { stack := [(JSON_TT_OBJECT_OPEN, []), (JSON_TT_ARRAY_OPEN, ascii "tags"),
               (JSON_TT_OBJECT_OPEN, [])],
             previoustag := JSON_TT_COLON, name := ascii "k", value := Scalar.nul }]
          new_prestoresult) :=
  ((name_value_pairing example_callbacks pairing_doc new_prestoresult pairing_doc_names
    (by decide) (fun _ h => Json.noConfusion h)).1 (by decide!)).1

/-! ## The cancel DELETE: answers with and without a body -/

/-- A transfer without a body: libcurl calls the write function not at all,
and the transfer ends as the server and the transport make it end. -/
theorem curl_easy_perform_bodiless (cb : Callbacks) (resp : Response) (r : PRESTOCLIENT_RESULT)
    (h : resp.chunks = []) :
    (curl_easy_perform cb (some resp) r).2 = resp.outcome ∧
      (curl_easy_perform cb (some resp) r).1.fault = r.fault := by
  unfold curl_easy_perform
  dsimp only
  rw [h]
  unfold curl_deliver
  dsimp only
  cases resp.outcome with
  | http code => exact ⟨rfl, rfl⟩
  | failed => exact ⟨rfl, rfl⟩

/-- With the cancel flag set the byte sink takes no chunk that is not empty. -/
theorem WriteCallback_cancelled (cb : Callbacks) (chunk : Bytes) (r : PRESTOCLIENT_RESULT)
    (hc : r.cancelquery = true) (hne : chunk ≠ []) :
    (WriteCallback cb chunk r).2 ≠ chunk.length := by
  have hlen : 0 < chunk.length := List.length_pos.mpr hne
  have h0 : (WriteCallback cb chunk r).2 = 0 := by
    unfold WriteCallback
    by_cases hf : r.fault = true
    · rw [if_pos hf]
    · rw [if_neg hf]
      have a := (json_reader_step cb { r with lastresponse := r.lastresponse ++ chunk }).cancelquery hc
      rcases hj : json_reader cb { r with lastresponse := r.lastresponse ++ chunk } with ⟨r1, b⟩
      rw [hj] at a
      cases b with
      | false => rfl
      | true =>
        dsimp only at a ⊢
        rw [if_pos a]
  rw [h0]
  omega

/-- A transfer with a body, made with the cancel flag set: the byte sink
refuses the first chunk and the transfer fails, whatever the server's code. -/
theorem curl_easy_perform_cancelled (cb : Callbacks) (resp : Response) (chunk : Bytes)
    (more : List Bytes) (r : PRESTOCLIENT_RESULT) (h : resp.chunks = chunk :: more)
    (hne : chunk ≠ []) (hc : r.cancelquery = true) :
    (curl_easy_perform cb (some resp) r).2 = CurlOutcome.failed := by
  apply curl_easy_perform_refused
  rw [h, curl_deliver_refused cb chunk more r (WriteCallback_cancelled cb chunk r hc hne)]

theorem openuri_attempt_failed_fault (cb : Callbacks) (t : E_HTTP_REQUEST_TYPES) (url : Bytes)
    (retrycount : Nat) (resp : Option Response) (r : PRESTOCLIENT_RESULT)
    (h : (curl_easy_perform cb resp
        { r with trace := r.trace ++ [Event.request t url] }).2 = CurlOutcome.failed) :
    (openuri_attempt cb t url retrycount resp r).1.fault =
      (curl_easy_perform cb resp { r with trace := r.trace ++ [Event.request t url] }).1.fault := by
  unfold openuri_attempt
  rcases hp : curl_easy_perform cb resp
    { r with trace := r.trace ++ [Event.request t url] } with ⟨r1, out⟩
  rw [hp] at h
  dsimp only at h
  subst h
  dsimp only
  split_ifs <;> rfl

/-- C15, as amended (outcome of the cancel DELETE). `cancel` runs on a live
result with the cancel flag set, as it is whenever the program calls `cancel`,
and with the cancel URI `u` stored; `resp` is the transfer of the script that
answers its DELETE. The status is not changed. The client error code and the
transport error text afterwards are those of the DELETE. When the answer has
no body: after the code 204 `prestoclient_getlastclienterror` and
`prestoclient_getlastcurlerror` return NULL, whatever they returned before;
after another code `c` that is not 503 the first returns "Server returned
error" and the second "Http-code: c" (for `c < 2^31`); after a failure of the
transport the first returns "CURL error occurred". When the answer has a body,
whatever its code: the cancel flag is set, so the byte sink returns 0 for the
first chunk, the transfer ends with a write error, no further transfer is
made, and, the result being live, the first accessor returns "CURL error
occurred". -/
theorem cancel_outcome_recorded (cb : Callbacks) (client : PRESTOCLIENT) (resp : Response)
    (rest : List Response) (r : PRESTOCLIENT_RESULT) (u : Bytes) (hf : r.fault = false)
    (hcq : r.cancelquery = true) (hu : r.lastcanceluri = some u) :
    (cancel cb client (resp :: rest) r).1.clientstatus = r.clientstatus ∧
      (resp.chunks = [] → resp.outcome = CurlOutcome.http PRESTOCLIENT_CURL_EXPECT_HTTP_DELETE →
        prestoclient_getlastclienterror (some (cancel cb client (resp :: rest) r).1) = none ∧
        prestoclient_getlastcurlerror (some (cancel cb client (resp :: rest) r).1) = none) ∧
      (∀ c, resp.chunks = [] → resp.outcome = CurlOutcome.http c →
        c ≠ PRESTOCLIENT_CURL_EXPECT_HTTP_DELETE → c ≠ PRESTOCLIENT_CURL_EXPECT_HTTP_BUSY →
        prestoclient_getlastclienterror (some (cancel cb client (resp :: rest) r).1) =
          some (ascii "Server returned error") ∧
        (c < 2 ^ 31 →
          prestoclient_getlastcurlerror (some (cancel cb client (resp :: rest) r).1) =
            some (ascii "Http-code: " ++ ascii (toString c)))) ∧
      (resp.chunks = [] → resp.outcome = CurlOutcome.failed →
        prestoclient_getlastclienterror (some (cancel cb client (resp :: rest) r).1) =
          some (ascii "CURL error occurred")) ∧
      (∀ chunk more, resp.chunks = chunk :: more → chunk ≠ [] →
        (cancel cb client (resp :: rest) r).2 = rest ∧
        ((cancel cb client (resp :: rest) r).1.fault = false →
          prestoclient_getlastclienterror (some (cancel cb client (resp :: rest) r).1) =
            some (ascii "CURL error occurred"))) := by
  have hin : ¬ (PRESTOCLIENT_HTTP_REQUEST_TYPE_DELETE ≠ PRESTOCLIENT_HTTP_REQUEST_TYPE_POST ∧
      openuri_in_uri PRESTOCLIENT_HTTP_REQUEST_TYPE_DELETE r = none) := by
    intro h
    have h2 : r.lastcanceluri = none := h.2
    rw [hu] at h2; cases h2
  have hurl : openuri_url PRESTOCLIENT_HTTP_REQUEST_TYPE_DELETE client r = u := by
    simp [openuri_url, openuri_in_uri, hu]
  have hc : cancel cb client (resp :: rest) r =
      openuri_loop cb PRESTOCLIENT_HTTP_REQUEST_TYPE_DELETE u 0 (resp :: rest)
        (openuri_setup PRESTOCLIENT_HTTP_REQUEST_TYPE_DELETE r) := by
    unfold cancel
    rw [hu]
    dsimp only
    rw [openuri_eq_loop cb _ client _ r hf hin, hurl]
  have hf0 : ({ openuri_setup PRESTOCLIENT_HTTP_REQUEST_TYPE_DELETE r with
      trace := (openuri_setup PRESTOCLIENT_HTTP_REQUEST_TYPE_DELETE r).trace ++
        [Event.request PRESTOCLIENT_HTTP_REQUEST_TYPE_DELETE u] } : PRESTOCLIENT_RESULT).fault
      = false := hf
  have hbody0 : resp.chunks = [] →
      (curl_easy_perform cb (some resp)
        { openuri_setup PRESTOCLIENT_HTTP_REQUEST_TYPE_DELETE r with
          trace := r.trace ++ [Event.request PRESTOCLIENT_HTTP_REQUEST_TYPE_DELETE u] }).2 =
          resp.outcome ∧
      (curl_easy_perform cb (some resp)
        { openuri_setup PRESTOCLIENT_HTTP_REQUEST_TYPE_DELETE r with
          trace := r.trace ++ [Event.request PRESTOCLIENT_HTTP_REQUEST_TYPE_DELETE u] }).1.fault
        = false := by
    intro hb
    obtain ⟨a, b⟩ := curl_easy_perform_bodiless cb resp
      { openuri_setup PRESTOCLIENT_HTTP_REQUEST_TYPE_DELETE r with
        trace := r.trace ++ [Event.request PRESTOCLIENT_HTTP_REQUEST_TYPE_DELETE u] } hb
    exact ⟨a, b.trans hf⟩
  refine ⟨(cancel_step cb client (resp :: rest) r).clientstatus, ?_, ?_, ?_, ?_⟩
  · intro hb ho
    obtain ⟨a, b⟩ := hbody0 hb
    exact (cancel_transfer_outcome cb client resp rest r u hf hu b).2.1 (a.trans ho)
  · intro c hb ho h1 h2
    obtain ⟨a, b⟩ := hbody0 hb
    exact (cancel_transfer_outcome cb client resp rest r u hf hu b).2.2.1 c (a.trans ho) h1 h2
  · intro hb ho
    obtain ⟨a, b⟩ := hbody0 hb
    exact (cancel_transfer_outcome cb client resp rest r u hf hu b).2.2.2 (a.trans ho)
  · intro chunk more hch hne
    have hout : (curl_easy_perform cb (some resp)
        { openuri_setup PRESTOCLIENT_HTTP_REQUEST_TYPE_DELETE r with
          trace := (openuri_setup PRESTOCLIENT_HTTP_REQUEST_TYPE_DELETE r).trace ++
            [Event.request PRESTOCLIENT_HTTP_REQUEST_TYPE_DELETE u] }).2 =
          CurlOutcome.failed :=
      curl_easy_perform_cancelled cb resp chunk more _ hch hne hcq
    have hstop := openuri_attempt_no_retry cb PRESTOCLIENT_HTTP_REQUEST_TYPE_DELETE u 1
      (some resp) (openuri_setup PRESTOCLIENT_HTTP_REQUEST_TYPE_DELETE r) hout
    have hfault := openuri_attempt_failed_fault cb PRESTOCLIENT_HTTP_REQUEST_TYPE_DELETE u 1
      (some resp) (openuri_setup PRESTOCLIENT_HTTP_REQUEST_TYPE_DELETE r) hout
    have hl := openuri_loop_stop cb PRESTOCLIENT_HTTP_REQUEST_TYPE_DELETE u 0 resp rest
      (openuri_setup PRESTOCLIENT_HTTP_REQUEST_TYPE_DELETE r) hstop
    refine ⟨by rw [hc, hl], ?_⟩
    intro hlive
    have hnf : (curl_easy_perform cb (some resp)
        { openuri_setup PRESTOCLIENT_HTTP_REQUEST_TYPE_DELETE r with
          trace := r.trace ++ [Event.request PRESTOCLIENT_HTTP_REQUEST_TYPE_DELETE u] }).1.fault
        = false := by
      rw [hc, hl] at hlive
      exact hfault.symm.trans hlive
    exact (cancel_transfer_outcome cb client resp rest r u hf hu hnf).2.2.2 hout

/-- Witness of C15 as amended: the DELETE of `cancel_pending`, answered with
500 and no body. -/
theorem cancel_outcome_recorded_witness :
    cancel_pending.lastcanceluri = some (ascii "http://h/c/1") ∧
      (cancel cancel_on_describe example_client [reply_code 500] cancel_pending).1.clientstatus =
        cancel_pending.clientstatus ∧
      prestoclient_getlastclienterror
        (some (cancel cancel_on_describe example_client [reply_code 500] cancel_pending).1) =
        some (ascii "Server returned error") :=
  have h := cancel_outcome_recorded cancel_on_describe example_client (reply_code 500) []
    cancel_pending (ascii "http://h/c/1") (by decide!) (by decide!) (by decide!)
  ⟨by decide!, h.1, (h.2.2.1 500 rfl rfl (by decide) (by decide)).1⟩

/-- The DELETE of `cancel_pending` answered with a body: with 204 as well as
with 500 the transfer ends with a write error, and
`prestoclient_getlastclienterror` returns "CURL error occurred". -/
theorem delete_with_body_fails :
    prestoclient_getlastclienterror
        (some (cancel cancel_on_describe example_client
          [{ chunks := [ascii "ok"], outcome := CurlOutcome.http 204, errortext := [] }]
          cancel_pending).1) = some (ascii "CURL error occurred") ∧
      prestoclient_getlastclienterror
        (some (cancel cancel_on_describe example_client
          [{ chunks := [ascii "\x7b\x7d"], outcome := CurlOutcome.http 500, errortext := [] }]
          cancel_pending).1) = some (ascii "CURL error occurred") := by
  constructor <;> decide!

/-! ## A retried follow-up and columns announced twice -/

/-- C7 (follow-up step), evaluated at a failing input. The result of scenario
S2 after its POST has the next URI `http://h/n/1`. The GET to it is answered
with 503 and a body that names the next URI `http://h/stale`, and, when
`openuri` has tried again, with 200 and the reply `{}`, which has no
`nextUri`. The GET ends with the expected code: `openuri` returns
`PRESTOCLIENT_RESULT_OK`. The claim says that the next URI is then empty and
the status SUCCEEDED. But `openuri` empties the next URI once, before its
retry loop, and the body of the 503 answer has gone through the byte sink like
a reply: the next URI afterwards is `http://h/stale`, the status is RUNNING
and the step returns true. When the same reply `{}` answers the GET at once,
the next URI is empty and the status is SUCCEEDED. In a query the next GET
goes to the stale URI. -/
theorem stale_next_uri_kept :
    s2_posted.lastnexturi = some (ascii "http://h/n/1") ∧
      ((prestoclient_queryisrunning example_callbacks example_client stale_script
            s2_posted).1.errorcode = PRESTOCLIENT_RESULT_OK ∧
        (prestoclient_queryisrunning example_callbacks example_client stale_script
            s2_posted).1.fault = false ∧
        (prestoclient_queryisrunning example_callbacks example_client stale_script
            s2_posted).1.lastnexturi = some (ascii "http://h/stale") ∧
        (prestoclient_queryisrunning example_callbacks example_client stale_script
            s2_posted).1.clientstatus = PRESTOCLIENT_STATUS_RUNNING ∧
        (prestoclient_queryisrunning example_callbacks example_client stale_script
            s2_posted).2.2 = true) ∧
      ((prestoclient_queryisrunning example_callbacks example_client
            [reply_ok [ascii "\x7b\x7d"]] s2_posted).1.lastnexturi = some [] ∧
        (prestoclient_queryisrunning example_callbacks example_client
            [reply_ok [ascii "\x7b\x7d"]] s2_posted).1.clientstatus =
          PRESTOCLIENT_STATUS_SUCCEEDED) ∧
      request_events (prestoclient_query_run example_callbacks example_client
          (reply_ok [s2_first_a, s2_first_b] :: stale_script)).trace =
        [Event.request PRESTOCLIENT_HTTP_REQUEST_TYPE_POST (ascii "http://h:8080/v1/statement"),
          Event.request PRESTOCLIENT_HTTP_REQUEST_TYPE_GET (ascii "http://h/n/1"),
          Event.request PRESTOCLIENT_HTTP_REQUEST_TYPE_GET (ascii "http://h/n/1"),
          Event.request PRESTOCLIENT_HTTP_REQUEST_TYPE_GET (ascii "http://h/stale")] := by
  refine ⟨?_, ⟨?_, ?_, ?_, ?_, ?_⟩, ⟨?_, ?_⟩, ?_⟩ <;> decide!

/-- C3 (row count), evaluated at a failing input. The POST of a query is
answered with a reply that announces the columns `a` and `b` and carries no
data, the follow-up GET with a reply that announces `a` and `b` again and then
carries the data `[["x",1],["y",2]]`: two columns are announced before any
data, and each of the two data sub-arrays holds exactly two values. The claim
says that the row callback is invoked twice, once per sub-array. But the
column info is not frozen after the POST, the columns of the second reply are
appended to those of the first, and the result has four columns: after the
POST the column count is 2, at the end it is 4; the row callback is invoked
once, with the four values of both sub-arrays in one row, and nothing is
delivered when the first sub-array ends. With the same second reply after a
POST reply that announces no columns, the row callback is invoked once per
sub-array. -/
theorem announced_twice_one_row :
    (prestoclient_getcolumncount
          (some (query_posted example_callbacks example_client repeat_script).1) = 2 ∧
        (prestoclient_query example_callbacks (some example_client) (some example_sql)
          repeat_script).map (fun r => prestoclient_getcolumncount (some r)) = some 4) ∧
      (prestoclient_query example_callbacks (some example_client) (some example_sql)
          repeat_script).map (fun r => row_events r.trace) =
        some [Event.row [(ascii "x", false), (ascii "1", false), (ascii "y", false),
          (ascii "2", false)] (-1)] ∧
      (prestoclient_query example_callbacks (some example_client) (some example_sql)
          [reply_ok [queued_body], reply_ok [twice_second]]).map (fun r => row_events r.trace) =
        some [Event.row [(ascii "x", false), (ascii "1", false)] (-1),
          Event.row [(ascii "y", false), (ascii "2", false)] (-1)] := by
  refine ⟨⟨?_, ?_⟩, ?_, ?_⟩ <;> decide!

end PrestoClient
